import Mathlib

/-!
# VirtuaPPU: a shallow embedding of the scanline pipelines

The C++ sources under `include/` are embedded as Lean functions.

* Memory arrays (`gIoMem`, `gVram`, `gBgPltt`, `gObjPltt`, `gOamMem`,
  `frame_buffer`, line buffers) are maps from an index to a natural number.
  A read of one of the `extern` arrays reduces the stored value modulo `2^8`
  (`uint8_t`) or `2^16` (`uint16_t`), so every map denotes a well-typed array.
  Line buffers and the framebuffer hold the words the pipeline stored.
* Unsigned machine integers are naturals with an explicit `% 2^w` at every
  conversion; `int` values that can be negative are integers, with `Int.tdiv`
  and `Int.tmod` for the C operators `/` and `%` and `>>>` for the arithmetic
  right shift.
* A read outside a fixed-size table, or a write outside `frame_buffer`, makes
  the embedded function return `none`.
-/

namespace VirtuaPPU

/-- Words of `frame_buffer[360 * 1280]` (VirtuaPPU.hpp). -/
def FRAME_BUFFER_WORDS : Nat := 360 * 1280

/-- The register structure `PPUMemory` (PPUMemory.hpp). -/
structure PPUMemory where
  frame_width : Nat
  mode : Nat

/-- The GBA-side arrays declared `extern "C"` in mode1.hpp. -/
structure GbaMem where
  gIoMem : Nat → Nat
  gVram : Nat → Nat
  gBgPltt : Nat → Nat
  gObjPltt : Nat → Nat
  gOamMem : Nat → Nat

/-- Reads `gIoMem[off]` as a `uint8_t`. -/
def GbaMem.ioByte (m : GbaMem) (off : Nat) : Nat := m.gIoMem off % 256

/-- Reads `gVram[a]` as a `uint8_t`. -/
def GbaMem.vramByte (m : GbaMem) (a : Nat) : Nat := m.gVram a % 256

/-- Reads `gBgPltt[i]` as a `uint16_t`. -/
def GbaMem.bgColor (m : GbaMem) (i : Nat) : Nat := m.gBgPltt i % 65536

/-- Reads `gObjPltt[i]` as a `uint16_t`. -/
def GbaMem.objColor (m : GbaMem) (i : Nat) : Nat := m.gObjPltt i % 65536

/-- Reads `gOamMem[i]` as a `uint16_t`. -/
def GbaMem.oamWord (m : GbaMem) (i : Nat) : Nat := m.gOamMem i % 65536

/-- A colour line buffer (`uint32_t*`) with its priority buffer (`uint8_t*`). -/
structure LineBufs where
  color : Nat → Nat
  pri : Nat → Nat

/-- Conversion of an `int` to `uint32_t`. -/
def toU32 (v : Int) : Nat := (v % 4294967296).toNat

/-- Conversion of a 16-bit word to `int16_t`. -/
def toI16 (v : Nat) : Int := if v % 65536 ≥ 32768 then (v % 65536 : Nat) - 65536 else (v % 65536 : Nat)

/-- Conversion of an integer to `int32_t` (two's complement). -/
def toI32 (v : Int) : Int := (v + 2147483648) % 4294967296 - 2147483648

namespace Mode1

def GBA_WIDTH : Nat := 240
def GBA_HEIGHT : Nat := 160
def BG_COUNT : Nat := 4
def OAM_COUNT : Nat := 128

/-- Source: `IoRead16` (mode1.hpp:35). -/
def IoRead16 (m : GbaMem) (off : Nat) : Nat :=
  (m.ioByte off ||| (m.ioByte (off + 1) <<< 8)) % 65536

/-- Source: `IoRead32` (mode1.hpp:38). The argument `off + 2` of the inner
call is converted to the `uint16_t` parameter of `IoRead16`. -/
def IoRead32 (m : GbaMem) (off : Nat) : Nat :=
  (IoRead16 m off ||| (IoRead16 m ((off + 2) % 65536) <<< 16)) % 4294967296

/-- Source: `Rgb555ToAbgr8888` (mode1.hpp:43). The three locals are `uint8_t`. -/
def Rgb555ToAbgr8888 (c : Nat) : Nat :=
  let r := ((c &&& 0x1F) <<< 3) % 256
  let g := (((c >>> 5) &&& 0x1F) <<< 3) % 256
  let b := (((c >>> 10) &&& 0x1F) <<< 3) % 256
  (0xFF000000 ||| (b <<< 16) ||| (g <<< 8) ||| r) % 4294967296

def IO_DISPCNT : Nat := 0x00
def IO_BG0CNT : Nat := 0x08
def IO_BG0HOFS : Nat := 0x10
def IO_BG0VOFS : Nat := 0x12
def IO_BLDCNT : Nat := 0x50
def IO_BLDALPHA : Nat := 0x52
def IO_BLDY : Nat := 0x54

def DISP_OBJ_1D : Nat := 0x0040
def DISP_FORCED_BLANK : Nat := 0x0080
def DISP_BG0_ON : Nat := 0x0100
def DISP_BG1_ON : Nat := 0x0200
def DISP_BG2_ON : Nat := 0x0400
def DISP_BG3_ON : Nat := 0x0800
def DISP_OBJ_ON : Nat := 0x1000

/-- Source: `struct TilemapEntry` (mode1.hpp:92); `raw` is a `uint16_t`. -/
structure TilemapEntry where
  raw : Nat

def TilemapEntry.tileIndex (te : TilemapEntry) : Nat := te.raw &&& 0x03FF
def TilemapEntry.hflip (te : TilemapEntry) : Bool := ((te.raw >>> 10) &&& 1) != 0
def TilemapEntry.vflip (te : TilemapEntry) : Bool := ((te.raw >>> 11) &&& 1) != 0
def TilemapEntry.palette (te : TilemapEntry) : Nat := ((te.raw >>> 12) &&& 0xF) % 256

/-- Source: `struct OAMAttr` (mode1.hpp:109); the attributes are `uint16_t`. -/
structure OAMAttr where
  attr0 : Nat
  attr1 : Nat
  attr2 : Nat

def OAMAttr.yPos (oa : OAMAttr) : Int := ((oa.attr0 &&& 0xFF : Nat) : Int)
def OAMAttr.objMode (oa : OAMAttr) : Nat := ((oa.attr0 >>> 8) &&& 3) % 256
def OAMAttr.mosaic (oa : OAMAttr) : Bool := ((oa.attr0 >>> 12) &&& 1) != 0
def OAMAttr.bpp8 (oa : OAMAttr) : Bool := ((oa.attr0 >>> 13) &&& 1) != 0
def OAMAttr.shape (oa : OAMAttr) : Nat := ((oa.attr0 >>> 14) &&& 3) % 256
def OAMAttr.affine (oa : OAMAttr) : Bool := ((oa.attr0 >>> 8) &&& 1) != 0
def OAMAttr.doubleSize (oa : OAMAttr) : Bool := oa.affine && (((oa.attr0 >>> 9) &&& 1) != 0)
def OAMAttr.hidden (oa : OAMAttr) : Bool := !oa.affine && (((oa.attr0 >>> 9) &&& 1) != 0)
def OAMAttr.xPos (oa : OAMAttr) : Int := ((oa.attr1 &&& 0x1FF : Nat) : Int)
def OAMAttr.hflip (oa : OAMAttr) : Bool := !oa.affine && (((oa.attr1 >>> 12) &&& 1) != 0)
def OAMAttr.vflip (oa : OAMAttr) : Bool := !oa.affine && (((oa.attr1 >>> 13) &&& 1) != 0)
def OAMAttr.affineIdx (oa : OAMAttr) : Nat := ((oa.attr1 >>> 9) &&& 0x1F) % 256
def OAMAttr.size (oa : OAMAttr) : Nat := ((oa.attr1 >>> 14) &&& 3) % 256
def OAMAttr.tileIndex (oa : OAMAttr) : Nat := oa.attr2 &&& 0x03FF
def OAMAttr.priority (oa : OAMAttr) : Nat := ((oa.attr2 >>> 10) &&& 3) % 256
def OAMAttr.palette (oa : OAMAttr) : Nat := ((oa.attr2 >>> 12) &&& 0xF) % 256

/-- Source: `objWidths[3][4]` (mode1.hpp:165); `none` outside the table. -/
def objWidths (shape sz : Nat) : Option Nat :=
  match [[8, 16, 32, 64], [16, 32, 32, 64], [8, 8, 16, 32]].get? shape with
  | some row => row.get? sz
  | none => none

/-- Source: `objHeights[3][4]` (mode1.hpp:166); `none` outside the table. -/
def objHeights (shape sz : Nat) : Option Nat :=
  match [[8, 16, 32, 64], [8, 8, 16, 32], [16, 32, 32, 64]].get? shape with
  | some row => row.get? sz
  | none => none

/-- The per-scanline constants of `RenderTextBgLine` (mode1.hpp:173-189). -/
structure TextBgRegs where
  priority : Nat
  charBase : Nat
  bpp8 : Bool
  screenBase : Nat
  mapW : Nat
  mapH : Nat
  scrollX : Nat
  scrollY : Nat

/-- Source: the register decoding at the head of `RenderTextBgLine`
(mode1.hpp:173-185). -/
def textBgRegs (m : GbaMem) (bgIdx : Nat) : TextBgRegs :=
  let bgcnt := IoRead16 m (IO_BG0CNT + bgIdx * 2)
  let sizeFlag := (bgcnt >>> 14) &&& 3
  { priority := (bgcnt &&& 3) % 256
    charBase := ((bgcnt >>> 2) &&& 3) * 0x4000
    bpp8 := ((bgcnt >>> 7) &&& 1) != 0
    screenBase := ((bgcnt >>> 8) &&& 0x1F) * 0x800
    mapW := if (sizeFlag &&& 1) ≠ 0 then 64 else 32
    mapH := if (sizeFlag &&& 2) ≠ 0 then 64 else 32
    scrollX := IoRead16 m (IO_BG0HOFS + bgIdx * 4) &&& 0x1FF
    scrollY := IoRead16 m (IO_BG0VOFS + bgIdx * 4) &&& 0x1FF }

/-- Source: the tilemap fetch of one column (mode1.hpp:187-206): the byte
address of the entry and the entry read there. All operands are non-negative
`int`s, so `/` and `%` are the natural-number operations. -/
def textBgMapAddr (r : TextBgRegs) (line x : Nat) : Nat :=
  let srcY := (line + r.scrollY) % (r.mapH * 8)
  let tileRow := srcY / 8
  let srcX := (x + r.scrollX) % (r.mapW * 8)
  let tileCol := srcX / 8
  let sbX := tileCol / 32
  let sbY := tileRow / 32
  let sbIdx := sbX + sbY * (r.mapW / 32)
  let localCol := tileCol % 32
  let localRow := tileRow % 32
  (r.screenBase + sbIdx * 0x800 + (localRow * 32 + localCol) * 2) % 4294967296

/-- Source: `te.raw = gVram[mapAddr] | (gVram[mapAddr + 1] << 8)`
(mode1.hpp:206). -/
def textBgEntry (m : GbaMem) (r : TextBgRegs) (line x : Nat) : TilemapEntry :=
  let mapAddr := textBgMapAddr r line x
  ⟨(m.vramByte mapAddr ||| (m.vramByte (mapAddr + 1) <<< 8)) % 65536⟩

/-- Source: the colour-index decode of one column (mode1.hpp:208-219). -/
def textBgColorIdx (m : GbaMem) (r : TextBgRegs) (line x : Nat) : Nat :=
  let pixY := ((line + r.scrollY) % (r.mapH * 8)) % 8
  let pixX := ((x + r.scrollX) % (r.mapW * 8)) % 8
  let te := textBgEntry m r line x
  let tpx := if te.hflip then 7 - pixX else pixX
  let tpy := if te.vflip then 7 - pixY else pixY
  if r.bpp8 then
    let addr := (r.charBase + te.tileIndex * 64 + tpy * 8 + tpx) % 4294967296
    if addr < 0x18000 then m.vramByte addr else 0
  else
    let addr := (r.charBase + te.tileIndex * 32 + tpy * 4 + tpx / 2) % 4294967296
    let byte := if addr < 0x18000 then m.vramByte addr else 0
    if (tpx &&& 1) ≠ 0 then (byte >>> 4) % 256 else (byte &&& 0xF) % 256

/-- Source: the palette lookup of one column (mode1.hpp:224-229). -/
def textBgRgb555 (m : GbaMem) (r : TextBgRegs) (line x : Nat) : Nat :=
  let colorIdx := textBgColorIdx m r line x
  if r.bpp8 then m.bgColor colorIdx
  else m.bgColor ((textBgEntry m r line x).palette * 16 + colorIdx)

/-- Source: one iteration of the column loop of `RenderTextBgLine`
(mode1.hpp:191-233). -/
def textBgColumn (m : GbaMem) (r : TextBgRegs) (line : Nat) (bufs : LineBufs) (x : Nat) :
    LineBufs :=
  if textBgColorIdx m r line x = 0 then bufs
  else
    { color := Function.update bufs.color x (Rgb555ToAbgr8888 (textBgRgb555 m r line x))
      pri := Function.update bufs.pri x r.priority }

/-- Source: `RenderTextBgLine` (mode1.hpp:169). -/
def RenderTextBgLine (m : GbaMem) (bgIdx line : Nat) (bufs : LineBufs) : LineBufs :=
  (List.range GBA_WIDTH).foldl (textBgColumn m (textBgRegs m bgIdx) line) bufs

/-- Source: the loads `oa.attr0..2 = gOamMem[i * 4 + 0..2]` (mode1.hpp:242-245). -/
def readOam (m : GbaMem) (i : Nat) : OAMAttr :=
  { attr0 := m.oamWord (i * 4 + 0)
    attr1 := m.oamWord (i * 4 + 1)
    attr2 := m.oamWord (i * 4 + 2) }

/-- The per-sprite constants of `RenderObjLine` once the sprite is known to
cover the scanline (mode1.hpp:250-296). -/
structure ObjCtx where
  oa : OAMAttr
  objW : Int
  objH : Int
  isAffine : Bool
  boundsW : Int
  boundsH : Int
  objY : Int
  objX : Int
  bpp8 : Bool
  priority : Nat
  baseTile : Int
  tilesW : Int
  pa : Int
  pb : Int
  pc : Int
  pd : Int
  halfW : Int
  halfH : Int
  sprHalfW : Int
  sprHalfH : Int
  iry : Int

/-- Source: the per-sprite set-up of `RenderObjLine` (mode1.hpp:250-296) for a
sprite whose table look-ups returned `objW` and `objH`. -/
def objCtx (m : GbaMem) (line : Int) (oa : OAMAttr) (objW objH : Int) : ObjCtx :=
  let isAffine := oa.affine
  let dbl := isAffine && oa.doubleSize
  let boundsW := if dbl then objW * 2 else objW
  let boundsH := if dbl then objH * 2 else objH
  let objY := if oa.yPos ≥ 160 then oa.yPos - 256 else oa.yPos
  let objX := if oa.xPos ≥ 240 then oa.xPos - 512 else oa.xPos
  let affGrp := oa.affineIdx
  { oa := oa
    objW := objW
    objH := objH
    isAffine := isAffine
    boundsW := boundsW
    boundsH := boundsH
    objY := objY
    objX := objX
    bpp8 := oa.bpp8
    priority := oa.priority
    baseTile := (oa.tileIndex : Int)
    tilesW := objW.tdiv 8
    pa := if isAffine then toI16 (m.oamWord (affGrp * 16 + 3)) else 0x100
    pb := if isAffine then toI16 (m.oamWord (affGrp * 16 + 7)) else 0
    pc := if isAffine then toI16 (m.oamWord (affGrp * 16 + 11)) else 0
    pd := if isAffine then toI16 (m.oamWord (affGrp * 16 + 15)) else 0x100
    halfW := boundsW.tdiv 2
    halfH := boundsH.tdiv 2
    sprHalfW := objW.tdiv 2
    sprHalfH := objH.tdiv 2
    iry := line - objY - boundsH.tdiv 2 }

/-- Source: the texture coordinate of bounding-box column `sx`
(mode1.hpp:303-319); `none` is the `continue` taken outside the sprite
texture. -/
def objTexCoord (c : ObjCtx) (line : Int) (sx : Int) : Option (Int × Int) :=
  if c.isAffine then
    let irx := sx - c.halfW
    let texX := ((c.pa * irx + c.pb * c.iry) >>> 8) + c.sprHalfW
    let texY := ((c.pc * irx + c.pd * c.iry) >>> 8) + c.sprHalfH
    if texX < 0 ∨ texX ≥ c.objW ∨ texY < 0 ∨ texY ≥ c.objH then none
    else some (texX, texY)
  else
    let drawX := if c.oa.hflip then c.objW - 1 - sx else sx
    let drawY0 := line - c.objY
    let drawY := if c.oa.vflip then c.objH - 1 - drawY0 else drawY0
    some (drawX, drawY)

/-- Source: the tile index (a `uint16_t`) of a texture coordinate
(mode1.hpp:321-336). -/
def objTileIdx (c : ObjCtx) (obj1d : Bool) (texX texY : Int) : Nat :=
  let tileRow := texY.tdiv 8
  let tileCol := texX.tdiv 8
  if obj1d then
    if c.bpp8 then ((c.baseTile + (tileRow * c.tilesW + tileCol) * 2) % 65536).toNat
    else ((c.baseTile + tileRow * c.tilesW + tileCol) % 65536).toNat
  else
    if c.bpp8 then ((c.baseTile + tileRow * 32 + tileCol * 2) % 65536).toNat
    else ((c.baseTile + tileRow * 32 + tileCol) % 65536).toNat

/-- Source: the colour index of a texture coordinate (mode1.hpp:338-346);
`OBJ_TILE_BASE` is `0x10000`. -/
def objColorIdx (m : GbaMem) (c : ObjCtx) (obj1d : Bool) (texX texY : Int) : Nat :=
  let pixY := texY.tmod 8
  let pixX := texX.tmod 8
  let tileIdx : Int := (objTileIdx c obj1d texX texY : Nat)
  if c.bpp8 then
    let addr := toU32 (0x10000 + tileIdx * 32 + pixY * 8 + pixX)
    if addr < 0x18000 then m.vramByte addr else 0
  else
    let addr := toU32 (0x10000 + tileIdx * 32 + pixY * 4 + pixX.tdiv 2)
    let byte := if addr < 0x18000 then m.vramByte addr else 0
    if (pixX.toNat &&& 1) ≠ 0 then (byte >>> 4) % 256 else (byte &&& 0xF) % 256

/-- Source: the palette lookup of a sprite pixel (mode1.hpp:357-362). -/
def objRgb555 (m : GbaMem) (c : ObjCtx) (colorIdx : Nat) : Nat :=
  if c.bpp8 then m.objColor colorIdx
  else m.objColor (c.oa.palette * 16 + colorIdx)

/-- Source: one iteration of the column loop of `RenderObjLine`
(mode1.hpp:298-366). -/
def objColumn (m : GbaMem) (c : ObjCtx) (line : Int) (obj1d : Bool) (bufs : LineBufs)
    (sx : Nat) : LineBufs :=
  let screenX : Int := c.objX + sx
  if screenX < 0 ∨ screenX ≥ (GBA_WIDTH : Int) then bufs
  else
    match objTexCoord c line sx with
    | none => bufs
    | some (texX, texY) =>
      let colorIdx := objColorIdx m c obj1d texX texY
      if colorIdx = 0 then bufs
      else if bufs.color screenX.toNat ≠ 0 ∧ bufs.pri screenX.toNat < c.priority then bufs
      else
        { color := Function.update bufs.color screenX.toNat
            (Rgb555ToAbgr8888 (objRgb555 m c colorIdx))
          pri := Function.update bufs.pri screenX.toNat c.priority }

/-- Source: one iteration of the sprite loop of `RenderObjLine`
(mode1.hpp:241-367). The result is `none` when `objWidths[shape][sz]` or
`objHeights[shape][sz]` is read outside the 3x4 tables. -/
def objSprite (m : GbaMem) (line : Nat) (obj1d : Bool) (bufs : LineBufs) (i : Nat) :
    Option LineBufs :=
  let oa := readOam m i
  if oa.hidden then some bufs
  else
    match objWidths oa.shape oa.size, objHeights oa.shape oa.size with
    | some objW, some objH =>
      let c := objCtx m line oa objW objH
      if (line : Int) < c.objY ∨ (line : Int) ≥ c.objY + c.boundsH then some bufs
      else some ((List.range c.boundsW.toNat).foldl (objColumn m c line obj1d) bufs)
    | _, _ => none

/-- The sprite loop `for (int i = n - 1; i >= 0; --i)` of `RenderObjLine`. -/
def objLoop (m : GbaMem) (line : Nat) (obj1d : Bool) : Nat → LineBufs → Option LineBufs
  | 0, bufs => some bufs
  | n + 1, bufs => (objSprite m line obj1d bufs n).bind (objLoop m line obj1d n)

/-- Source: `RenderObjLine` (mode1.hpp:237). -/
def RenderObjLine (m : GbaMem) (line : Nat) (obj1d : Bool) (bufs : LineBufs) :
    Option LineBufs :=
  objLoop m line obj1d OAM_COUNT bufs

/-- Source: `AlphaBlend` (mode1.hpp:384). -/
def AlphaBlend (top_abgr bot_abgr : Nat) (eva evb : Int) : Nat :=
  let tR : Int := ((top_abgr >>> 0) &&& 0xFF : Nat)
  let tG : Int := ((top_abgr >>> 8) &&& 0xFF : Nat)
  let tB : Int := ((top_abgr >>> 16) &&& 0xFF : Nat)
  let bR : Int := ((bot_abgr >>> 0) &&& 0xFF : Nat)
  let bG : Int := ((bot_abgr >>> 8) &&& 0xFF : Nat)
  let bB : Int := ((bot_abgr >>> 16) &&& 0xFF : Nat)
  let rR0 := (tR * eva + bR * evb).tdiv 16
  let rR := if rR0 > 255 then 255 else rR0
  let rG0 := (tG * eva + bG * evb).tdiv 16
  let rG := if rG0 > 255 then 255 else rG0
  let rB0 := (tB * eva + bB * evb).tdiv 16
  let rB := if rB0 > 255 then 255 else rB0
  (0xFF000000 ||| ((toU32 rB <<< 16) % 4294967296) ||| ((toU32 rG <<< 8) % 4294967296)
    ||| toU32 rR) % 4294967296

/-- Source: `BrightenPixel` (mode1.hpp:405). -/
def BrightenPixel (abgr : Nat) (evy : Int) : Nat :=
  let r0 : Int := ((abgr >>> 0) &&& 0xFF : Nat)
  let g0 : Int := ((abgr >>> 8) &&& 0xFF : Nat)
  let b0 : Int := ((abgr >>> 16) &&& 0xFF : Nat)
  let r1 := r0 + ((255 - r0) * evy).tdiv 16
  let r := if r1 > 255 then 255 else r1
  let g1 := g0 + ((255 - g0) * evy).tdiv 16
  let g := if g1 > 255 then 255 else g1
  let b1 := b0 + ((255 - b0) * evy).tdiv 16
  let b := if b1 > 255 then 255 else b1
  (0xFF000000 ||| ((toU32 b <<< 16) % 4294967296) ||| ((toU32 g <<< 8) % 4294967296)
    ||| toU32 r) % 4294967296

/-- Source: `DarkenPixel` (mode1.hpp:422). -/
def DarkenPixel (abgr : Nat) (evy : Int) : Nat :=
  let r0 : Int := ((abgr >>> 0) &&& 0xFF : Nat)
  let g0 : Int := ((abgr >>> 8) &&& 0xFF : Nat)
  let b0 : Int := ((abgr >>> 16) &&& 0xFF : Nat)
  let r1 := r0 - (r0 * evy).tdiv 16
  let r := if r1 < 0 then 0 else r1
  let g1 := g0 - (g0 * evy).tdiv 16
  let g := if g1 < 0 then 0 else g1
  let b1 := b0 - (b0 * evy).tdiv 16
  let b := if b1 < 0 then 0 else b1
  (0xFF000000 ||| ((toU32 b <<< 16) % 4294967296) ||| ((toU32 g <<< 8) % 4294967296)
    ||| toU32 r) % 4294967296

/-- Source: `IsFirstTarget` (mode1.hpp:440). -/
def IsFirstTarget (bldcnt layerId : Nat) : Bool := ((bldcnt >>> layerId) &&& 1) != 0

/-- Source: `IsSecondTarget` (mode1.hpp:443). -/
def IsSecondTarget (bldcnt layerId : Nat) : Bool := ((bldcnt >>> (layerId + 8)) &&& 1) != 0

/-- The blend registers as decoded by `CompositeLineMode0` (mode1.hpp:463-475). -/
structure BlendRegs where
  bldcnt : Nat
  effect : Nat
  eva : Int
  evb : Int
  evy : Int

/-- Source: the blend-register decoding of `CompositeLineMode0`
(mode1.hpp:463-475). -/
def blendRegs (m : GbaMem) : BlendRegs :=
  let bldcnt := IoRead16 m IO_BLDCNT
  let bldalpha := IoRead16 m IO_BLDALPHA
  let bldy := IoRead16 m IO_BLDY
  let eva := bldalpha &&& 0x1F
  let evb := (bldalpha >>> 8) &&& 0x1F
  let evy := bldy &&& 0x1F
  { bldcnt := bldcnt
    effect := ((bldcnt >>> 6) &&& 3) % 256
    eva := ((if eva > 16 then 16 else eva : Nat) : Int)
    evb := ((if evb > 16 then 16 else evb : Nat) : Int)
    evy := ((if evy > 16 then 16 else evy : Nat) : Int) }

/-- Source: `bgPriority[i] = IoRead16(IO_BG0CNT + i * 2) & 3` (mode1.hpp:480). -/
def bgPriority (m : GbaMem) (i : Nat) : Nat := (IoRead16 m (IO_BG0CNT + i * 2) &&& 3) % 256

/-- Source: the body of the sorting loops (mode1.hpp:486-490) for one pair
`(i, j)`; `order` is the array `bgOrder`. -/
def sortStep (prio : Nat → Nat) (order : List Nat) (ij : Nat × Nat) : List Nat :=
  if prio (order.getD ij.2 0) < prio (order.getD ij.1 0) then
    (order.set ij.1 (order.getD ij.2 0)).set ij.2 (order.getD ij.1 0)
  else order

/-- Source: the sort of `bgOrder` (mode1.hpp:478-490); the pairs `(i, j)` are
listed in the order in which the two nested loops visit them. -/
def sortBgOrder (prio : Nat → Nat) : List Nat :=
  [(0, 1), (0, 2), (0, 3), (1, 2), (1, 3), (2, 3)].foldl (sortStep prio) [0, 1, 2, 3]

/-- The per-column search state of `CompositeLineMode0` (mode1.hpp:496-504). -/
structure Pick where
  topColor : Nat
  topLayerId : Nat
  botColor : Nat
  botLayerId : Nat
  foundTop : Bool
  foundBot : Bool

/-- The inputs of the per-column search: the layer buffers and the decoded
enable bits and priorities. -/
structure Layers where
  bgLayers : Nat → Nat → Nat
  bgPri : Nat → Nat → Nat
  objLayer : Nat → Nat
  objPri : Nat → Nat

/-- Source: `bgEnabled[bg]` (mode1.hpp:454-459). -/
def bgEnabled (dispcnt bg : Nat) : Bool :=
  match bg with
  | 0 => (dispcnt &&& DISP_BG0_ON) != 0
  | 1 => (dispcnt &&& DISP_BG1_ON) != 0
  | 2 => (dispcnt &&& DISP_BG2_ON) != 0
  | 3 => (dispcnt &&& DISP_BG3_ON) != 0
  | _ => false

/-- Source: the loop over `k` (mode1.hpp:522-541) from the positions `ks` on;
finding the second contributor leaves the loop (`break`). -/
def bgScan (ly : Layers) (dispcnt : Nat) (prio : Nat → Nat) (order : List Nat) (x pri : Nat) :
    List Nat → Pick → Pick
  | [], s => s
  | k :: ks, s =>
    let bg := order.getD k 0
    if !bgEnabled dispcnt bg then bgScan ly dispcnt prio order x pri ks s
    else if prio bg ≠ pri then bgScan ly dispcnt prio order x pri ks s
    else if ly.bgLayers bg x = 0 then bgScan ly dispcnt prio order x pri ks s
    else if !s.foundTop then
      bgScan ly dispcnt prio order x pri ks
        { s with topColor := ly.bgLayers bg x, topLayerId := bg, foundTop := true }
    else if !s.foundBot then
      { s with botColor := ly.bgLayers bg x, botLayerId := bg, foundBot := true }
    else bgScan ly dispcnt prio order x pri ks s

/-- Source: the OBJ test at one priority level (mode1.hpp:509-519). -/
def objOffer (ly : Layers) (dispcnt x pri : Nat) (s : Pick) : Pick :=
  if (dispcnt &&& DISP_OBJ_ON) != 0 ∧ ly.objLayer x ≠ 0 ∧ ly.objPri x = pri then
    if !s.foundTop then
      { s with topColor := ly.objLayer x, topLayerId := 4, foundTop := true }
    else if !s.foundBot then
      { s with botColor := ly.objLayer x, botLayerId := 4, foundBot := true }
    else s
  else s

/-- Source: the loop `for (pri = 0; pri <= 3 && !foundBot; ++pri)`
(mode1.hpp:506-542) over the remaining levels `pris`. -/
def priScan (ly : Layers) (dispcnt : Nat) (prio : Nat → Nat) (order : List Nat) (x : Nat) :
    List Nat → Pick → Pick
  | [], s => s
  | pri :: ps, s =>
    if s.foundBot then s
    else
      priScan ly dispcnt prio order x ps
        (bgScan ly dispcnt prio order x pri [0, 1, 2, 3] (objOffer ly dispcnt x pri s))

/-- Source: the search for the top and second contributor of column `x`
(mode1.hpp:496-542), started on the backdrop colour `bdColor` (layer 5). -/
def findTopBot (m : GbaMem) (ly : Layers) (dispcnt x : Nat) : Pick :=
  let bdColor := Rgb555ToAbgr8888 (m.bgColor 0)
  priScan ly dispcnt (bgPriority m) (sortBgOrder (bgPriority m)) x [0, 1, 2, 3]
    { topColor := bdColor, topLayerId := 5, botColor := bdColor, botLayerId := 5,
      foundTop := false, foundBot := false }

/-- Source: the `switch (effect)` of `CompositeLineMode0` (mode1.hpp:545-566). -/
def applyBlend (b : BlendRegs) (s : Pick) : Nat :=
  match b.effect with
  | 1 =>
    if IsFirstTarget b.bldcnt s.topLayerId && IsSecondTarget b.bldcnt s.botLayerId then
      AlphaBlend s.topColor s.botColor b.eva b.evb
    else s.topColor
  | 2 => if IsFirstTarget b.bldcnt s.topLayerId then BrightenPixel s.topColor b.evy else s.topColor
  | 3 => if IsFirstTarget b.bldcnt s.topLayerId then DarkenPixel s.topColor b.evy else s.topColor
  | _ => s.topColor

/-- The word `CompositeLineMode0` stores for column `x` (mode1.hpp:492-575). -/
def compositePixel (m : GbaMem) (ly : Layers) (dispcnt x : Nat) : Nat :=
  applyBlend (blendRegs m) (findTopBot m ly dispcnt x)

/-- Source: `CompositeLineMode0` (mode1.hpp:448): the column loop storing
`frame_buffer[line * GBA_WIDTH + x] = pixel`. -/
def CompositeLineMode0 (m : GbaMem) (line : Nat) (ly : Layers) (dispcnt : Nat)
    (fb : Nat → Nat) : Nat → Nat :=
  (List.range GBA_WIDTH).foldl
    (fun fb x => Function.update fb (line * GBA_WIDTH + x) (compositePixel m ly dispcnt x)) fb

/-- Source: `memset(frame_buffer, 0xFF, GBA_WIDTH * GBA_HEIGHT * 4)`
(mode1.hpp:584): the first `240 * 160` words become `0xFFFFFFFF`. -/
def forcedBlank (fb : Nat → Nat) : Nat → Nat :=
  fun i => if i < GBA_WIDTH * GBA_HEIGHT then 0xFFFFFFFF else fb i

/-- A BG line buffer pair after `memset(.., 0, ..)` (mode1.hpp:596-597). -/
def bgClear : LineBufs := ⟨fun _ => 0, fun _ => 0⟩

/-- The OBJ line buffer pair after the two `memset`s (mode1.hpp:598-599). -/
def objClear : LineBufs := ⟨fun _ => 0, fun _ => 0xFF⟩

/-- The four BG buffers and the OBJ buffer handed to the compositor. -/
def mkLayers (bg0 bg1 bg2 bg3 obj : LineBufs) : Layers :=
  { bgLayers := fun bg => match bg with
      | 0 => bg0.color | 1 => bg1.color | 2 => bg2.color | _ => bg3.color
    bgPri := fun bg => match bg with
      | 0 => bg0.pri | 1 => bg1.pri | 2 => bg2.pri | _ => bg3.pri
    objLayer := obj.color
    objPri := obj.pri }

/-- Source: the body of the scanline loop of `Mode1::RenderFrame`
(mode1.hpp:590-617). -/
def renderLine (m : GbaMem) (dispcnt : Nat) (obj1d : Bool) (fb : Nat → Nat) (line : Nat) :
    Option (Nat → Nat) :=
  let bg0 := if (dispcnt &&& DISP_BG0_ON) ≠ 0 then RenderTextBgLine m 0 line bgClear else bgClear
  let bg1 := if (dispcnt &&& DISP_BG1_ON) ≠ 0 then RenderTextBgLine m 1 line bgClear else bgClear
  let bg2 := if (dispcnt &&& DISP_BG2_ON) ≠ 0 then RenderTextBgLine m 2 line bgClear else bgClear
  let bg3 := if (dispcnt &&& DISP_BG3_ON) ≠ 0 then RenderTextBgLine m 3 line bgClear else bgClear
  (if (dispcnt &&& DISP_OBJ_ON) ≠ 0 then RenderObjLine m line obj1d objClear
   else some objClear).map
    (fun obj => CompositeLineMode0 m line (mkLayers bg0 bg1 bg2 bg3 obj) dispcnt fb)

/-- A scanline loop `for (line = 0; line < n; ++line)` over a fallible body. -/
def lineLoop (body : (Nat → Nat) → Nat → Option (Nat → Nat)) (n : Nat) (fb : Nat → Nat) :
    Option (Nat → Nat) :=
  (List.range n).foldlM body fb

/-- Source: `Mode1::RenderFrame` (mode1.hpp:580). -/
def RenderFrame (_ppu : PPUMemory) (m : GbaMem) (fb : Nat → Nat) : Option (Nat → Nat) :=
  let dispcnt := IoRead16 m IO_DISPCNT
  if (dispcnt &&& DISP_FORCED_BLANK) ≠ 0 then some (forcedBlank fb)
  else
    let obj1d := (dispcnt &&& DISP_OBJ_1D) != 0
    lineLoop (renderLine m dispcnt obj1d) GBA_HEIGHT fb

end Mode1

namespace Mode2

open Mode1

/-- The per-scanline constants of `RenderAffineBgLine` (mode2.hpp:20-53). -/
structure AffineBgRegs where
  priority : Nat
  charBase : Nat
  screenBase : Nat
  wrap : Bool
  mapSize : Int
  mapTiles : Int
  pa : Int
  pb : Int
  pc : Int
  pd : Int
  refX : Int
  refY : Int

/-- Source: `affSizes[sizeFlag]` (mode2.hpp:29); `sizeFlag` is a 2-bit field. -/
def affSizes (sizeFlag : Nat) : Int :=
  match sizeFlag with
  | 0 => 128
  | 1 => 256
  | 2 => 512
  | _ => 1024

/-- Source: the reference-point load with its sign extension
(mode2.hpp:43-50): `if (ref & 0x08000000) ref |= 0xF0000000u`. -/
def refPoint (raw : Nat) : Int :=
  toI32 ((if (raw &&& 0x08000000) ≠ 0 then raw ||| 0xF0000000 else raw : Nat) : Int)

/-- Source: the register decoding at the head of `RenderAffineBgLine`
(mode2.hpp:20-50). -/
def affineBgRegs (m : GbaMem) (bgIdx : Nat) : AffineBgRegs :=
  let bgcnt := IoRead16 m (IO_BG0CNT + bgIdx * 2)
  let sizeFlag := (bgcnt >>> 14) &&& 3
  let affBase := if bgIdx = 2 then 0x20 else 0x30
  { priority := (bgcnt &&& 3) % 256
    charBase := ((bgcnt >>> 2) &&& 3) * 0x4000
    screenBase := ((bgcnt >>> 8) &&& 0x1F) * 0x800
    wrap := ((bgcnt >>> 13) &&& 1) != 0
    mapSize := affSizes sizeFlag
    mapTiles := (affSizes sizeFlag).tdiv 8
    pa := toI16 (IoRead16 m (affBase + 0))
    pb := toI16 (IoRead16 m (affBase + 2))
    pc := toI16 (IoRead16 m (affBase + 4))
    pd := toI16 (IoRead16 m (affBase + 6))
    refX := refPoint (IoRead32 m (affBase + 8))
    refY := refPoint (IoRead32 m (affBase + 12)) }

/-- Source: the wrap-or-clip step (mode2.hpp:65-72) on a source coordinate
pair; `none` is the `continue` of a clipped column. -/
def affineSrc (r : AffineBgRegs) (srcX srcY : Int) : Option (Int × Int) :=
  if r.wrap then
    some (((srcX.tmod r.mapSize) + r.mapSize).tmod r.mapSize,
          ((srcY.tmod r.mapSize) + r.mapSize).tmod r.mapSize)
  else if srcX < 0 ∨ srcX ≥ r.mapSize ∨ srcY < 0 ∨ srcY ≥ r.mapSize then none
  else some (srcX, srcY)

/-- Source: the tile and pixel fetch of an affine BG (mode2.hpp:74-85). -/
def affineColorIdx (m : GbaMem) (r : AffineBgRegs) (srcX srcY : Int) : Nat :=
  let tileCol := srcX.tdiv 8
  let tileRow := srcY.tdiv 8
  let pixX := srcX.tmod 8
  let pixY := srcY.tmod 8
  let mapAddr := toU32 (r.screenBase + tileRow * r.mapTiles + tileCol)
  let tileIdx : Int := ((if mapAddr < 0x18000 then m.vramByte mapAddr else 0 : Nat) : Int)
  let tileAddr := toU32 (r.charBase + tileIdx * 64 + pixY * 8 + pixX)
  if tileAddr < 0x18000 then m.vramByte tileAddr else 0

/-- The loop state of `RenderAffineBgLine`: the buffers and the texture cursor. -/
structure AffineState where
  bufs : LineBufs
  texX : Int
  texY : Int

/-- Source: one iteration of the column loop of `RenderAffineBgLine`
(mode2.hpp:56-94). The `int32_t` cursor wraps in two's complement. -/
def affineColumn (m : GbaMem) (r : AffineBgRegs) (st : AffineState) (x : Nat) : AffineState :=
  let srcX := st.texX >>> 8
  let srcY := st.texY >>> 8
  let texX := toI32 (st.texX + r.pa)
  let texY := toI32 (st.texY + r.pc)
  match affineSrc r srcX srcY with
  | none => { bufs := st.bufs, texX := texX, texY := texY }
  | some (sX, sY) =>
    let colorIdx := affineColorIdx m r sX sY
    if colorIdx = 0 then { bufs := st.bufs, texX := texX, texY := texY }
    else
      { bufs :=
          { color := Function.update st.bufs.color x (Rgb555ToAbgr8888 (m.bgColor colorIdx))
            pri := Function.update st.bufs.pri x r.priority }
        texX := texX
        texY := texY }

/-- Source: the part of one iteration of the column loop of
`RenderAffineBgLine` that follows the sampling (mode2.hpp:64-93), for the
sampled source pixel `(srcX, srcY)`: wrap or clip, tile and pixel fetch,
palette lookup and the store into column `x` of the line buffers. -/
def affinePlot (m : GbaMem) (r : AffineBgRegs) (bufs : LineBufs) (x : Nat) (srcX srcY : Int) :
    LineBufs :=
  match affineSrc r srcX srcY with
  | none => bufs
  | some (sX, sY) =>
    let colorIdx := affineColorIdx m r sX sY
    if colorIdx = 0 then bufs
    else
      { color := Function.update bufs.color x (Rgb555ToAbgr8888 (m.bgColor colorIdx))
        pri := Function.update bufs.pri x r.priority }

/-- Source: `RenderAffineBgLine` (mode2.hpp:19). -/
def RenderAffineBgLine (m : GbaMem) (bgIdx line : Nat) (bufs : LineBufs) : LineBufs :=
  let r := affineBgRegs m bgIdx
  ((List.range GBA_WIDTH).foldl (affineColumn m r)
    { bufs := bufs
      texX := toI32 (r.refX + r.pb * line)
      texY := toI32 (r.refY + r.pd * line) }).bufs

/-- Source: the body of the scanline loop of `Mode2::RenderFrame`
(mode2.hpp:107-135); `bgLayers[3]` stays cleared. -/
def renderLine (m : GbaMem) (dispcnt : Nat) (obj1d : Bool) (fb : Nat → Nat) (line : Nat) :
    Option (Nat → Nat) :=
  let bg0 := if (dispcnt &&& DISP_BG0_ON) ≠ 0 then RenderTextBgLine m 0 line bgClear else bgClear
  let bg1 := if (dispcnt &&& DISP_BG1_ON) ≠ 0 then RenderTextBgLine m 1 line bgClear else bgClear
  let bg2 := if (dispcnt &&& DISP_BG2_ON) ≠ 0 then RenderAffineBgLine m 2 line bgClear else bgClear
  (if (dispcnt &&& DISP_OBJ_ON) ≠ 0 then RenderObjLine m line obj1d objClear
   else some objClear).map
    (fun obj => CompositeLineMode0 m line (mkLayers bg0 bg1 bg2 bgClear obj) dispcnt fb)

/-- Source: `Mode2::RenderFrame` (mode2.hpp:97). -/
def RenderFrame (_ppu : PPUMemory) (m : GbaMem) (fb : Nat → Nat) : Option (Nat → Nat) :=
  let dispcnt := IoRead16 m IO_DISPCNT
  if (dispcnt &&& DISP_FORCED_BLANK) ≠ 0 then some (forcedBlank fb)
  else
    let obj1d := (dispcnt &&& DISP_OBJ_1D) != 0
    lineLoop (Mode2.renderLine m dispcnt obj1d) GBA_HEIGHT fb

end Mode2

namespace Mode0

def BG_COUNT : Nat := 4
def MAX_LINES : Nat := 360

/-- Source: `enum TileEntryBits` (mode0.hpp:72). -/
def TILE_HFLIP : Nat := 1 <<< 27
def TILE_VFLIP : Nat := 1 <<< 28
def TILE_MOSAIC : Nat := 1 <<< 29

/-- Source: `MakeTileEntry` (mode0.hpp:79). The parameters are a `uint16_t`,
two `uint8_t` and three `bool`; the operands of `|` are `uint32_t`. -/
def MakeTileEntry (tileIndex paletteIndex priority : Nat) (hflip vflip mosaicEnable : Bool) :
    Nat :=
  (((tileIndex % 65536) &&& 0xFFFF)
    ||| (((paletteIndex % 256) <<< 16) % 4294967296)
    ||| ((((priority % 256) &&& 0x7) <<< 24) % 4294967296)
    ||| (if hflip then TILE_HFLIP else 0)
    ||| (if vflip then TILE_VFLIP else 0)
    ||| (if mosaicEnable then TILE_MOSAIC else 0)) % 4294967296

/-- Source: `sizeof(Mode0Layout::GfxData)`, the `uint8_t[2u * 1024u * 1024u]`
field of mode0.hpp:288. -/
def GFX_DATA_BYTES : Nat := 2 * 1024 * 1024

/-- A byte store `GfxData[idx] = v`; `none` outside the array. -/
def gfxStore (gfx : Nat → Nat) (idx v : Nat) : Option (Nat → Nat) :=
  if idx < GFX_DATA_BYTES then some (Function.update gfx idx (v % 256)) else none

/-- Source: `setGfxData` (mode0.hpp:331). `size` and `offset` are `std::size_t`
(64 bits), so the sum of the guard is taken modulo `2^64`; the `memcpy` stores
`data[i]` at `GfxData[offset + i]` for `i < size`. The result is `none` when a
byte is stored outside `GfxData`. -/
def setGfxData (gfx data : Nat → Nat) (size offset : Nat) : Option (Nat → Nat) :=
  if (offset + size) % 18446744073709551616 > GFX_DATA_BYTES then some gfx
  else (List.range size).foldlM (fun g i => gfxStore g (offset + i) (data i)) gfx

/-- Source: `Wrap` (mode0.hpp:391); `%` is the truncating remainder of C. -/
def Wrap (v size : Int) : Int :=
  let r := v.tmod size
  if r < 0 then r + size else r

/-- The fields of `Mode0Layout` (mode0.hpp:277) that the frame render reads:
`bg[i].scrollX/scrollY` and `bgLineScroll[i][line].scrollX/scrollY`. -/
structure Mode0Layout where
  bgScrollX : Nat → Int
  bgScrollY : Nat → Int
  bgLineScrollX : Nat → Nat → Int
  bgLineScrollY : Nat → Nat → Int

/-- Source: `GetBg32px` (mode0.hpp:405). It computes the effective scroll
`sx`, `sy` and stores nothing: `outPixels` is returned as it was. -/
def GetBg32px (layout : Mode0Layout) (bgIndex line _xPixelOffset : Nat)
    (outPixels : Nat → Nat) : Nat → Nat :=
  if bgIndex ≥ BG_COUNT then outPixels
  else
    let sx := layout.bgScrollX bgIndex + layout.bgLineScrollX bgIndex line
    let sy := layout.bgScrollY bgIndex + layout.bgLineScrollY bgIndex line
    (fun (_ : Int × Int) => outPixels) (sx, sy)

/-- Source: the accumulation of `anyNotOpaque` over `count` pixels from
`dst = &scanline_layers[base]` (mode0.hpp:444-447). -/
def anyNotOpaque (layers : Nat → Nat) (base count : Nat) : Nat :=
  (List.range count).foldl
    (fun acc i => acc ||| ((layers (base + i) &&& 0xFF000000) ^^^ 0xFF000000)) 0

/-- The loop state of `RenderBg`: the 64-bit opaque mask and the layer buffer. -/
structure BgState where
  opaque_mask : Nat
  layers : Nat → Nat

/-- Source: one iteration of the block loop of `RenderBg` (mode0.hpp:433-452). -/
def renderBgBlock (layout : Mode0Layout) (index width line : Nat) (st : BgState)
    (block : Nat) : BgState :=
  let bit := if block < 64 then (1 <<< block) % 18446744073709551616 else 0
  if block < 64 ∧ (st.opaque_mask &&& bit) ≠ 0 then st
  else
    let layer_base := index * width
    let x0 := block * 32
    let layers := GetBg32px layout index line x0 st.layers
    let count := if x0 + 32 ≤ width then 32 else width - x0
    let isOpaque := if anyNotOpaque layers (layer_base + x0) count = 0 then 1 else 0
    { opaque_mask :=
        if block < 64 then (st.opaque_mask ||| (isOpaque <<< block)) % 18446744073709551616
        else st.opaque_mask
      layers := layers }

/-- Source: `RenderBg` (mode0.hpp:421). -/
def RenderBg (layout : Mode0Layout) (index : Nat) (st : BgState) (ppu : PPUMemory)
    (line : Nat) : BgState :=
  let width := ppu.frame_width % 65536
  let nb32pxBlocks := (width + 31) / 32
  (List.range nb32pxBlocks).foldl (renderBgBlock layout index width line) st

/-- A store `frame_buffer[idx] = v`; `none` outside the array. -/
def fbStore (fb : Nat → Nat) (idx v : Nat) : Option (Nat → Nat) :=
  if idx < FRAME_BUFFER_WORDS then some (Function.update fb idx v) else none

/-- Source: `CompositeAndOam` (mode0.hpp:455): copies layer 0 to row `line`. -/
def CompositeAndOam (scanline_layers : Nat → Nat) (ppu : PPUMemory) (line : Nat)
    (fb : Nat → Nat) : Option (Nat → Nat) :=
  let width := ppu.frame_width % 65536
  (List.range width).foldlM
    (fun fb x => fbStore fb (line * width + x) (scanline_layers (0 * width + x))) fb

/-- Source: the body of the scanline loop of `Mode0::RenderFrame`
(mode0.hpp:485-495): the buffer is refilled with zeros, the four BGs are
rendered in index order, and the line is composited. -/
def renderLine (layout : Mode0Layout) (ppu : PPUMemory) (fb : Nat → Nat) (line : Nat) :
    Option (Nat → Nat) :=
  let st := (List.range BG_COUNT).foldl
    (fun st bgIndex => RenderBg layout bgIndex st ppu line)
    { opaque_mask := 0, layers := fun _ => 0 }
  CompositeAndOam st.layers ppu line fb

/-- Source: `Mode0::RenderFrame` (mode0.hpp:469), without `USE_OPENMP`. -/
def RenderFrame (layout : Mode0Layout) (ppu : PPUMemory) (fb : Nat → Nat) :
    Option (Nat → Nat) :=
  Mode1.lineLoop (renderLine layout ppu) 360 fb

end Mode0

namespace Mode7

def GB_SCREEN_WIDTH : Nat := 160
def GB_SCREEN_HEIGHT : Nat := 144

def LCDC_ENABLE : Nat := 0x80
def LCDC_WINDOW_TILE_MAP : Nat := 0x40
def LCDC_WINDOW_ENABLE : Nat := 0x20
def LCDC_BG_WINDOW_TILE_DATA : Nat := 0x10
def LCDC_BG_TILE_MAP : Nat := 0x08
def LCDC_OBJ_SIZE : Nat := 0x04
def LCDC_OBJ_ENABLE : Nat := 0x02
def LCDC_BG_ENABLE : Nat := 0x01

/-- Source: `struct GBRegs` (mode7.hpp:24); every field is a `uint8_t`. -/
structure GBRegs where
  lcdc : Nat
  scy : Nat
  scx : Nat
  bgp : Nat
  obp0 : Nat
  obp1 : Nat
  wy : Nat
  wx : Nat

/-- Source: `struct Mode7Layout` (mode7.hpp:36): the DMG view of `VRAM`, with
`vram[0x2000]` and `oam[0xA0]` as byte maps. -/
structure Mode7Layout where
  vram : Nat → Nat
  oam : Nat → Nat
  regs : GBRegs

/-- Source: `struct SpriteCandidate` (mode7.hpp:45). -/
structure SpriteCandidate where
  x : Nat
  tile : Nat
  attributes : Nat
  line : Nat
  index : Nat
deriving DecidableEq

/-- Conversion of a byte to `int8_t`. -/
def toI8 (v : Nat) : Int := if v % 256 ≥ 128 then (v % 256 : Nat) - 256 else (v % 256 : Nat)

/-- Source: `VramRead` (mode7.hpp:64); `addr` is a `uint16_t`. -/
def VramRead (layout : Mode7Layout) (addr : Nat) : Nat :=
  if addr < 0x8000 ∨ addr ≥ 0xA000 then 0 else layout.vram (addr - 0x8000) % 256

/-- Source: `PaletteColor` (mode7.hpp:71). -/
def PaletteColor (palette color_id : Nat) : Nat :=
  match ((palette >>> (color_id * 2)) &&& 0x03) % 256 with
  | 0 => 0xFF9BBC0F
  | 1 => 0xFF8BAC0F
  | 2 => 0xFF306230
  | _ => 0xFF0F380F

/-- Source: `FetchTileColor` (mode7.hpp:84); `x` and `y` are `uint8_t`. -/
def FetchTileColor (layout : Mode7Layout) (tile_map_base tile_data_base : Nat)
    (signed_indexing : Bool) (x y : Nat) : Nat :=
  let tile_x := (x / 8) % 256
  let tile_y := (y / 8) % 256
  let map_index := (tile_y * 32 + tile_x) % 65536
  let map_addr := (tile_map_base + map_index) % 65536
  let tile_index := VramRead layout map_addr
  let tile_id : Int := if signed_indexing then toI8 tile_index else (tile_index : Int)
  let tile_addr := (((tile_data_base : Int) + tile_id * 16) % 65536).toNat
  let row := (y % 8) % 256
  let tile_row_addr := (tile_addr + row * 2) % 65536
  let low := VramRead layout tile_row_addr
  let high := VramRead layout ((tile_row_addr + 1) % 65536)
  let col := (x % 8) % 256
  let bit := (7 - col) % 256
  ((((high >>> bit) &&& 0x01) <<< 1) ||| ((low >>> bit) &&& 0x01)) % 256

/-- Source: one iteration of the OAM scan of `EvalSprites` (mode7.hpp:117-142):
a qualifying sprite is appended to `candidates`. -/
def evalSpriteStep (layout : Mode7Layout) (ly sprite_height : Nat)
    (candidates : List SpriteCandidate) (i : Nat) : List SpriteCandidate :=
  let y := layout.oam (i * 4) % 256
  let x := layout.oam (i * 4 + 1) % 256
  let tile := layout.oam (i * 4 + 2) % 256
  let attr := layout.oam (i * 4 + 3) % 256
  let sprite_y : Int := (y : Int) - 16
  if (ly : Int) < sprite_y ∨ (ly : Int) ≥ sprite_y + (sprite_height : Int) then candidates
  else if x = 0 ∨ x ≥ 168 then candidates
  else
    let line0 := (((ly : Int) - sprite_y) % 256).toNat
    let line :=
      if (attr &&& 0x40) ≠ 0 then ((((sprite_height : Int) - 1) - (line0 : Int)) % 256).toNat
      else line0
    candidates ++ [{ x := x, tile := tile, attributes := attr, line := line, index := i }]

/-- Source: the loop condition of the insertion sort (mode7.hpp:149-150):
`candidates[j]` sorts after `key`. -/
def sortsAfter (c key : SpriteCandidate) : Bool :=
  decide (c.x > key.x) || (decide (c.x = key.x) && decide (c.index > key.index))

/-- Source: one outer iteration of the insertion sort (mode7.hpp:144-156): the
elements at the end of `candidates[0..i)` that sort after `candidates[i]` move
up by one slot and the key is stored below them. -/
def insertStep (candidates : List SpriteCandidate) (i : Nat) : List SpriteCandidate :=
  match candidates.get? i with
  | none => candidates
  | some key =>
    let sorted := candidates.take i
    let moved := (sorted.reverse.takeWhile (fun c => sortsAfter c key)).length
    sorted.take (i - moved) ++ [key] ++ sorted.drop (i - moved) ++ candidates.drop (i + 1)

/-- Source: `EvalSprites` (mode7.hpp:108). The result is the list
`out_sprites[0..limit)`; the returned count is its length. -/
def EvalSprites (layout : Mode7Layout) (ly sprite_height : Nat) : List SpriteCandidate :=
  let candidates := (List.range 40).foldl (evalSpriteStep layout ly sprite_height) []
  let candidate_count := candidates.length
  let sorted := (List.range' 1 (candidate_count - 1)).foldl insertStep candidates
  let limit := if candidate_count > 10 then 10 else candidate_count
  sorted.take limit

/-- Source: the background and window part of one pixel (mode7.hpp:194-226):
the pair `(bg_color_id, bg_color)`. -/
def bgPixel (layout : Mode7Layout) (x y : Nat) : Nat × Nat :=
  let lcdc := layout.regs.lcdc % 256
  let bgp := layout.regs.bgp % 256
  if (lcdc &&& LCDC_BG_ENABLE) ≠ 0 then
    let tile_map_base := if (lcdc &&& LCDC_BG_TILE_MAP) ≠ 0 then 0x9C00 else 0x9800
    let tile_data_base := if (lcdc &&& LCDC_BG_WINDOW_TILE_DATA) ≠ 0 then 0x8000 else 0x9000
    let signed_indexing := (lcdc &&& LCDC_BG_WINDOW_TILE_DATA) == 0
    let bg_x := (x + layout.regs.scx % 256) % 256
    let bg_y := (y + layout.regs.scy % 256) % 256
    let id0 := FetchTileColor layout tile_map_base tile_data_base signed_indexing bg_x bg_y
    let wyv := layout.regs.wy % 256
    let wxv := layout.regs.wx % 256
    let id :=
      if (lcdc &&& LCDC_WINDOW_ENABLE) ≠ 0 ∧ wyv ≤ y then
        let wx := if wxv > 7 then (wxv - 7) % 256 else 0
        if x ≥ wx ∧ wxv ≤ 166 then
          let window_map_base := if (lcdc &&& LCDC_WINDOW_TILE_MAP) ≠ 0 then 0x9C00 else 0x9800
          FetchTileColor layout window_map_base tile_data_base signed_indexing
            ((x - wx) % 256) ((y - wyv) % 256)
        else id0
      else id0
    (id, PaletteColor bgp id)
  else (0, PaletteColor bgp 0)

/-- Source: the sprite loop of one pixel (mode7.hpp:230-272) over the remaining
sprites; the first sprite with a non-zero colour id decides and ends the loop. -/
def spriteScan (layout : Mode7Layout) (sprite_height x bg_color_id bg_color : Nat) :
    List SpriteCandidate → Nat
  | [] => bg_color
  | sc :: rest =>
    let screen_x : Int := (sc.x : Int) - 8
    if (x : Int) < screen_x ∨ (x : Int) ≥ screen_x + 8 then
      spriteScan layout sprite_height x bg_color_id bg_color rest
    else
      let pixel_x0 := (((x : Int) - screen_x) % 256).toNat
      let attributes := sc.attributes
      let pixel_x := if (attributes &&& 0x20) ≠ 0 then (((7 : Int) - pixel_x0) % 256).toNat
        else pixel_x0
      let tile_index :=
        if sprite_height = 16 then ((sc.tile &&& 0xFE) ||| (if sc.line ≥ 8 then 1 else 0)) % 256
        else sc.tile
      let line := if sprite_height = 16 then sc.line &&& 0x07 else sc.line
      let tile_addr := (0x8000 + tile_index * 16) % 65536
      let row_addr := (tile_addr + line * 2) % 65536
      let low := VramRead layout row_addr
      let high := VramRead layout ((row_addr + 1) % 65536)
      let bit := (((7 : Int) - pixel_x) % 256).toNat
      let color_id := ((((high >>> bit) &&& 0x01) <<< 1) ||| ((low >>> bit) &&& 0x01)) % 256
      if color_id = 0 then spriteScan layout sprite_height x bg_color_id bg_color rest
      else
        let palette := if (attributes &&& 0x10) ≠ 0 then layout.regs.obp1 % 256
          else layout.regs.obp0 % 256
        if (attributes &&& 0x80) ≠ 0 ∧ bg_color_id ≠ 0 then bg_color
        else PaletteColor palette color_id

/-- Source: the body of the scanline loop of `Mode7::RenderFrame`
(mode7.hpp:182-281). -/
def renderLine (layout : Mode7Layout) (fb : Nat → Nat) (y : Nat) : Nat → Nat :=
  let lcdc := layout.regs.lcdc % 256
  let sprite_height := if (lcdc &&& LCDC_OBJ_SIZE) ≠ 0 then 16 else 8
  let sprites :=
    if (lcdc &&& LCDC_OBJ_ENABLE) ≠ 0 then EvalSprites layout y sprite_height else []
  (List.range GB_SCREEN_WIDTH).foldl
    (fun fb x =>
      Function.update fb (y * GB_SCREEN_WIDTH + x)
        (spriteScan layout sprite_height x (bgPixel layout x y).1 (bgPixel layout x y).2
          sprites)) fb

/-- Source: `Mode7::RenderFrame` (mode7.hpp:167). -/
def RenderFrame (layout : Mode7Layout) (_ppu : PPUMemory) (fb : Nat → Nat) : Nat → Nat :=
  if ((layout.regs.lcdc % 256) &&& LCDC_ENABLE) = 0 then
    (List.range (GB_SCREEN_WIDTH * GB_SCREEN_HEIGHT)).foldl
      (fun fb i => Function.update fb i (PaletteColor (layout.regs.bgp % 256) 0)) fb
  else
    (List.range GB_SCREEN_HEIGHT).foldl (renderLine layout) fb

end Mode7

/-- The global state read by the top-level `RenderFrame`: the registers, the
mode 0 view of `VRAM`, the GBA arrays and `frame_buffer`. -/
structure PPU where
  global_Registers : PPUMemory
  vram0 : Mode0.Mode0Layout
  gba : GbaMem
  frame_buffer : Nat → Nat

/-- Source: `RenderFrame` (VirtuaPPU.hpp:11); `mode` is a `uint8_t`. -/
def RenderFrame (s : PPU) : Option (Nat → Nat) :=
  match s.global_Registers.mode % 256 with
  | 0 => Mode0.RenderFrame s.vram0 s.global_Registers s.frame_buffer
  | 1 => Mode1.RenderFrame s.global_Registers s.gba s.frame_buffer
  | 2 => Mode2.RenderFrame s.global_Registers s.gba s.frame_buffer
  | _ => some s.frame_buffer

namespace AssetProcessor

/-- Source: the body of the innermost loop of `extract_8x8_blocks`
(asset_processor.cpp:229-238) for `px = 2 * k`; `pixel_indices` holds bytes and
`tile_data` is the `uint8_t[32]` of the block. -/
def packPair (pixel_indices : Nat → Nat) (width bx by_ py : Nat) (tile_data : Nat → Nat)
    (k : Nat) : Nat → Nat :=
  let px := 2 * k
  let src_x := bx * 8 + px
  let src_y := by_ * 8 + py
  let idx1 := pixel_indices (src_y * width + src_x) % 256
  let idx2 := pixel_indices (src_y * width + src_x + 1) % 256
  let byte_index := py * 4 + px / 2
  Function.update tile_data byte_index (((idx2 <<< 4) ||| (idx1 &&& 0x0F)) % 256)

/-- Source: the loop `for (int px = 0; px < 8; px += 2)`
(asset_processor.cpp:227). -/
def packRow (pixel_indices : Nat → Nat) (width bx by_ : Nat) (tile_data : Nat → Nat)
    (py : Nat) : Nat → Nat :=
  (List.range 4).foldl (packPair pixel_indices width bx by_ py) tile_data

/-- Source: the loop `for (int py = 0; py < 8; ++py)` (asset_processor.cpp:225). -/
def packBlock (pixel_indices : Nat → Nat) (width bx by_ : Nat) (tile_data : Nat → Nat) :
    Nat → Nat :=
  (List.range 8).foldl (packRow pixel_indices width bx by_) tile_data

/-- Source: the loop over `bx` (asset_processor.cpp:221) for one block row;
`blocks` maps a block index to its `tile_data`. -/
def packBlockRow (pixel_indices : Nat → Nat) (width blocks_w : Nat)
    (blocks : Nat → Nat → Nat) (by_ : Nat) : Nat → Nat → Nat :=
  (List.range blocks_w).foldl
    (fun blocks bx =>
      Function.update blocks (by_ * blocks_w + bx)
        (packBlock pixel_indices width bx by_ (blocks (by_ * blocks_w + bx))))
    blocks

/-- Source: `extract_8x8_blocks` (asset_processor.cpp:212); the vector of
blocks starts zero-initialised. -/
def extract_8x8_blocks (pixel_indices : Nat → Nat) (width height : Nat) : Nat → Nat → Nat :=
  let blocks_w := width / 8
  let blocks_h := height / 8
  (List.range blocks_h).foldl (packBlockRow pixel_indices width blocks_w) (fun _ _ => 0)

end AssetProcessor

/-! ## Specification-level views of the sprite line -/

/-- The cell (colour word, priority) of column `x` of a line buffer pair. -/
def LineBufs.cell (b : LineBufs) (x : Nat) : Nat × Nat := (b.color x, b.pri x)

/-- What bounding-box column `sx` of a sprite offers (mode1.hpp:303-362): the
converted colour and the sprite priority when the sampled colour index is
non-zero, `none` when the column is skipped. -/
def Mode1.objColumnCand (m : GbaMem) (c : Mode1.ObjCtx) (line : Int) (obj1d : Bool)
    (sx : Nat) : Option (Nat × Nat) :=
  match Mode1.objTexCoord c line sx with
  | none => none
  | some (texX, texY) =>
    if Mode1.objColorIdx m c obj1d texX texY = 0 then none
    else some (Mode1.Rgb555ToAbgr8888 (Mode1.objRgb555 m c (Mode1.objColorIdx m c obj1d texX texY)),
      c.priority)

/-- What sprite `i` offers at screen column `x` on scanline `line`: `none` when
the sprite is hidden, does not cover the scanline, does not cover the column,
or samples colour index 0 there. -/
def Mode1.objCandidate (m : GbaMem) (line : Nat) (obj1d : Bool) (i x : Nat) :
    Option (Nat × Nat) :=
  let oa := Mode1.readOam m i
  if oa.hidden then none
  else
    match Mode1.objWidths oa.shape oa.size, Mode1.objHeights oa.shape oa.size with
    | some objW, some objH =>
      let c := Mode1.objCtx m line oa objW objH
      if (line : Int) < c.objY ∨ (line : Int) ≥ c.objY + c.boundsH then none
      else if (x : Int) < c.objX ∨ (x : Int) ≥ c.objX + c.boundsW then none
      else Mode1.objColumnCand m c line obj1d ((x : Int) - c.objX).toNat
    | _, _ => none

/-- The priority policy of mode1.hpp:354 on one cell: the candidate is dropped
only when the cell is non-empty and holds a strictly smaller priority. -/
def Mode1.mergeCell (cur : Nat × Nat) (cand : Option (Nat × Nat)) : Nat × Nat :=
  match cand with
  | none => cur
  | some (cw, p) => if cur.1 ≠ 0 ∧ cur.2 < p then cur else (cw, p)

/-- The cell after offering the candidates of sprites `n - 1, ..., 0` in that
order. -/
def Mode1.mergeDown (cand : Nat → Option (Nat × Nat)) : Nat → Nat × Nat → Nat × Nat
  | 0, cur => cur
  | n + 1, cur => Mode1.mergeDown cand n (Mode1.mergeCell cur (cand n))

/-- The folded vertical position of a sprite: the raw `y` (0..255) read as
`y - 256` from 160 on. Modelled on the specification text. -/
def Mode1.specObjY (oa : Mode1.OAMAttr) : Int :=
  if oa.yPos ≥ 160 then oa.yPos - 256 else oa.yPos

/-- The folded horizontal position of a sprite: the raw `x` (0..511) read as
`x - 512` from 240 on. Modelled on the specification text. -/
def Mode1.specObjX (oa : Mode1.OAMAttr) : Int :=
  if oa.xPos ≥ 240 then oa.xPos - 512 else oa.xPos

/-- Sprite `i` is not hidden and its bounding rectangle (the sprite size,
doubled when affine and double-size) contains column `x` of scanline `line`,
with `x` on the screen. Modelled on the specification text. -/
def Mode1.objCovers (m : GbaMem) (line i x : Nat) : Bool :=
  let oa := Mode1.readOam m i
  match Mode1.objWidths oa.shape oa.size, Mode1.objHeights oa.shape oa.size with
  | some w, some h =>
    let k : Int := if oa.affine && oa.doubleSize then 2 else 1
    !oa.hidden
      && decide (Mode1.specObjY oa ≤ (line : Int) ∧ (line : Int) < Mode1.specObjY oa + k * h)
      && decide (Mode1.specObjX oa ≤ (x : Int) ∧ (x : Int) < Mode1.specObjX oa + k * w)
      && decide (x < 240)
  | _, _ => false

/-! ## Specification-level views of the compositor -/

/-- The OBJ contributor of priority class `pri` at column `x`: the OBJ pixel
with layer id 4, when OBJ is enabled, the pixel is not transparent and its
priority is `pri`. -/
def Mode1.objPart (ly : Mode1.Layers) (dispcnt x pri : Nat) : List (Nat × Nat) :=
  if (dispcnt &&& Mode1.DISP_OBJ_ON) != 0 ∧ ly.objLayer x ≠ 0 ∧ ly.objPri x = pri then
    [(ly.objLayer x, 4)]
  else []

/-- The BG in position `k` of the BG order, as a contributor of class `pri` at
column `x`: its pixel and index when it is enabled, of that priority and not
transparent. -/
def Mode1.bgSlot (ly : Mode1.Layers) (dispcnt : Nat) (prio : Nat → Nat) (order : List Nat)
    (x pri k : Nat) : Option (Nat × Nat) :=
  if Mode1.bgEnabled dispcnt (order.getD k 0) = true ∧ prio (order.getD k 0) = pri
      ∧ ly.bgLayers (order.getD k 0) x ≠ 0 then
    some (ly.bgLayers (order.getD k 0) x, order.getD k 0)
  else none

/-- The contributors (pixel, layer id) of priority class `pri` at column `x`,
front first: the OBJ pixel, then the BGs in BG order. -/
def Mode1.classContribs (ly : Mode1.Layers) (dispcnt : Nat) (prio : Nat → Nat)
    (order : List Nat) (x pri : Nat) : List (Nat × Nat) :=
  Mode1.objPart ly dispcnt x pri
    ++ [0, 1, 2, 3].filterMap (Mode1.bgSlot ly dispcnt prio order x pri)

/-- The contributor sequence of column `x` for given BG priorities and BG
order: the classes 0, 1, 2, 3 one after the other. -/
def Mode1.contribsOf (ly : Mode1.Layers) (dispcnt : Nat) (prio : Nat → Nat)
    (order : List Nat) (x : Nat) : List (Nat × Nat) :=
  [0, 1, 2, 3].flatMap (Mode1.classContribs ly dispcnt prio order x)

/-- The contributor sequence of column `x` under the registers of `m`. -/
def Mode1.contribs (m : GbaMem) (ly : Mode1.Layers) (dispcnt x : Nat) : List (Nat × Nat) :=
  Mode1.contribsOf ly dispcnt (Mode1.bgPriority m) (Mode1.sortBgOrder (Mode1.bgPriority m)) x

/-- Offering one contributor to the search state: it becomes the top if none
was found, else the second if none was found, else it is ignored. -/
def Mode1.offer (s : Mode1.Pick) (e : Nat × Nat) : Mode1.Pick :=
  if !s.foundTop then { s with topColor := e.1, topLayerId := e.2, foundTop := true }
  else if !s.foundBot then { s with botColor := e.1, botLayerId := e.2, foundBot := true }
  else s

/-- The top and second contributor taken from the head of a contributor
sequence, the backdrop `bd` (layer 5) filling what is missing. -/
def Mode1.pickTwo (bd : Nat) : List (Nat × Nat) → Mode1.Pick
  | [] => ⟨bd, 5, bd, 5, false, false⟩
  | [t] => ⟨t.1, t.2, bd, 5, true, false⟩
  | t :: b :: _ => ⟨t.1, t.2, b.1, b.2, true, true⟩

/-- The priority class of a contributor: the OBJ pixel's priority for layer 4,
the BG's priority register otherwise. -/
def Mode1.classOf (ly : Mode1.Layers) (prio : Nat → Nat) (x : Nat) (e : Nat × Nat) : Nat :=
  if e.2 = 4 then ly.objPri x else prio e.2

/-- Contributor `a` comes before contributor `b` in sequence `l`. -/
def Mode1.before (l : List (Nat × Nat)) (a b : Nat × Nat) : Prop :=
  ∃ l1 l2 l3, l = l1 ++ a :: (l2 ++ b :: l3)

/-! ## Specification-level views of tile data -/

/-- The 4-bpp pixel decoder of the specification (section 4.2): the byte of
tile `tile` at row `py`, column pair `px / 2`, low nibble for even `px`, high
nibble for odd `px`; bytes at or beyond `0x18000` read as 0. -/
def tilePixel4 (m : GbaMem) (charBase tile px py : Nat) : Nat :=
  let addr := charBase + tile * 32 + py * 4 + px / 2
  let byte := if addr < 0x18000 then m.vramByte addr else 0
  if px % 2 = 1 then byte / 16 else byte % 16

/-- The 16-bit little-endian tilemap entry at `(row, col)` of the 32x32-tile
screen block that starts at `screenBase`. -/
def mapEntry16 (m : GbaMem) (screenBase row col : Nat) : Nat :=
  (m.vramByte (screenBase + (row * 32 + col) * 2)
    ||| (m.vramByte (screenBase + (row * 32 + col) * 2 + 1) <<< 8)) % 65536

/-- Source: the colour-index decode of `RenderTextBgLine` (mode1.hpp:208-219)
as a function of the tilemap entry `te` and of the sub-tile coordinate
`(pixX, pixY)` obtained from the scrolled source coordinate. -/
def Mode1.textBgTexel (m : GbaMem) (r : Mode1.TextBgRegs) (te : Mode1.TilemapEntry)
    (pixX pixY : Nat) : Nat :=
  let tpx := if te.hflip then 7 - pixX else pixX
  let tpy := if te.vflip then 7 - pixY else pixY
  if r.bpp8 then
    let addr := (r.charBase + te.tileIndex * 64 + tpy * 8 + tpx) % 4294967296
    if addr < 0x18000 then m.vramByte addr else 0
  else
    let addr := (r.charBase + te.tileIndex * 32 + tpy * 4 + tpx / 2) % 4294967296
    let byte := if addr < 0x18000 then m.vramByte addr else 0
    if (tpx &&& 1) ≠ 0 then (byte >>> 4) % 256 else (byte &&& 0xF) % 256

/-- What a cell with entry `te` shows at sub-tile coordinate `(pixX, pixY)`
(mode1.hpp:208-232): nothing for colour index 0, else the converted palette
colour. -/
def Mode1.textBgShown (m : GbaMem) (r : Mode1.TextBgRegs) (te : Mode1.TilemapEntry)
    (pixX pixY : Nat) : Option Nat :=
  let colorIdx := Mode1.textBgTexel m r te pixX pixY
  if colorIdx = 0 then none
  else if r.bpp8 then some (Mode1.Rgb555ToAbgr8888 (m.bgColor colorIdx))
  else some (Mode1.Rgb555ToAbgr8888 (m.bgColor (te.palette * 16 + colorIdx)))

/-- The DMG read of the specification at an unwrapped address: the VRAM byte
inside `0x8000..0x9FFF`, 0 outside. Modelled on the specification text. -/
def Mode7.specRead (layout : Mode7.Mode7Layout) (addr : Int) : Nat :=
  if 0x8000 ≤ addr ∧ addr ≤ 0x9FFF then layout.vram (addr - 0x8000).toNat % 256 else 0

/-- The DMG tile decode of the specification, with unwrapped addresses: the
index is read at `map base + (y div 8) * 32 + (x div 8)` and taken as a signed
byte under signed indexing; the row bytes are at
`data base + 16 * index + 2 * (y mod 8)` and the next address; the result is
`2 * h + l` for the bits `7 - (x mod 8)` of the high and low byte. Modelled on
the specification text. -/
def Mode7.specTileColor (layout : Mode7.Mode7Layout) (tile_map_base tile_data_base : Nat)
    (signed_indexing : Bool) (x y : Nat) : Nat :=
  let index := Mode7.specRead layout ((tile_map_base : Int) + (y / 8 : Nat) * 32 + (x / 8 : Nat))
  let id : Int := if signed_indexing ∧ index ≥ 128 then (index : Int) - 256 else (index : Int)
  let tileAddr : Int := (tile_data_base : Int) + 16 * id
  let low := Mode7.specRead layout (tileAddr + 2 * (y % 8 : Nat))
  let high := Mode7.specRead layout (tileAddr + 2 * (y % 8 : Nat) + 1)
  let bit := 7 - x % 8
  2 * (high / 2 ^ bit % 2) + low / 2 ^ bit % 2

/-- Every pixel of block `block` of layer `index`, up to the frame width, has
alpha byte `0xFF`. Modelled on the specification text. -/
def Mode0.blockOpaque (layers : Nat → Nat) (index width block : Nat) : Prop :=
  ∀ i, i < (if block * 32 + 32 ≤ width then 32 else width - block * 32) →
    layers (index * width + block * 32 + i) / 2 ^ 24 % 256 = 0xFF

/-- The GBA 4-bpp rule on the 32 bytes of one tile: byte `py * 4 + px / 2`, low
nibble for even `px`, high nibble for odd `px`. Modelled on the specification
text. -/
def decode4 (tile_data : Nat → Nat) (px py : Nat) : Nat :=
  if px % 2 = 1 then tile_data (py * 4 + px / 2) / 16 else tile_data (py * 4 + px / 2) % 16

/-- Sprite `i` qualifies for scanline `ly`: `y - 16 ≤ ly < y - 16 + h` and
`0 < x < 168`, with `y`, `x` the first two OAM bytes of the sprite. Modelled on
the specification text. -/
def Mode7.qualifies (layout : Mode7.Mode7Layout) (ly sprite_height i : Nat) : Bool :=
  decide (((layout.oam (i * 4) % 256 : Nat) : Int) - 16 ≤ (ly : Int)
      ∧ (ly : Int) < ((layout.oam (i * 4) % 256 : Nat) : Int) - 16 + (sprite_height : Int))
    && decide (0 < layout.oam (i * 4 + 1) % 256 ∧ layout.oam (i * 4 + 1) % 256 < 168)

/-- The entry recorded for a qualifying sprite `i`: its x, tile and attribute
bytes, its OAM index, and the sprite row `ly - (y - 16)` of the scanline,
mirrored to `h - 1 - row` when attribute bit `0x40` is set. Modelled on the
specification text. -/
def Mode7.candidateOf (layout : Mode7.Mode7Layout) (ly sprite_height i : Nat) :
    Mode7.SpriteCandidate :=
  { x := layout.oam (i * 4 + 1) % 256
    tile := layout.oam (i * 4 + 2) % 256
    attributes := layout.oam (i * 4 + 3) % 256
    line :=
      if (layout.oam (i * 4 + 3) % 256 &&& 0x40) ≠ 0
        then sprite_height - 1 - (ly + 16 - layout.oam (i * 4) % 256)
        else ly + 16 - layout.oam (i * 4) % 256
    index := i }

/-- The order of the specification on sprite entries: ascending by x, then by
OAM index. -/
def Mode7.before (a b : Mode7.SpriteCandidate) : Prop :=
  a.x < b.x ∨ (a.x = b.x ∧ a.index < b.index)

/-- The relation used to insert a key from the right end of the sorted part:
`b` does not sort after `a`. -/
@[reducible]
def Mode7.notAfter (a b : Mode7.SpriteCandidate) : Prop :=
  Mode7.sortsAfter b a = false

/-! ## The memory indices read by the BG renderers -/

/-- The address of the tile-pixel byte of column `x` of a text BG
(mode1.hpp:213 for 8 bpp, mode1.hpp:216 for 4 bpp). -/
def Mode1.textBgTileAddr (m : GbaMem) (r : Mode1.TextBgRegs) (line x : Nat) : Nat :=
  let pixY := ((line + r.scrollY) % (r.mapH * 8)) % 8
  let pixX := ((x + r.scrollX) % (r.mapW * 8)) % 8
  let te := Mode1.textBgEntry m r line x
  let tpx := if te.hflip then 7 - pixX else pixX
  let tpy := if te.vflip then 7 - pixY else pixY
  if r.bpp8 then (r.charBase + te.tileIndex * 64 + tpy * 8 + tpx) % 4294967296
  else (r.charBase + te.tileIndex * 32 + tpy * 4 + tpx / 2) % 4294967296

/-- The `gVram` indices read for column `x` of a text BG: the two tilemap
bytes (mode1.hpp:206) and the tile-pixel byte when its address passes the
guard `addr < 0x18000` (mode1.hpp:214, 217). -/
def Mode1.textBgVramReads (m : GbaMem) (r : Mode1.TextBgRegs) (line x : Nat) : List Nat :=
  [Mode1.textBgMapAddr r line x, Mode1.textBgMapAddr r line x + 1]
    ++ (if Mode1.textBgTileAddr m r line x < 0x18000 then [Mode1.textBgTileAddr m r line x]
        else [])

/-- The `gBgPltt` indices read for column `x` of a text BG (mode1.hpp:226, 228):
none when the colour index is 0. -/
def Mode1.textBgPlttReads (m : GbaMem) (r : Mode1.TextBgRegs) (line x : Nat) : List Nat :=
  if Mode1.textBgColorIdx m r line x = 0 then []
  else if r.bpp8 then [Mode1.textBgColorIdx m r line x]
  else [(Mode1.textBgEntry m r line x).palette * 16 + Mode1.textBgColorIdx m r line x]

/-- The address of the tilemap byte of an affine BG at source pixel
`(srcX, srcY)` (mode2.hpp:80). -/
def Mode2.affineMapAddr (r : Mode2.AffineBgRegs) (srcX srcY : Int) : Nat :=
  toU32 (r.screenBase + srcY.tdiv 8 * r.mapTiles + srcX.tdiv 8)

/-- The address of the tile-pixel byte of an affine BG at source pixel
`(srcX, srcY)` (mode2.hpp:84). -/
def Mode2.affineTileAddr (m : GbaMem) (r : Mode2.AffineBgRegs) (srcX srcY : Int) : Nat :=
  let tileIdx : Int :=
    ((if Mode2.affineMapAddr r srcX srcY < 0x18000 then m.vramByte (Mode2.affineMapAddr r srcX srcY)
      else 0 : Nat) : Int)
  toU32 (r.charBase + tileIdx * 64 + srcY.tmod 8 * 8 + srcX.tmod 8)

/-- The `gVram` indices read by one iteration of the affine column loop in
loop state `st`: none for a clipped column, else the tilemap byte and the
tile-pixel byte, each when its address passes its guard (mode2.hpp:81, 85). -/
def Mode2.affineVramReads (m : GbaMem) (r : Mode2.AffineBgRegs) (st : Mode2.AffineState) :
    List Nat :=
  match Mode2.affineSrc r (st.texX >>> 8) (st.texY >>> 8) with
  | none => []
  | some (sX, sY) =>
    (if Mode2.affineMapAddr r sX sY < 0x18000 then [Mode2.affineMapAddr r sX sY] else [])
      ++ (if Mode2.affineTileAddr m r sX sY < 0x18000 then [Mode2.affineTileAddr m r sX sY]
          else [])

/-- The `gBgPltt` indices read by one iteration of the affine column loop
(mode2.hpp:90): none for a clipped or transparent column. -/
def Mode2.affinePlttReads (m : GbaMem) (r : Mode2.AffineBgRegs) (st : Mode2.AffineState) :
    List Nat :=
  match Mode2.affineSrc r (st.texX >>> 8) (st.texY >>> 8) with
  | none => []
  | some (sX, sY) =>
    if Mode2.affineColorIdx m r sX sY = 0 then [] else [Mode2.affineColorIdx m r sX sY]

/-! ## Specification-level views of the frame -/

/-- The five layer buffers that the scanline body of `Mode1::RenderFrame`
hands to the compositor (mode1.hpp:596-615); `none` when the sprite line reads
outside the size tables. -/
def Mode1.lineLayers (m : GbaMem) (dispcnt : Nat) (obj1d : Bool) (line : Nat) :
    Option Mode1.Layers :=
  (if (dispcnt &&& Mode1.DISP_OBJ_ON) ≠ 0 then Mode1.RenderObjLine m line obj1d Mode1.objClear
   else some Mode1.objClear).map
    (fun obj => Mode1.mkLayers
      (if (dispcnt &&& Mode1.DISP_BG0_ON) ≠ 0 then Mode1.RenderTextBgLine m 0 line Mode1.bgClear
        else Mode1.bgClear)
      (if (dispcnt &&& Mode1.DISP_BG1_ON) ≠ 0 then Mode1.RenderTextBgLine m 1 line Mode1.bgClear
        else Mode1.bgClear)
      (if (dispcnt &&& Mode1.DISP_BG2_ON) ≠ 0 then Mode1.RenderTextBgLine m 2 line Mode1.bgClear
        else Mode1.bgClear)
      (if (dispcnt &&& Mode1.DISP_BG3_ON) ≠ 0 then Mode1.RenderTextBgLine m 3 line Mode1.bgClear
        else Mode1.bgClear) obj)

/-- The five layer buffers that the scanline body of `Mode2::RenderFrame`
hands to the compositor (mode2.hpp:113-133): BG0 and BG1 text, BG2 affine, the
BG3 buffer left cleared. -/
def Mode2.lineLayers (m : GbaMem) (dispcnt : Nat) (obj1d : Bool) (line : Nat) :
    Option Mode1.Layers :=
  (if (dispcnt &&& Mode1.DISP_OBJ_ON) ≠ 0 then Mode1.RenderObjLine m line obj1d Mode1.objClear
   else some Mode1.objClear).map
    (fun obj => Mode1.mkLayers
      (if (dispcnt &&& Mode1.DISP_BG0_ON) ≠ 0 then Mode1.RenderTextBgLine m 0 line Mode1.bgClear
        else Mode1.bgClear)
      (if (dispcnt &&& Mode1.DISP_BG1_ON) ≠ 0 then Mode1.RenderTextBgLine m 1 line Mode1.bgClear
        else Mode1.bgClear)
      (if (dispcnt &&& Mode1.DISP_BG2_ON) ≠ 0 then
        Mode2.RenderAffineBgLine m 2 line Mode1.bgClear else Mode1.bgClear)
      Mode1.bgClear obj)

/-- The word that `Mode1::RenderFrame` stores for column `x` of scanline
`line`, as a function of the emulated memory alone. -/
def Mode1.framePixel (m : GbaMem) (line x : Nat) : Option Nat :=
  (Mode1.lineLayers m (Mode1.IoRead16 m Mode1.IO_DISPCNT)
      ((Mode1.IoRead16 m Mode1.IO_DISPCNT &&& Mode1.DISP_OBJ_1D) != 0) line).map
    (fun ly => Mode1.compositePixel m ly (Mode1.IoRead16 m Mode1.IO_DISPCNT) x)

/-- The word that `Mode2::RenderFrame` stores for column `x` of scanline
`line`, as a function of the emulated memory alone. -/
def Mode2.framePixel (m : GbaMem) (line x : Nat) : Option Nat :=
  (Mode2.lineLayers m (Mode1.IoRead16 m Mode1.IO_DISPCNT)
      ((Mode1.IoRead16 m Mode1.IO_DISPCNT &&& Mode1.DISP_OBJ_1D) != 0) line).map
    (fun ly => Mode1.compositePixel m ly (Mode1.IoRead16 m Mode1.IO_DISPCNT) x)

/-! ## Specification-level view of the screen-block addressing -/

/-- The tilemap byte address of the specification (section on screen-block
tiling): tile `(col, row)` lies in screen block `col / 32 + (row / 32) *
(mapW / 32)`, each block holding 0x800 bytes, at entry `(row mod 32) * 32 +
(col mod 32)` of two bytes. -/
def specMapAddr (screenBase mapW col row : Nat) : Nat :=
  screenBase + 0x800 * (col / 32 + row / 32 * (mapW / 32)) + 2 * (row % 32 * 32 + col % 32)

/-! ## Specification-level view of the affine reference point -/

/-- The 28-bit two's-complement value of a register word, as the
specification states it: the low 28 bits, sign-extended from bit 27. -/
def signExtend28 (raw : Nat) : Int :=
  if raw % 2 ^ 28 ≥ 2 ^ 27 then ((raw % 2 ^ 28 : Nat) : Int) - 2 ^ 28
  else ((raw % 2 ^ 28 : Nat) : Int)

/-! ## Concrete memory images used to instantiate the theorems -/

/-- A sparse array: the listed cells hold the given values, all others zero. -/
def sparse (cells : List (Nat × Nat)) : Nat → Nat := fun a => (cells.lookup a).getD 0

/-- A GBA memory image given by the non-zero cells of each array. -/
def gbaImage (io vram bgPltt objPltt oam : List (Nat × Nat)) : GbaMem :=
  ⟨sparse io, sparse vram, sparse bgPltt, sparse objPltt, sparse oam⟩

/-- A mode 0 VRAM image whose scroll registers and line tables are zero. -/
def Mode0.zeroLayout : Mode0.Mode0Layout := ⟨fun _ => 0, fun _ => 0, fun _ _ => 0, fun _ _ => 0⟩

/-- The register image of the alpha-blend scenario: BLDCNT = 0x0241 (effect
alpha, BG0 first target, BG1 second target), BLDALPHA = 0x0808 (eva = evb = 8). -/
def alphaImage : GbaMem := gbaImage [(0x50, 0x41), (0x51, 0x02), (0x52, 8), (0x53, 8)] [] [] [] []

/-- Layer buffers of the alpha-blend scenario: BG0 opaque red, BG1 opaque green,
the other layers transparent. -/
def alphaLayers : Mode1.Layers :=
  Mode1.mkLayers ⟨fun _ => 0xFF0000FF, fun _ => 0⟩ ⟨fun _ => 0xFF00FF00, fun _ => 0⟩
    Mode1.bgClear Mode1.bgClear Mode1.objClear

/-- Two overlapping 8x8 sprites of equal priority 1 at the screen origin:
sprite 0 uses palette bank 0 (`gObjPltt[1]` red), sprite 1 palette bank 1
(`gObjPltt[17]` green); both show tile 0, whose pixel (0,0) has colour index 1.
Sprites 2..127 are hidden (attr0 = 0x0200). -/
def tieImage : GbaMem :=
  ⟨fun _ => 0, sparse [(0x10000, 0x01)], fun _ => 0, sparse [(1, 0x001F), (17, 0x03E0)],
    fun a => if a = 2 then 0x0400 else if a = 6 then 0x1400
      else if a % 4 = 0 ∧ 8 ≤ a then 0x0200 else 0⟩

/-- The single-tile scenario: DISPCNT = 0x0100 (only BG0), BG0CNT = 0x0100
(4 bpp, 32x32 map at 0x800, tile data at 0), map entry (0,0) = tile 1, tile 1
row 5 byte 1 = 0x20 (pixel (3,5) = colour index 2), backdrop `gBgPltt[0]`
blue and `gBgPltt[2]` red. -/
def tileImage : GbaMem :=
  ⟨sparse [(1, 0x01), (9, 0x01)], fun a => if a = 0x800 then 1 else if a = 53 then 0x20 else 0,
    sparse [(0, 0x7C00), (2, 0x001F)], fun _ => 0, fun _ => 0⟩

/-- A DMG image: LCDC = 0x91 (LCD on, BG on, tile data at 0x8000, map at
0x9800), SCX = SCY = 0, BGP = 0xE4, tile 0 blank, tile 1 with all pixels of
colour 3, tilemap cell (0,0) pointing to tile 1. -/
def dmgImage : Mode7.Mode7Layout :=
  ⟨fun a => if 16 ≤ a ∧ a < 32 then 0xFF else if a = 0x1800 then 1 else 0, fun _ => 0,
    ⟨0x91, 0, 0, 0xE4, 0, 0, 0, 0⟩⟩

/-- A register image with BG priorities (BG0, BG1, BG2, BG3) = (1, 1, 0, 2):
BG0CNT = 0x0001, BG1CNT = 0x0001, BG2CNT = 0x0000, BG3CNT = 0x0002. -/
def tiePrioImage : GbaMem := gbaImage [(0x08, 1), (0x0A, 1), (0x0C, 0), (0x0E, 2)] [] [] [] []

/-- The register image `tiePrioImage` with BG0's priority raised from 1 to 3:
BG0CNT = 0x0003, BG1CNT = 0x0001, BG2CNT = 0x0000, BG3CNT = 0x0002. -/
def raisedPrioImage : GbaMem := gbaImage [(0x08, 3), (0x0A, 1), (0x0C, 0), (0x0E, 2)] [] [] [] []

/-- The single-tile image with BG0HOFS = 0x0100 and BG0VOFS = 0x0100: one full
map width and one full map height of scroll on the 32x32-tile map. -/
def scrolledTileImage : GbaMem :=
  { tileImage with gIoMem := sparse [(1, 0x01), (9, 0x01), (0x11, 0x01), (0x13, 0x01)] }

/-- An 8-bpp text BG whose tile-pixel address leaves VRAM: BG0CNT = 0x008C
(8 bpp, character base 0xC000, screen base 0), map entry (0,0) = tile 1023. -/
def farTileImage : GbaMem :=
  gbaImage [(0x08, 0x8C)] [(0, 0xFF), (1, 0x03)] [] [] []

/-- One memory holding an identity affine BG2 and the equivalent text BG0:
BG0CNT = 0x0180 (8 bpp, 32x32 map at 0x800, tile data at 0, priority 0),
BG2CNT = 0x4200 (256x256 affine map at 0x1000, tile data at 0, priority 0),
PA = PD = 0x0100, PB = PC = 0, reference point (0,0), zero scroll; both maps
name tile 1 at cell (0,0) and tile 0 elsewhere; pixel (0,0) of tile 1 has
colour index 5 and `gBgPltt[5]` is red. -/
def affineIdImage : GbaMem :=
  gbaImage [(0x08, 0x80), (0x09, 0x01), (0x0D, 0x42), (0x21, 0x01), (0x27, 0x01)]
    [(64, 5), (0x800, 1), (0x1000, 1)] [(5, 0x001F)] [] []

/-- A mode 2 image with BG0 and BG1 enabled (DISPCNT = 0x0300), both of
priority 1 and both showing tile 1 at map cell (0,0): BG0CNT = 0x0101 (map at
0x800, palette bank 0, `gBgPltt[1]` red), BG1CNT = 0x0201 (map at 0x1000,
palette bank 1, `gBgPltt[17]` green), BG2CNT = 0x0001; pixel (0,0) of tile 1
has colour index 1. BG3CNT = 0x0000: BG3 has priority 0. -/
def bg3LowImage : GbaMem :=
  gbaImage [(0x01, 0x03), (0x08, 0x01), (0x09, 0x01), (0x0A, 0x01), (0x0B, 0x02), (0x0C, 0x01)]
    [(32, 0x01), (0x800, 0x01), (0x1000, 0x01), (0x1001, 0x10)]
    [(1, 0x001F), (17, 0x03E0)] [] []

/-- The image `bg3LowImage` with the low byte of BG3CNT set to 3: BG3 has
priority 3; nothing else differs. -/
def bg3HighImage : GbaMem :=
  { bg3LowImage with gIoMem := Function.update bg3LowImage.gIoMem 0x0E 3 }

/-- An I/O image whose only non-zero byte is `gIoMem[0] = 1`. -/
def ioWrapImage : GbaMem := gbaImage [(0, 1)] [] [] [] []

/-- An image with OBJ enabled (DISPCNT = 0x1000) whose sprite 0 has
attr0 = 0xC000: shape field 3, not affine, not hidden. Sprites 1..127 are
hidden (attr0 = 0x0200). -/
def shape3Image : GbaMem :=
  ⟨sparse [(1, 0x10)], fun _ => 0, fun _ => 0, fun _ => 0,
    fun a => if a = 0 then 0xC000 else if a % 4 = 0 then 0x0200 else 0⟩

/-- A register image whose BG2X word is 0x10000000: bit 28 set, bits 0..27
clear. -/
def refHighImage : GbaMem := gbaImage [(0x2B, 0x10)] [] [] [] []

/-- A mode 0 frame of width 2080 (65 blocks of 32 pixels). -/
def wideFrame : PPUMemory := ⟨2080, 0⟩

/-- A layer buffer in which every pixel is black with alpha `0xFF`, and an
empty opaque mask. -/
def solidState : Mode0.BgState := ⟨0, fun _ => 0xFF000000⟩

/-- An 8x8 indexed image whose pixel `i` has index `i mod 16`. -/
def rampPixels : Nat → Nat := fun i => i % 16

/-- An OAM image whose sprite 0 is affine (attr0 = 0x0100), 8x8 at (0, 0),
tile 0, with the identity matrix in affine group 0 (pa = pd = 0x100,
pb = pc = 0); tile 0 row 0 begins with the colour indices 1 and 2. -/
def affineSpriteImage : GbaMem :=
  gbaImage [] [(0x10000, 0x21)] [] [(1, 0x001F), (2, 0x03E0)]
    [(0, 0x0100), (3, 0x0100), (15, 0x0100)]

/-- The image `affineSpriteImage` with sprite 0 made a plain, unflipped sprite
(attr0 = 0). -/
def plainSpriteImage : GbaMem :=
  gbaImage [] [(0x10000, 0x21)] [] [(1, 0x001F), (2, 0x03E0)] []

/-- A DMG OAM image with three sprites on scanline 0: sprite 0 at x = 20,
sprite 1 at x = 10 and sprite 2 at x = 10 (all with y = 16); the other
sprites have y = 0 and x = 0. -/
def dmgSprites : Mode7.Mode7Layout :=
  ⟨fun _ => 0, sparse [(0, 16), (1, 20), (4, 16), (5, 10), (8, 16), (9, 10)],
    ⟨0x93, 0, 0, 0xE4, 0xE4, 0xE4, 0, 0⟩⟩

/-! ## Bit-level lemmas -/

theorem and_31 (x : Nat) : x &&& 31 = x % 32 := Nat.and_pow_two_sub_one_eq_mod x 5

theorem and_255 (x : Nat) : x &&& 255 = x % 256 := Nat.and_pow_two_sub_one_eq_mod x 8

theorem and_7 (x : Nat) : x &&& 7 = x % 8 := Nat.and_pow_two_sub_one_eq_mod x 3

theorem and_3 (x : Nat) : x &&& 3 = x % 4 := Nat.and_pow_two_sub_one_eq_mod x 2

theorem and_15 (x : Nat) : x &&& 15 = x % 16 := Nat.and_pow_two_sub_one_eq_mod x 4

/-- Packing three bytes under an opaque alpha byte is a sum. -/
theorem pack_abgr (b g r : Nat) (hb : b < 256) (hg : g < 256) (hr : r < 256) :
    0xFF000000 ||| (b <<< 16) ||| (g <<< 8) ||| r = 0xFF000000 + b * 65536 + g * 256 + r := by
  have h1 : 2 ^ 8 * g + r = 2 ^ 8 * g ||| r := Nat.mul_add_lt_is_or (by omega) g
  have h2 : 2 ^ 16 * b + (2 ^ 8 * g + r) = 2 ^ 16 * b ||| (2 ^ 8 * g + r) :=
    Nat.mul_add_lt_is_or (by omega) b
  have h3 : 2 ^ 24 * 255 + (2 ^ 16 * b + (2 ^ 8 * g + r))
      = 2 ^ 24 * 255 ||| (2 ^ 16 * b + (2 ^ 8 * g + r)) :=
    Nat.mul_add_lt_is_or (by omega) 255
  rw [Nat.or_assoc, Nat.or_assoc, Nat.shiftLeft_eq, Nat.shiftLeft_eq]
  rw [Nat.mul_comm b, Nat.mul_comm g, ← h1, ← h2]
  have h4 : (0xFF000000 : Nat) = 2 ^ 24 * 255 := by norm_num
  rw [h4, ← h3]
  omega

/-- The converted colour as a sum of its four bytes. -/
theorem Rgb555ToAbgr8888_eq_sum (c : Nat) :
    Mode1.Rgb555ToAbgr8888 c
      = 0xFF000000 + (c / 1024 % 32 * 8) * 65536 + (c / 32 % 32 * 8) * 256 + c % 32 * 8 := by
  unfold Mode1.Rgb555ToAbgr8888
  simp only [and_31, Nat.shiftRight_eq_div_pow]
  have e1 : ((c % 32) <<< 3) % 256 = c % 32 * 8 := by
    rw [Nat.shiftLeft_eq]; omega
  have e2 : ((c / 2 ^ 5 % 32) <<< 3) % 256 = c / 32 % 32 * 8 := by
    rw [Nat.shiftLeft_eq]; norm_num; omega
  have e3 : ((c / 2 ^ 10 % 32) <<< 3) % 256 = c / 1024 % 32 * 8 := by
    rw [Nat.shiftLeft_eq]; norm_num; omega
  rw [e1, e2, e3, pack_abgr _ _ _ (by omega) (by omega) (by omega)]
  omega

/-- A converted colour is never the transparent word `0`. -/
theorem Rgb555ToAbgr8888_ne_zero (c : Nat) : Mode1.Rgb555ToAbgr8888 c ≠ 0 := by
  rw [Rgb555ToAbgr8888_eq_sum]; omega

/-! ## Colour conversion -/

/-- C1: for every 16-bit value `c` (indeed every natural number),
`Rgb555ToAbgr8888 c` is `0xFF000000 | (B<<16) | (G<<8) | R` with
`R = (c & 31)<<3`, `G = ((c>>5) & 31)<<3`, `B = ((c>>10) & 31)<<3`; the alpha
byte is `0xFF`, the high five bits of each colour byte are the corresponding
five bits of `c`, its low three bits are zero, and bit 15 of `c` has no
effect (the result only depends on `c % 2^15`). -/
theorem Rgb555ToAbgr8888_channels (c : Nat) :
    Mode1.Rgb555ToAbgr8888 c
        = 0xFF000000 ||| ((((c >>> 10) &&& 31) <<< 3) <<< 16)
            ||| ((((c >>> 5) &&& 31) <<< 3) <<< 8) ||| ((c &&& 31) <<< 3)
    ∧ (Mode1.Rgb555ToAbgr8888 c >>> 24) &&& 0xFF = 0xFF
    ∧ Mode1.Rgb555ToAbgr8888 c < 4294967296
    ∧ ((Mode1.Rgb555ToAbgr8888 c >>> 0) &&& 0xFF) >>> 3 = c &&& 31
    ∧ ((Mode1.Rgb555ToAbgr8888 c >>> 0) &&& 0xFF) &&& 7 = 0
    ∧ ((Mode1.Rgb555ToAbgr8888 c >>> 8) &&& 0xFF) >>> 3 = (c >>> 5) &&& 31
    ∧ ((Mode1.Rgb555ToAbgr8888 c >>> 8) &&& 0xFF) &&& 7 = 0
    ∧ ((Mode1.Rgb555ToAbgr8888 c >>> 16) &&& 0xFF) >>> 3 = (c >>> 10) &&& 31
    ∧ ((Mode1.Rgb555ToAbgr8888 c >>> 16) &&& 0xFF) &&& 7 = 0
    ∧ Mode1.Rgb555ToAbgr8888 (c % 32768) = Mode1.Rgb555ToAbgr8888 c
    ∧ Mode1.Rgb555ToAbgr8888 (c % 32768 + 32768) = Mode1.Rgb555ToAbgr8888 c := by
  have hs := Rgb555ToAbgr8888_eq_sum c
  have key : ∀ b g r v : Nat, b < 32 → g < 32 → r < 32 →
      v = 0xFF000000 + (b * 8) * 65536 + (g * 8) * 256 + r * 8 →
      v / 16777216 % 256 = 255 ∧ v < 4294967296 ∧ v / 1 % 256 / 8 = r ∧ v / 1 % 256 % 8 = 0
        ∧ v / 256 % 256 / 8 = g ∧ v / 256 % 256 % 8 = 0
        ∧ v / 65536 % 256 / 8 = b ∧ v / 65536 % 256 % 8 = 0 := by
    intro b g r v hb hg hr hv
    omega
  obtain ⟨k1, k2, k3, k4, k5, k6, k7, k8⟩ :=
    key (c / 1024 % 32) (c / 32 % 32) (c % 32) _ (Nat.mod_lt _ (by norm_num))
      (Nat.mod_lt _ (by norm_num)) (Nat.mod_lt _ (by norm_num)) hs
  have e5 : c / 2 ^ 5 = c / 32 := by norm_num
  have e10 : c / 2 ^ 10 = c / 1024 := by norm_num
  have e8 : ∀ v : Nat, v / 2 ^ 8 = v / 256 := by intro v; norm_num
  have e16 : ∀ v : Nat, v / 2 ^ 16 = v / 65536 := by intro v; norm_num
  have e24 : ∀ v : Nat, v / 2 ^ 24 = v / 16777216 := by intro v; norm_num
  have e0 : ∀ v : Nat, v / 2 ^ 0 = v / 1 := by intro v; norm_num
  have e3 : ∀ v : Nat, v / 2 ^ 3 = v / 8 := by intro v; norm_num
  have b1 : Mode1.Rgb555ToAbgr8888 (c % 32768) = Mode1.Rgb555ToAbgr8888 c := by
    rw [Rgb555ToAbgr8888_eq_sum (c % 32768), hs]; clear hs k1 k2 k3 k4 k5 k6 k7 k8; omega
  have b2 : Mode1.Rgb555ToAbgr8888 (c % 32768 + 32768) = Mode1.Rgb555ToAbgr8888 c := by
    rw [Rgb555ToAbgr8888_eq_sum (c % 32768 + 32768), hs]
    clear hs k1 k2 k3 k4 k5 k6 k7 k8; omega
  refine ⟨?_, ?_, k2, ?_, ?_, ?_, ?_, ?_, ?_, b1, b2⟩
  · rw [hs]
    simp only [and_31, Nat.shiftRight_eq_div_pow]
    rw [pack_abgr _ _ _ (by rw [Nat.shiftLeft_eq]; omega) (by rw [Nat.shiftLeft_eq]; omega)
      (by rw [Nat.shiftLeft_eq]; omega)]
    simp only [Nat.shiftLeft_eq, e5, e10]
  · simp only [and_255, Nat.shiftRight_eq_div_pow, e24]; exact k1
  · simp only [and_31, and_255, Nat.shiftRight_eq_div_pow, e0, e3]; exact k3
  · simp only [and_7, and_255, Nat.shiftRight_eq_div_pow, e0]; exact k4
  · simp only [and_31, and_255, Nat.shiftRight_eq_div_pow, e8, e3, e5]; exact k5
  · simp only [and_7, and_255, Nat.shiftRight_eq_div_pow, e8]; exact k6
  · simp only [and_31, and_255, Nat.shiftRight_eq_div_pow, e16, e3, e10]; exact k7
  · simp only [and_7, and_255, Nat.shiftRight_eq_div_pow, e16]; exact k8

/-! ## Loops that store one row, then one frame -/

/-- A single-bit mask tests that bit. -/
theorem and_two_pow_ne_zero (x i : Nat) : x &&& 2 ^ i ≠ 0 ↔ x.testBit i = true := by
  constructor
  · intro h
    by_contra hb
    apply h
    apply Nat.eq_of_testBit_eq
    intro j
    rw [Nat.testBit_and, Nat.testBit_two_pow, Nat.zero_testBit]
    by_cases hij : i = j
    · subst hij; simp [hb]
    · simp [hij]
  · intro hb h
    have h2 : (x &&& 2 ^ i).testBit i = true := by
      rw [Nat.testBit_and, Nat.testBit_two_pow, hb]; simp
    rw [h, Nat.zero_testBit] at h2
    exact Bool.noConfusion h2

/-- A column loop storing `f x` at `base + x` for `x < n`. -/
theorem foldl_store_range (f : Nat → Nat) (base n : Nat) (fb : Nat → Nat) (i : Nat) :
    ((List.range n).foldl (fun fb x => Function.update fb (base + x) (f x)) fb) i
      = if base ≤ i ∧ i < base + n then f (i - base) else fb i := by
  induction n with
  | zero =>
    have : ¬ (base ≤ i ∧ i < base + 0) := by omega
    simp only [List.range_zero, List.foldl_nil]
    rw [if_neg this]
  | succ n ih =>
    rw [List.range_succ, List.foldl_append]
    simp only [List.foldl_cons, List.foldl_nil]
    by_cases h : i = base + n
    · subst h
      have : base ≤ base + n ∧ base + n < base + (n + 1) := by omega
      simp [this]
    · rw [Function.update_noteq h, ih]
      by_cases h2 : base ≤ i ∧ i < base + n
      · have : base ≤ i ∧ i < base + (n + 1) := by omega
        simp [h2, this]
      · have : ¬ (base ≤ i ∧ i < base + (n + 1)) := by omega
        simp [h2, this]

/-- The row stored by `CompositeLineMode0`. -/
theorem CompositeLineMode0_apply (m : GbaMem) (line : Nat) (ly : Mode1.Layers)
    (dispcnt : Nat) (fb : Nat → Nat) (i : Nat) :
    Mode1.CompositeLineMode0 m line ly dispcnt fb i
      = if line * 240 ≤ i ∧ i < line * 240 + 240
          then Mode1.compositePixel m ly dispcnt (i - line * 240) else fb i := by
  unfold Mode1.CompositeLineMode0 Mode1.GBA_WIDTH
  exact foldl_store_range _ _ _ _ _

/-- A scanline loop whose body stores row `line` of a 240-pixel-wide image. -/
theorem lineLoop_rows (body : (Nat → Nat) → Nat → Option (Nat → Nat))
    (pix : Nat → Nat → Nat) (n : Nat)
    (hbody : ∀ fb line, line < n → body fb line = some (fun i =>
      if line * 240 ≤ i ∧ i < line * 240 + 240 then pix line (i - line * 240) else fb i))
    (fb : Nat → Nat) :
    Mode1.lineLoop body n fb
      = some (fun i => if i < n * 240 then pix (i / 240) (i % 240) else fb i) := by
  unfold Mode1.lineLoop
  induction n with
  | zero =>
    simp only [List.range_zero, List.foldlM_nil]
    congr 1
  | succ n ih =>
    rw [List.range_succ, List.foldlM_append, ih (fun fb line hl => hbody fb line (by omega))]
    simp only [List.foldlM_cons, List.foldlM_nil, Option.some_bind, Option.bind_eq_bind]
    rw [hbody _ n (by omega)]
    simp only [Option.some_bind, Option.pure_def]
    congr 1
    funext i
    by_cases h1 : n * 240 ≤ i ∧ i < n * 240 + 240
    · have h2 : i < (n + 1) * 240 := by omega
      have h3 : i / 240 = n := by omega
      have h4 : i % 240 = i - n * 240 := by omega
      rw [if_pos h1, if_pos h2, h3, h4]
    · rw [if_neg h1]
      by_cases h5 : i < n * 240
      · have h2 : i < (n + 1) * 240 := by omega
        rw [if_pos h5, if_pos h2]
      · have h2 : ¬ i < (n + 1) * 240 := by omega
        rw [if_neg h5, if_neg h2]

/-- Masking with a sub-mask of a mask that already gives zero gives zero. -/
theorem and_eq_zero_of_sub (x a b : Nat) (h : x &&& a = 0) (hab : a &&& b = b) :
    x &&& b = 0 := by
  rw [← hab, ← Nat.and_assoc, h, Nat.zero_and]

/-! ## Forced blank (modes 1 and 2) -/

/-- The forced-blank test `dispcnt & DISP_FORCED_BLANK` reads bit 7. -/
theorem forced_blank_test (d : Nat) : (d &&& Mode1.DISP_FORCED_BLANK) ≠ 0 ↔ d.testBit 7 = true :=
  and_two_pow_ne_zero d 7

/-- Both GBA frame renders under forced blank. -/
theorem forced_blank_frames (ppu : PPUMemory) (m : GbaMem) (fb : Nat → Nat)
    (h : (Mode1.IoRead16 m Mode1.IO_DISPCNT).testBit 7 = true) :
    ∃ fb1, Mode1.RenderFrame ppu m fb = some fb1 ∧ Mode2.RenderFrame ppu m fb = some fb1
      ∧ (∀ i, i < 240 * 160 → fb1 i = 0xFFFFFFFF) ∧ (∀ i, 240 * 160 ≤ i → fb1 i = fb i) := by
  have hb := (forced_blank_test _).mpr h
  refine ⟨Mode1.forcedBlank fb, ?_, ?_, ?_, ?_⟩
  · unfold Mode1.RenderFrame
    simp only [hb, ne_eq, not_false_eq_true, if_true]
  · unfold Mode2.RenderFrame
    simp only [hb, ne_eq, not_false_eq_true, if_true]
  · intro i hi
    unfold Mode1.forcedBlank Mode1.GBA_WIDTH Mode1.GBA_HEIGHT
    rw [if_pos hi]
  · intro i hi
    unfold Mode1.forcedBlank Mode1.GBA_WIDTH Mode1.GBA_HEIGHT
    rw [if_neg (by omega)]

/-- C3: in the mode 1 and mode 2 pipelines, when bit 7 of DISPCNT (forced
blank) is set, `RenderFrame` returns the framebuffer in which every word of
index `0..38399` is `0xFFFFFFFF` and every other word is unchanged, whatever
the other registers, VRAM, palettes and OAM contain. -/
theorem RenderFrame_forced_blank (ppu : PPUMemory) (m : GbaMem) (fb : Nat → Nat)
    (h : (Mode1.IoRead16 m Mode1.IO_DISPCNT).testBit 7 = true) :
    ∃ fb1, Mode1.RenderFrame ppu m fb = some fb1 ∧ Mode2.RenderFrame ppu m fb = some fb1
      ∧ (∀ i, i < 240 * 160 → fb1 i = 0xFFFFFFFF) ∧ (∀ i, 240 * 160 ≤ i → fb1 i = fb i) :=
  forced_blank_frames ppu m fb h

/-- C3 at DISPCNT = 0x0080 over otherwise zeroed memory. -/
theorem RenderFrame_forced_blank_witness :
    (Mode1.IoRead16 (gbaImage [(0, 0x80)] [] [] [] []) Mode1.IO_DISPCNT).testBit 7 = true
    ∧ ∃ fb1, Mode1.RenderFrame ⟨240, 1⟩ (gbaImage [(0, 0x80)] [] [] [] []) (fun _ => 0) = some fb1
      ∧ Mode2.RenderFrame ⟨240, 1⟩ (gbaImage [(0, 0x80)] [] [] [] []) (fun _ => 0) = some fb1
      ∧ (∀ i, i < 240 * 160 → fb1 i = 0xFFFFFFFF)
      ∧ (∀ i, 240 * 160 ≤ i → fb1 i = (fun _ => 0) i) :=
  ⟨by decide, RenderFrame_forced_blank _ _ _ (by decide)⟩

/-! ## The compositor on a column without contributors -/

/-- The BG loop leaves the search state alone when every BG is disabled or
transparent at the column. -/
theorem bgScan_skip (ly : Mode1.Layers) (dispcnt : Nat) (prio : Nat → Nat) (order : List Nat)
    (x pri : Nat) (h : ∀ bg, Mode1.bgEnabled dispcnt bg = false ∨ ly.bgLayers bg x = 0)
    (ks : List Nat) (s : Mode1.Pick) :
    Mode1.bgScan ly dispcnt prio order x pri ks s = s := by
  induction ks with
  | nil => rfl
  | cons k ks ih =>
    unfold Mode1.bgScan
    generalize order.getD k 0 = bg
    rcases h bg with h1 | h1
    · simp [h1, ih]
    · simp [h1, ih]

/-- The OBJ test leaves the search state alone when OBJ is disabled or
transparent at the column. -/
theorem objOffer_skip (ly : Mode1.Layers) (dispcnt x pri : Nat)
    (h : (dispcnt &&& Mode1.DISP_OBJ_ON) = 0 ∨ ly.objLayer x = 0) (s : Mode1.Pick) :
    Mode1.objOffer ly dispcnt x pri s = s := by
  unfold Mode1.objOffer
  rcases h with h1 | h1
  · simp [h1]
  · simp [h1]

/-- The priority loop leaves the search state alone on such a column. -/
theorem priScan_skip (ly : Mode1.Layers) (dispcnt : Nat) (prio : Nat → Nat) (order : List Nat)
    (x : Nat) (hbg : ∀ bg, Mode1.bgEnabled dispcnt bg = false ∨ ly.bgLayers bg x = 0)
    (hobj : (dispcnt &&& Mode1.DISP_OBJ_ON) = 0 ∨ ly.objLayer x = 0)
    (ps : List Nat) (s : Mode1.Pick) :
    Mode1.priScan ly dispcnt prio order x ps s = s := by
  induction ps with
  | nil => rfl
  | cons p ps ih =>
    unfold Mode1.priScan
    rw [objOffer_skip ly dispcnt x p hobj, bgScan_skip ly dispcnt prio order x p hbg, ih]
    simp

/-- Enable bits of BG indices outside `0..3` read as off. -/
theorem bgEnabled_all (ly : Mode1.Layers) (dispcnt x : Nat)
    (h : ∀ bg, bg < 4 → Mode1.bgEnabled dispcnt bg = false ∨ ly.bgLayers bg x = 0) :
    ∀ bg, Mode1.bgEnabled dispcnt bg = false ∨ ly.bgLayers bg x = 0 := by
  intro bg
  by_cases hb : bg < 4
  · exact h bg hb
  · left
    match bg, hb with
    | 0, hb => omega
    | 1, hb => omega
    | 2, hb => omega
    | 3, hb => omega
    | _ + 4, _ => rfl

/-- On a column without contributors the search returns its initial state. -/
theorem findTopBot_backdrop (m : GbaMem) (ly : Mode1.Layers) (dispcnt x : Nat)
    (hbg : ∀ bg, bg < 4 → Mode1.bgEnabled dispcnt bg = false ∨ ly.bgLayers bg x = 0)
    (hobj : (dispcnt &&& Mode1.DISP_OBJ_ON) = 0 ∨ ly.objLayer x = 0) :
    Mode1.findTopBot m ly dispcnt x
      = ⟨Mode1.Rgb555ToAbgr8888 (m.bgColor 0), 5, Mode1.Rgb555ToAbgr8888 (m.bgColor 0), 5,
          false, false⟩ := by
  unfold Mode1.findTopBot
  exact priScan_skip ly dispcnt _ _ x (bgEnabled_all ly dispcnt x hbg) hobj _ _

/-- Without a blend effect the top pixel is emitted unchanged. -/
theorem applyBlend_none (b : Mode1.BlendRegs) (s : Mode1.Pick) (h : b.effect = 0) :
    Mode1.applyBlend b s = s.topColor := by
  unfold Mode1.applyBlend
  rw [h]

/-- The cleared layer buffers are transparent everywhere. -/
theorem mkLayers_clear_bg (bg x : Nat) :
    (Mode1.mkLayers Mode1.bgClear Mode1.bgClear Mode1.bgClear Mode1.bgClear
      Mode1.objClear).bgLayers bg x = 0 := by
  unfold Mode1.mkLayers Mode1.bgClear
  match bg with
  | 0 => rfl
  | 1 => rfl
  | 2 => rfl
  | _ + 3 => rfl

/-- The scanline body of mode 1 when no layer is enabled. -/
theorem renderLine_all_off (m : GbaMem) (dispcnt : Nat) (obj1d : Bool) (fb : Nat → Nat)
    (line : Nat) (hd : dispcnt &&& 0x1F80 = 0) :
    Mode1.renderLine m dispcnt obj1d fb line
      = some (Mode1.CompositeLineMode0 m line
          (Mode1.mkLayers Mode1.bgClear Mode1.bgClear Mode1.bgClear Mode1.bgClear Mode1.objClear)
          dispcnt fb) := by
  have h0 : dispcnt &&& Mode1.DISP_BG0_ON = 0 := and_eq_zero_of_sub _ _ _ hd (by decide)
  have h1 : dispcnt &&& Mode1.DISP_BG1_ON = 0 := and_eq_zero_of_sub _ _ _ hd (by decide)
  have h2 : dispcnt &&& Mode1.DISP_BG2_ON = 0 := and_eq_zero_of_sub _ _ _ hd (by decide)
  have h3 : dispcnt &&& Mode1.DISP_BG3_ON = 0 := and_eq_zero_of_sub _ _ _ hd (by decide)
  have h4 : dispcnt &&& Mode1.DISP_OBJ_ON = 0 := and_eq_zero_of_sub _ _ _ hd (by decide)
  unfold Mode1.renderLine
  simp only [h0, h1, h2, h3, h4, ne_eq, not_true_eq_false, if_false, Option.map_some']

/-! ## Transparency preservation -/

/-- C2: in `CompositeLineMode0`, at a column `x` where every BG layer is
disabled or holds 0 and the OBJ layer is disabled or holds 0, the word stored
at `frame_buffer[line * 240 + x]` is the colour math applied to the backdrop
`Rgb555ToAbgr8888(gBgPltt[0])` as both top and second contributor (layer 5);
when the blend effect is none it is the backdrop itself. In particular, when
DISPCNT has bits 7..12 clear (e.g. DISPCNT = 0) and the blend effect is none,
`Mode1::RenderFrame` stores the backdrop at every pixel of the 240x160
output, which is `0xFF000000` when `gBgPltt[0] = 0`. -/
theorem composite_transparent_column (m : GbaMem) (line dispcnt x : Nat) (ly : Mode1.Layers)
    (fb : Nat → Nat) (hx : x < 240)
    (hbg : ∀ bg, bg < 4 → Mode1.bgEnabled dispcnt bg = false ∨ ly.bgLayers bg x = 0)
    (hobj : (dispcnt &&& Mode1.DISP_OBJ_ON) = 0 ∨ ly.objLayer x = 0) :
    Mode1.CompositeLineMode0 m line ly dispcnt fb (line * 240 + x)
        = Mode1.applyBlend (Mode1.blendRegs m)
            ⟨Mode1.Rgb555ToAbgr8888 (m.bgColor 0), 5, Mode1.Rgb555ToAbgr8888 (m.bgColor 0), 5,
              false, false⟩
    ∧ ((Mode1.blendRegs m).effect = 0 →
        Mode1.CompositeLineMode0 m line ly dispcnt fb (line * 240 + x)
          = Mode1.Rgb555ToAbgr8888 (m.bgColor 0))
    ∧ (Mode1.IoRead16 m Mode1.IO_DISPCNT &&& 0x1F80 = 0 → (Mode1.blendRegs m).effect = 0 →
        ∀ (ppu : PPUMemory) (fb0 : Nat → Nat), ∃ fb1, Mode1.RenderFrame ppu m fb0 = some fb1
          ∧ ∀ l c, l < 160 → c < 240 → fb1 (l * 240 + c) = Mode1.Rgb555ToAbgr8888 (m.bgColor 0))
    ∧ (m.bgColor 0 = 0 → Mode1.Rgb555ToAbgr8888 (m.bgColor 0) = 0xFF000000) := by
  have hpix : Mode1.CompositeLineMode0 m line ly dispcnt fb (line * 240 + x)
      = Mode1.applyBlend (Mode1.blendRegs m)
          ⟨Mode1.Rgb555ToAbgr8888 (m.bgColor 0), 5, Mode1.Rgb555ToAbgr8888 (m.bgColor 0), 5,
            false, false⟩ := by
    rw [CompositeLineMode0_apply, if_pos (by omega)]
    have hsub : line * 240 + x - line * 240 = x := by omega
    rw [hsub]
    unfold Mode1.compositePixel
    rw [findTopBot_backdrop m ly dispcnt x hbg hobj]
  refine ⟨hpix, ?_, ?_, ?_⟩
  · intro he
    rw [hpix, applyBlend_none _ _ he]
  · intro hd he ppu fb0
    have hfb : Mode1.IoRead16 m Mode1.IO_DISPCNT &&& Mode1.DISP_FORCED_BLANK = 0 :=
      and_eq_zero_of_sub _ _ _ hd (by decide)
    have hobj0 : Mode1.IoRead16 m Mode1.IO_DISPCNT &&& Mode1.DISP_OBJ_ON = 0 :=
      and_eq_zero_of_sub _ _ _ hd (by decide)
    have hloop := lineLoop_rows
      (Mode1.renderLine m (Mode1.IoRead16 m Mode1.IO_DISPCNT)
        (Mode1.IoRead16 m Mode1.IO_DISPCNT &&& Mode1.DISP_OBJ_1D != 0))
      (fun _ c => Mode1.compositePixel m
        (Mode1.mkLayers Mode1.bgClear Mode1.bgClear Mode1.bgClear Mode1.bgClear Mode1.objClear)
        (Mode1.IoRead16 m Mode1.IO_DISPCNT) c) 160
      (by
        intro fb2 l _
        rw [renderLine_all_off m _ _ fb2 l hd]
        congr 1
        funext i
        exact CompositeLineMode0_apply m l _ _ fb2 i) fb0
    have hrf : Mode1.RenderFrame ppu m fb0 = some (fun i => if i < 160 * 240 then
        (fun (_ : Nat) c => Mode1.compositePixel m
          (Mode1.mkLayers Mode1.bgClear Mode1.bgClear Mode1.bgClear Mode1.bgClear Mode1.objClear)
          (Mode1.IoRead16 m Mode1.IO_DISPCNT) c) (i / 240) (i % 240) else fb0 i) := by
      unfold Mode1.RenderFrame
      simp only [hfb, ne_eq, not_true_eq_false, if_false]
      exact hloop
    refine ⟨_, hrf, ?_⟩
    intro l c hl hc
    have h1 : l * 240 + c < 160 * 240 := by omega
    have h2 : (l * 240 + c) % 240 = c := by omega
    simp only [h1, if_true, h2]
    unfold Mode1.compositePixel
    rw [findTopBot_backdrop m _ _ c (fun bg _ => Or.inr (mkLayers_clear_bg bg c))
      (Or.inl hobj0), applyBlend_none _ _ he]
  · intro h0
    rw [h0]
    decide

/-- C2 on zeroed memory (DISPCNT = 0, no blend effect, black backdrop). -/
theorem composite_transparent_column_witness :
    Mode1.CompositeLineMode0 (gbaImage [] [] [] [] []) 0
        (Mode1.mkLayers Mode1.bgClear Mode1.bgClear Mode1.bgClear Mode1.bgClear Mode1.objClear)
        0 (fun _ => 0) (0 * 240 + 0) = 0xFF000000
    ∧ ∃ fb1, Mode1.RenderFrame ⟨240, 1⟩ (gbaImage [] [] [] [] []) (fun _ => 0) = some fb1
        ∧ ∀ l c, l < 160 → c < 240 → fb1 (l * 240 + c) = 0xFF000000 :=
  have h := composite_transparent_column (gbaImage [] [] [] [] []) 0 0 0
    (Mode1.mkLayers Mode1.bgClear Mode1.bgClear Mode1.bgClear Mode1.bgClear Mode1.objClear)
    (fun _ => 0) (by decide) (fun bg _ => Or.inr (mkLayers_clear_bg bg 0)) (Or.inl (by decide))
  ⟨(h.2.1 (by decide)).trans (h.2.2.2 (by decide)),
    (h.2.2.1 (by decide) (by decide) ⟨240, 1⟩ (fun _ => 0))⟩

/-! ## Mode 0: the frame render as it stands -/

/-- The `GetBg32px` of mode 0 stores nothing. -/
theorem GetBg32px_id (layout : Mode0.Mode0Layout) (bgIndex line xoff : Nat)
    (out : Nat → Nat) : Mode0.GetBg32px layout bgIndex line xoff out = out := by
  unfold Mode0.GetBg32px
  split <;> rfl

/-- One block of `RenderBg` leaves the layer buffer as it was. -/
theorem renderBgBlock_layers (layout : Mode0.Mode0Layout) (index width line : Nat)
    (st : Mode0.BgState) (block : Nat) :
    (Mode0.renderBgBlock layout index width line st block).layers = st.layers := by
  unfold Mode0.renderBgBlock
  simp only [GetBg32px_id]
  split_ifs <;> rfl

/-- `RenderBg` leaves the layer buffer as it was. -/
theorem RenderBg_layers (layout : Mode0.Mode0Layout) (index : Nat) (st : Mode0.BgState)
    (ppu : PPUMemory) (line : Nat) :
    (Mode0.RenderBg layout index st ppu line).layers = st.layers := by
  unfold Mode0.RenderBg
  simp only []
  generalize (List.range ((ppu.frame_width % 65536 + 31) / 32)) = blocks
  induction blocks generalizing st with
  | nil => rfl
  | cons b bs ih =>
    rw [List.foldl_cons, ih, renderBgBlock_layers]

/-- A checked column loop storing `f x` at `base + x` for `x < n`. -/
theorem foldlM_fbStore_range (f : Nat → Nat) (base n : Nat) (fb : Nat → Nat)
    (h : base + n ≤ FRAME_BUFFER_WORDS) :
    (List.range n).foldlM (fun fb x => Mode0.fbStore fb (base + x) (f x)) fb
      = some (fun i => if base ≤ i ∧ i < base + n then f (i - base) else fb i) := by
  induction n with
  | zero =>
    simp only [List.range_zero, List.foldlM_nil]
    congr 1
    funext i
    rw [if_neg (by omega)]
  | succ n ih =>
    rw [List.range_succ, List.foldlM_append, ih (by omega)]
    simp only [List.foldlM_cons, List.foldlM_nil, Option.some_bind, Option.bind_eq_bind]
    unfold Mode0.fbStore
    rw [if_pos (by omega)]
    simp only [Option.some_bind, Option.pure_def]
    congr 1
    funext i
    by_cases h1 : i = base + n
    · subst h1
      rw [Function.update_same, if_pos (by omega)]
      congr 1
      omega
    · rw [Function.update_noteq h1]
      by_cases h2 : base ≤ i ∧ i < base + n
      · rw [if_pos h2, if_pos (by omega)]
      · rw [if_neg h2, if_neg (by omega)]

/-- A scanline loop whose body stores the constant `v` on row `line` of width `W`. -/
theorem lineLoop_const (body : (Nat → Nat) → Nat → Option (Nat → Nat)) (W v n : Nat)
    (hbody : ∀ fb line, line < n → body fb line = some (fun i =>
      if line * W ≤ i ∧ i < line * W + W then v else fb i))
    (fb : Nat → Nat) :
    Mode1.lineLoop body n fb = some (fun i => if i < n * W then v else fb i) := by
  unfold Mode1.lineLoop
  induction n with
  | zero =>
    simp only [List.range_zero, List.foldlM_nil]
    congr 1
    funext i
    rw [if_neg (by omega)]
  | succ n ih =>
    rw [List.range_succ, List.foldlM_append, ih (fun fb line hl => hbody fb line (by omega))]
    simp only [List.foldlM_cons, List.foldlM_nil, Option.some_bind, Option.bind_eq_bind]
    rw [hbody _ n (by omega)]
    simp only [Option.some_bind, Option.pure_def]
    congr 1
    funext i
    have hs : (n + 1) * W = n * W + W := Nat.succ_mul n W
    by_cases h1 : n * W ≤ i ∧ i < n * W + W
    · rw [if_pos h1, if_pos (by omega)]
    · rw [if_neg h1]
      by_cases h5 : i < n * W
      · rw [if_pos h5, if_pos (by omega)]
      · rw [if_neg h5, if_neg (by omega)]

/-- The mode 0 frame render, for a frame width of at most 1280: every word of
the `360 x width` output becomes 0 and every other word is unchanged, whatever
VRAM holds. -/
theorem Mode0_RenderFrame_eq (layout : Mode0.Mode0Layout) (ppu : PPUMemory) (fb : Nat → Nat)
    (hw : ppu.frame_width % 65536 ≤ 1280) :
    Mode0.RenderFrame layout ppu fb
      = some (fun i => if i < 360 * (ppu.frame_width % 65536) then 0 else fb i) := by
  unfold Mode0.RenderFrame
  rw [lineLoop_const _ (ppu.frame_width % 65536) 0 360 _ fb, Nat.mul_comm]
  intro fb1 line hl
  unfold Mode0.renderLine Mode0.BG_COUNT
  simp only [List.range_succ, List.range_zero, List.nil_append, List.cons_append,
    List.foldl_cons, List.foldl_nil, RenderBg_layers]
  unfold Mode0.CompositeAndOam
  have hb : line * (ppu.frame_width % 65536) + ppu.frame_width % 65536 ≤ FRAME_BUFFER_WORDS := by
    have h1 : line * (ppu.frame_width % 65536) ≤ 359 * 1280 :=
      Nat.mul_le_mul (by omega) hw
    unfold FRAME_BUFFER_WORDS
    omega
  exact foldlM_fbStore_range (fun _ => 0) _ _ fb1 hb

/-! ## Forced blank through the dispatcher -/

/-- C4 (as stated) fails for mode 0: with `mode = 0`, `frame_width = 840` and
DISPCNT = 0x0080 (forced blank set), the top-level `RenderFrame` stores 0, not
`0xFFFFFFFF`, at pixel 0. -/
theorem RenderFrame_mode0_forced_blank_counterexample :
    (Mode1.IoRead16 (gbaImage [(0, 0x80)] [] [] [] []) Mode1.IO_DISPCNT).testBit 7 = true
    ∧ ∃ fb1, RenderFrame ⟨⟨840, 0⟩, Mode0.zeroLayout, gbaImage [(0, 0x80)] [] [] [] [],
          fun _ => 0⟩ = some fb1
        ∧ fb1 0 = 0 ∧ fb1 0 ≠ 0xFFFFFFFF := by
  refine ⟨by decide, _, Mode0_RenderFrame_eq Mode0.zeroLayout ⟨840, 0⟩ (fun _ => 0) (by decide),
    ?_, ?_⟩
  · simp
  · simp

/-- C4 (amended): with DISPCNT bit 7 set, the top-level `RenderFrame` in mode 1
or mode 2 returns the framebuffer with words `0..38399` equal to `0xFFFFFFFF`
and every other word unchanged; in mode 0 the frame render has no forced-blank
register: its result does not depend on the GBA arrays (DISPCNT included). -/
theorem RenderFrame_forced_blank_dispatch (s : PPU)
    (h : (Mode1.IoRead16 s.gba Mode1.IO_DISPCNT).testBit 7 = true) :
    (s.global_Registers.mode % 256 = 1 ∨ s.global_Registers.mode % 256 = 2 →
      ∃ fb1, RenderFrame s = some fb1 ∧ (∀ i, i < 240 * 160 → fb1 i = 0xFFFFFFFF)
        ∧ (∀ i, 240 * 160 ≤ i → fb1 i = s.frame_buffer i))
    ∧ (s.global_Registers.mode % 256 = 0 →
      ∀ g : GbaMem, RenderFrame { s with gba := g } = RenderFrame s) := by
  obtain ⟨fb1, h1, h2, h3, h4⟩ := forced_blank_frames s.global_Registers s.gba s.frame_buffer h
  constructor
  · intro hm
    refine ⟨fb1, ?_, h3, h4⟩
    unfold RenderFrame
    rcases hm with hm | hm
    · rw [hm]; exact h1
    · rw [hm]; exact h2
  · intro hm g
    unfold RenderFrame
    simp only [hm]

/-- C4 (amended) at mode 1 with DISPCNT = 0x0080. -/
theorem RenderFrame_forced_blank_dispatch_witness :
    (Mode1.IoRead16 (gbaImage [(0, 0x80)] [] [] [] []) Mode1.IO_DISPCNT).testBit 7 = true
    ∧ ∃ fb1, RenderFrame ⟨⟨240, 1⟩, Mode0.zeroLayout, gbaImage [(0, 0x80)] [] [] [] [],
          fun _ => 0⟩ = some fb1
        ∧ (∀ i, i < 240 * 160 → fb1 i = 0xFFFFFFFF) ∧ (∀ i, 240 * 160 ≤ i → fb1 i = 0) :=
  ⟨by decide,
    (RenderFrame_forced_blank_dispatch
      ⟨⟨240, 1⟩, Mode0.zeroLayout, gbaImage [(0, 0x80)] [] [] [] [], fun _ => 0⟩
      (by decide)).1 (Or.inl (by decide))⟩

/-! ## Colour math -/

theorem toU32_natCast (k : Nat) (h : k < 4294967296) : toU32 (k : Int) = k := by
  unfold toU32
  omega

/-- A byte extracted from a word is below 256. -/
theorem chan_lt (v k : Nat) : (v >>> k) &&& 0xFF < 256 := by
  rw [and_255]; omega

/-- The packing used by the three blend helpers, as a sum. -/
theorem pack_abgr_mod (b g r : Nat) (hb : b < 256) (hg : g < 256) (hr : r < 256) :
    (0xFF000000 ||| ((b <<< 16) % 4294967296) ||| ((g <<< 8) % 4294967296) ||| r) % 4294967296
      = 0xFF000000 + b * 65536 + g * 256 + r := by
  have h1 : (b <<< 16) % 4294967296 = b <<< 16 := by
    rw [Nat.shiftLeft_eq]; omega
  have h2 : (g <<< 8) % 4294967296 = g <<< 8 := by
    rw [Nat.shiftLeft_eq]; omega
  rw [h1, h2, pack_abgr b g r hb hg hr]
  omega

/-- The four bytes of a packed opaque word. -/
theorem abgr_channels (b g r v : Nat) (hb : b < 256) (hg : g < 256) (hr : r < 256)
    (hv : v = 0xFF000000 + b * 65536 + g * 256 + r) :
    (v >>> 0) &&& 0xFF = r ∧ (v >>> 8) &&& 0xFF = g ∧ (v >>> 16) &&& 0xFF = b
      ∧ (v >>> 24) &&& 0xFF = 0xFF ∧ v < 4294967296 := by
  simp only [and_255, Nat.shiftRight_eq_div_pow]
  have e0 : v / 2 ^ 0 = v := by norm_num
  have e8 : v / 2 ^ 8 = v / 256 := by norm_num
  have e16 : v / 2 ^ 16 = v / 65536 := by norm_num
  have e24 : v / 2 ^ 24 = v / 16777216 := by norm_num
  rw [e0, e8, e16, e24]
  omega

/-- One channel of `AlphaBlend`: the clamp is a minimum with 255. -/
theorem alpha_chan (t b eva evb : Nat) :
    (if ((t : Int) * eva + (b : Int) * evb).tdiv 16 > 255 then (255 : Int)
      else ((t : Int) * eva + (b : Int) * evb).tdiv 16)
      = ((min 255 ((t * eva + b * evb) / 16) : Nat) : Int) := by
  have hcast : (t : Int) * eva + (b : Int) * evb = ((t * eva + b * evb : Nat) : Int) := by
    push_cast; ring
  rw [hcast, Int.tdiv_eq_ediv (by omega) (by omega)]
  generalize t * eva + b * evb = p
  omega

/-- One channel of `BrightenPixel` for `evy ≤ 16`: the clamp does not fire. -/
theorem brighten_chan (ch n : Nat) (hc : ch ≤ 255) (hn : n ≤ 16) :
    ¬ ((ch : Int) + (((255 : Int) - ch) * n).tdiv 16 > 255)
    ∧ (if (ch : Int) + (((255 : Int) - ch) * n).tdiv 16 > 255 then (255 : Int)
        else (ch : Int) + (((255 : Int) - ch) * n).tdiv 16)
        = ((ch + (255 - ch) * n / 16 : Nat) : Int)
    ∧ ch + (255 - ch) * n / 16 ≤ 255 := by
  have hp : (255 - ch) * n ≤ (255 - ch) * 16 := Nat.mul_le_mul_left _ hn
  have hcast : ((255 : Int) - ch) * n = (((255 - ch) * n : Nat) : Int) := by
    push_cast [Nat.cast_sub hc]; ring
  rw [hcast, Int.tdiv_eq_ediv (by omega) (by omega)]
  generalize (255 - ch) * n = p at *
  omega

/-- One channel of `DarkenPixel` for `evy ≤ 16`: the clamp does not fire. -/
theorem darken_chan (ch n : Nat) (hn : n ≤ 16) :
    ¬ ((ch : Int) - ((ch : Int) * n).tdiv 16 < 0)
    ∧ (if (ch : Int) - ((ch : Int) * n).tdiv 16 < 0 then (0 : Int)
        else (ch : Int) - ((ch : Int) * n).tdiv 16)
        = ((ch - ch * n / 16 : Nat) : Int)
    ∧ ch * n / 16 ≤ ch := by
  have hp : ch * n ≤ ch * 16 := Nat.mul_le_mul_left _ hn
  have hcast : (ch : Int) * n = ((ch * n : Nat) : Int) := by push_cast; ring
  rw [hcast, Int.tdiv_eq_ediv (by omega) (by omega)]
  generalize ch * n = p at *
  omega

/-- `AlphaBlend` on natural coefficients, as a sum of bytes. -/
theorem AlphaBlend_eq (top bot eva evb : Nat) :
    Mode1.AlphaBlend top bot eva evb
      = 0xFF000000
        + min 255 ((((top >>> 16) &&& 0xFF) * eva + ((bot >>> 16) &&& 0xFF) * evb) / 16) * 65536
        + min 255 ((((top >>> 8) &&& 0xFF) * eva + ((bot >>> 8) &&& 0xFF) * evb) / 16) * 256
        + min 255 ((((top >>> 0) &&& 0xFF) * eva + ((bot >>> 0) &&& 0xFF) * evb) / 16) := by
  unfold Mode1.AlphaBlend
  simp only [alpha_chan]
  rw [toU32_natCast _ (by omega), toU32_natCast _ (by omega), toU32_natCast _ (by omega)]
  exact pack_abgr_mod _ _ _ (by omega) (by omega) (by omega)

/-- `BrightenPixel` for `evy ≤ 16`, as a sum of bytes. -/
theorem BrightenPixel_eq (abgr n : Nat) (hn : n ≤ 16) :
    Mode1.BrightenPixel abgr n
      = 0xFF000000
        + (((abgr >>> 16) &&& 0xFF) + (255 - ((abgr >>> 16) &&& 0xFF)) * n / 16) * 65536
        + (((abgr >>> 8) &&& 0xFF) + (255 - ((abgr >>> 8) &&& 0xFF)) * n / 16) * 256
        + (((abgr >>> 0) &&& 0xFF) + (255 - ((abgr >>> 0) &&& 0xFF)) * n / 16) := by
  have hr := brighten_chan ((abgr >>> 0) &&& 0xFF) n (by have := chan_lt abgr 0; omega) hn
  have hg := brighten_chan ((abgr >>> 8) &&& 0xFF) n (by have := chan_lt abgr 8; omega) hn
  have hb := brighten_chan ((abgr >>> 16) &&& 0xFF) n (by have := chan_lt abgr 16; omega) hn
  unfold Mode1.BrightenPixel
  simp only [hr.2.1, hg.2.1, hb.2.1]
  rw [toU32_natCast _ (by omega), toU32_natCast _ (by omega), toU32_natCast _ (by omega)]
  exact pack_abgr_mod _ _ _ (by omega) (by omega) (by omega)

/-- `DarkenPixel` for `evy ≤ 16`, as a sum of bytes. -/
theorem DarkenPixel_eq (abgr n : Nat) (hn : n ≤ 16) :
    Mode1.DarkenPixel abgr n
      = 0xFF000000
        + (((abgr >>> 16) &&& 0xFF) - ((abgr >>> 16) &&& 0xFF) * n / 16) * 65536
        + (((abgr >>> 8) &&& 0xFF) - ((abgr >>> 8) &&& 0xFF) * n / 16) * 256
        + (((abgr >>> 0) &&& 0xFF) - ((abgr >>> 0) &&& 0xFF) * n / 16) := by
  have hr := darken_chan ((abgr >>> 0) &&& 0xFF) n hn
  have hg := darken_chan ((abgr >>> 8) &&& 0xFF) n hn
  have hb := darken_chan ((abgr >>> 16) &&& 0xFF) n hn
  have cr := chan_lt abgr 0
  have cg := chan_lt abgr 8
  have cb := chan_lt abgr 16
  unfold Mode1.DarkenPixel
  simp only [hr.2.1, hg.2.1, hb.2.1]
  rw [toU32_natCast _ (by omega), toU32_natCast _ (by omega), toU32_natCast _ (by omega)]
  exact pack_abgr_mod _ _ _ (by omega) (by omega) (by omega)

/-- C8: for every pixel, every `evy` in `0..16` and each colour channel
(`k = 0, 8, 16` for R, G, B), `BrightenPixel` returns
`ch + floor((255 - ch) * evy / 16)` and `DarkenPixel` returns
`ch - floor(ch * evy / 16)`, both with alpha byte `0xFF`; the results lie in
`0..255`, so neither clamping branch fires; brighten never lowers and darken
never raises a channel; `evy = 0` leaves the channels unchanged and `evy = 16`
gives white (brighten) or black (darken). -/
theorem brighten_darken_channels (abgr n k : Nat) (hn : n ≤ 16)
    (hk : k = 0 ∨ k = 8 ∨ k = 16) :
    (Mode1.BrightenPixel abgr n >>> k) &&& 0xFF
        = ((abgr >>> k) &&& 0xFF) + (255 - ((abgr >>> k) &&& 0xFF)) * n / 16
    ∧ (Mode1.DarkenPixel abgr n >>> k) &&& 0xFF
        = ((abgr >>> k) &&& 0xFF) - ((abgr >>> k) &&& 0xFF) * n / 16
    ∧ (Mode1.BrightenPixel abgr n >>> 24) &&& 0xFF = 0xFF
    ∧ (Mode1.DarkenPixel abgr n >>> 24) &&& 0xFF = 0xFF
    ∧ Mode1.BrightenPixel abgr n < 4294967296
    ∧ Mode1.DarkenPixel abgr n < 4294967296
    ∧ ((abgr >>> k) &&& 0xFF) + (255 - ((abgr >>> k) &&& 0xFF)) * n / 16 ≤ 255
    ∧ ((abgr >>> k) &&& 0xFF) * n / 16 ≤ (abgr >>> k) &&& 0xFF
    ∧ ¬ ((((abgr >>> k) &&& 0xFF : Nat) : Int)
          + (((255 : Int) - ((abgr >>> k) &&& 0xFF : Nat)) * n).tdiv 16 > 255)
    ∧ ¬ ((((abgr >>> k) &&& 0xFF : Nat) : Int)
          - ((((abgr >>> k) &&& 0xFF : Nat) : Int) * n).tdiv 16 < 0)
    ∧ (abgr >>> k) &&& 0xFF ≤ (Mode1.BrightenPixel abgr n >>> k) &&& 0xFF
    ∧ (Mode1.DarkenPixel abgr n >>> k) &&& 0xFF ≤ (abgr >>> k) &&& 0xFF
    ∧ (Mode1.BrightenPixel abgr 0 >>> k) &&& 0xFF = (abgr >>> k) &&& 0xFF
    ∧ (Mode1.DarkenPixel abgr 0 >>> k) &&& 0xFF = (abgr >>> k) &&& 0xFF
    ∧ Mode1.BrightenPixel abgr 16 = 0xFFFFFFFF
    ∧ Mode1.DarkenPixel abgr 16 = 0xFF000000 := by
  have cr := chan_lt abgr 0
  have cg := chan_lt abgr 8
  have cb := chan_lt abgr 16
  have chan : ∀ j, (abgr >>> j) &&& 0xFF ≤ 255 := fun j => by have := chan_lt abgr j; omega
  have bch : ∀ (j e : Nat), e ≤ 16 →
      ((abgr >>> j) &&& 0xFF) + (255 - ((abgr >>> j) &&& 0xFF)) * e / 16 < 256 := fun j e he => by
    have := (brighten_chan _ e (chan j) he).2.2; omega
  have dch : ∀ (j e : Nat), e ≤ 16 →
      ((abgr >>> j) &&& 0xFF) - ((abgr >>> j) &&& 0xFF) * e / 16 < 256 := fun j e _ => by
    have := chan j; omega
  have hB := fun (e : Nat) (he : e ≤ 16) =>
    abgr_channels _ _ _ _ (bch 16 e he) (bch 8 e he) (bch 0 e he) (BrightenPixel_eq abgr e he)
  have hD := fun (e : Nat) (he : e ≤ 16) =>
    abgr_channels _ _ _ _ (dch 16 e he) (dch 8 e he) (dch 0 e he) (DarkenPixel_eq abgr e he)
  have hBk : ∀ e : Nat, e ≤ 16 → (Mode1.BrightenPixel abgr e >>> k) &&& 0xFF
      = ((abgr >>> k) &&& 0xFF) + (255 - ((abgr >>> k) &&& 0xFF)) * e / 16 := fun e he => by
    rcases hk with rfl | rfl | rfl
    · exact (hB e he).1
    · exact (hB e he).2.1
    · exact (hB e he).2.2.1
  have hDk : ∀ e : Nat, e ≤ 16 → (Mode1.DarkenPixel abgr e >>> k) &&& 0xFF
      = ((abgr >>> k) &&& 0xFF) - ((abgr >>> k) &&& 0xFF) * e / 16 := fun e he => by
    rcases hk with rfl | rfl | rfl
    · exact (hD e he).1
    · exact (hD e he).2.1
    · exact (hD e he).2.2.1
  have hb0 := hBk 0 (by omega)
  have hd0 := hDk 0 (by omega)
  have hb16 := BrightenPixel_eq abgr 16 (by omega)
  have hd16 := DarkenPixel_eq abgr 16 (by omega)
  simp only [Nat.cast_zero, Nat.cast_ofNat] at hb0 hd0 hb16 hd16
  have bc := brighten_chan _ n (chan k) hn
  have dc := darken_chan ((abgr >>> k) &&& 0xFF) n hn
  refine ⟨hBk n hn, hDk n hn, (hB n hn).2.2.2.1, (hD n hn).2.2.2.1, (hB n hn).2.2.2.2,
    (hD n hn).2.2.2.2, bc.2.2, dc.2.2, bc.1, dc.1, ?_, ?_, ?_, ?_, ?_, ?_⟩
  · rw [hBk n hn]; omega
  · rw [hDk n hn]; omega
  · rw [hb0]; omega
  · rw [hd0]; omega
  · rw [hb16]; omega
  · rw [hd16]; omega

/-- C8 at the pixel `0xFF204080`, `evy = 8`, red channel. -/
theorem brighten_darken_channels_witness :
    (Mode1.BrightenPixel 0xFF204080 (8 : Nat) >>> 0) &&& 0xFF = 0x80 + (255 - 0x80) * 8 / 16
    ∧ (Mode1.DarkenPixel 0xFF204080 (8 : Nat) >>> 0) &&& 0xFF = 0x80 - 0x80 * 8 / 16 :=
  have h := brighten_darken_channels 0xFF204080 8 0 (by decide) (Or.inl rfl)
  ⟨h.1, h.2.1⟩

/-- `IsFirstTarget` reads bit `layerId` of BLDCNT. -/
theorem IsFirstTarget_eq (bldcnt layerId : Nat) :
    Mode1.IsFirstTarget bldcnt layerId = bldcnt.testBit layerId := by
  unfold Mode1.IsFirstTarget Nat.testBit
  rw [Nat.and_comm]

/-- `IsSecondTarget` reads bit `layerId + 8` of BLDCNT. -/
theorem IsSecondTarget_eq (bldcnt layerId : Nat) :
    Mode1.IsSecondTarget bldcnt layerId = bldcnt.testBit (layerId + 8) := by
  unfold Mode1.IsSecondTarget Nat.testBit
  rw [Nat.and_comm]

/-- The word stored for column `x < 240` of scanline `line`. -/
theorem CompositeLineMode0_pixel (m : GbaMem) (line : Nat) (ly : Mode1.Layers)
    (dispcnt : Nat) (fb : Nat → Nat) (x : Nat) (hx : x < 240) :
    Mode1.CompositeLineMode0 m line ly dispcnt fb (line * 240 + x)
      = Mode1.applyBlend (Mode1.blendRegs m) (Mode1.findTopBot m ly dispcnt x) := by
  rw [CompositeLineMode0_apply, if_pos (by omega)]
  have hsub : line * 240 + x - line * 240 = x := by omega
  rw [hsub]
  rfl

/-- The alpha branch of the compositor, with the coefficients read from BLDALPHA. -/
theorem applyBlend_alpha (m : GbaMem) (s : Mode1.Pick)
    (he : (Mode1.IoRead16 m Mode1.IO_BLDCNT >>> 6) &&& 3 = 1) :
    Mode1.applyBlend (Mode1.blendRegs m) s
      = if (Mode1.IoRead16 m Mode1.IO_BLDCNT).testBit s.topLayerId = true
            ∧ (Mode1.IoRead16 m Mode1.IO_BLDCNT).testBit (s.botLayerId + 8) = true
        then Mode1.AlphaBlend s.topColor s.botColor
            ((min 16 (Mode1.IoRead16 m Mode1.IO_BLDALPHA &&& 31) : Nat) : Int)
            ((min 16 ((Mode1.IoRead16 m Mode1.IO_BLDALPHA >>> 8) &&& 31) : Nat) : Int)
        else s.topColor := by
  have ha : ∀ a : Nat, (if a > 16 then 16 else a) = min 16 a := fun a => by
    split <;> omega
  unfold Mode1.applyBlend Mode1.blendRegs
  simp only [he, IsFirstTarget_eq, IsSecondTarget_eq, ha, Bool.and_eq_true]

/-! ## Alpha blending -/

/-- C7: when the blend effect is alpha, the word `p` stored for a column has,
in each colour channel (`k = 0, 8, 16`), the value
`min(255, floor((top * eva + bot * evb) / 16))` and alpha byte `0xFF`, with
`eva = min(16, BLDALPHA & 31)` and `evb = min(16, (BLDALPHA >> 8) & 31)`,
exactly when bit `topLayerId` and bit `botLayerId + 8` of BLDCNT are both set;
otherwise `p` is the top pixel unchanged. -/
theorem composite_alpha_blend (m : GbaMem) (ly : Mode1.Layers) (dispcnt line x k : Nat)
    (fb : Nat → Nat) (hx : x < 240)
    (he : (Mode1.IoRead16 m Mode1.IO_BLDCNT >>> 6) &&& 3 = 1)
    (hk : k = 0 ∨ k = 8 ∨ k = 16) :
    ((Mode1.IoRead16 m Mode1.IO_BLDCNT).testBit (Mode1.findTopBot m ly dispcnt x).topLayerId = true
      ∧ (Mode1.IoRead16 m Mode1.IO_BLDCNT).testBit
          ((Mode1.findTopBot m ly dispcnt x).botLayerId + 8) = true →
      (Mode1.CompositeLineMode0 m line ly dispcnt fb (line * 240 + x) >>> k) &&& 0xFF
          = min 255
              (((((Mode1.findTopBot m ly dispcnt x).topColor >>> k) &&& 0xFF)
                  * min 16 (Mode1.IoRead16 m Mode1.IO_BLDALPHA &&& 31)
                + (((Mode1.findTopBot m ly dispcnt x).botColor >>> k) &&& 0xFF)
                  * min 16 ((Mode1.IoRead16 m Mode1.IO_BLDALPHA >>> 8) &&& 31)) / 16)
        ∧ (Mode1.CompositeLineMode0 m line ly dispcnt fb (line * 240 + x) >>> 24) &&& 0xFF = 0xFF
        ∧ Mode1.CompositeLineMode0 m line ly dispcnt fb (line * 240 + x) < 4294967296)
    ∧ (¬ ((Mode1.IoRead16 m Mode1.IO_BLDCNT).testBit
            (Mode1.findTopBot m ly dispcnt x).topLayerId = true
          ∧ (Mode1.IoRead16 m Mode1.IO_BLDCNT).testBit
            ((Mode1.findTopBot m ly dispcnt x).botLayerId + 8) = true) →
      Mode1.CompositeLineMode0 m line ly dispcnt fb (line * 240 + x)
        = (Mode1.findTopBot m ly dispcnt x).topColor) := by
  rw [CompositeLineMode0_pixel m line ly dispcnt fb x hx, applyBlend_alpha m _ he]
  constructor
  · intro ht
    rw [if_pos ht]
    have h := abgr_channels _ _ _ _ (by omega) (by omega) (by omega) (AlphaBlend_eq
      (Mode1.findTopBot m ly dispcnt x).topColor (Mode1.findTopBot m ly dispcnt x).botColor
      (min 16 (Mode1.IoRead16 m Mode1.IO_BLDALPHA &&& 31))
      (min 16 ((Mode1.IoRead16 m Mode1.IO_BLDALPHA >>> 8) &&& 31)))
    refine ⟨?_, h.2.2.2.1, h.2.2.2.2⟩
    rcases hk with rfl | rfl | rfl
    · exact h.1
    · exact h.2.1
    · exact h.2.2.1
  · intro ht
    rw [if_neg ht]

/-- C7 on the alpha scenario (BG0 red over BG1 green, eva = evb = 8), red channel. -/
theorem composite_alpha_blend_witness :
    (Mode1.IoRead16 alphaImage Mode1.IO_BLDCNT >>> 6) &&& 3 = 1
    ∧ (Mode1.CompositeLineMode0 alphaImage 0 alphaLayers 0x0300 (fun _ => 0) (0 * 240 + 0) >>> 0)
        &&& 0xFF = 127 :=
  ⟨by decide,
    ((composite_alpha_blend alphaImage alphaLayers 0x0300 0 0 0 (fun _ => 0) (by decide)
      (by decide) (Or.inl rfl)).1 (by decide)).1.trans (by decide)⟩

/-- C6 (as stated) fails: with effect alpha, BG0 first target, BG1 second
target, eva = evb = 8, top contributor BG0 = `0xFF0000FF` and second
contributor BG1 = `0xFF00FF00`, the compositor stores `0xFF007F7F`
(`255 * 8 / 16 = 127`), not `0xFF008080`. -/
theorem composite_alpha_scenario_counterexample :
    (Mode1.blendRegs alphaImage).effect = 1
    ∧ (Mode1.IoRead16 alphaImage Mode1.IO_BLDCNT).testBit 0 = true
    ∧ (Mode1.IoRead16 alphaImage Mode1.IO_BLDCNT).testBit (1 + 8) = true
    ∧ (Mode1.blendRegs alphaImage).eva = 8 ∧ (Mode1.blendRegs alphaImage).evb = 8
    ∧ (Mode1.findTopBot alphaImage alphaLayers 0x0300 0).topLayerId = 0
    ∧ (Mode1.findTopBot alphaImage alphaLayers 0x0300 0).topColor = 0xFF0000FF
    ∧ (Mode1.findTopBot alphaImage alphaLayers 0x0300 0).botLayerId = 1
    ∧ (Mode1.findTopBot alphaImage alphaLayers 0x0300 0).botColor = 0xFF00FF00
    ∧ Mode1.CompositeLineMode0 alphaImage 0 alphaLayers 0x0300 (fun _ => 0) (0 * 240 + 0)
        = 0xFF007F7F
    ∧ Mode1.CompositeLineMode0 alphaImage 0 alphaLayers 0x0300 (fun _ => 0) (0 * 240 + 0)
        ≠ 0xFF008080 := by
  have hp := CompositeLineMode0_pixel alphaImage 0 alphaLayers 0x0300 (fun _ => 0) 0 (by decide)
  have hv : Mode1.applyBlend (Mode1.blendRegs alphaImage)
      (Mode1.findTopBot alphaImage alphaLayers 0x0300 0) = 0xFF007F7F := by decide
  refine ⟨by decide, by decide, by decide, by decide, by decide, by decide, by decide,
    by decide, by decide, ?_, ?_⟩
  · rw [hp, hv]
  · rw [hp, hv]; decide

/-- C6 (amended): with blend effect alpha, BG0 a first target, BG1 a second
target and eva = evb = 8, at a column whose top contributor is BG0 with pixel
`0xFF0000FF` and whose second contributor is BG1 with pixel `0xFF00FF00`, the
compositor stores `0xFF007F7F`. -/
theorem composite_alpha_scenario (m : GbaMem) (ly : Mode1.Layers) (dispcnt line x : Nat)
    (fb : Nat → Nat) (hx : x < 240)
    (he : (Mode1.IoRead16 m Mode1.IO_BLDCNT >>> 6) &&& 3 = 1)
    (h1 : (Mode1.IoRead16 m Mode1.IO_BLDCNT).testBit 0 = true)
    (h2 : (Mode1.IoRead16 m Mode1.IO_BLDCNT).testBit (1 + 8) = true)
    (ha : Mode1.IoRead16 m Mode1.IO_BLDALPHA &&& 31 = 8)
    (hb : (Mode1.IoRead16 m Mode1.IO_BLDALPHA >>> 8) &&& 31 = 8)
    (htl : (Mode1.findTopBot m ly dispcnt x).topLayerId = 0)
    (htc : (Mode1.findTopBot m ly dispcnt x).topColor = 0xFF0000FF)
    (hbl : (Mode1.findTopBot m ly dispcnt x).botLayerId = 1)
    (hbc : (Mode1.findTopBot m ly dispcnt x).botColor = 0xFF00FF00) :
    Mode1.CompositeLineMode0 m line ly dispcnt fb (line * 240 + x) = 0xFF007F7F := by
  rw [CompositeLineMode0_pixel m line ly dispcnt fb x hx, applyBlend_alpha m _ he,
    htl, hbl, htc, hbc, ha, hb, if_pos ⟨h1, h2⟩]
  decide

/-- C6 (amended) on the scenario image and layer buffers. -/
theorem composite_alpha_scenario_witness :
    (Mode1.IoRead16 alphaImage Mode1.IO_BLDCNT >>> 6) &&& 3 = 1
    ∧ (Mode1.findTopBot alphaImage alphaLayers 0x0300 7).topColor = 0xFF0000FF
    ∧ (Mode1.findTopBot alphaImage alphaLayers 0x0300 7).botColor = 0xFF00FF00
    ∧ Mode1.CompositeLineMode0 alphaImage 3 alphaLayers 0x0300 (fun _ => 0) (3 * 240 + 7)
        = 0xFF007F7F :=
  ⟨by decide, by decide, by decide,
    composite_alpha_scenario alphaImage alphaLayers 0x0300 3 7 (fun _ => 0) (by decide)
      (by decide) (by decide) (by decide) (by decide) (by decide) (by decide) (by decide)
      (by decide) (by decide)⟩

/-! ## The sprite line -/

/-- One column iteration of the sprite loop, cell by cell. -/
theorem objColumn_cell (m : GbaMem) (c : Mode1.ObjCtx) (line : Int) (obj1d : Bool)
    (bufs : LineBufs) (sx x : Nat) (hx : x < 240) :
    (Mode1.objColumn m c line obj1d bufs sx).cell x
      = if c.objX + (sx : Int) = (x : Int)
          then Mode1.mergeCell (bufs.cell x) (Mode1.objColumnCand m c line obj1d sx)
          else bufs.cell x := by
  unfold Mode1.objColumn Mode1.objColumnCand Mode1.mergeCell LineBufs.cell Mode1.GBA_WIDTH
  by_cases hr : c.objX + (sx : Int) < 0 ∨ c.objX + (sx : Int) ≥ ((240 : Nat) : Int)
  · have hne : ¬ (c.objX + (sx : Int) = (x : Int)) := by omega
    simp only [hr, if_true, hne, if_false]
  · simp only [hr, if_false]
    by_cases he : c.objX + (sx : Int) = (x : Int)
    · simp only [he, if_true, Int.toNat_ofNat]
      cases Mode1.objTexCoord c line sx with
      | none => rfl
      | some t =>
        obtain ⟨tx, ty⟩ := t
        simp only []
        by_cases h0 : Mode1.objColorIdx m c obj1d tx ty = 0
        · simp only [h0, if_true]
        · simp only [h0, if_false]
          by_cases hp : bufs.color x ≠ 0 ∧ bufs.pri x < c.priority
          · rw [if_pos hp, if_pos hp]
          · rw [if_neg hp, if_neg hp]
            simp only [Function.update_same]
    · have hX : (c.objX + (sx : Int)).toNat ≠ x := by omega
      simp only [he, if_false]
      cases Mode1.objTexCoord c line sx with
      | none => rfl
      | some t =>
        obtain ⟨tx, ty⟩ := t
        simp only []
        split_ifs
        · rfl
        · rfl
        · simp only [Function.update_noteq (Ne.symm hX)]

/-- The column loop over a bounding box of `n` columns, cell by cell. -/
theorem objColumns_cell (m : GbaMem) (c : Mode1.ObjCtx) (line : Int) (obj1d : Bool)
    (n : Nat) (bufs : LineBufs) (x : Nat) (hx : x < 240) :
    ((List.range n).foldl (Mode1.objColumn m c line obj1d) bufs).cell x
      = Mode1.mergeCell (bufs.cell x)
          (if (x : Int) < c.objX ∨ (x : Int) ≥ c.objX + (n : Int) then none
            else Mode1.objColumnCand m c line obj1d ((x : Int) - c.objX).toNat) := by
  induction n with
  | zero =>
    have h : (x : Int) < c.objX ∨ (x : Int) ≥ c.objX + ((0 : Nat) : Int) := by omega
    simp only [List.range_zero, List.foldl_nil, if_pos h]
    rfl
  | succ n ih =>
    rw [List.range_succ, List.foldl_append]
    simp only [List.foldl_cons, List.foldl_nil]
    rw [objColumn_cell m c line obj1d _ n x hx]
    by_cases he : c.objX + (n : Int) = (x : Int)
    · have h1 : (x : Int) < c.objX ∨ (x : Int) ≥ c.objX + (n : Int) := by omega
      have h2 : ¬ ((x : Int) < c.objX ∨ (x : Int) ≥ c.objX + ((n + 1 : Nat) : Int)) := by
        push_cast; omega
      have h3 : ((x : Int) - c.objX).toNat = n := by omega
      rw [if_pos he, ih, if_pos h1, if_neg h2, h3]
      rfl
    · rw [if_neg he, ih]
      by_cases h1 : (x : Int) < c.objX ∨ (x : Int) ≥ c.objX + (n : Int)
      · have h2 : (x : Int) < c.objX ∨ (x : Int) ≥ c.objX + ((n + 1 : Nat) : Int) := by
          push_cast; omega
        rw [if_pos h1, if_pos h2]
      · have h2 : ¬ ((x : Int) < c.objX ∨ (x : Int) ≥ c.objX + ((n + 1 : Nat) : Int)) := by
          push_cast; omega
        rw [if_neg h1, if_neg h2]

/-- The size tables are defined on every shape `0..2` and size `0..3`. -/
theorem objTables_some (shape sz : Nat) (hs : shape ≤ 2) (hz : sz ≤ 3) :
    ∃ w h, Mode1.objWidths shape sz = some w ∧ Mode1.objHeights shape sz = some h := by
  interval_cases shape <;> interval_cases sz <;> exact ⟨_, _, rfl, rfl⟩

/-- The 2-bit size field is at most 3. -/
theorem OAMAttr_size_le (oa : Mode1.OAMAttr) : oa.size ≤ 3 := by
  unfold Mode1.OAMAttr.size
  rw [and_3]; omega

/-- The bounding-box width is never negative. -/
theorem objCtx_boundsW_nonneg (m : GbaMem) (line : Int) (oa : Mode1.OAMAttr) (w h : Nat) :
    0 ≤ (Mode1.objCtx m line oa w h).boundsW := by
  unfold Mode1.objCtx
  simp only []
  split <;> omega

/-- One sprite iteration, cell by cell, for a sprite with a valid shape. -/
theorem objSprite_cell (m : GbaMem) (line : Nat) (obj1d : Bool) (bufs : LineBufs) (i : Nat)
    (hs : (Mode1.readOam m i).shape ≤ 2) :
    ∃ b, Mode1.objSprite m line obj1d bufs i = some b
      ∧ ∀ x, x < 240 →
          b.cell x = Mode1.mergeCell (bufs.cell x) (Mode1.objCandidate m line obj1d i x) := by
  obtain ⟨w, h, hw, hh⟩ := objTables_some _ _ hs (OAMAttr_size_le (Mode1.readOam m i))
  unfold Mode1.objSprite Mode1.objCandidate
  simp only [hw, hh]
  by_cases hhid : (Mode1.readOam m i).hidden = true
  · simp only [hhid, if_true]
    exact ⟨bufs, rfl, fun x _ => rfl⟩
  · simp only [hhid, Bool.false_eq_true, if_false]
    by_cases hl : (line : Int) < (Mode1.objCtx m line (Mode1.readOam m i) w h).objY
        ∨ (line : Int) ≥ (Mode1.objCtx m line (Mode1.readOam m i) w h).objY
            + (Mode1.objCtx m line (Mode1.readOam m i) w h).boundsH
    · simp only [hl, if_true]
      exact ⟨bufs, rfl, fun x _ => rfl⟩
    · simp only [hl, if_false]
      refine ⟨_, rfl, fun x hx => ?_⟩
      rw [objColumns_cell m _ line obj1d _ bufs x hx]
      have hb := objCtx_boundsW_nonneg m line (Mode1.readOam m i) w h
      have hcast : (((Mode1.objCtx m line (Mode1.readOam m i) w h).boundsW.toNat : Nat) : Int)
          = (Mode1.objCtx m line (Mode1.readOam m i) w h).boundsW := Int.toNat_of_nonneg hb
      rw [hcast]

/-- The sprite loop over sprites `n - 1, ..., 0`, cell by cell. -/
theorem objLoop_cell (m : GbaMem) (line : Nat) (obj1d : Bool) (n : Nat)
    (hs : ∀ i, i < n → (Mode1.readOam m i).shape ≤ 2) (bufs : LineBufs) :
    ∃ b, Mode1.objLoop m line obj1d n bufs = some b
      ∧ ∀ x, x < 240 →
          b.cell x
            = Mode1.mergeDown (fun i => Mode1.objCandidate m line obj1d i x) n (bufs.cell x) := by
  induction n generalizing bufs with
  | zero => exact ⟨bufs, rfl, fun x _ => rfl⟩
  | succ n ih =>
    obtain ⟨b1, hb1, hc1⟩ := objSprite_cell m line obj1d bufs n (hs n (by omega))
    obtain ⟨b2, hb2, hc2⟩ := ih (fun i hi => hs i (by omega)) b1
    refine ⟨b2, ?_, fun x hx => ?_⟩
    · unfold Mode1.objLoop
      rw [hb1]
      exact hb2
    · rw [hc2 x hx, hc1 x hx]
      rfl

/-- Every candidate colour is a converted colour, hence non-zero. -/
theorem objCandidate_ne_zero (m : GbaMem) (line : Nat) (obj1d : Bool) (i x cw p : Nat)
    (h : Mode1.objCandidate m line obj1d i x = some (cw, p)) : cw ≠ 0 := by
  unfold Mode1.objCandidate at h
  simp only [] at h
  split at h
  · exact Option.noConfusion h
  · split at h
    · split at h
      · exact Option.noConfusion h
      · split at h
        · exact Option.noConfusion h
        · unfold Mode1.objColumnCand at h
          split at h
          · exact Option.noConfusion h
          · split at h
            · exact Option.noConfusion h
            · injection h with h
              injection h with h1 h2
              rw [← h1]
              exact Rgb555ToAbgr8888_ne_zero _
    · exact Option.noConfusion h

/-- Offering candidates last-to-first keeps the cell at the candidate with the
smallest (priority, index) pair seen so far. -/
theorem mergeDown_best (cand : Nat → Option (Nat × Nat)) (N : Nat)
    (hne : ∀ i cw p, cand i = some (cw, p) → cw ≠ 0) :
    ∀ n cur, n ≤ N →
      ((cur = (0, 0xFF) ∧ ∀ j, n ≤ j → j < N → cand j = none)
        ∨ (∃ i, n ≤ i ∧ i < N ∧ cand i = some cur
            ∧ ∀ j cw p, n ≤ j → j < N → cand j = some (cw, p) →
                cur.2 < p ∨ (cur.2 = p ∧ i ≤ j))) →
      ((Mode1.mergeDown cand n cur = (0, 0xFF) ∧ ∀ j, j < N → cand j = none)
        ∨ (∃ i, i < N ∧ cand i = some (Mode1.mergeDown cand n cur)
            ∧ ∀ j cw p, j < N → cand j = some (cw, p) →
                (Mode1.mergeDown cand n cur).2 < p
                  ∨ ((Mode1.mergeDown cand n cur).2 = p ∧ i ≤ j))) := by
  intro n
  induction n with
  | zero =>
    intro cur _ h
    rcases h with ⟨h1, h2⟩ | ⟨i, _, h2, h3, h4⟩
    · exact Or.inl ⟨h1, fun j hj => h2 j (Nat.zero_le j) hj⟩
    · exact Or.inr ⟨i, h2, h3, fun j cw p hj hc => h4 j cw p (Nat.zero_le j) hj hc⟩
  | succ n ih =>
    intro cur hn h
    show (Mode1.mergeDown cand n (Mode1.mergeCell cur (cand n)) = (0, 0xFF) ∧ _) ∨ _
    apply ih (Mode1.mergeCell cur (cand n)) (by omega)
    cases hc : cand n with
    | none =>
      have hm : Mode1.mergeCell cur none = cur := rfl
      rw [hm]
      rcases h with ⟨h1, h2⟩ | ⟨i, h1, h2, h3, h4⟩
      · left
        refine ⟨h1, fun j hj hjN => ?_⟩
        by_cases hjn : j = n
        · rw [hjn]; exact hc
        · exact h2 j (by omega) hjN
      · right
        refine ⟨i, by omega, h2, h3, fun j cw p hj hjN hcj => ?_⟩
        by_cases hjn : j = n
        · rw [hjn, hc] at hcj; exact Option.noConfusion hcj
        · exact h4 j cw p (by omega) hjN hcj
    | some cp =>
      obtain ⟨cw, p⟩ := cp
      rcases h with ⟨h1, h2⟩ | ⟨i, h1, h2, h3, h4⟩
      · have hm : Mode1.mergeCell cur (some (cw, p)) = (cw, p) := by
          unfold Mode1.mergeCell
          rw [h1]
          simp
        rw [hm]
        right
        refine ⟨n, le_refl n, by omega, hc, fun j cw1 p1 hj hjN hcj => ?_⟩
        by_cases hjn : j = n
        · rw [hjn, hc] at hcj
          injection hcj with hcj
          injection hcj with _ hp
          right
          exact ⟨hp, by omega⟩
        · rw [h2 j (by omega) hjN] at hcj
          exact Option.noConfusion hcj
      · have hcur : cur.1 ≠ 0 := hne i cur.1 cur.2 h3
        by_cases hlt : cur.2 < p
        · have hm : Mode1.mergeCell cur (some (cw, p)) = cur := by
            unfold Mode1.mergeCell
            simp only [ne_eq, hcur, not_false_eq_true, hlt, and_self, if_true]
          rw [hm]
          right
          refine ⟨i, by omega, h2, h3, fun j cw1 p1 hj hjN hcj => ?_⟩
          by_cases hjn : j = n
          · rw [hjn, hc] at hcj
            injection hcj with hcj
            injection hcj with _ hp
            left
            omega
          · exact h4 j cw1 p1 (by omega) hjN hcj
        · have hm : Mode1.mergeCell cur (some (cw, p)) = (cw, p) := by
            unfold Mode1.mergeCell
            simp only [ne_eq, hcur, not_false_eq_true, hlt, and_false, if_false]
          rw [hm]
          right
          refine ⟨n, le_refl n, by omega, hc, fun j cw1 p1 hj hjN hcj => ?_⟩
          by_cases hjn : j = n
          · rw [hjn, hc] at hcj
            injection hcj with hcj
            injection hcj with _ hp
            right
            exact ⟨hp, by omega⟩
          · have := h4 j cw1 p1 (by omega) hjN hcj
            show p < p1 ∨ (p = p1 ∧ n ≤ j)
            omega

/-- The sprite line rendered from the cleared buffers, cell by cell. -/
theorem RenderObjLine_cells (m : GbaMem) (line : Nat) (obj1d : Bool)
    (hs : ∀ i, i < 128 → (Mode1.readOam m i).shape ≤ 2) :
    ∃ b, Mode1.RenderObjLine m line obj1d Mode1.objClear = some b
      ∧ ∀ x, x < 240 →
        ((b.cell x = (0, 0xFF) ∧ ∀ j, j < 128 → Mode1.objCandidate m line obj1d j x = none)
          ∨ (∃ i, i < 128 ∧ Mode1.objCandidate m line obj1d i x = some (b.cell x)
              ∧ ∀ j cw p, j < 128 → Mode1.objCandidate m line obj1d j x = some (cw, p) →
                  (b.cell x).2 < p ∨ ((b.cell x).2 = p ∧ i ≤ j))) := by
  obtain ⟨b, hb, hc⟩ := objLoop_cell m line obj1d 128 hs Mode1.objClear
  refine ⟨b, hb, fun x hx => ?_⟩
  rw [hc x hx]
  exact mergeDown_best (fun i => Mode1.objCandidate m line obj1d i x) 128
    (fun i cw p h => objCandidate_ne_zero m line obj1d i x cw p h) 128 _ (le_refl _)
    (Or.inl ⟨rfl, fun j hj hj2 => absurd hj (by omega)⟩)

/-- In `tieImage` every sprite from index 2 on has attr0 = 0x0200. -/
theorem tieImage_attr0 (k : Nat) (hk : 2 ≤ k) : (Mode1.readOam tieImage k).attr0 = 0x0200 := by
  unfold Mode1.readOam GbaMem.oamWord tieImage
  have h1 : ¬ (k * 4 + 0 = 2) := by omega
  have h2 : ¬ (k * 4 + 0 = 6) := by omega
  have h3 : (k * 4 + 0) % 4 = 0 ∧ 8 ≤ k * 4 + 0 := by omega
  simp only [h1, h2, h3, if_false, and_self, if_true]

/-- In `tieImage` every sprite has shape 0. -/
theorem tieImage_shape (i : Nat) : (Mode1.readOam tieImage i).shape ≤ 2 := by
  by_cases h : 2 ≤ i
  · unfold Mode1.OAMAttr.shape
    rw [tieImage_attr0 i h]
    decide
  · have hi : i = 0 ∨ i = 1 := by omega
    rcases hi with rfl | rfl <;> decide

/-- In `tieImage` the sprites from index 2 on offer nothing. -/
theorem tieImage_hidden (line : Nat) (obj1d : Bool) (k x : Nat) (hk : 2 ≤ k) :
    Mode1.objCandidate tieImage line obj1d k x = none := by
  have hh : (Mode1.readOam tieImage k).hidden = true := by
    unfold Mode1.OAMAttr.hidden Mode1.OAMAttr.affine
    rw [tieImage_attr0 k hk]
    decide
  unfold Mode1.objCandidate
  simp only [hh, if_true]

/-- C9: when every sprite has a valid shape (0..2), `RenderObjLine` run on the
cleared sprite buffers (colour 0, priority 0xFF) returns buffers in which each
column `x < 240` holds the colour and priority offered by the sprite with the
smallest (priority, OAM index) pair among the sprites that sample a non-zero
colour index at that column on that scanline, and stays empty when there is
none; in particular, where exactly two sprites of equal priority overlap, the
colour is that of the one with the lower OAM index. -/
theorem RenderObjLine_lowest_pair_wins (m : GbaMem) (line : Nat) (obj1d : Bool)
    (hs : ∀ i, i < 128 → (Mode1.readOam m i).shape ≤ 2) :
    ∃ b, Mode1.RenderObjLine m line obj1d Mode1.objClear = some b
      ∧ ∀ x, x < 240 →
        ((∀ j, j < 128 → Mode1.objCandidate m line obj1d j x = none) →
            b.color x = 0 ∧ b.pri x = 0xFF)
        ∧ (∀ i cw p, i < 128 → Mode1.objCandidate m line obj1d i x = some (cw, p) →
            (∀ j cw1 p1, j < 128 → Mode1.objCandidate m line obj1d j x = some (cw1, p1) →
              p < p1 ∨ (p = p1 ∧ i ≤ j)) →
            b.color x = cw ∧ b.pri x = p)
        ∧ (∀ i j cw cw1 p, i < j → j < 128 →
            Mode1.objCandidate m line obj1d i x = some (cw, p) →
            Mode1.objCandidate m line obj1d j x = some (cw1, p) →
            (∀ k, k < 128 → k ≠ i → k ≠ j → Mode1.objCandidate m line obj1d k x = none) →
            b.color x = cw ∧ b.pri x = p) := by
  obtain ⟨b, hb, hc⟩ := RenderObjLine_cells m line obj1d hs
  have hmin : ∀ x, x < 240 → ∀ i cw p, i < 128 →
      Mode1.objCandidate m line obj1d i x = some (cw, p) →
      (∀ j cw1 p1, j < 128 → Mode1.objCandidate m line obj1d j x = some (cw1, p1) →
        p < p1 ∨ (p = p1 ∧ i ≤ j)) →
      b.color x = cw ∧ b.pri x = p := by
    intro x hx i cw p hi hci hmin
    rcases hc x hx with ⟨_, h2⟩ | ⟨i1, hi1, h2, h3⟩
    · rw [h2 i hi] at hci
      exact Option.noConfusion hci
    · have ha := h3 i cw p hi hci
      have hb1 := hmin i1 (b.cell x).1 (b.cell x).2 hi1 h2
      have hii : i = i1 := by omega
      rw [← hii, hci] at h2
      injection h2 with h2
      have hcol : b.color x = (b.cell x).1 := rfl
      have hpri : b.pri x = (b.cell x).2 := rfl
      rw [hcol, hpri, ← h2]
      exact ⟨rfl, rfl⟩
  refine ⟨b, hb, fun x hx => ⟨?_, hmin x hx, ?_⟩⟩
  · intro hnone
    rcases hc x hx with ⟨h1, _⟩ | ⟨i1, hi1, h2, _⟩
    · have hcol : b.color x = (b.cell x).1 := rfl
      have hpri : b.pri x = (b.cell x).2 := rfl
      rw [hcol, hpri, h1]
      exact ⟨rfl, rfl⟩
    · rw [hnone i1 hi1] at h2
      exact Option.noConfusion h2
  · intro i j cw cw1 p hij hj hci hcj hothers
    apply hmin x hx i cw p (by omega) hci
    intro k cwk pk hk hck
    by_cases hki : k = i
    · rw [hki, hci] at hck
      injection hck with hck
      injection hck with _ hp
      right
      exact ⟨hp, by omega⟩
    · by_cases hkj : k = j
      · rw [hkj, hcj] at hck
        injection hck with hck
        injection hck with _ hp
        right
        exact ⟨hp, by omega⟩
      · rw [hothers k hk hki hkj] at hck
        exact Option.noConfusion hck

/-- C9 on `tieImage`: sprites 0 and 1 overlap at column 0 with equal priority
and the buffer holds the colour of sprite 0. -/
theorem RenderObjLine_lowest_pair_wins_witness :
    (∀ i, i < 128 → (Mode1.readOam tieImage i).shape ≤ 2)
    ∧ Mode1.objCandidate tieImage 0 false 0 0 = some (0xFF0000F8, 1)
    ∧ Mode1.objCandidate tieImage 0 false 1 0 = some (0xFF00F800, 1)
    ∧ ∃ b, Mode1.RenderObjLine tieImage 0 false Mode1.objClear = some b
        ∧ b.color 0 = 0xFF0000F8 ∧ b.pri 0 = 1 := by
  have h0 : Mode1.objCandidate tieImage 0 false 0 0 = some (0xFF0000F8, 1) := by decide
  have h1 : Mode1.objCandidate tieImage 0 false 1 0 = some (0xFF00F800, 1) := by decide
  obtain ⟨b, hb, hc⟩ :=
    RenderObjLine_lowest_pair_wins tieImage 0 false (fun i _ => tieImage_shape i)
  exact ⟨fun i _ => tieImage_shape i, h0, h1, b, hb,
    (hc 0 (by decide)).2.2 0 1 _ _ 1 (by decide) (by decide) h0 h1
      (fun k _ hk0 hk1 => tieImage_hidden 0 false k 0 (by omega))⟩

/-! ## The overwrite policy of the sprite loop -/

/-- C10 (as stated) fails: in `tieImage`, once sprite 1 (priority 1) has been
drawn, column 0 is non-empty with stored priority 1; the pixel of sprite 0,
whose priority 1 is not strictly less than the stored one, still overwrites
it. -/
theorem objSprite_equal_priority_counterexample :
    ∃ b1 b0, Mode1.objSprite tieImage 0 false Mode1.objClear 1 = some b1
      ∧ b1.color 0 = 0xFF00F800 ∧ b1.pri 0 = 1
      ∧ b1.color 0 ≠ 0 ∧ ¬ ((Mode1.readOam tieImage 0).priority < b1.pri 0)
      ∧ Mode1.objCandidate tieImage 0 false 0 0 = some (0xFF0000F8, 1)
      ∧ Mode1.objSprite tieImage 0 false b1 0 = some b0
      ∧ b0.color 0 = 0xFF0000F8 ∧ b0.pri 0 = 1 ∧ b0.color 0 ≠ b1.color 0 := by
  have h0 : Mode1.objCandidate tieImage 0 false 0 0 = some (0xFF0000F8, 1) := by decide
  have h1 : Mode1.objCandidate tieImage 0 false 1 0 = some (0xFF00F800, 1) := by decide
  obtain ⟨b1, hb1, hc1⟩ := objSprite_cell tieImage 0 false Mode1.objClear 1 (tieImage_shape 1)
  obtain ⟨b0, hb0, hc0⟩ := objSprite_cell tieImage 0 false b1 0 (tieImage_shape 0)
  have e1 : b1.cell 0 = (0xFF00F800, 1) := by
    rw [hc1 0 (by decide), h1]; decide
  have e0 : b0.cell 0 = (0xFF0000F8, 1) := by
    rw [hc0 0 (by decide), h0, e1]; decide
  have c1 : b1.color 0 = 0xFF00F800 := congrArg Prod.fst e1
  have p1 : b1.pri 0 = 1 := congrArg Prod.snd e1
  have c0 : b0.color 0 = 0xFF0000F8 := congrArg Prod.fst e0
  have p0 : b0.pri 0 = 1 := congrArg Prod.snd e0
  refine ⟨b1, b0, hb1, c1, p1, ?_, ?_, h0, hb0, c0, p0, ?_⟩
  · rw [c1]; decide
  · rw [p1]; decide
  · rw [c0, c1]; decide

/-- C10 (amended): in the column loop of `RenderObjLine`, a sprite pixel with
non-zero colour index at an on-screen column overwrites the destination (colour
and priority) if the destination is empty or the candidate's priority is less
than or equal to the stored priority, and leaves the buffers untouched
otherwise. -/
theorem objColumn_overwrite_policy (m : GbaMem) (c : Mode1.ObjCtx) (line : Int) (obj1d : Bool)
    (bufs : LineBufs) (sx : Nat) (tx ty : Int)
    (hx0 : 0 ≤ c.objX + (sx : Int)) (hx1 : c.objX + (sx : Int) < 240)
    (ht : Mode1.objTexCoord c line sx = some (tx, ty))
    (hidx : Mode1.objColorIdx m c obj1d tx ty ≠ 0) :
    ((bufs.color (c.objX + (sx : Int)).toNat = 0
        ∨ c.priority ≤ bufs.pri (c.objX + (sx : Int)).toNat) →
      (Mode1.objColumn m c line obj1d bufs sx).color (c.objX + (sx : Int)).toNat
          = Mode1.Rgb555ToAbgr8888 (Mode1.objRgb555 m c (Mode1.objColorIdx m c obj1d tx ty))
        ∧ (Mode1.objColumn m c line obj1d bufs sx).pri (c.objX + (sx : Int)).toNat = c.priority)
    ∧ (¬ (bufs.color (c.objX + (sx : Int)).toNat = 0
        ∨ c.priority ≤ bufs.pri (c.objX + (sx : Int)).toNat) →
      Mode1.objColumn m c line obj1d bufs sx = bufs) := by
  have hr : ¬ (c.objX + (sx : Int) < 0 ∨ c.objX + (sx : Int) ≥ ((Mode1.GBA_WIDTH : Nat) : Int)) := by
    unfold Mode1.GBA_WIDTH; omega
  unfold Mode1.objColumn
  simp only [hr, if_false, ht, hidx]
  constructor
  · intro h
    have hn : ¬ (bufs.color (c.objX + (sx : Int)).toNat ≠ 0
        ∧ bufs.pri (c.objX + (sx : Int)).toNat < c.priority) := by
      intro hc; rcases h with h | h
      · exact hc.1 h
      · omega
    rw [if_neg hn]
    simp only [Function.update_same, and_self]
  · intro h
    have hp : bufs.color (c.objX + (sx : Int)).toNat ≠ 0
        ∧ bufs.pri (c.objX + (sx : Int)).toNat < c.priority := by
      constructor
      · intro hc; exact h (Or.inl hc)
      · by_contra hc; exact h (Or.inr (by omega))
    rw [if_pos hp]

/-- C10 (amended) on sprite 0 of `tieImage` drawn over a green cell of equal
priority. -/
theorem objColumn_overwrite_policy_witness :
    (Mode1.objColumn tieImage (Mode1.objCtx tieImage 0 (Mode1.readOam tieImage 0) 8 8) 0 false
        ⟨fun _ => 0xFF00F800, fun _ => 1⟩ 0).color 0 = 0xFF0000F8
    ∧ (Mode1.objColumn tieImage (Mode1.objCtx tieImage 0 (Mode1.readOam tieImage 0) 8 8) 0 false
        ⟨fun _ => 0xFF00F800, fun _ => 1⟩ 0).pri 0 = 1 :=
  have h := (objColumn_overwrite_policy tieImage
    (Mode1.objCtx tieImage 0 (Mode1.readOam tieImage 0) 8 8) 0 false
    ⟨fun _ => 0xFF00F800, fun _ => 1⟩ 0 0 0 (by decide) (by decide) (by decide) (by decide)).1
    (Or.inr (by decide))
  ⟨h.1.trans (by decide), h.2.trans (by decide)⟩

/-! ## The BG order and a single enabled BG -/

/-- One compare-and-swap of the BG sort permutes a four-element array. -/
theorem sortStep_perm4 (prio : Nat → Nat) (a b c d : Nat) (ij : Nat × Nat)
    (h : ij ∈ [(0, 1), (0, 2), (0, 3), (1, 2), (1, 3), (2, 3)]) :
    ∃ a1 b1 c1 d1, Mode1.sortStep prio [a, b, c, d] ij = [a1, b1, c1, d1]
      ∧ [a1, b1, c1, d1].Perm [a, b, c, d] := by
  have hperm : ∀ l1 l2 : List Nat, (∀ x, l1.count x = l2.count x) → l1.Perm l2 :=
    fun l1 l2 hc => List.perm_iff_count.mpr hc
  simp only [List.mem_cons, List.mem_singleton, List.not_mem_nil, or_false] at h
  rcases h with rfl | rfl | rfl | rfl | rfl | rfl
  all_goals
    unfold Mode1.sortStep
    split
    · refine ⟨_, _, _, _, rfl, hperm _ _ (fun x => ?_)⟩
      simp only [List.getD_cons_zero, List.getD_cons_succ, List.set_cons_zero,
        List.set_cons_succ, List.count_cons, List.count_nil]
      omega
    · exact ⟨a, b, c, d, rfl, List.Perm.refl _⟩

/-- The sorted BG order is a permutation of `0, 1, 2, 3`. -/
theorem sortBgOrder_perm (prio : Nat → Nat) :
    ∃ a b c d, Mode1.sortBgOrder prio = [a, b, c, d] ∧ [a, b, c, d].Perm [0, 1, 2, 3] := by
  unfold Mode1.sortBgOrder
  simp only [List.foldl_cons, List.foldl_nil]
  obtain ⟨a1, b1, c1, d1, e1, p1⟩ := sortStep_perm4 prio 0 1 2 3 (0, 1) (by simp)
  obtain ⟨a2, b2, c2, d2, e2, p2⟩ := sortStep_perm4 prio a1 b1 c1 d1 (0, 2) (by simp)
  obtain ⟨a3, b3, c3, d3, e3, p3⟩ := sortStep_perm4 prio a2 b2 c2 d2 (0, 3) (by simp)
  obtain ⟨a4, b4, c4, d4, e4, p4⟩ := sortStep_perm4 prio a3 b3 c3 d3 (1, 2) (by simp)
  obtain ⟨a5, b5, c5, d5, e5, p5⟩ := sortStep_perm4 prio a4 b4 c4 d4 (1, 3) (by simp)
  obtain ⟨a6, b6, c6, d6, e6, p6⟩ := sortStep_perm4 prio a5 b5 c5 d5 (2, 3) (by simp)
  rw [e1, e2, e3, e4, e5, e6]
  exact ⟨a6, b6, c6, d6, rfl,
    p6.trans (p5.trans (p4.trans (p3.trans (p2.trans p1))))⟩

/-- A permutation of `0, 1, 2, 3` holds `0` at exactly one position. -/
theorem perm4_one_zero (a b c d : Nat) (h : [a, b, c, d].Perm [0, 1, 2, 3]) :
    (a = 0 ∧ b ≠ 0 ∧ c ≠ 0 ∧ d ≠ 0) ∨ (a ≠ 0 ∧ b = 0 ∧ c ≠ 0 ∧ d ≠ 0)
      ∨ (a ≠ 0 ∧ b ≠ 0 ∧ c = 0 ∧ d ≠ 0) ∨ (a ≠ 0 ∧ b ≠ 0 ∧ c ≠ 0 ∧ d = 0) := by
  have h0 := (List.perm_iff_count.mp h) 0
  simp only [List.count_cons, List.count_nil] at h0
  by_cases ha : a = 0 <;> by_cases hb : b = 0 <;> by_cases hc : c = 0 <;>
    by_cases hd : d = 0 <;> simp [ha, hb, hc, hd] at h0 ⊢

/-- The BG loop at one priority level when BG0 is the only enabled BG. -/
theorem bgScan_only_bg0 (ly : Mode1.Layers) (dispcnt : Nat) (prio : Nat → Nat)
    (a b c d x pri : Nat) (hperm : [a, b, c, d].Perm [0, 1, 2, 3])
    (hon : Mode1.bgEnabled dispcnt 0 = true)
    (hoff : ∀ bg, bg ≠ 0 → Mode1.bgEnabled dispcnt bg = false)
    (s : Mode1.Pick) (hs : s.foundBot = false) :
    Mode1.bgScan ly dispcnt prio [a, b, c, d] x pri [0, 1, 2, 3] s
      = if prio 0 = pri ∧ ly.bgLayers 0 x ≠ 0 then
          (if s.foundTop = false then
            { s with topColor := ly.bgLayers 0 x, topLayerId := 0, foundTop := true }
          else { s with botColor := ly.bgLayers 0 x, botLayerId := 0, foundBot := true })
        else s := by
  rcases perm4_one_zero a b c d hperm with ⟨rfl, hb, hc, hd⟩ | ⟨ha, rfl, hc, hd⟩
    | ⟨ha, hb, rfl, hd⟩ | ⟨ha, hb, hc, rfl⟩
  all_goals
    by_cases hp : prio 0 = pri
    · by_cases hl : ly.bgLayers 0 x = 0
      · simp [Mode1.bgScan, hon, hoff, hp, hl, *]
      · by_cases ht : s.foundTop = false
        · simp [Mode1.bgScan, hon, hoff, hp, hl, ht, hs, *]
        · simp [Mode1.bgScan, hon, hoff, hp, hl, ht, hs, *]
    · simp [Mode1.bgScan, hon, hoff, hp, *]

/-- A BG priority is a 2-bit value. -/
theorem bgPriority_le (m : GbaMem) (i : Nat) : Mode1.bgPriority m i ≤ 3 := by
  unfold Mode1.bgPriority
  rw [and_3]; omega

/-- The search when BG0 is the only enabled layer: BG0's pixel if it is not
transparent, the backdrop otherwise. -/
theorem findTopBot_only_bg0 (m : GbaMem) (ly : Mode1.Layers) (dispcnt x : Nat)
    (hon : Mode1.bgEnabled dispcnt 0 = true)
    (hoff : ∀ bg, bg ≠ 0 → Mode1.bgEnabled dispcnt bg = false)
    (hobj : dispcnt &&& Mode1.DISP_OBJ_ON = 0) :
    (Mode1.findTopBot m ly dispcnt x).topColor
      = if ly.bgLayers 0 x = 0 then Mode1.Rgb555ToAbgr8888 (m.bgColor 0)
        else ly.bgLayers 0 x := by
  obtain ⟨a, b, c, d, ho, hperm⟩ := sortBgOrder_perm (Mode1.bgPriority m)
  have hp3 := bgPriority_le m 0
  unfold Mode1.findTopBot
  rw [ho]
  generalize hp0 : Mode1.bgPriority m 0 = p0 at hp3
  have hoo : ∀ pri s, Mode1.objOffer ly dispcnt x pri s = s :=
    fun pri s => objOffer_skip ly dispcnt x pri (Or.inl hobj) s
  by_cases hl : ly.bgLayers 0 x = 0
  · simp [Mode1.priScan, hoo, bgScan_only_bg0 ly dispcnt _ a b c d x _ hperm hon hoff, hl]
  · interval_cases p0 <;>
      simp [Mode1.priScan, hoo, bgScan_only_bg0 ly dispcnt _ a b c d x _ hperm hon hoff, hl, hp0]

/-! ## The text BG line -/

/-- The column loop of `RenderTextBgLine` over the first `n` columns. -/
theorem textBgColumns_color (m : GbaMem) (r : Mode1.TextBgRegs) (line n : Nat)
    (bufs : LineBufs) (x : Nat) :
    ((List.range n).foldl (Mode1.textBgColumn m r line) bufs).color x
      = if x < n ∧ Mode1.textBgColorIdx m r line x ≠ 0
          then Mode1.Rgb555ToAbgr8888 (Mode1.textBgRgb555 m r line x) else bufs.color x := by
  induction n with
  | zero =>
    simp only [List.range_zero, List.foldl_nil]
    rw [if_neg (by omega)]
  | succ n ih =>
    rw [List.range_succ, List.foldl_append]
    simp only [List.foldl_cons, List.foldl_nil]
    generalize (List.range n).foldl (Mode1.textBgColumn m r line) bufs = b at ih
    unfold Mode1.textBgColumn
    by_cases h0 : Mode1.textBgColorIdx m r line n = 0
    · rw [if_pos h0, ih]
      by_cases hxn : x = n
      · subst hxn
        rw [if_neg (by omega), if_neg (fun h => h.2 h0)]
      · by_cases hc : x < n ∧ Mode1.textBgColorIdx m r line x ≠ 0
        · rw [if_pos hc, if_pos ⟨by omega, hc.2⟩]
        · rw [if_neg hc, if_neg (fun h => hc ⟨by omega, h.2⟩)]
    · rw [if_neg h0]
      simp only []
      by_cases hxn : x = n
      · subst hxn
        rw [Function.update_same, if_pos ⟨by omega, h0⟩]
      · rw [Function.update_noteq hxn, ih]
        by_cases hc : x < n ∧ Mode1.textBgColorIdx m r line x ≠ 0
        · rw [if_pos hc, if_pos ⟨by omega, hc.2⟩]
        · rw [if_neg hc, if_neg (fun h => hc ⟨by omega, h.2⟩)]

/-- The colour buffer written by `RenderTextBgLine` into cleared buffers. -/
theorem RenderTextBgLine_color (m : GbaMem) (bgIdx line x : Nat) (hx : x < 240) :
    (Mode1.RenderTextBgLine m bgIdx line Mode1.bgClear).color x
      = if Mode1.textBgColorIdx m (Mode1.textBgRegs m bgIdx) line x = 0 then 0
        else Mode1.Rgb555ToAbgr8888
          (Mode1.textBgRgb555 m (Mode1.textBgRegs m bgIdx) line x) := by
  unfold Mode1.RenderTextBgLine Mode1.GBA_WIDTH
  rw [textBgColumns_color]
  by_cases h0 : Mode1.textBgColorIdx m (Mode1.textBgRegs m bgIdx) line x = 0
  · rw [if_neg (fun h => h.2 h0), if_pos h0]
    rfl
  · rw [if_pos ⟨hx, h0⟩, if_neg h0]

/-- Bounds of the base addresses decoded from BGxCNT. -/
theorem textBgRegs_bounds (m : GbaMem) (bgIdx : Nat) :
    (Mode1.textBgRegs m bgIdx).charBase ≤ 0xC000
      ∧ (Mode1.textBgRegs m bgIdx).screenBase ≤ 0xF800 := by
  unfold Mode1.textBgRegs
  simp only [and_3, and_31]
  omega

/-- The 10-bit tile index of a tilemap entry. -/
theorem tileIndex_le (te : Mode1.TilemapEntry) : te.tileIndex ≤ 0x3FF := by
  unfold Mode1.TilemapEntry.tileIndex
  have h : te.raw &&& 0x03FF = te.raw % 1024 := Nat.and_pow_two_sub_one_eq_mod te.raw 10
  rw [h]; omega

/-- With a 32x32 map and zero scroll, the entry fetched for an on-screen pixel
is the entry of its tile in the first screen block. -/
theorem textBgEntry_single_block (m : GbaMem) (r : Mode1.TextBgRegs) (line x : Nat)
    (hl : line < 160) (hx : x < 240) (hb : r.screenBase ≤ 0xF800)
    (hw : r.mapW = 32) (hh : r.mapH = 32) (hsx : r.scrollX = 0) (hsy : r.scrollY = 0) :
    Mode1.textBgEntry m r line x = ⟨mapEntry16 m r.screenBase (line / 8) (x / 8)⟩ := by
  have ha : Mode1.textBgMapAddr r line x = r.screenBase + (line / 8 * 32 + x / 8) * 2 := by
    unfold Mode1.textBgMapAddr
    simp only [hw, hh, hsx, hsy]
    omega
  unfold Mode1.textBgEntry mapEntry16
  simp only [ha]

/-- With 4 bpp, a 32x32 map and zero scroll, the colour index of an on-screen
pixel is the specification's 4-bpp decode of the (flipped) sub-tile pixel. -/
theorem textBgColorIdx_4bpp (m : GbaMem) (r : Mode1.TextBgRegs) (line x : Nat)
    (hc : r.charBase ≤ 0xC000) (h4 : r.bpp8 = false)
    (hw : r.mapW = 32) (hh : r.mapH = 32) (hsx : r.scrollX = 0) (hsy : r.scrollY = 0) :
    Mode1.textBgColorIdx m r line x
      = tilePixel4 m r.charBase (Mode1.textBgEntry m r line x).tileIndex
          (if (Mode1.textBgEntry m r line x).hflip then 7 - x % 8 else x % 8)
          (if (Mode1.textBgEntry m r line x).vflip then 7 - line % 8 else line % 8) := by
  have hti := tileIndex_le (Mode1.textBgEntry m r line x)
  unfold Mode1.textBgColorIdx tilePixel4
  simp only [h4, hw, hh, hsx, hsy, Bool.false_eq_true, if_false]
  have e1 : (line + 0) % (32 * 8) % 8 = line % 8 := by omega
  have e2 : (x + 0) % (32 * 8) % 8 = x % 8 := by omega
  rw [e1, e2]
  have htx : (if (Mode1.textBgEntry m r line x).hflip = true then 7 - x % 8 else x % 8) ≤ 7 := by
    split <;> omega
  have hty : (if (Mode1.textBgEntry m r line x).vflip = true then 7 - line % 8 else line % 8)
      ≤ 7 := by
    split <;> omega
  generalize (Mode1.textBgEntry m r line x).tileIndex = ti at hti
  generalize (if (Mode1.textBgEntry m r line x).hflip = true then 7 - x % 8 else x % 8) = tpx
    at htx
  generalize (if (Mode1.textBgEntry m r line x).vflip = true then 7 - line % 8 else line % 8)
    = tpy at hty
  have hm : (r.charBase + ti * 32 + tpy * 4 + tpx / 2) % 4294967296
      = r.charBase + ti * 32 + tpy * 4 + tpx / 2 := by omega
  have hbyte : ∀ v : Nat, v < 256 → (v >>> 4) % 256 = v / 16 ∧ (v &&& 0xF) % 256 = v % 16 := by
    intro v hv
    rw [Nat.shiftRight_eq_div_pow, and_15]
    constructor <;> omega
  have hodd : (tpx &&& 1) ≠ 0 ↔ tpx % 2 = 1 := by
    rw [Nat.and_one_is_mod]; omega
  have hv : ∀ a, (if a < 0x18000 then m.vramByte a else 0) < 256 := by
    intro a
    unfold GbaMem.vramByte
    split <;> omega
  rw [hm]
  by_cases ho : tpx % 2 = 1
  · rw [if_pos (hodd.mpr ho), if_pos ho]
    exact (hbyte _ (hv _)).1
  · rw [if_neg (fun h => ho (hodd.mp h)), if_neg ho]
    exact (hbyte _ (hv _)).2

/-- Masking twice: a sub-mask of a mask whose result is known. -/
theorem and_of_sub (x a b v : Nat) (h : x &&& a = v) (hab : a &&& b = b) :
    x &&& b = v &&& b := by
  rw [← h, Nat.and_assoc, hab]

/-- The scanline body of mode 1 when BG0 is the only enabled layer. -/
theorem renderLine_only_bg0 (m : GbaMem) (dispcnt : Nat) (obj1d : Bool) (fb : Nat → Nat)
    (line : Nat) (hd : dispcnt &&& 0x1F80 = 0x0100) :
    Mode1.renderLine m dispcnt obj1d fb line
      = some (Mode1.CompositeLineMode0 m line
          (Mode1.mkLayers (Mode1.RenderTextBgLine m 0 line Mode1.bgClear) Mode1.bgClear
            Mode1.bgClear Mode1.bgClear Mode1.objClear)
          dispcnt fb) := by
  have h0 : dispcnt &&& Mode1.DISP_BG0_ON = 0x100 := and_of_sub _ _ _ _ hd (by decide)
  have h1 : dispcnt &&& Mode1.DISP_BG1_ON = 0 := and_of_sub _ _ _ _ hd (by decide)
  have h2 : dispcnt &&& Mode1.DISP_BG2_ON = 0 := and_of_sub _ _ _ _ hd (by decide)
  have h3 : dispcnt &&& Mode1.DISP_BG3_ON = 0 := and_of_sub _ _ _ _ hd (by decide)
  have h4 : dispcnt &&& Mode1.DISP_OBJ_ON = 0 := and_of_sub _ _ _ _ hd (by decide)
  unfold Mode1.renderLine
  simp only [h0, h1, h2, h3, h4, ne_eq, not_true_eq_false, if_false, Option.map_some']
  rfl

/-- The enable bits when BG0 is the only enabled layer. -/
theorem bgEnabled_only_bg0 (dispcnt : Nat) (hd : dispcnt &&& 0x1F80 = 0x0100) :
    Mode1.bgEnabled dispcnt 0 = true
      ∧ (∀ bg, bg ≠ 0 → Mode1.bgEnabled dispcnt bg = false)
      ∧ dispcnt &&& Mode1.DISP_OBJ_ON = 0
      ∧ dispcnt &&& Mode1.DISP_FORCED_BLANK = 0 := by
  have h0 : dispcnt &&& Mode1.DISP_BG0_ON = 0x100 := and_of_sub _ _ _ _ hd (by decide)
  have h1 : dispcnt &&& Mode1.DISP_BG1_ON = 0 := and_of_sub _ _ _ _ hd (by decide)
  have h2 : dispcnt &&& Mode1.DISP_BG2_ON = 0 := and_of_sub _ _ _ _ hd (by decide)
  have h3 : dispcnt &&& Mode1.DISP_BG3_ON = 0 := and_of_sub _ _ _ _ hd (by decide)
  have h4 : dispcnt &&& Mode1.DISP_OBJ_ON = 0 := and_of_sub _ _ _ _ hd (by decide)
  have h5 : dispcnt &&& Mode1.DISP_FORCED_BLANK = 0 := and_of_sub _ _ _ _ hd (by decide)
  refine ⟨?_, ?_, h4, h5⟩
  · unfold Mode1.bgEnabled
    simp only [h0]
    decide
  · intro bg hbg
    match bg, hbg with
    | 0, hbg => exact absurd rfl hbg
    | 1, _ => unfold Mode1.bgEnabled; simp only [h1]; decide
    | 2, _ => unfold Mode1.bgEnabled; simp only [h2]; decide
    | 3, _ => unfold Mode1.bgEnabled; simp only [h3]; decide
    | _ + 4, _ => rfl

/-- The colour index of every on-screen pixel in the single-tile scenario. -/
theorem single_tile_colorIdx (m : GbaMem) (l c : Nat) (hl : l < 160) (hc : c < 240)
    (h4 : (Mode1.textBgRegs m 0).bpp8 = false)
    (hw : (Mode1.textBgRegs m 0).mapW = 32) (hh : (Mode1.textBgRegs m 0).mapH = 32)
    (hsx : (Mode1.textBgRegs m 0).scrollX = 0) (hsy : (Mode1.textBgRegs m 0).scrollY = 0)
    (h00 : mapEntry16 m (Mode1.textBgRegs m 0).screenBase 0 0 = 1)
    (hblank : ∀ row col, row < 20 → col < 30 → ¬ (row = 0 ∧ col = 0) →
      ∀ px py, px < 8 → py < 8 →
        tilePixel4 m (Mode1.textBgRegs m 0).charBase
          (mapEntry16 m (Mode1.textBgRegs m 0).screenBase row col &&& 0x03FF) px py = 0)
    (htile : ∀ px py, px < 8 → py < 8 →
      tilePixel4 m (Mode1.textBgRegs m 0).charBase 1 px py = if px = 3 ∧ py = 5 then 2 else 0) :
    Mode1.textBgColorIdx m (Mode1.textBgRegs m 0) l c = (if c = 3 ∧ l = 5 then 2 else 0)
      ∧ (c = 3 ∧ l = 5 → Mode1.textBgRgb555 m (Mode1.textBgRegs m 0) l c = m.bgColor 2) := by
  have hb := textBgRegs_bounds m 0
  have hent := textBgEntry_single_block m (Mode1.textBgRegs m 0) l c hl hc hb.2 hw hh hsx hsy
  have hidx := textBgColorIdx_4bpp m (Mode1.textBgRegs m 0) l c hb.1 h4 hw hh hsx hsy
  by_cases h0 : l / 8 = 0 ∧ c / 8 = 0
  · rw [h0.1, h0.2, h00] at hent
    have ht : (Mode1.textBgEntry m (Mode1.textBgRegs m 0) l c).tileIndex = 1 := by
      rw [hent]; decide
    have hf : (Mode1.textBgEntry m (Mode1.textBgRegs m 0) l c).hflip = false := by
      rw [hent]; decide
    have hv : (Mode1.textBgEntry m (Mode1.textBgRegs m 0) l c).vflip = false := by
      rw [hent]; decide
    have hp : (Mode1.textBgEntry m (Mode1.textBgRegs m 0) l c).palette = 0 := by
      rw [hent]; decide
    have hc8 : c % 8 = c := by omega
    have hl8 : l % 8 = l := by omega
    rw [ht, hf, hv] at hidx
    simp only [Bool.false_eq_true, if_false, hc8, hl8] at hidx
    rw [htile c l (by omega) (by omega)] at hidx
    refine ⟨hidx, fun h35 => ?_⟩
    unfold Mode1.textBgRgb555
    simp only [h4, Bool.false_eq_true, if_false, hp, hidx, if_pos h35]
  · have hne : ¬ (c = 3 ∧ l = 5) := by omega
    have hz : Mode1.textBgColorIdx m (Mode1.textBgRegs m 0) l c = 0 := by
      rw [hidx]
      have hti : (Mode1.textBgEntry m (Mode1.textBgRegs m 0) l c).tileIndex
          = mapEntry16 m (Mode1.textBgRegs m 0).screenBase (l / 8) (c / 8) &&& 0x03FF := by
        rw [hent]; rfl
      rw [hti]
      apply hblank (l / 8) (c / 8) (by omega) (by omega) h0
      · split <;> omega
      · split <;> omega
    rw [hz, if_neg hne]
    exact ⟨rfl, fun h => absurd h hne⟩

/-! ## Scenario C: a single tile on BG0 -/

/-- C5: in mode 1 with only BG0 enabled (DISPCNT bits 7..12 = `0x0100`), 4 bpp,
a 32x32 map, scroll (0,0) and blend effect none: if map entry (0,0) is
`0x0001` (tile 1, palette 0, no flip), every other visible map entry (rows
0..19, columns 0..29) references a tile whose 64 pixels decode to 0, and tile
1's only non-zero pixel is local (3,5) with colour index 2, then `RenderFrame`
stores `Rgb555ToAbgr8888(gBgPltt[2])` at index `5*240+3` and the backdrop
`Rgb555ToAbgr8888(gBgPltt[0])` at every other pixel of the 240x160 output. -/
theorem RenderFrame_single_tile (ppu : PPUMemory) (m : GbaMem) (fb : Nat → Nat)
    (hd : Mode1.IoRead16 m Mode1.IO_DISPCNT &&& 0x1F80 = 0x0100)
    (h4 : (Mode1.textBgRegs m 0).bpp8 = false)
    (hw : (Mode1.textBgRegs m 0).mapW = 32) (hh : (Mode1.textBgRegs m 0).mapH = 32)
    (hsx : (Mode1.textBgRegs m 0).scrollX = 0) (hsy : (Mode1.textBgRegs m 0).scrollY = 0)
    (he : (Mode1.blendRegs m).effect = 0)
    (h00 : mapEntry16 m (Mode1.textBgRegs m 0).screenBase 0 0 = 1)
    (hblank : ∀ row col, row < 20 → col < 30 → ¬ (row = 0 ∧ col = 0) →
      ∀ px py, px < 8 → py < 8 →
        tilePixel4 m (Mode1.textBgRegs m 0).charBase
          (mapEntry16 m (Mode1.textBgRegs m 0).screenBase row col &&& 0x03FF) px py = 0)
    (htile : ∀ px py, px < 8 → py < 8 →
      tilePixel4 m (Mode1.textBgRegs m 0).charBase 1 px py = if px = 3 ∧ py = 5 then 2 else 0) :
    ∃ fb1, Mode1.RenderFrame ppu m fb = some fb1
      ∧ fb1 (5 * 240 + 3) = Mode1.Rgb555ToAbgr8888 (m.bgColor 2)
      ∧ ∀ l c, l < 160 → c < 240 → ¬ (l = 5 ∧ c = 3) →
          fb1 (l * 240 + c) = Mode1.Rgb555ToAbgr8888 (m.bgColor 0) := by
  obtain ⟨hon, hoff, hobj, hfb⟩ := bgEnabled_only_bg0 _ hd
  have hloop := lineLoop_rows
    (Mode1.renderLine m (Mode1.IoRead16 m Mode1.IO_DISPCNT)
      (Mode1.IoRead16 m Mode1.IO_DISPCNT &&& Mode1.DISP_OBJ_1D != 0))
    (fun l c => Mode1.compositePixel m
      (Mode1.mkLayers (Mode1.RenderTextBgLine m 0 l Mode1.bgClear) Mode1.bgClear
        Mode1.bgClear Mode1.bgClear Mode1.objClear)
      (Mode1.IoRead16 m Mode1.IO_DISPCNT) c) 160
    (by
      intro fb2 l _
      rw [renderLine_only_bg0 m _ _ fb2 l hd]
      congr 1
      funext i
      exact CompositeLineMode0_apply m l _ _ fb2 i) fb
  have hrf : Mode1.RenderFrame ppu m fb = some (fun i => if i < 160 * 240 then
      (fun l c => Mode1.compositePixel m
        (Mode1.mkLayers (Mode1.RenderTextBgLine m 0 l Mode1.bgClear) Mode1.bgClear
          Mode1.bgClear Mode1.bgClear Mode1.objClear)
        (Mode1.IoRead16 m Mode1.IO_DISPCNT) c) (i / 240) (i % 240) else fb i) := by
    unfold Mode1.RenderFrame
    simp only [hfb, ne_eq, not_true_eq_false, if_false]
    exact hloop
  have hpix : ∀ l c, l < 160 → c < 240 →
      Mode1.compositePixel m
        (Mode1.mkLayers (Mode1.RenderTextBgLine m 0 l Mode1.bgClear) Mode1.bgClear
          Mode1.bgClear Mode1.bgClear Mode1.objClear)
        (Mode1.IoRead16 m Mode1.IO_DISPCNT) c
      = if c = 3 ∧ l = 5 then Mode1.Rgb555ToAbgr8888 (m.bgColor 2)
        else Mode1.Rgb555ToAbgr8888 (m.bgColor 0) := by
    intro l c hl hc
    obtain ⟨hi, hrgb⟩ := single_tile_colorIdx m l c hl hc h4 hw hh hsx hsy h00 hblank htile
    unfold Mode1.compositePixel
    rw [applyBlend_none _ _ he, findTopBot_only_bg0 m _ _ c hon hoff hobj]
    have hlayer : (Mode1.mkLayers (Mode1.RenderTextBgLine m 0 l Mode1.bgClear) Mode1.bgClear
        Mode1.bgClear Mode1.bgClear Mode1.objClear).bgLayers 0 c
        = (Mode1.RenderTextBgLine m 0 l Mode1.bgClear).color c := rfl
    rw [hlayer, RenderTextBgLine_color m 0 l c hc]
    by_cases h35 : c = 3 ∧ l = 5
    · have hi2 : Mode1.textBgColorIdx m (Mode1.textBgRegs m 0) l c = 2 := by
        rw [hi, if_pos h35]
      rw [hi2, hrgb h35, if_neg (show ¬ (2 : Nat) = 0 by decide),
        if_neg (Rgb555ToAbgr8888_ne_zero _), if_pos h35]
    · have hi0 : Mode1.textBgColorIdx m (Mode1.textBgRegs m 0) l c = 0 := by
        rw [hi, if_neg h35]
      rw [hi0, if_pos rfl, if_pos rfl, if_neg h35]
  refine ⟨_, hrf, ?_, ?_⟩
  · have h1 : (5 * 240 + 3) / 240 = 5 := by decide
    have h2 : (5 * 240 + 3) % 240 = 3 := by decide
    simp only [show 5 * 240 + 3 < 160 * 240 by decide, if_true, h1, h2]
    rw [hpix 5 3 (by decide) (by decide), if_pos ⟨rfl, rfl⟩]
  · intro l c hl hc hne
    have h1 : l * 240 + c < 160 * 240 := by omega
    have h2 : (l * 240 + c) / 240 = l := by omega
    have h3 : (l * 240 + c) % 240 = c := by omega
    simp only [h1, if_true, h2, h3]
    rw [hpix l c hl hc, if_neg (fun h => hne ⟨h.2, h.1⟩)]

/-- The VRAM bytes of `tileImage`. -/
theorem tileImage_vram (a : Nat) (h1 : a ≠ 0x800) (h2 : a ≠ 53) : tileImage.vramByte a = 0 := by
  unfold GbaMem.vramByte tileImage
  simp only [h1, h2, if_false]

/-- In `tileImage` every visible map entry other than (0,0) references the
blank tile 0. -/
theorem tileImage_blank (row col : Nat) (hr : row < 20) (hc : col < 30)
    (hne : ¬ (row = 0 ∧ col = 0)) (px py : Nat) (hpx : px < 8) (hpy : py < 8) :
    tilePixel4 tileImage (Mode1.textBgRegs tileImage 0).charBase
      (mapEntry16 tileImage (Mode1.textBgRegs tileImage 0).screenBase row col &&& 0x03FF)
      px py = 0 := by
  have hcb : (Mode1.textBgRegs tileImage 0).charBase = 0 := by decide
  have hsb : (Mode1.textBgRegs tileImage 0).screenBase = 0x800 := by decide
  rw [hcb, hsb]
  have he : mapEntry16 tileImage 0x800 row col = 0 := by
    unfold mapEntry16
    rw [tileImage_vram _ (by omega) (by omega), tileImage_vram _ (by omega) (by omega)]
    decide
  rw [he]
  unfold tilePixel4
  simp only []
  have ha : 0 + (0 &&& 0x03FF) * 32 + py * 4 + px / 2 < 0x18000 := by
    have : (0 &&& 0x03FF) = 0 := by decide
    rw [this]; omega
  rw [if_pos ha, tileImage_vram _ (by
      have : (0 &&& 0x03FF) = 0 := by decide
      rw [this]; omega) (by
      have : (0 &&& 0x03FF) = 0 := by decide
      rw [this]; omega)]
  split <;> rfl

/-- In `tileImage` the only non-zero pixel of tile 1 is (3,5), of colour index 2. -/
theorem tileImage_tile1 : ∀ px, px < 8 → ∀ py, py < 8 →
    tilePixel4 tileImage (Mode1.textBgRegs tileImage 0).charBase 1 px py
      = if px = 3 ∧ py = 5 then 2 else 0 := by
  decide

/-- C5 on `tileImage`: pixel (3,5) is red, every other pixel the blue backdrop. -/
theorem RenderFrame_single_tile_witness :
    Mode1.IoRead16 tileImage Mode1.IO_DISPCNT &&& 0x1F80 = 0x0100
    ∧ mapEntry16 tileImage (Mode1.textBgRegs tileImage 0).screenBase 0 0 = 1
    ∧ tilePixel4 tileImage (Mode1.textBgRegs tileImage 0).charBase 1 3 5 = 2
    ∧ ∃ fb1, Mode1.RenderFrame ⟨240, 1⟩ tileImage (fun _ => 0) = some fb1
      ∧ fb1 (5 * 240 + 3) = 0xFF0000F8
      ∧ ∀ l c, l < 160 → c < 240 → ¬ (l = 5 ∧ c = 3) → fb1 (l * 240 + c) = 0xFFF80000 := by
  obtain ⟨fb1, h1, h2, h3⟩ := RenderFrame_single_tile ⟨240, 1⟩ tileImage (fun _ => 0)
    (by decide) (by decide) (by decide) (by decide) (by decide) (by decide) (by decide)
    (by decide) tileImage_blank (fun px py hpx hpy => tileImage_tile1 px hpx py hpy)
  refine ⟨by decide, by decide, by decide, fb1, h1, ?_, ?_⟩
  · rw [h2]; decide
  · intro l c hl hc hne
    rw [h3 l c hl hc hne]; decide

/-! ## The dispatcher -/

/-- C20: for every mode register value (a `uint8_t`) other than 0, 1, 2 and 7,
the top-level `RenderFrame` returns the framebuffer it was given: no word is
changed. -/
theorem RenderFrame_unknown_mode (s : PPU)
    (h0 : s.global_Registers.mode % 256 ≠ 0) (h1 : s.global_Registers.mode % 256 ≠ 1)
    (h2 : s.global_Registers.mode % 256 ≠ 2) (_h7 : s.global_Registers.mode % 256 ≠ 7) :
    ∃ fb1, RenderFrame s = some fb1 ∧ ∀ i, fb1 i = s.frame_buffer i := by
  refine ⟨s.frame_buffer, ?_, fun _ => rfl⟩
  unfold RenderFrame
  split
  · rename_i h; exact absurd h h0
  · rename_i h; exact absurd h h1
  · rename_i h; exact absurd h h2
  · rfl

/-- C20 at mode 3 with an arbitrary-looking framebuffer. -/
theorem RenderFrame_unknown_mode_witness :
    ∃ fb1, RenderFrame ⟨⟨240, 3⟩, Mode0.zeroLayout, gbaImage [] [] [] [] [],
        fun i => 0xFF000000 + i⟩ = some fb1
      ∧ ∀ i, fb1 i = 0xFF000000 + i :=
  RenderFrame_unknown_mode
    ⟨⟨240, 3⟩, Mode0.zeroLayout, gbaImage [] [] [] [] [], fun i => 0xFF000000 + i⟩
    (by decide) (by decide) (by decide) (by decide)

/-- A row loop storing `f x` at `base + x`, for a pure scanline body. -/
theorem foldl_rows_160 (body : (Nat → Nat) → Nat → (Nat → Nat)) (pix : Nat → Nat → Nat)
    (n : Nat)
    (hbody : ∀ fb y, y < n → body fb y = fun i =>
      if y * 160 ≤ i ∧ i < y * 160 + 160 then pix y (i - y * 160) else fb i)
    (fb : Nat → Nat) :
    (List.range n).foldl body fb
      = fun i => if i < n * 160 then pix (i / 160) (i % 160) else fb i := by
  induction n with
  | zero =>
    simp only [List.range_zero, List.foldl_nil]
    funext i
    rw [if_neg (by omega)]
  | succ n ih =>
    rw [List.range_succ, List.foldl_append, ih (fun fb y hy => hbody fb y (by omega))]
    simp only [List.foldl_cons, List.foldl_nil]
    rw [hbody _ n (by omega)]
    funext i
    by_cases h1 : n * 160 ≤ i ∧ i < n * 160 + 160
    · have h3 : i / 160 = n := by omega
      have h4 : i % 160 = i - n * 160 := by omega
      rw [if_pos h1, if_pos (by omega), h3, h4]
    · rw [if_neg h1]
      by_cases h5 : i < n * 160
      · rw [if_pos h5, if_pos (by omega)]
      · rw [if_neg h5, if_neg (by omega)]

/-- The DMG frame render with the LCD on, pixel by pixel. -/
theorem Mode7_RenderFrame_on (layout : Mode7.Mode7Layout) (ppu : PPUMemory) (fb : Nat → Nat)
    (hon : ((layout.regs.lcdc % 256) &&& Mode7.LCDC_ENABLE) ≠ 0) (i : Nat) :
    Mode7.RenderFrame layout ppu fb i
      = if i < 144 * 160 then
          Mode7.spriteScan layout
            (if ((layout.regs.lcdc % 256) &&& Mode7.LCDC_OBJ_SIZE) ≠ 0 then 16 else 8) (i % 160)
            (Mode7.bgPixel layout (i % 160) (i / 160)).1
            (Mode7.bgPixel layout (i % 160) (i / 160)).2
            (if ((layout.regs.lcdc % 256) &&& Mode7.LCDC_OBJ_ENABLE) ≠ 0 then
              Mode7.EvalSprites layout (i / 160)
                (if ((layout.regs.lcdc % 256) &&& Mode7.LCDC_OBJ_SIZE) ≠ 0 then 16 else 8)
            else [])
        else fb i := by
  unfold Mode7.RenderFrame Mode7.GB_SCREEN_HEIGHT
  rw [if_neg hon]
  rw [foldl_rows_160 (Mode7.renderLine layout)
    (fun y x => Mode7.spriteScan layout
      (if ((layout.regs.lcdc % 256) &&& Mode7.LCDC_OBJ_SIZE) ≠ 0 then 16 else 8) x
      (Mode7.bgPixel layout x y).1 (Mode7.bgPixel layout x y).2
      (if ((layout.regs.lcdc % 256) &&& Mode7.LCDC_OBJ_ENABLE) ≠ 0 then
        Mode7.EvalSprites layout y
          (if ((layout.regs.lcdc % 256) &&& Mode7.LCDC_OBJ_SIZE) ≠ 0 then 16 else 8)
      else [])) 144]
  intro fb1 y _
  unfold Mode7.renderLine Mode7.GB_SCREEN_WIDTH
  funext j
  exact foldl_store_range _ _ _ _ _

/-- C19 fails on the code: with `mode = 7` the top-level `RenderFrame` is a
no-op (the `switch` has no `case 7`), while `Mode7::RenderFrame` on the DMG
image `dmgImage` stores `0xFF0F380F` at pixel (0,0). -/
theorem RenderFrame_mode7_not_dispatched :
    RenderFrame ⟨⟨160, 7⟩, Mode0.zeroLayout, gbaImage [] [] [] [] [], fun _ => 0⟩
        = some (fun _ => 0)
    ∧ Mode7.RenderFrame dmgImage ⟨160, 7⟩ (fun _ => 0) 0 = 0xFF0F380F
    ∧ (∀ s : PPU, s.global_Registers.mode % 256 = 7 → RenderFrame s = some s.frame_buffer) := by
  refine ⟨rfl, ?_, ?_⟩
  · rw [Mode7_RenderFrame_on dmgImage _ _ (by decide) 0]
    decide
  · intro s h
    unfold RenderFrame
    rw [h]

/-! ## Mode 0: what the frame render stores -/

/-- C18 (as stated) fails: in mode 0 with `frame_width = 840`, the word stored
at pixel (0,0) is 0, whose alpha byte is `0x00`, not `0xFF`. -/
theorem Mode0_pixel_alpha_counterexample :
    ∃ fb1, Mode0.RenderFrame Mode0.zeroLayout ⟨840, 0⟩ (fun _ => 0xFFFFFFFF) = some fb1
      ∧ fb1 (0 * 840 + 0) = 0 ∧ (fb1 (0 * 840 + 0) >>> 24) &&& 0xFF ≠ 0xFF := by
  refine ⟨_, Mode0_RenderFrame_eq Mode0.zeroLayout ⟨840, 0⟩ (fun _ => 0xFFFFFFFF) (by decide),
    ?_, ?_⟩
  · simp
  · simp

/-- C18 (amended): in mode 0, for every VRAM content and every frame width of
at most 1280, the frame render stores the word 0 (alpha byte `0x00`) at every
pixel `line * width + x` with `line < 360` and `x < width`, and leaves every
other framebuffer word unchanged. -/
theorem Mode0_RenderFrame_zero (layout : Mode0.Mode0Layout) (ppu : PPUMemory) (fb : Nat → Nat)
    (hw : ppu.frame_width % 65536 ≤ 1280) :
    ∃ fb1, Mode0.RenderFrame layout ppu fb = some fb1
      ∧ (∀ line x, line < 360 → x < ppu.frame_width % 65536 →
          fb1 (line * (ppu.frame_width % 65536) + x) = 0
            ∧ (fb1 (line * (ppu.frame_width % 65536) + x) >>> 24) &&& 0xFF = 0)
      ∧ (∀ i, 360 * (ppu.frame_width % 65536) ≤ i → fb1 i = fb i) := by
  refine ⟨_, Mode0_RenderFrame_eq layout ppu fb hw, ?_, ?_⟩
  · intro line x hl hx
    have h1 : line * (ppu.frame_width % 65536) ≤ 359 * (ppu.frame_width % 65536) :=
      Nat.mul_le_mul_right _ (by omega)
    have h2 : line * (ppu.frame_width % 65536) + x < 360 * (ppu.frame_width % 65536) := by
      have h3 : 360 * (ppu.frame_width % 65536)
          = 359 * (ppu.frame_width % 65536) + ppu.frame_width % 65536 := by ring
      omega
    simp only [h2, if_true]
    decide
  · intro i hi
    have h2 : ¬ i < 360 * (ppu.frame_width % 65536) := by omega
    simp only [h2, if_false]

/-- C18 (amended) at `frame_width = 840` over a white framebuffer. -/
theorem Mode0_RenderFrame_zero_witness :
    ∃ fb1, Mode0.RenderFrame Mode0.zeroLayout ⟨840, 0⟩ (fun _ => 0xFFFFFFFF) = some fb1
      ∧ fb1 (359 * 840 + 839) = 0 ∧ fb1 (360 * 840) = 0xFFFFFFFF := by
  obtain ⟨fb1, h1, h2, h3⟩ :=
    Mode0_RenderFrame_zero Mode0.zeroLayout ⟨840, 0⟩ (fun _ => 0xFFFFFFFF) (by decide)
  exact ⟨fb1, h1, (h2 359 839 (by decide) (by decide)).1, h3 (360 * 840) (by decide)⟩

/-! ## The compositor's search as a contributor sequence -/

/-- Once both contributors are found, further offers change nothing. -/
theorem foldl_offer_done (l : List (Nat × Nat)) (s : Mode1.Pick)
    (ht : s.foundTop = true) (hb : s.foundBot = true) : l.foldl Mode1.offer s = s := by
  induction l with
  | nil => rfl
  | cons e l ih =>
    rw [List.foldl_cons]
    have : Mode1.offer s e = s := by
      unfold Mode1.offer
      simp [ht, hb]
    rw [this, ih]

/-- The BG loop offers the BG contributors of the class in BG order. -/
theorem bgScan_eq_foldl (ly : Mode1.Layers) (dispcnt : Nat) (prio : Nat → Nat)
    (order : List Nat) (x pri : Nat) (ks : List Nat) (s : Mode1.Pick) :
    Mode1.bgScan ly dispcnt prio order x pri ks s
      = (ks.filterMap (Mode1.bgSlot ly dispcnt prio order x pri)).foldl Mode1.offer s := by
  induction ks generalizing s with
  | nil => rfl
  | cons k ks ih =>
    have hslot : Mode1.bgSlot ly dispcnt prio order x pri k
        = if Mode1.bgEnabled dispcnt (order.getD k 0) = true ∧ prio (order.getD k 0) = pri
            ∧ ly.bgLayers (order.getD k 0) x ≠ 0 then
          some (ly.bgLayers (order.getD k 0) x, order.getD k 0)
        else none := rfl
    unfold Mode1.bgScan
    rw [List.filterMap_cons, hslot]
    generalize order.getD k 0 = bg
    obtain ⟨tc, tl, bc, bl, ft, fb⟩ := s
    by_cases he : Mode1.bgEnabled dispcnt bg = true
    · by_cases hp : prio bg = pri
      · by_cases hl : ly.bgLayers bg x = 0
        · simp [he, hp, hl, ih]
        · cases ft <;> cases fb <;>
            simp [he, hp, hl, ih, Mode1.offer, foldl_offer_done]
      · simp [he, hp, ih]
    · simp [he, ih]

/-- The OBJ test offers the OBJ contributor of the class. -/
theorem objOffer_eq_foldl (ly : Mode1.Layers) (dispcnt x pri : Nat) (s : Mode1.Pick) :
    Mode1.objOffer ly dispcnt x pri s
      = (Mode1.objPart ly dispcnt x pri).foldl Mode1.offer s := by
  unfold Mode1.objOffer Mode1.objPart
  obtain ⟨tc, tl, bc, bl, ft, fb⟩ := s
  by_cases h : (dispcnt &&& Mode1.DISP_OBJ_ON != 0) = true ∧ ly.objLayer x ≠ 0 ∧ ly.objPri x = pri
  · rw [if_pos h, if_pos h]
    cases ft <;> cases fb <;> simp [Mode1.offer]
  · rw [if_neg h, if_neg h]
    rfl

/-- An offer keeps "a second contributor implies a top contributor". -/
theorem offer_inv (s : Mode1.Pick) (e : Nat × Nat)
    (h : s.foundBot = true → s.foundTop = true) :
    (Mode1.offer s e).foundBot = true → (Mode1.offer s e).foundTop = true := by
  obtain ⟨tc, tl, bc, bl, ft, fb⟩ := s
  cases ft <;> cases fb <;> simp [Mode1.offer] at h ⊢

/-- Offering a whole list keeps that invariant. -/
theorem foldl_offer_inv (l : List (Nat × Nat)) (s : Mode1.Pick)
    (h : s.foundBot = true → s.foundTop = true) :
    (l.foldl Mode1.offer s).foundBot = true → (l.foldl Mode1.offer s).foundTop = true := by
  induction l generalizing s with
  | nil => exact h
  | cons e l ih =>
    rw [List.foldl_cons]
    exact ih _ (offer_inv s e h)

/-- The priority loop offers the contributors of its classes in order. -/
theorem priScan_eq_foldl (ly : Mode1.Layers) (dispcnt : Nat) (prio : Nat → Nat)
    (order : List Nat) (x : Nat) (ps : List Nat) (s : Mode1.Pick)
    (h : s.foundBot = true → s.foundTop = true) :
    Mode1.priScan ly dispcnt prio order x ps s
      = (ps.flatMap (Mode1.classContribs ly dispcnt prio order x)).foldl Mode1.offer s := by
  induction ps generalizing s with
  | nil => rfl
  | cons p ps ih =>
    unfold Mode1.priScan
    by_cases hb : s.foundBot = true
    · rw [if_pos hb, foldl_offer_done _ _ (h hb) hb]
    · rw [if_neg hb, List.flatMap_cons, List.foldl_append]
      unfold Mode1.classContribs
      rw [List.foldl_append, ← objOffer_eq_foldl, ← bgScan_eq_foldl]
      apply ih
      rw [bgScan_eq_foldl, objOffer_eq_foldl]
      exact foldl_offer_inv _ _ (foldl_offer_inv _ _ h)

/-- Offering a sequence to the empty search state picks its first two
elements. -/
theorem foldl_offer_init (bd : Nat) (l : List (Nat × Nat)) :
    l.foldl Mode1.offer ⟨bd, 5, bd, 5, false, false⟩ = Mode1.pickTwo bd l := by
  match l with
  | [] => rfl
  | [t] => rfl
  | t :: b :: rest =>
    simp only [List.foldl_cons]
    exact foldl_offer_done rest _ rfl rfl

/-- The compositor's search picks the first two contributors of the sequence. -/
theorem findTopBot_eq_pickTwo (m : GbaMem) (ly : Mode1.Layers) (dispcnt x : Nat) :
    Mode1.findTopBot m ly dispcnt x
      = Mode1.pickTwo (Mode1.Rgb555ToAbgr8888 (m.bgColor 0)) (Mode1.contribs m ly dispcnt x) := by
  unfold Mode1.findTopBot Mode1.contribs Mode1.contribsOf
  simp only []
  rw [priScan_eq_foldl _ _ _ _ _ _ _ (fun h => Bool.noConfusion h), foldl_offer_init]

/-- Only the BG indices `0..3` have an enable bit. -/
theorem bgEnabled_lt (dispcnt bg : Nat) (h : Mode1.bgEnabled dispcnt bg = true) : bg < 4 := by
  match bg, h with
  | 0, _ => omega
  | 1, _ => omega
  | 2, _ => omega
  | 3, _ => omega
  | _ + 4, h => exact Bool.noConfusion h

/-- What a BG slot yields. -/
theorem bgSlot_some (ly : Mode1.Layers) (dispcnt : Nat) (prio : Nat → Nat) (order : List Nat)
    (x q k : Nat) (e : Nat × Nat) (h : Mode1.bgSlot ly dispcnt prio order x q k = some e) :
    e.2 = order.getD k 0 ∧ Mode1.bgEnabled dispcnt e.2 = true ∧ prio e.2 = q
      ∧ e.1 = ly.bgLayers e.2 x ∧ e.1 ≠ 0 ∧ e.2 < 4 := by
  unfold Mode1.bgSlot at h
  split at h
  · rename_i hc
    injection h with h
    subst h
    exact ⟨rfl, hc.1, hc.2.1, rfl, hc.2.2, bgEnabled_lt _ _ hc.1⟩
  · exact Option.noConfusion h

/-- The BG contributors of a class are enabled, non-transparent BG pixels of
that priority. -/
theorem bgPart_mem (ly : Mode1.Layers) (dispcnt : Nat) (prio : Nat → Nat) (order : List Nat)
    (x q : Nat) (e : Nat × Nat)
    (h : e ∈ [0, 1, 2, 3].filterMap (Mode1.bgSlot ly dispcnt prio order x q)) :
    Mode1.bgEnabled dispcnt e.2 = true ∧ prio e.2 = q
      ∧ e.1 = ly.bgLayers e.2 x ∧ e.1 ≠ 0 ∧ e.2 < 4 := by
  rw [List.mem_filterMap] at h
  obtain ⟨k, _, hk⟩ := h
  exact (bgSlot_some ly dispcnt prio order x q k e hk).2

/-- The OBJ contributor of a class is the visible OBJ pixel of that priority. -/
theorem objPart_mem (ly : Mode1.Layers) (dispcnt x q : Nat) (e : Nat × Nat)
    (h : e ∈ Mode1.objPart ly dispcnt x q) :
    e = (ly.objLayer x, 4) ∧ (dispcnt &&& Mode1.DISP_OBJ_ON) ≠ 0 ∧ ly.objLayer x ≠ 0
      ∧ ly.objPri x = q := by
  unfold Mode1.objPart at h
  split at h
  · rename_i hc
    rw [List.mem_singleton] at h
    refine ⟨h, ?_, hc.2.1, hc.2.2⟩
    have := hc.1
    simpa using this
  · exact absurd h (List.not_mem_nil _)

/-- Every contributor of class `q` has priority class `q` and is a visible
pixel of its layer. -/
theorem classContribs_mem (ly : Mode1.Layers) (dispcnt : Nat) (prio : Nat → Nat)
    (order : List Nat) (x q : Nat) (e : Nat × Nat)
    (h : e ∈ Mode1.classContribs ly dispcnt prio order x q) :
    Mode1.classOf ly prio x e = q ∧ e.1 ≠ 0
      ∧ ((e = (ly.objLayer x, 4) ∧ (dispcnt &&& Mode1.DISP_OBJ_ON) ≠ 0 ∧ ly.objPri x = q)
        ∨ (e.2 < 4 ∧ Mode1.bgEnabled dispcnt e.2 = true ∧ prio e.2 = q
            ∧ e.1 = ly.bgLayers e.2 x)) := by
  unfold Mode1.classContribs at h
  rw [List.mem_append] at h
  rcases h with h | h
  · obtain ⟨h1, h2, h3, h4⟩ := objPart_mem ly dispcnt x q e h
    refine ⟨?_, ?_, Or.inl ⟨h1, h2, h4⟩⟩
    · unfold Mode1.classOf; rw [h1]; simp only [if_true]; exact h4
    · rw [h1]; exact h3
  · obtain ⟨h1, h2, h3, h4, h5⟩ := bgPart_mem ly dispcnt prio order x q e h
    refine ⟨?_, h4, Or.inr ⟨h5, h1, h2, h3⟩⟩
    unfold Mode1.classOf
    rw [if_neg (by omega)]
    exact h2

/-- Membership in the contributor sequence, class by class. -/
theorem contribsOf_mem (ly : Mode1.Layers) (dispcnt : Nat) (prio : Nat → Nat)
    (order : List Nat) (x : Nat) (e : Nat × Nat) :
    e ∈ Mode1.contribsOf ly dispcnt prio order x
      ↔ ∃ q, q ≤ 3 ∧ e ∈ Mode1.classContribs ly dispcnt prio order x q := by
  unfold Mode1.contribsOf
  rw [List.mem_flatMap]
  constructor
  · rintro ⟨q, hq, he⟩
    refine ⟨q, ?_, he⟩
    simp only [List.mem_cons, List.mem_singleton, List.not_mem_nil, or_false] at hq
    omega
  · rintro ⟨q, hq, he⟩
    refine ⟨q, ?_, he⟩
    simp only [List.mem_cons, List.mem_singleton, List.not_mem_nil, or_false]
    omega

/-- With a BG order that permutes `0..3`, every enabled non-transparent BG
whose priority is `q` is a contributor of class `q`. -/
theorem bgPart_complete (ly : Mode1.Layers) (dispcnt : Nat) (prio : Nat → Nat)
    (a b c d x q bg : Nat) (hperm : [a, b, c, d].Perm [0, 1, 2, 3]) (hbg : bg < 4)
    (hen : Mode1.bgEnabled dispcnt bg = true) (hp : prio bg = q)
    (hl : ly.bgLayers bg x ≠ 0) :
    (ly.bgLayers bg x, bg) ∈ Mode1.classContribs ly dispcnt prio [a, b, c, d] x q := by
  have hmem : bg ∈ [a, b, c, d] := by
    rw [hperm.mem_iff]
    simp only [List.mem_cons, List.mem_singleton, List.not_mem_nil, or_false]
    omega
  unfold Mode1.classContribs
  rw [List.mem_append]
  right
  rw [List.mem_filterMap]
  have hk : ∃ k, k ∈ [0, 1, 2, 3] ∧ [a, b, c, d].getD k 0 = bg := by
    simp only [List.mem_cons, List.mem_singleton, List.not_mem_nil, or_false] at hmem
    rcases hmem with h | h | h | h
    · exact ⟨0, by simp, by rw [h]; rfl⟩
    · exact ⟨1, by simp, by rw [h]; rfl⟩
    · exact ⟨2, by simp, by rw [h]; rfl⟩
    · exact ⟨3, by simp, by rw [h]; rfl⟩
  obtain ⟨k, hk1, hk2⟩ := hk
  refine ⟨k, hk1, ?_⟩
  unfold Mode1.bgSlot
  rw [hk2, if_pos ⟨hen, hp, hl⟩]

/-- A list whose elements all have the same key is sorted by that key. -/
theorem pairwise_of_const_key (f : Nat × Nat → Nat) (q : Nat) (l : List (Nat × Nat))
    (h : ∀ e, e ∈ l → f e = q) : l.Pairwise (fun a b => f a ≤ f b) := by
  induction l with
  | nil => exact List.Pairwise.nil
  | cons e l ih =>
    rw [List.pairwise_cons]
    refine ⟨fun y hy => ?_, ih (fun y hy => h y (List.mem_cons_of_mem _ hy))⟩
    rw [h e (List.mem_cons_self _ _), h y (List.mem_cons_of_mem _ hy)]

/-- The contributor sequence is sorted by priority class. -/
theorem contribsOf_sorted (ly : Mode1.Layers) (dispcnt : Nat) (prio : Nat → Nat)
    (order : List Nat) (x : Nat) :
    (Mode1.contribsOf ly dispcnt prio order x).Pairwise
      (fun a b => Mode1.classOf ly prio x a ≤ Mode1.classOf ly prio x b) := by
  have hc : ∀ q e, e ∈ Mode1.classContribs ly dispcnt prio order x q →
      Mode1.classOf ly prio x e = q :=
    fun q e h => (classContribs_mem ly dispcnt prio order x q e h).1
  have hs : ∀ q, (Mode1.classContribs ly dispcnt prio order x q).Pairwise
      (fun a b => Mode1.classOf ly prio x a ≤ Mode1.classOf ly prio x b) :=
    fun q => pairwise_of_const_key _ q _ (hc q)
  unfold Mode1.contribsOf
  simp only [List.flatMap_cons, List.flatMap_nil, List.append_nil]
  rw [List.pairwise_append]
  refine ⟨hs 0, ?_, ?_⟩
  · rw [List.pairwise_append]
    refine ⟨hs 1, ?_, ?_⟩
    · rw [List.pairwise_append]
      refine ⟨hs 2, hs 3, ?_⟩
      intro e1 h1 e2 h2
      rw [hc 2 e1 h1, hc 3 e2 h2]; omega
    · intro e1 h1 e2 h2
      rw [List.mem_append] at h2
      rcases h2 with h2 | h2
      · rw [hc 1 e1 h1, hc 2 e2 h2]; omega
      · rw [hc 1 e1 h1, hc 3 e2 h2]; omega
  · intro e1 h1 e2 h2
    rw [List.mem_append] at h2
    rcases h2 with h2 | h2
    · rw [hc 0 e1 h1, hc 1 e2 h2]; omega
    · rw [List.mem_append] at h2
      rcases h2 with h2 | h2
      · rw [hc 0 e1 h1, hc 2 e2 h2]; omega
      · rw [hc 0 e1 h1, hc 3 e2 h2]; omega

/-- In a sequence sorted by a key, an element that comes before another has
the smaller or equal key. -/
theorem before_key_le (f : Nat × Nat → Nat) (l : List (Nat × Nat)) (a b : Nat × Nat)
    (hs : l.Pairwise (fun u v => f u ≤ f v)) (h : Mode1.before l a b) : f a ≤ f b := by
  obtain ⟨l1, l2, l3, hl⟩ := h
  rw [hl, List.pairwise_append] at hs
  have h2 := hs.2.1
  rw [List.pairwise_cons] at h2
  exact h2.1 b (by simp)

/-- In a sequence sorted by a key, an element with a strictly smaller key comes
before one with a larger key. -/
theorem before_of_key_lt (f : Nat × Nat → Nat) (l : List (Nat × Nat)) (a b : Nat × Nat)
    (hs : l.Pairwise (fun u v => f u ≤ f v)) (ha : a ∈ l) (hb : b ∈ l) (hlt : f a < f b) :
    Mode1.before l a b := by
  obtain ⟨l1, l3, hl⟩ := List.append_of_mem hb
  rw [hl, List.pairwise_append] at hs
  rw [hl, List.mem_append] at ha
  rcases ha with ha | ha
  · obtain ⟨l0, l2, h1⟩ := List.append_of_mem ha
    refine ⟨l0, l2, l3, ?_⟩
    rw [hl, h1, List.append_assoc]
    rfl
  · rw [List.mem_cons] at ha
    rcases ha with ha | ha
    · rw [ha] at hlt; omega
    · have h2 := hs.2.1
      rw [List.pairwise_cons] at h2
      have := h2.1 a ha
      omega

/-- A visible OBJ pixel of priority `p` splits the contributor sequence: the
BGs of smaller priority before it, the BGs of priority at least `p` after it. -/
theorem contribsOf_obj_split (ly : Mode1.Layers) (dispcnt : Nat) (prio : Nat → Nat)
    (order : List Nat) (x p : Nat) (hp : p ≤ 3)
    (hon : (dispcnt &&& Mode1.DISP_OBJ_ON) ≠ 0) (hl : ly.objLayer x ≠ 0)
    (hpri : ly.objPri x = p) :
    ∃ pre post, Mode1.contribsOf ly dispcnt prio order x = pre ++ (ly.objLayer x, 4) :: post
      ∧ (∀ e, e ∈ pre → e.2 < 4 ∧ prio e.2 < p ∧ Mode1.bgEnabled dispcnt e.2 = true
          ∧ e.1 = ly.bgLayers e.2 x ∧ e.1 ≠ 0)
      ∧ (∀ e, e ∈ post → e.2 < 4 ∧ p ≤ prio e.2) := by
  have hobj : ∀ q, Mode1.objPart ly dispcnt x q
      = if q = p then [(ly.objLayer x, 4)] else [] := by
    intro q
    unfold Mode1.objPart
    by_cases hq : q = p
    · have hc : (dispcnt &&& Mode1.DISP_OBJ_ON != 0) = true ∧ ly.objLayer x ≠ 0
          ∧ ly.objPri x = q := ⟨by simpa using hon, hl, by rw [hpri, hq]⟩
      rw [if_pos hc, if_pos hq]
    · have hc : ¬ ((dispcnt &&& Mode1.DISP_OBJ_ON != 0) = true ∧ ly.objLayer x ≠ 0
          ∧ ly.objPri x = q) := fun h => hq (by rw [← h.2.2, hpri])
      rw [if_neg hc, if_neg hq]
  have hB : ∀ q e, e ∈ [0, 1, 2, 3].filterMap (Mode1.bgSlot ly dispcnt prio order x q) →
      e.2 < 4 ∧ prio e.2 = q ∧ Mode1.bgEnabled dispcnt e.2 = true
        ∧ e.1 = ly.bgLayers e.2 x ∧ e.1 ≠ 0 := by
    intro q e h
    obtain ⟨h1, h2, h3, h4, h5⟩ := bgPart_mem ly dispcnt prio order x q e h
    exact ⟨h5, h2, h1, h3, h4⟩
  unfold Mode1.contribsOf Mode1.classContribs
  simp only [List.flatMap_cons, List.flatMap_nil, List.append_nil, hobj]
  interval_cases p
  · refine ⟨[],
      [0, 1, 2, 3].filterMap (Mode1.bgSlot ly dispcnt prio order x 0)
        ++ ([0, 1, 2, 3].filterMap (Mode1.bgSlot ly dispcnt prio order x 1)
        ++ ([0, 1, 2, 3].filterMap (Mode1.bgSlot ly dispcnt prio order x 2)
        ++ ([0, 1, 2, 3].filterMap (Mode1.bgSlot ly dispcnt prio order x 3)))),
      by simp, fun e h => ?_, fun e h => ?_⟩
    · exact absurd h (List.not_mem_nil _)
    · simp only [List.mem_append] at h
      rcases h with h | h | h | h
      · have := hB 0 e h; omega
      · have := hB 1 e h; omega
      · have := hB 2 e h; omega
      · have := hB 3 e h; omega
  · refine ⟨[0, 1, 2, 3].filterMap (Mode1.bgSlot ly dispcnt prio order x 0),
      [0, 1, 2, 3].filterMap (Mode1.bgSlot ly dispcnt prio order x 1)
        ++ ([0, 1, 2, 3].filterMap (Mode1.bgSlot ly dispcnt prio order x 2)
        ++ ([0, 1, 2, 3].filterMap (Mode1.bgSlot ly dispcnt prio order x 3))),
      by simp, fun e h => ?_, fun e h => ?_⟩
    · have := hB 0 e h
      exact ⟨this.1, by omega, this.2.2⟩
    · simp only [List.mem_append] at h
      rcases h with h | h | h
      · have := hB 1 e h; omega
      · have := hB 2 e h; omega
      · have := hB 3 e h; omega
  · refine ⟨[0, 1, 2, 3].filterMap (Mode1.bgSlot ly dispcnt prio order x 0)
        ++ ([0, 1, 2, 3].filterMap (Mode1.bgSlot ly dispcnt prio order x 1)),
      [0, 1, 2, 3].filterMap (Mode1.bgSlot ly dispcnt prio order x 2)
        ++ ([0, 1, 2, 3].filterMap (Mode1.bgSlot ly dispcnt prio order x 3)),
      by simp, fun e h => ?_, fun e h => ?_⟩
    · simp only [List.mem_append] at h
      rcases h with h | h
      · have := hB 0 e h
        exact ⟨this.1, by omega, this.2.2⟩
      · have := hB 1 e h
        exact ⟨this.1, by omega, this.2.2⟩
    · simp only [List.mem_append] at h
      rcases h with h | h
      · have := hB 2 e h; omega
      · have := hB 3 e h; omega
  · refine ⟨[0, 1, 2, 3].filterMap (Mode1.bgSlot ly dispcnt prio order x 0)
        ++ ([0, 1, 2, 3].filterMap (Mode1.bgSlot ly dispcnt prio order x 1)
        ++ ([0, 1, 2, 3].filterMap (Mode1.bgSlot ly dispcnt prio order x 2))),
      [0, 1, 2, 3].filterMap (Mode1.bgSlot ly dispcnt prio order x 3),
      by simp, fun e h => ?_, fun e h => ?_⟩
    · simp only [List.mem_append] at h
      rcases h with h | h | h
      · have := hB 0 e h
        exact ⟨this.1, by omega, this.2.2⟩
      · have := hB 1 e h
        exact ⟨this.1, by omega, this.2.2⟩
      · have := hB 2 e h
        exact ⟨this.1, by omega, this.2.2⟩
    · have := hB 3 e h; omega

/-- Every element of the contributor sequence is a visible pixel: the OBJ
pixel of a priority in `0..3`, or the pixel of an enabled BG. -/
theorem contribs_sound (m : GbaMem) (ly : Mode1.Layers) (dispcnt x : Nat) (e : Nat × Nat)
    (h : e ∈ Mode1.contribs m ly dispcnt x) :
    e.1 ≠ 0
      ∧ ((e = (ly.objLayer x, 4) ∧ (dispcnt &&& Mode1.DISP_OBJ_ON) ≠ 0 ∧ ly.objPri x ≤ 3)
        ∨ (e.2 < 4 ∧ Mode1.bgEnabled dispcnt e.2 = true ∧ e.1 = ly.bgLayers e.2 x)) := by
  unfold Mode1.contribs at h
  rw [contribsOf_mem] at h
  obtain ⟨q, hq, he⟩ := h
  obtain ⟨_, h2, h3⟩ := classContribs_mem _ _ _ _ _ _ _ he
  refine ⟨h2, ?_⟩
  rcases h3 with ⟨h4, h5, h6⟩ | ⟨h4, h5, _, h7⟩
  · exact Or.inl ⟨h4, h5, by omega⟩
  · exact Or.inr ⟨h4, h5, h7⟩

/-- Every enabled, non-transparent BG is in the contributor sequence. -/
theorem contribs_bg_complete (m : GbaMem) (ly : Mode1.Layers) (dispcnt x bg : Nat)
    (hbg : bg < 4) (hen : Mode1.bgEnabled dispcnt bg = true) (hl : ly.bgLayers bg x ≠ 0) :
    (ly.bgLayers bg x, bg) ∈ Mode1.contribs m ly dispcnt x := by
  obtain ⟨a, b, c, d, ho, hperm⟩ := sortBgOrder_perm (Mode1.bgPriority m)
  unfold Mode1.contribs
  rw [contribsOf_mem, ho]
  exact ⟨Mode1.bgPriority m bg, bgPriority_le m bg,
    bgPart_complete ly dispcnt _ a b c d x _ bg hperm hbg hen rfl hl⟩

/-- A visible OBJ pixel of a priority in `0..3` is in the contributor sequence. -/
theorem contribs_obj_complete (m : GbaMem) (ly : Mode1.Layers) (dispcnt x : Nat)
    (hon : (dispcnt &&& Mode1.DISP_OBJ_ON) ≠ 0) (hl : ly.objLayer x ≠ 0)
    (hp : ly.objPri x ≤ 3) :
    (ly.objLayer x, 4) ∈ Mode1.contribs m ly dispcnt x := by
  obtain ⟨pre, post, h, _⟩ := contribsOf_obj_split ly dispcnt (Mode1.bgPriority m)
    (Mode1.sortBgOrder (Mode1.bgPriority m)) x (ly.objPri x) hp hon hl rfl
  unfold Mode1.contribs
  rw [h]
  simp

/-! ## The composition order -/

/-- C11: for every column, the compositor's top and second contributors are
the first two elements of the contributor sequence that walks the priority
classes 0..3 in order and, within each class, lists the OBJ pixel (if OBJ is
enabled, non-transparent and of that priority) before the enabled
non-transparent BGs of that class; the backdrop (layer 5) fills whichever of
the two is missing. The sequence holds exactly the visible pixels, and a
visible OBJ pixel of priority `p` splits it: only BGs of priority `< p` stand
before it and only BGs of priority `≥ p` after it. Hence the OBJ pixel is the
top contributor when no visible BG has priority `< p`, and a BG of priority
`< p` is the top contributor when there is one. -/
theorem findTopBot_contributor_sequence (m : GbaMem) (ly : Mode1.Layers) (dispcnt x : Nat) :
    Mode1.findTopBot m ly dispcnt x
        = Mode1.pickTwo (Mode1.Rgb555ToAbgr8888 (m.bgColor 0)) (Mode1.contribs m ly dispcnt x)
    ∧ (∀ e, e ∈ Mode1.contribs m ly dispcnt x →
        e.1 ≠ 0
          ∧ ((e = (ly.objLayer x, 4) ∧ (dispcnt &&& Mode1.DISP_OBJ_ON) ≠ 0 ∧ ly.objPri x ≤ 3)
            ∨ (e.2 < 4 ∧ Mode1.bgEnabled dispcnt e.2 = true ∧ e.1 = ly.bgLayers e.2 x)))
    ∧ (∀ bg, bg < 4 → Mode1.bgEnabled dispcnt bg = true → ly.bgLayers bg x ≠ 0 →
        (ly.bgLayers bg x, bg) ∈ Mode1.contribs m ly dispcnt x)
    ∧ (∀ p, p ≤ 3 → (dispcnt &&& Mode1.DISP_OBJ_ON) ≠ 0 → ly.objLayer x ≠ 0 →
        ly.objPri x = p →
        (∃ pre post, Mode1.contribs m ly dispcnt x = pre ++ (ly.objLayer x, 4) :: post
          ∧ (∀ e, e ∈ pre → e.2 < 4 ∧ Mode1.bgPriority m e.2 < p)
          ∧ (∀ e, e ∈ post → e.2 < 4 ∧ p ≤ Mode1.bgPriority m e.2))
        ∧ ((∀ bg, bg < 4 → Mode1.bgEnabled dispcnt bg = true → ly.bgLayers bg x ≠ 0 →
              p ≤ Mode1.bgPriority m bg) →
            (Mode1.findTopBot m ly dispcnt x).topColor = ly.objLayer x
              ∧ (Mode1.findTopBot m ly dispcnt x).topLayerId = 4)
        ∧ (∀ bg, bg < 4 → Mode1.bgEnabled dispcnt bg = true → ly.bgLayers bg x ≠ 0 →
              Mode1.bgPriority m bg < p →
            (Mode1.findTopBot m ly dispcnt x).topLayerId < 4
              ∧ Mode1.bgPriority m (Mode1.findTopBot m ly dispcnt x).topLayerId < p)) := by
  refine ⟨findTopBot_eq_pickTwo m ly dispcnt x, contribs_sound m ly dispcnt x,
    fun bg h1 h2 h3 => contribs_bg_complete m ly dispcnt x bg h1 h2 h3, ?_⟩
  intro p hp hon hl hpri
  obtain ⟨pre, post, hsplit, hpre, hpost⟩ := contribsOf_obj_split ly dispcnt
    (Mode1.bgPriority m) (Mode1.sortBgOrder (Mode1.bgPriority m)) x p hp hon hl hpri
  have hc : Mode1.contribs m ly dispcnt x = pre ++ (ly.objLayer x, 4) :: post := hsplit
  refine ⟨⟨pre, post, hc, fun e h => ⟨(hpre e h).1, (hpre e h).2.1⟩, hpost⟩, ?_, ?_⟩
  · intro hall
    have hnil : pre = [] := by
      cases pre with
      | nil => rfl
      | cons e pre =>
        have he := hpre e (List.mem_cons_self _ _)
        have := hall e.2 he.1 he.2.2.1 (by rw [← he.2.2.2.1]; exact he.2.2.2.2)
        omega
    rw [findTopBot_eq_pickTwo, hc, hnil]
    cases post with
    | nil => exact ⟨rfl, rfl⟩
    | cons b post => exact ⟨rfl, rfl⟩
  · intro bg hbg hen hlb hlt
    have hmem := contribs_bg_complete m ly dispcnt x bg hbg hen hlb
    rw [hc, List.mem_append, List.mem_cons] at hmem
    have hin : (ly.bgLayers bg x, bg) ∈ pre := by
      rcases hmem with h | h | h
      · exact h
      · have : bg = 4 := congrArg Prod.snd h
        omega
      · have := (hpost _ h).2
        simp only at this
        omega
    rw [findTopBot_eq_pickTwo, hc]
    cases pre with
    | nil => exact absurd hin (List.not_mem_nil _)
    | cons e pre =>
      have he := hpre e (List.mem_cons_self _ _)
      cases pre with
      | nil => exact ⟨he.1, he.2.1⟩
      | cons e2 pre => exact ⟨he.1, he.2.1⟩

/-- C11 on the alpha scenario layers with an OBJ pixel of priority 0 added:
the sequence is OBJ, BG0, BG1. -/
theorem findTopBot_contributor_sequence_witness :
    Mode1.contribs alphaImage
        { alphaLayers with objLayer := fun _ => 0xFF0000F8, objPri := fun _ => 0 } 0x1300 0
      = [(0xFF0000F8, 4), (0xFF0000FF, 0), (0xFF00FF00, 1)]
    ∧ (Mode1.findTopBot alphaImage
        { alphaLayers with objLayer := fun _ => 0xFF0000F8, objPri := fun _ => 0 } 0x1300 0).topLayerId
      = 4
    ∧ (Mode1.findTopBot alphaImage
        { alphaLayers with objLayer := fun _ => 0xFF0000F8, objPri := fun _ => 0 } 0x1300 0).botLayerId
      = 0 := by
  have h := (findTopBot_contributor_sequence alphaImage
    { alphaLayers with objLayer := fun _ => 0xFF0000F8, objPri := fun _ => 0 } 0x1300 0).1
  have hc : Mode1.contribs alphaImage
      { alphaLayers with objLayer := fun _ => 0xFF0000F8, objPri := fun _ => 0 } 0x1300 0
      = [(0xFF0000F8, 4), (0xFF0000FF, 0), (0xFF00FF00, 1)] := by decide
  refine ⟨hc, ?_, ?_⟩
  · rw [h, hc]; rfl
  · rw [h, hc]; rfl

/-- The BG order computed by the sorting loops is sorted by priority for every
assignment of the priority registers. -/
theorem sortBgOrder_sorted (prio : Nat → Nat) :
    (Mode1.sortBgOrder prio).Pairwise (fun a b => prio a ≤ prio b) := by
  have step : ∀ (a b c d : Nat) (ij : Nat × Nat), Mode1.sortStep prio [a, b, c, d] ij
      = if prio ([a, b, c, d].getD ij.2 0) < prio ([a, b, c, d].getD ij.1 0) then
          ([a, b, c, d].set ij.1 ([a, b, c, d].getD ij.2 0)).set ij.2 ([a, b, c, d].getD ij.1 0)
        else [a, b, c, d] := fun _ _ _ _ _ => rfl
  unfold Mode1.sortBgOrder
  simp only [List.foldl_cons, List.foldl_nil]
  rw [step]
  simp only [List.getD_cons_zero, List.getD_cons_succ, List.set_cons_zero, List.set_cons_succ]
  split <;>
  (rw [step]
   simp only [List.getD_cons_zero, List.getD_cons_succ, List.set_cons_zero, List.set_cons_succ]
   split <;>
   (rw [step]
    simp only [List.getD_cons_zero, List.getD_cons_succ, List.set_cons_zero, List.set_cons_succ]
    split <;>
    (rw [step]
     simp only [List.getD_cons_zero, List.getD_cons_succ, List.set_cons_zero, List.set_cons_succ]
     split <;>
     (rw [step]
      simp only [List.getD_cons_zero, List.getD_cons_succ, List.set_cons_zero, List.set_cons_succ]
      split <;>
      (rw [step]
       simp only [List.getD_cons_zero, List.getD_cons_succ, List.set_cons_zero,
         List.set_cons_succ]
       split <;>
       (simp only [List.pairwise_cons, List.mem_cons, List.mem_singleton, List.not_mem_nil,
          forall_eq_or_imp, forall_eq, List.Pairwise.nil, or_false, and_true, false_implies,
          implies_true, IsEmpty.forall_iff]
        omega))))))

/-- C12: the sorting loops of the compositor are an exchange sort that is not
stable. With BG priorities (1, 1, 0, 2) the computed order is BG2, BG1, BG0,
BG3 (a stable sort gives BG2, BG0, BG1, BG3), so at a column where BG0 and
BG1 are the only visible layers, both enabled, non-transparent and of equal
priority 1, the top contributor is BG1 and BG0 is the second. -/
theorem sortBgOrder_not_stable :
    Mode1.bgPriority tiePrioImage 0 = 1 ∧ Mode1.bgPriority tiePrioImage 1 = 1
    ∧ Mode1.bgPriority tiePrioImage 2 = 0 ∧ Mode1.bgPriority tiePrioImage 3 = 2
    ∧ Mode1.sortBgOrder (Mode1.bgPriority tiePrioImage) = [2, 1, 0, 3]
    ∧ Mode1.contribs tiePrioImage alphaLayers 0x0300 0 = [(0xFF00FF00, 1), (0xFF0000FF, 0)]
    ∧ (Mode1.findTopBot tiePrioImage alphaLayers 0x0300 0).topLayerId = 1
    ∧ (Mode1.findTopBot tiePrioImage alphaLayers 0x0300 0).topColor = 0xFF00FF00
    ∧ (Mode1.findTopBot tiePrioImage alphaLayers 0x0300 0).botLayerId = 0 := by
  decide

/-! ## Monotonicity of the composition order -/

/-- The contributor sequence reads the colour buffers and the OBJ priority
buffer only: the BG priority buffers play no part. -/
theorem contribsOf_layers_congr (ly1 ly2 : Mode1.Layers) (dispcnt : Nat) (prio : Nat → Nat)
    (order : List Nat) (x : Nat) (hbg : ly2.bgLayers = ly1.bgLayers)
    (hobj : ly2.objLayer = ly1.objLayer) (hpri : ly2.objPri = ly1.objPri) :
    Mode1.contribsOf ly2 dispcnt prio order x = Mode1.contribsOf ly1 dispcnt prio order x := by
  obtain ⟨bl1, bp1, ol1, op1⟩ := ly1
  obtain ⟨bl2, bp2, ol2, op2⟩ := ly2
  simp only at hbg hobj hpri
  subst hbg hobj hpri
  rfl

/-- C13: compositor monotonicity. Take two register states whose BG priority
fields agree except for BG `b`, whose priority is larger in the second state,
and the same pixels in the layer buffers. Every other contributor `e` (another
BG, or the OBJ pixel of any priority) that comes before BG `b` in the
composition order of the first state still comes before BG `b` in the
composition order of the second state. -/
theorem composite_priority_monotone (m1 m2 : GbaMem) (ly1 ly2 : Mode1.Layers)
    (dispcnt x b : Nat) (hb : b < 4)
    (hbg : ly2.bgLayers = ly1.bgLayers) (hobj : ly2.objLayer = ly1.objLayer)
    (hpri : ly2.objPri = ly1.objPri)
    (hsame : ∀ c, c < 4 → c ≠ b → Mode1.bgPriority m2 c = Mode1.bgPriority m1 c)
    (hup : Mode1.bgPriority m1 b < Mode1.bgPriority m2 b)
    (e eb : Nat × Nat) (heb : eb.2 = b) (he : e.2 ≠ b)
    (hbefore : Mode1.before (Mode1.contribs m1 ly1 dispcnt x) e eb) :
    Mode1.before (Mode1.contribs m2 ly2 dispcnt x) e eb := by
  have hc2 : Mode1.contribs m2 ly2 dispcnt x = Mode1.contribs m2 ly1 dispcnt x :=
    contribsOf_layers_congr ly1 ly2 dispcnt _ _ x hbg hobj hpri
  rw [hc2]
  have hle := before_key_le (Mode1.classOf ly1 (Mode1.bgPriority m1) x) _ e eb
    (contribsOf_sorted ly1 dispcnt _ _ x) hbefore
  obtain ⟨l1, l2, l3, hl⟩ := hbefore
  have hme : e ∈ Mode1.contribs m1 ly1 dispcnt x := by rw [hl]; simp
  have hmb : eb ∈ Mode1.contribs m1 ly1 dispcnt x := by rw [hl]; simp
  have hse := contribs_sound m1 ly1 dispcnt x e hme
  have hsb := contribs_sound m1 ly1 dispcnt x eb hmb
  -- both contributors are still visible in the second state
  have hme2 : e ∈ Mode1.contribs m2 ly1 dispcnt x := by
    rcases hse.2 with ⟨h1, h2, h3⟩ | ⟨h1, h2, h3⟩
    · rw [h1]
      exact contribs_obj_complete m2 ly1 dispcnt x h2 (by have := hse.1; rw [h1] at this; exact this) h3
    · have : e = (ly1.bgLayers e.2 x, e.2) := Prod.ext h3 rfl
      rw [this]
      exact contribs_bg_complete m2 ly1 dispcnt x e.2 h1 h2 (by rw [← h3]; exact hse.1)
  have hmb2 : eb ∈ Mode1.contribs m2 ly1 dispcnt x := by
    rcases hsb.2 with ⟨h1, _, _⟩ | ⟨h1, h2, h3⟩
    · have : eb.2 = 4 := by rw [h1]
      omega
    · have : eb = (ly1.bgLayers eb.2 x, eb.2) := Prod.ext h3 rfl
      rw [this]
      exact contribs_bg_complete m2 ly1 dispcnt x eb.2 h1 h2 (by rw [← h3]; exact hsb.1)
  -- the classes: unchanged for `e`, raised for BG `b`
  have hcb1 : Mode1.classOf ly1 (Mode1.bgPriority m1) x eb = Mode1.bgPriority m1 b := by
    unfold Mode1.classOf
    rw [if_neg (by omega), heb]
  have hcb2 : Mode1.classOf ly1 (Mode1.bgPriority m2) x eb = Mode1.bgPriority m2 b := by
    unfold Mode1.classOf
    rw [if_neg (by omega), heb]
  have hce : Mode1.classOf ly1 (Mode1.bgPriority m2) x e
      = Mode1.classOf ly1 (Mode1.bgPriority m1) x e := by
    unfold Mode1.classOf
    by_cases h4 : e.2 = 4
    · rw [if_pos h4, if_pos h4]
    · rw [if_neg h4, if_neg h4]
      rcases hse.2 with ⟨h1, _, _⟩ | ⟨h1, _, _⟩
      · exact absurd (by rw [h1]) h4
      · exact hsame e.2 h1 he
  exact before_of_key_lt (Mode1.classOf ly1 (Mode1.bgPriority m2) x) _ e eb
    (contribsOf_sorted ly1 dispcnt _ _ x) hme2 hmb2 (by rw [hce, hcb2]; omega)

/-- C13 on a concrete pair of register states: raising BG0's priority from 1
to 3 keeps BG1 in front of BG0. -/
theorem composite_priority_monotone_witness :
    Mode1.before (Mode1.contribs raisedPrioImage alphaLayers 0x0300 0)
      (0xFF00FF00, 1) (0xFF0000FF, 0) :=
  composite_priority_monotone tiePrioImage raisedPrioImage alphaLayers alphaLayers 0x0300 0 0
    (by decide) rfl rfl rfl (by decide) (by decide) (0xFF00FF00, 1) (0xFF0000FF, 0) rfl
    (by decide) ⟨[], [], [], by decide⟩

/-! ## Scroll periodicity of text backgrounds -/

theorem and_511 (x : Nat) : x &&& 0x1FF = x % 512 := Nat.and_pow_two_sub_one_eq_mod x 9

/-- One column of a text BG depends on the scroll values only through the
source coordinates modulo the map size in pixels. -/
theorem textBgColumn_scroll_congr (m1 m2 : GbaMem) (r1 r2 : Mode1.TextBgRegs) (line : Nat)
    (bufs : LineBufs) (x : Nat) (hv : m2.gVram = m1.gVram) (hp : m2.gBgPltt = m1.gBgPltt)
    (h1 : r2.priority = r1.priority) (h2 : r2.charBase = r1.charBase)
    (h3 : r2.bpp8 = r1.bpp8) (h4 : r2.screenBase = r1.screenBase)
    (h5 : r2.mapW = r1.mapW) (h6 : r2.mapH = r1.mapH)
    (hx : (x + r2.scrollX) % (r1.mapW * 8) = (x + r1.scrollX) % (r1.mapW * 8))
    (hy : (line + r2.scrollY) % (r1.mapH * 8) = (line + r1.scrollY) % (r1.mapH * 8)) :
    Mode1.textBgColumn m2 r2 line bufs x = Mode1.textBgColumn m1 r1 line bufs x := by
  obtain ⟨p1, cb1, b1, sb1, w1, hh1, sx1, sy1⟩ := r1
  obtain ⟨p2, cb2, b2, sb2, w2, hh2, sx2, sy2⟩ := r2
  obtain ⟨io1, v1, bp1, op1, oam1⟩ := m1
  obtain ⟨io2, v2, bp2, op2, oam2⟩ := m2
  simp only at hv hp h1 h2 h3 h4 h5 h6 hx hy
  subst hv hp h1 h2 h3 h4 h5 h6
  unfold Mode1.textBgColumn Mode1.textBgRgb555 Mode1.textBgColorIdx Mode1.textBgEntry
    Mode1.textBgMapAddr GbaMem.vramByte GbaMem.bgColor
  simp only [hx, hy]

/-- C14: for every text BG index, BGxCNT value, scanline and memory content,
adding any number `kx` of full map widths in pixels (`mapW * 8`, that is 256
or 512) to the 16-bit register BGxHOFS and any number `ky` of full map heights
(`mapH * 8`) to BGxVOFS makes `RenderTextBgLine` produce the same colour and
priority line buffers (`kx = 1, ky = 0` and `kx = 0, ky = 1` are the two
shifts of the claim). -/
theorem RenderTextBgLine_scroll_period (m1 m2 : GbaMem) (bgIdx line kx ky : Nat)
    (bufs : LineBufs) (hv : m2.gVram = m1.gVram) (hp : m2.gBgPltt = m1.gBgPltt)
    (hcnt : Mode1.IoRead16 m2 (Mode1.IO_BG0CNT + bgIdx * 2)
      = Mode1.IoRead16 m1 (Mode1.IO_BG0CNT + bgIdx * 2))
    (hh : Mode1.IoRead16 m2 (Mode1.IO_BG0HOFS + bgIdx * 4)
      = (Mode1.IoRead16 m1 (Mode1.IO_BG0HOFS + bgIdx * 4)
          + kx * ((Mode1.textBgRegs m1 bgIdx).mapW * 8)) % 65536)
    (hvo : Mode1.IoRead16 m2 (Mode1.IO_BG0VOFS + bgIdx * 4)
      = (Mode1.IoRead16 m1 (Mode1.IO_BG0VOFS + bgIdx * 4)
          + ky * ((Mode1.textBgRegs m1 bgIdx).mapH * 8)) % 65536) :
    Mode1.RenderTextBgLine m2 bgIdx line bufs = Mode1.RenderTextBgLine m1 bgIdx line bufs := by
  have hW : (Mode1.textBgRegs m1 bgIdx).mapW = 32 ∨ (Mode1.textBgRegs m1 bgIdx).mapW = 64 := by
    unfold Mode1.textBgRegs
    simp only
    split_ifs
    · exact Or.inr rfl
    · exact Or.inl rfl
  have hH : (Mode1.textBgRegs m1 bgIdx).mapH = 32 ∨ (Mode1.textBgRegs m1 bgIdx).mapH = 64 := by
    unfold Mode1.textBgRegs
    simp only
    split_ifs
    · exact Or.inr rfl
    · exact Or.inl rfl
  have e1 : (Mode1.textBgRegs m2 bgIdx).priority = (Mode1.textBgRegs m1 bgIdx).priority := by
    unfold Mode1.textBgRegs; simp only [hcnt]
  have e2 : (Mode1.textBgRegs m2 bgIdx).charBase = (Mode1.textBgRegs m1 bgIdx).charBase := by
    unfold Mode1.textBgRegs; simp only [hcnt]
  have e3 : (Mode1.textBgRegs m2 bgIdx).bpp8 = (Mode1.textBgRegs m1 bgIdx).bpp8 := by
    unfold Mode1.textBgRegs; simp only [hcnt]
  have e4 : (Mode1.textBgRegs m2 bgIdx).screenBase = (Mode1.textBgRegs m1 bgIdx).screenBase := by
    unfold Mode1.textBgRegs; simp only [hcnt]
  have e5 : (Mode1.textBgRegs m2 bgIdx).mapW = (Mode1.textBgRegs m1 bgIdx).mapW := by
    unfold Mode1.textBgRegs; simp only [hcnt]
  have e6 : (Mode1.textBgRegs m2 bgIdx).mapH = (Mode1.textBgRegs m1 bgIdx).mapH := by
    unfold Mode1.textBgRegs; simp only [hcnt]
  have sx1 : (Mode1.textBgRegs m1 bgIdx).scrollX
      = Mode1.IoRead16 m1 (Mode1.IO_BG0HOFS + bgIdx * 4) % 512 := by
    unfold Mode1.textBgRegs; simp only [and_511]
  have sx2 : (Mode1.textBgRegs m2 bgIdx).scrollX
      = Mode1.IoRead16 m2 (Mode1.IO_BG0HOFS + bgIdx * 4) % 512 := by
    unfold Mode1.textBgRegs; simp only [and_511]
  have sy1 : (Mode1.textBgRegs m1 bgIdx).scrollY
      = Mode1.IoRead16 m1 (Mode1.IO_BG0VOFS + bgIdx * 4) % 512 := by
    unfold Mode1.textBgRegs; simp only [and_511]
  have sy2 : (Mode1.textBgRegs m2 bgIdx).scrollY
      = Mode1.IoRead16 m2 (Mode1.IO_BG0VOFS + bgIdx * 4) % 512 := by
    unfold Mode1.textBgRegs; simp only [and_511]
  have hcol : ∀ b x, Mode1.textBgColumn m2 (Mode1.textBgRegs m2 bgIdx) line b x
      = Mode1.textBgColumn m1 (Mode1.textBgRegs m1 bgIdx) line b x := by
    intro b x
    refine textBgColumn_scroll_congr m1 m2 _ _ line b x hv hp e1 e2 e3 e4 e5 e6 ?_ ?_
    · rw [sx1, sx2, hh]
      rcases hW with h | h <;> rw [h] <;> omega
    · rw [sy1, sy2, hvo]
      rcases hH with h | h <;> rw [h] <;> omega
  unfold Mode1.RenderTextBgLine
  have hf : Mode1.textBgColumn m2 (Mode1.textBgRegs m2 bgIdx) line
      = Mode1.textBgColumn m1 (Mode1.textBgRegs m1 bgIdx) line :=
    funext (fun b => funext (fun x => hcol b x))
  rw [hf]

/-- C14 on the single-tile image: scrolling BG0 by one full map width and one
full map height renders the same scanline 5. -/
theorem RenderTextBgLine_scroll_period_witness :
    Mode1.RenderTextBgLine scrolledTileImage 0 5 Mode1.bgClear
      = Mode1.RenderTextBgLine tileImage 0 5 Mode1.bgClear :=
  RenderTextBgLine_scroll_period tileImage scrolledTileImage 0 5 1 1 Mode1.bgClear rfl rfl
    (by decide) (by decide) (by decide)

/-! ## The memory indices read by the BG renderers -/

/-- The map dimensions of a text BG are 32 or 64 tiles. -/
theorem textBgRegs_map (m : GbaMem) (bgIdx : Nat) :
    ((Mode1.textBgRegs m bgIdx).mapW = 32 ∨ (Mode1.textBgRegs m bgIdx).mapW = 64)
      ∧ ((Mode1.textBgRegs m bgIdx).mapH = 32 ∨ (Mode1.textBgRegs m bgIdx).mapH = 64) := by
  unfold Mode1.textBgRegs
  simp only
  constructor <;> split_ifs <;> simp

/-- Both tilemap bytes of a text BG column lie in the first 0x11800 bytes of
VRAM. -/
theorem textBgMapAddr_lt (r : Mode1.TextBgRegs) (line x : Nat) (hsb : r.screenBase ≤ 0xF800)
    (hW : r.mapW = 32 ∨ r.mapW = 64) (hH : r.mapH = 32 ∨ r.mapH = 64) :
    Mode1.textBgMapAddr r line x + 1 < 0x11800 := by
  unfold Mode1.textBgMapAddr
  simp only
  have hY : (line + r.scrollY) % (r.mapH * 8) / 8 < r.mapH := by
    rcases hH with h | h <;> rw [h] <;> omega
  have hX : (x + r.scrollX) % (r.mapW * 8) / 8 < r.mapW := by
    rcases hW with h | h <;> rw [h] <;> omega
  generalize (line + r.scrollY) % (r.mapH * 8) / 8 = tY at hY
  generalize (x + r.scrollX) % (r.mapW * 8) / 8 = tX at hX
  have hsum : r.screenBase + (tX / 32 + tY / 32 * (r.mapW / 32)) * 0x800
      + (tY % 32 * 32 + tX % 32) * 2 ≤ 0x117FE := by
    have h1 : tX % 32 ≤ 31 := by omega
    have h2 : tY % 32 ≤ 31 := by omega
    have h3 : tX / 32 + tY / 32 * (r.mapW / 32) ≤ 3 := by
      rcases hW with h | h <;> rcases hH with h2 | h2 <;> rw [h] at hX ⊢ <;> rw [h2] at hY <;>
        omega
    generalize tX % 32 = lc at h1
    generalize tY % 32 = lr at h2
    generalize tX / 32 + tY / 32 * (r.mapW / 32) = sb at h3
    omega
  generalize r.screenBase + (tX / 32 + tY / 32 * (r.mapW / 32)) * 0x800
      + (tY % 32 * 32 + tX % 32) * 2 = s at hsum
  omega

/-- A 4-bit field of a byte, as the `uint8_t` colour index. -/
theorem nibble_le (v : Nat) (hv : v < 256) : (v >>> 4) % 256 ≤ 15 ∧ (v &&& 0xF) % 256 ≤ 15 := by
  rw [Nat.shiftRight_eq_div_pow, and_15]
  constructor <;> omega

/-- The colour index of a text BG column is a byte, and a nibble with 4 bpp. -/
theorem textBgColorIdx_lt (m : GbaMem) (r : Mode1.TextBgRegs) (line x : Nat) :
    Mode1.textBgColorIdx m r line x < 256
      ∧ (r.bpp8 = false → Mode1.textBgColorIdx m r line x ≤ 15) := by
  have hb : ∀ a : Nat, (if a < 0x18000 then m.vramByte a else 0) < 256 := by
    intro a
    unfold GbaMem.vramByte
    split <;> omega
  have key : ∀ tpx byte : Nat, byte < 256 →
      (if (tpx &&& 1) ≠ 0 then (byte >>> 4) % 256 else (byte &&& 0xF) % 256) ≤ 15 := by
    intro tpx byte hlt
    have h := nibble_le byte hlt
    split
    · exact h.1
    · exact h.2
  unfold Mode1.textBgColorIdx
  simp only
  cases r.bpp8
  · simp only [Bool.false_eq_true, if_false, forall_true_left]
    exact ⟨Nat.lt_of_le_of_lt (key _ _ (hb _)) (by decide), key _ _ (hb _)⟩
  · simp only [if_true]
    exact ⟨hb _, fun h => absurd h (by simp)⟩

/-- Every `gVram` index read for a text BG column is below 0x18000 and every
`gBgPltt` index is below 256. -/
theorem textBg_reads_bounded (m : GbaMem) (bgIdx line x : Nat) :
    (∀ a, a ∈ Mode1.textBgVramReads m (Mode1.textBgRegs m bgIdx) line x → a < 0x18000)
      ∧ (∀ i, i ∈ Mode1.textBgPlttReads m (Mode1.textBgRegs m bgIdx) line x → i < 256) := by
  have hmap := textBgMapAddr_lt (Mode1.textBgRegs m bgIdx) line x
    (textBgRegs_bounds m bgIdx).2 (textBgRegs_map m bgIdx).1 (textBgRegs_map m bgIdx).2
  have hci := textBgColorIdx_lt m (Mode1.textBgRegs m bgIdx) line x
  constructor
  · intro a ha
    unfold Mode1.textBgVramReads at ha
    rw [List.mem_append] at ha
    rcases ha with ha | ha
    · simp only [List.mem_cons, List.mem_singleton, List.not_mem_nil, or_false] at ha
      omega
    · split at ha
      · rw [List.mem_singleton] at ha
        omega
      · exact absurd ha (List.not_mem_nil _)
  · intro i hi
    unfold Mode1.textBgPlttReads at hi
    split at hi
    · exact absurd hi (List.not_mem_nil _)
    · split at hi
      · rw [List.mem_singleton] at hi
        omega
      · rename_i h8
        rw [List.mem_singleton] at hi
        have h15 := hci.2 (by simpa using h8)
        have hp : (Mode1.textBgEntry m (Mode1.textBgRegs m bgIdx) line x).palette ≤ 15 := by
          unfold Mode1.TilemapEntry.palette
          rw [and_15]; omega
        omega

/-- A guarded byte read gives the same value in two memories that agree at
the address when it passes the guard. -/
theorem guarded_read_congr (m m2 : GbaMem) (a : Nat)
    (h : a < 0x18000 → m2.gVram a = m.gVram a) :
    (if a < 0x18000 then m2.vramByte a else 0) = (if a < 0x18000 then m.vramByte a else 0) := by
  unfold GbaMem.vramByte
  by_cases hg : a < 0x18000
  · rw [if_pos hg, if_pos hg, h hg]
  · rw [if_neg hg, if_neg hg]

/-- The colour index of a text BG column, from its tile-pixel address. -/
theorem textBgColorIdx_of_tileAddr (m : GbaMem) (r : Mode1.TextBgRegs) (line x : Nat) :
    Mode1.textBgColorIdx m r line x
      = if r.bpp8 then
          (if Mode1.textBgTileAddr m r line x < 0x18000 then
            m.vramByte (Mode1.textBgTileAddr m r line x) else 0)
        else if ((if (Mode1.textBgEntry m r line x).hflip then
              7 - ((x + r.scrollX) % (r.mapW * 8)) % 8
            else ((x + r.scrollX) % (r.mapW * 8)) % 8) &&& 1) ≠ 0 then
          ((if Mode1.textBgTileAddr m r line x < 0x18000 then
            m.vramByte (Mode1.textBgTileAddr m r line x) else 0) >>> 4) % 256
        else
          ((if Mode1.textBgTileAddr m r line x < 0x18000 then
            m.vramByte (Mode1.textBgTileAddr m r line x) else 0) &&& 0xF) % 256 := by
  unfold Mode1.textBgColorIdx Mode1.textBgTileAddr
  cases r.bpp8 <;> rfl

/-- A tile-pixel address at or beyond 0x18000 gives colour index 0. -/
theorem textBgColorIdx_far (m : GbaMem) (r : Mode1.TextBgRegs) (line x : Nat)
    (h : 0x18000 ≤ Mode1.textBgTileAddr m r line x) : Mode1.textBgColorIdx m r line x = 0 := by
  have hg : ¬ Mode1.textBgTileAddr m r line x < 0x18000 := by omega
  rw [textBgColorIdx_of_tileAddr]
  simp only [if_neg hg]
  cases r.bpp8 <;> simp

/-- One column of a text BG depends on the memories only through the indices
it reads. -/
theorem textBgColumn_reads_congr (m m2 : GbaMem) (r : Mode1.TextBgRegs) (line x : Nat)
    (bufs : LineBufs)
    (hv : ∀ a, a ∈ Mode1.textBgVramReads m r line x → m2.gVram a = m.gVram a)
    (hp : ∀ i, i ∈ Mode1.textBgPlttReads m r line x → m2.gBgPltt i = m.gBgPltt i) :
    Mode1.textBgColumn m2 r line bufs x = Mode1.textBgColumn m r line bufs x := by
  have he : Mode1.textBgEntry m2 r line x = Mode1.textBgEntry m r line x := by
    unfold Mode1.textBgEntry GbaMem.vramByte
    simp only
    rw [hv (Mode1.textBgMapAddr r line x) (by unfold Mode1.textBgVramReads; simp),
      hv (Mode1.textBgMapAddr r line x + 1) (by unfold Mode1.textBgVramReads; simp)]
  have hta : Mode1.textBgTileAddr m2 r line x = Mode1.textBgTileAddr m r line x := by
    unfold Mode1.textBgTileAddr
    simp only [he]
  have hbyte := guarded_read_congr m m2 (Mode1.textBgTileAddr m r line x)
    (fun hg => hv _ (by unfold Mode1.textBgVramReads; simp [hg]))
  have hci : Mode1.textBgColorIdx m2 r line x = Mode1.textBgColorIdx m r line x := by
    rw [textBgColorIdx_of_tileAddr, textBgColorIdx_of_tileAddr, hta, he, hbyte]
  have hrgb : Mode1.textBgColorIdx m r line x ≠ 0 →
      Mode1.textBgRgb555 m2 r line x = Mode1.textBgRgb555 m r line x := by
    intro hne
    unfold Mode1.textBgRgb555 GbaMem.bgColor
    simp only [hci, he]
    unfold Mode1.textBgPlttReads at hp
    rw [if_neg hne] at hp
    cases hb : r.bpp8
    · simp only [hb, Bool.false_eq_true, if_false] at hp ⊢
      rw [hp _ (List.mem_singleton.mpr rfl)]
    · simp only [hb, if_true] at hp ⊢
      rw [hp _ (List.mem_singleton.mpr rfl)]
  unfold Mode1.textBgColumn
  rw [hci]
  by_cases h0 : Mode1.textBgColorIdx m r line x = 0
  · rw [if_pos h0, if_pos h0]
  · rw [if_neg h0, if_neg h0, hrgb h0]

/-- The whole text BG line depends on the memories only through the I/O
registers, the first 0x18000 bytes of VRAM and the 256 BG palette entries. -/
theorem RenderTextBgLine_region (m m2 : GbaMem) (bgIdx line : Nat) (bufs : LineBufs)
    (hio : m2.gIoMem = m.gIoMem) (hv : ∀ a, a < 0x18000 → m2.gVram a = m.gVram a)
    (hp : ∀ i, i < 256 → m2.gBgPltt i = m.gBgPltt i) :
    Mode1.RenderTextBgLine m2 bgIdx line bufs = Mode1.RenderTextBgLine m bgIdx line bufs := by
  have hr : Mode1.textBgRegs m2 bgIdx = Mode1.textBgRegs m bgIdx := by
    unfold Mode1.textBgRegs Mode1.IoRead16 GbaMem.ioByte
    rw [hio]
  unfold Mode1.RenderTextBgLine
  rw [hr]
  have hf : Mode1.textBgColumn m2 (Mode1.textBgRegs m bgIdx) line
      = Mode1.textBgColumn m (Mode1.textBgRegs m bgIdx) line := by
    funext b x
    exact textBgColumn_reads_congr m m2 _ line x b
      (fun a ha => hv a ((textBg_reads_bounded m bgIdx line x).1 a ha))
      (fun i hi => hp i ((textBg_reads_bounded m bgIdx line x).2 i hi))
  rw [hf]

/-- The colour index of an affine BG pixel, from its tile-pixel address. -/
theorem affineColorIdx_of_tileAddr (m : GbaMem) (r : Mode2.AffineBgRegs) (sX sY : Int) :
    Mode2.affineColorIdx m r sX sY
      = if Mode2.affineTileAddr m r sX sY < 0x18000 then
          m.vramByte (Mode2.affineTileAddr m r sX sY) else 0 := rfl

/-- Every `gVram` index read by an iteration of the affine column loop is
below 0x18000 and every `gBgPltt` index is below 256. -/
theorem affine_reads_bounded (m : GbaMem) (r : Mode2.AffineBgRegs) (st : Mode2.AffineState) :
    (∀ a, a ∈ Mode2.affineVramReads m r st → a < 0x18000)
      ∧ (∀ i, i ∈ Mode2.affinePlttReads m r st → i < 256) := by
  constructor
  · intro a ha
    unfold Mode2.affineVramReads at ha
    split at ha
    · exact absurd ha (List.not_mem_nil _)
    · rw [List.mem_append] at ha
      rcases ha with ha | ha
      · split at ha
        · rw [List.mem_singleton] at ha
          omega
        · exact absurd ha (List.not_mem_nil _)
      · split at ha
        · rw [List.mem_singleton] at ha
          omega
        · exact absurd ha (List.not_mem_nil _)
  · intro i hi
    unfold Mode2.affinePlttReads at hi
    split at hi
    · exact absurd hi (List.not_mem_nil _)
    · split at hi
      · exact absurd hi (List.not_mem_nil _)
      · rw [List.mem_singleton] at hi
        rw [hi, affineColorIdx_of_tileAddr]
        unfold GbaMem.vramByte
        split <;> omega

/-- One iteration of the affine column loop depends on the memories only
through the indices it reads. -/
theorem affineColumn_reads_congr (m m2 : GbaMem) (r : Mode2.AffineBgRegs)
    (st : Mode2.AffineState) (x : Nat)
    (hv : ∀ a, a ∈ Mode2.affineVramReads m r st → m2.gVram a = m.gVram a)
    (hp : ∀ i, i ∈ Mode2.affinePlttReads m r st → m2.gBgPltt i = m.gBgPltt i) :
    Mode2.affineColumn m2 r st x = Mode2.affineColumn m r st x := by
  unfold Mode2.affineColumn
  unfold Mode2.affineVramReads at hv
  unfold Mode2.affinePlttReads at hp
  cases hs : Mode2.affineSrc r (st.texX >>> 8) (st.texY >>> 8) with
  | none => simp only [hs]
  | some p =>
    obtain ⟨sX, sY⟩ := p
    simp only [hs] at hv hp ⊢
    have hmap := guarded_read_congr m m2 (Mode2.affineMapAddr r sX sY)
      (fun hg => hv _ (by simp [hg]))
    have hta : Mode2.affineTileAddr m2 r sX sY = Mode2.affineTileAddr m r sX sY := by
      unfold Mode2.affineTileAddr
      simp only [hmap]
    have hbyte := guarded_read_congr m m2 (Mode2.affineTileAddr m r sX sY)
      (fun hg => hv _ (by simp [hg]))
    have hci : Mode2.affineColorIdx m2 r sX sY = Mode2.affineColorIdx m r sX sY := by
      rw [affineColorIdx_of_tileAddr, affineColorIdx_of_tileAddr, hta, hbyte]
    rw [hci]
    by_cases h0 : Mode2.affineColorIdx m r sX sY = 0
    · rw [if_pos h0, if_pos h0]
    · rw [if_neg h0, if_neg h0]
      rw [if_neg h0] at hp
      have hc : m2.bgColor (Mode2.affineColorIdx m r sX sY)
          = m.bgColor (Mode2.affineColorIdx m r sX sY) := by
        unfold GbaMem.bgColor
        rw [hp _ (List.mem_singleton.mpr rfl)]
      rw [hc]

/-- An affine tile-pixel address at or beyond 0x18000 leaves the column of the
line buffers as it was. -/
theorem affineColumn_far (m : GbaMem) (r : Mode2.AffineBgRegs) (st : Mode2.AffineState)
    (x : Nat) (sX sY : Int)
    (hs : Mode2.affineSrc r (st.texX >>> 8) (st.texY >>> 8) = some (sX, sY))
    (h : 0x18000 ≤ Mode2.affineTileAddr m r sX sY) :
    Mode2.affineColorIdx m r sX sY = 0 ∧ (Mode2.affineColumn m r st x).bufs = st.bufs := by
  have hg : ¬ Mode2.affineTileAddr m r sX sY < 0x18000 := by omega
  have h0 : Mode2.affineColorIdx m r sX sY = 0 := by
    rw [affineColorIdx_of_tileAddr, if_neg hg]
  refine ⟨h0, ?_⟩
  unfold Mode2.affineColumn
  simp only [hs, h0, if_true]

/-- The whole affine BG line depends on the memories only through the I/O
registers, the first 0x18000 bytes of VRAM and the 256 BG palette entries. -/
theorem RenderAffineBgLine_region (m m2 : GbaMem) (bgIdx line : Nat) (bufs : LineBufs)
    (hio : m2.gIoMem = m.gIoMem) (hv : ∀ a, a < 0x18000 → m2.gVram a = m.gVram a)
    (hp : ∀ i, i < 256 → m2.gBgPltt i = m.gBgPltt i) :
    Mode2.RenderAffineBgLine m2 bgIdx line bufs = Mode2.RenderAffineBgLine m bgIdx line bufs := by
  have hr : Mode2.affineBgRegs m2 bgIdx = Mode2.affineBgRegs m bgIdx := by
    unfold Mode2.affineBgRegs Mode1.IoRead32 Mode1.IoRead16 GbaMem.ioByte
    rw [hio]
  unfold Mode2.RenderAffineBgLine
  rw [hr]
  have hf : Mode2.affineColumn m2 (Mode2.affineBgRegs m bgIdx)
      = Mode2.affineColumn m (Mode2.affineBgRegs m bgIdx) := by
    funext st x
    exact affineColumn_reads_congr m m2 _ st x
      (fun a ha => hv a ((affine_reads_bounded m _ st).1 a ha))
      (fun i hi => hp i ((affine_reads_bounded m _ st).2 i hi))
  simp only [hf]

/-- C16: for every register and memory content, every `gVram` index read by
`RenderTextBgLine` and `RenderAffineBgLine` (the tilemap bytes and the
tile-pixel byte of each column) is below 0x18000 and every `gBgPltt` index is
below 256; the listed indices are all the renderers depend on, so each column,
and each whole line, is the same for two memories that agree there. A
tile-pixel address at or beyond 0x18000 is not read: the colour index is 0 and
the column of the BG's line buffers stays as it was (transparent). -/
theorem bg_reads_in_bounds (m : GbaMem) (bgIdx line x : Nat) (bufs : LineBufs)
    (st : Mode2.AffineState) :
    (∀ a, a ∈ Mode1.textBgVramReads m (Mode1.textBgRegs m bgIdx) line x → a < 0x18000)
    ∧ (∀ i, i ∈ Mode1.textBgPlttReads m (Mode1.textBgRegs m bgIdx) line x → i < 256)
    ∧ (∀ m2 : GbaMem,
        (∀ a, a ∈ Mode1.textBgVramReads m (Mode1.textBgRegs m bgIdx) line x →
          m2.gVram a = m.gVram a) →
        (∀ i, i ∈ Mode1.textBgPlttReads m (Mode1.textBgRegs m bgIdx) line x →
          m2.gBgPltt i = m.gBgPltt i) →
        Mode1.textBgColumn m2 (Mode1.textBgRegs m bgIdx) line bufs x
          = Mode1.textBgColumn m (Mode1.textBgRegs m bgIdx) line bufs x)
    ∧ (0x18000 ≤ Mode1.textBgTileAddr m (Mode1.textBgRegs m bgIdx) line x →
        Mode1.textBgTileAddr m (Mode1.textBgRegs m bgIdx) line x
            ∉ Mode1.textBgVramReads m (Mode1.textBgRegs m bgIdx) line x
          ∧ Mode1.textBgColorIdx m (Mode1.textBgRegs m bgIdx) line x = 0
          ∧ Mode1.textBgColumn m (Mode1.textBgRegs m bgIdx) line bufs x = bufs)
    ∧ (∀ a, a ∈ Mode2.affineVramReads m (Mode2.affineBgRegs m bgIdx) st → a < 0x18000)
    ∧ (∀ i, i ∈ Mode2.affinePlttReads m (Mode2.affineBgRegs m bgIdx) st → i < 256)
    ∧ (∀ m2 : GbaMem,
        (∀ a, a ∈ Mode2.affineVramReads m (Mode2.affineBgRegs m bgIdx) st →
          m2.gVram a = m.gVram a) →
        (∀ i, i ∈ Mode2.affinePlttReads m (Mode2.affineBgRegs m bgIdx) st →
          m2.gBgPltt i = m.gBgPltt i) →
        Mode2.affineColumn m2 (Mode2.affineBgRegs m bgIdx) st x
          = Mode2.affineColumn m (Mode2.affineBgRegs m bgIdx) st x)
    ∧ (∀ sX sY, Mode2.affineSrc (Mode2.affineBgRegs m bgIdx) (st.texX >>> 8) (st.texY >>> 8)
          = some (sX, sY) →
        0x18000 ≤ Mode2.affineTileAddr m (Mode2.affineBgRegs m bgIdx) sX sY →
        Mode2.affineColorIdx m (Mode2.affineBgRegs m bgIdx) sX sY = 0
          ∧ (Mode2.affineColumn m (Mode2.affineBgRegs m bgIdx) st x).bufs = st.bufs)
    ∧ (∀ m2 : GbaMem, m2.gIoMem = m.gIoMem → (∀ a, a < 0x18000 → m2.gVram a = m.gVram a) →
        (∀ i, i < 256 → m2.gBgPltt i = m.gBgPltt i) →
        Mode1.RenderTextBgLine m2 bgIdx line bufs = Mode1.RenderTextBgLine m bgIdx line bufs
          ∧ Mode2.RenderAffineBgLine m2 bgIdx line bufs
              = Mode2.RenderAffineBgLine m bgIdx line bufs) := by
  refine ⟨(textBg_reads_bounded m bgIdx line x).1, (textBg_reads_bounded m bgIdx line x).2,
    fun m2 hv hp => textBgColumn_reads_congr m m2 _ line x bufs hv hp, ?_,
    (affine_reads_bounded m _ st).1, (affine_reads_bounded m _ st).2,
    fun m2 hv hp => affineColumn_reads_congr m m2 _ st x hv hp,
    fun sX sY hs h => affineColumn_far m _ st x sX sY hs h,
    fun m2 hio hv hp => ⟨RenderTextBgLine_region m m2 bgIdx line bufs hio hv hp,
      RenderAffineBgLine_region m m2 bgIdx line bufs hio hv hp⟩⟩
  intro h
  have h0 := textBgColorIdx_far m _ line x h
  refine ⟨fun hmem => ?_, h0, ?_⟩
  · have := (textBg_reads_bounded m bgIdx line x).1 _ hmem
    omega
  · unfold Mode1.textBgColumn
    rw [if_pos h0]

/-- C16 on an 8-bpp BG whose map entry names tile 1023 with character base
0xC000: the tile-pixel address 0x1BFC0 is not read and the column stays
transparent. -/
theorem bg_reads_in_bounds_witness :
    Mode1.textBgTileAddr farTileImage (Mode1.textBgRegs farTileImage 0) 0 0 = 0x1BFC0
    ∧ Mode1.textBgTileAddr farTileImage (Mode1.textBgRegs farTileImage 0) 0 0
        ∉ Mode1.textBgVramReads farTileImage (Mode1.textBgRegs farTileImage 0) 0 0
    ∧ Mode1.textBgColorIdx farTileImage (Mode1.textBgRegs farTileImage 0) 0 0 = 0
    ∧ Mode1.textBgColumn farTileImage (Mode1.textBgRegs farTileImage 0) 0 Mode1.bgClear 0
        = Mode1.bgClear :=
  ⟨by decide,
    (bg_reads_in_bounds farTileImage 0 0 0 Mode1.bgClear ⟨Mode1.bgClear, 0, 0⟩).2.2.2.1
      (by decide)⟩

/-! ## Full opacity of the GBA frames -/

/-- A word packed from three bytes under `0xFF000000` has alpha byte `0xFF`. -/
theorem opaque_of_sum (b g r : Nat) (hb : b < 256) (hg : g < 256) (hr : r < 256) :
    ((0xFF000000 + b * 65536 + g * 256 + r) >>> 24) &&& 0xFF = 0xFF :=
  (abgr_channels b g r _ hb hg hr rfl).2.2.2.1

/-- A converted colour is opaque. -/
theorem Rgb555ToAbgr8888_solid (c : Nat) : (Mode1.Rgb555ToAbgr8888 c >>> 24) &&& 0xFF = 0xFF := by
  rw [Rgb555ToAbgr8888_eq_sum]
  exact opaque_of_sum _ _ _ (by omega) (by omega) (by omega)

/-- The result of `AlphaBlend` is opaque. -/
theorem AlphaBlend_solid (top bot eva evb : Nat) :
    (Mode1.AlphaBlend top bot eva evb >>> 24) &&& 0xFF = 0xFF := by
  rw [AlphaBlend_eq]
  exact opaque_of_sum _ _ _ (by omega) (by omega) (by omega)

/-- The result of `BrightenPixel` is opaque. -/
theorem BrightenPixel_solid (abgr n : Nat) (hn : n ≤ 16) :
    (Mode1.BrightenPixel abgr n >>> 24) &&& 0xFF = 0xFF := by
  rw [BrightenPixel_eq abgr n hn]
  have hr := (brighten_chan ((abgr >>> 0) &&& 0xFF) n (by have := chan_lt abgr 0; omega) hn).2.2
  have hg := (brighten_chan ((abgr >>> 8) &&& 0xFF) n (by have := chan_lt abgr 8; omega) hn).2.2
  have hb := (brighten_chan ((abgr >>> 16) &&& 0xFF) n (by have := chan_lt abgr 16; omega) hn).2.2
  exact opaque_of_sum _ _ _ (by omega) (by omega) (by omega)

/-- The result of `DarkenPixel` is opaque. -/
theorem DarkenPixel_solid (abgr n : Nat) (hn : n ≤ 16) :
    (Mode1.DarkenPixel abgr n >>> 24) &&& 0xFF = 0xFF := by
  rw [DarkenPixel_eq abgr n hn]
  have cr := chan_lt abgr 0
  have cg := chan_lt abgr 8
  have cb := chan_lt abgr 16
  exact opaque_of_sum _ _ _ (by omega) (by omega) (by omega)

/-- The blend coefficients decoded from the registers are naturals, `evy` at
most 16. -/
theorem blendRegs_coeffs (m : GbaMem) :
    ∃ a b y : Nat, (Mode1.blendRegs m).eva = a ∧ (Mode1.blendRegs m).evb = b
      ∧ (Mode1.blendRegs m).evy = y ∧ y ≤ 16 := by
  refine ⟨_, _, _, rfl, rfl, rfl, ?_⟩
  split <;> omega

/-- The colour-effect stage keeps an opaque top pixel opaque. -/
theorem applyBlend_solid (m : GbaMem) (s : Mode1.Pick)
    (h : (s.topColor >>> 24) &&& 0xFF = 0xFF) :
    (Mode1.applyBlend (Mode1.blendRegs m) s >>> 24) &&& 0xFF = 0xFF := by
  obtain ⟨a, b, y, ha, hb, hy, hle⟩ := blendRegs_coeffs m
  unfold Mode1.applyBlend
  rw [ha, hb, hy]
  split
  · split
    · exact AlphaBlend_solid _ _ _ _
    · exact h
  · split
    · exact BrightenPixel_solid _ _ hle
    · exact h
  · split
    · exact DarkenPixel_solid _ _ hle
    · exact h
  · exact h

/-- The top of a contributor sequence is its head, or the backdrop. -/
theorem pickTwo_top (bd : Nat) (l : List (Nat × Nat)) :
    (Mode1.pickTwo bd l).topColor = bd ∨ ∃ e, e ∈ l ∧ (Mode1.pickTwo bd l).topColor = e.1 := by
  match l with
  | [] => exact Or.inl rfl
  | [t] => exact Or.inr ⟨t, by simp, rfl⟩
  | t :: b :: r => exact Or.inr ⟨t, by simp, rfl⟩

/-- The word stored for a column is opaque when every layer pixel of the
column is transparent or opaque. -/
theorem compositePixel_solid (m : GbaMem) (ly : Mode1.Layers) (dispcnt x : Nat)
    (hbg : ∀ bg, bg < 4 → ly.bgLayers bg x = 0 ∨ (ly.bgLayers bg x >>> 24) &&& 0xFF = 0xFF)
    (hobj : ly.objLayer x = 0 ∨ (ly.objLayer x >>> 24) &&& 0xFF = 0xFF) :
    (Mode1.compositePixel m ly dispcnt x >>> 24) &&& 0xFF = 0xFF := by
  unfold Mode1.compositePixel
  apply applyBlend_solid
  rw [findTopBot_eq_pickTwo]
  rcases pickTwo_top (Mode1.Rgb555ToAbgr8888 (m.bgColor 0)) (Mode1.contribs m ly dispcnt x)
    with h | ⟨e, he, h⟩
  · rw [h]
    exact Rgb555ToAbgr8888_solid _
  · rw [h]
    obtain ⟨hne, hor⟩ := contribs_sound m ly dispcnt x e he
    rcases hor with ⟨h1, _, _⟩ | ⟨h1, _, h3⟩
    · have e1 : e.1 = ly.objLayer x := by rw [h1]
      rw [e1] at hne ⊢
      rcases hobj with h0 | h0
      · exact absurd h0 hne
      · exact h0
    · rw [h3] at hne ⊢
      rcases hbg e.2 h1 with h0 | h0
      · exact absurd h0 hne
      · exact h0

/-- Storing an opaque word keeps a colour buffer transparent-or-opaque. -/
theorem update_clear_or_solid (f : Nat → Nat) (k v : Nat)
    (hf : ∀ x, f x = 0 ∨ (f x >>> 24) &&& 0xFF = 0xFF) (hv : (v >>> 24) &&& 0xFF = 0xFF) :
    ∀ x, Function.update f k v x = 0 ∨ (Function.update f k v x >>> 24) &&& 0xFF = 0xFF := by
  intro x
  by_cases h : x = k
  · rw [h, Function.update_same]
    exact Or.inr hv
  · rw [Function.update_noteq h]
    exact hf x

/-- An invariant of the loop body is an invariant of the loop. -/
theorem foldl_invariant {σ α : Type} (f : σ → α → σ) (I : σ → Prop)
    (h : ∀ s a, I s → I (f s a)) (l : List α) (s : σ) (hs : I s) : I (l.foldl f s) := by
  induction l generalizing s with
  | nil => exact hs
  | cons a l ih => exact ih (f s a) (h s a hs)

/-- Every pixel of a rendered text BG line is transparent or opaque. -/
theorem RenderTextBgLine_clear_or_solid (m : GbaMem) (bgIdx line : Nat) (bufs : LineBufs)
    (hb : ∀ x, bufs.color x = 0 ∨ (bufs.color x >>> 24) &&& 0xFF = 0xFF) :
    ∀ x, (Mode1.RenderTextBgLine m bgIdx line bufs).color x = 0
      ∨ ((Mode1.RenderTextBgLine m bgIdx line bufs).color x >>> 24) &&& 0xFF = 0xFF := by
  unfold Mode1.RenderTextBgLine
  refine foldl_invariant _
    (fun b : LineBufs => ∀ x, b.color x = 0 ∨ (b.color x >>> 24) &&& 0xFF = 0xFF) ?_ _ _ hb
  intro b x hI
  unfold Mode1.textBgColumn
  split
  · exact hI
  · exact update_clear_or_solid _ _ _ hI (Rgb555ToAbgr8888_solid _)

/-- Every pixel of a rendered affine BG line is transparent or opaque. -/
theorem RenderAffineBgLine_clear_or_solid (m : GbaMem) (bgIdx line : Nat) (bufs : LineBufs)
    (hb : ∀ x, bufs.color x = 0 ∨ (bufs.color x >>> 24) &&& 0xFF = 0xFF) :
    ∀ x, (Mode2.RenderAffineBgLine m bgIdx line bufs).color x = 0
      ∨ ((Mode2.RenderAffineBgLine m bgIdx line bufs).color x >>> 24) &&& 0xFF = 0xFF := by
  unfold Mode2.RenderAffineBgLine
  refine foldl_invariant _
    (fun s : Mode2.AffineState =>
      ∀ x, s.bufs.color x = 0 ∨ (s.bufs.color x >>> 24) &&& 0xFF = 0xFF) ?_ _ _ hb
  intro s x hI
  unfold Mode2.affineColumn
  simp only
  split
  · exact hI
  · split
    · exact hI
    · exact update_clear_or_solid _ _ _ hI (Rgb555ToAbgr8888_solid _)

/-- One iteration of the sprite column loop keeps the colour buffer
transparent-or-opaque. -/
theorem objColumn_clear_or_solid (m : GbaMem) (c : Mode1.ObjCtx) (line : Int) (obj1d : Bool)
    (bufs : LineBufs) (sx : Nat)
    (hb : ∀ x, bufs.color x = 0 ∨ (bufs.color x >>> 24) &&& 0xFF = 0xFF) :
    ∀ x, (Mode1.objColumn m c line obj1d bufs sx).color x = 0
      ∨ ((Mode1.objColumn m c line obj1d bufs sx).color x >>> 24) &&& 0xFF = 0xFF := by
  unfold Mode1.objColumn
  simp only
  split
  · exact hb
  · split
    · exact hb
    · split
      · exact hb
      · split
        · exact hb
        · exact update_clear_or_solid _ _ _ hb (Rgb555ToAbgr8888_solid _)

/-- One sprite keeps the colour buffer transparent-or-opaque. -/
theorem objSprite_clear_or_solid (m : GbaMem) (line : Nat) (obj1d : Bool) (bufs b : LineBufs)
    (i : Nat) (hb : ∀ x, bufs.color x = 0 ∨ (bufs.color x >>> 24) &&& 0xFF = 0xFF)
    (h : Mode1.objSprite m line obj1d bufs i = some b) :
    ∀ x, b.color x = 0 ∨ (b.color x >>> 24) &&& 0xFF = 0xFF := by
  unfold Mode1.objSprite at h
  simp only at h
  split at h
  · rw [← Option.some.inj h]; exact hb
  · split at h
    · split at h
      · rw [← Option.some.inj h]; exact hb
      · rw [← Option.some.inj h]
        exact foldl_invariant _
          (fun b : LineBufs => ∀ x, b.color x = 0 ∨ (b.color x >>> 24) &&& 0xFF = 0xFF)
          (fun b sx hI => objColumn_clear_or_solid m _ _ obj1d b sx hI) _ _ hb
    · exact absurd h (by simp)

/-- The sprite loop keeps the colour buffer transparent-or-opaque. -/
theorem objLoop_clear_or_solid (m : GbaMem) (line : Nat) (obj1d : Bool) (n : Nat)
    (bufs b : LineBufs) (hb : ∀ x, bufs.color x = 0 ∨ (bufs.color x >>> 24) &&& 0xFF = 0xFF)
    (h : Mode1.objLoop m line obj1d n bufs = some b) :
    ∀ x, b.color x = 0 ∨ (b.color x >>> 24) &&& 0xFF = 0xFF := by
  induction n generalizing bufs with
  | zero =>
    unfold Mode1.objLoop at h
    rw [← Option.some.inj h]; exact hb
  | succ n ih =>
    unfold Mode1.objLoop at h
    cases hs : Mode1.objSprite m line obj1d bufs n with
    | none => rw [hs] at h; exact absurd h (by simp)
    | some b1 =>
      rw [hs] at h
      exact ih b1 (objSprite_clear_or_solid m line obj1d bufs b1 n hb hs) h

/-- The cleared BG and OBJ buffers are transparent. -/
theorem clear_bufs_clear :
    (∀ x, Mode1.bgClear.color x = 0 ∨ (Mode1.bgClear.color x >>> 24) &&& 0xFF = 0xFF)
      ∧ (∀ x, Mode1.objClear.color x = 0 ∨ (Mode1.objClear.color x >>> 24) &&& 0xFF = 0xFF) :=
  ⟨fun _ => Or.inl rfl, fun _ => Or.inl rfl⟩

/-- The layers handed to the compositor are transparent-or-opaque when the
five buffers are. -/
theorem mkLayers_clear_or_solid (bg0 bg1 bg2 bg3 obj : LineBufs) (x : Nat)
    (h0 : ∀ x, bg0.color x = 0 ∨ (bg0.color x >>> 24) &&& 0xFF = 0xFF)
    (h1 : ∀ x, bg1.color x = 0 ∨ (bg1.color x >>> 24) &&& 0xFF = 0xFF)
    (h2 : ∀ x, bg2.color x = 0 ∨ (bg2.color x >>> 24) &&& 0xFF = 0xFF)
    (h3 : ∀ x, bg3.color x = 0 ∨ (bg3.color x >>> 24) &&& 0xFF = 0xFF)
    (ho : ∀ x, obj.color x = 0 ∨ (obj.color x >>> 24) &&& 0xFF = 0xFF) :
    (∀ bg, bg < 4 → (Mode1.mkLayers bg0 bg1 bg2 bg3 obj).bgLayers bg x = 0
        ∨ ((Mode1.mkLayers bg0 bg1 bg2 bg3 obj).bgLayers bg x >>> 24) &&& 0xFF = 0xFF)
      ∧ ((Mode1.mkLayers bg0 bg1 bg2 bg3 obj).objLayer x = 0
        ∨ ((Mode1.mkLayers bg0 bg1 bg2 bg3 obj).objLayer x >>> 24) &&& 0xFF = 0xFF) := by
  refine ⟨fun bg hbg => ?_, ho x⟩
  interval_cases bg
  · exact h0 x
  · exact h1 x
  · exact h2 x
  · exact h3 x

/-- A conditionally rendered text BG line is transparent-or-opaque. -/
theorem textLayer_clear_or_solid (m : GbaMem) (bgIdx line : Nat) (c : Prop) [Decidable c] :
    ∀ x, (if c then Mode1.RenderTextBgLine m bgIdx line Mode1.bgClear else Mode1.bgClear).color x = 0
      ∨ ((if c then Mode1.RenderTextBgLine m bgIdx line Mode1.bgClear
          else Mode1.bgClear).color x >>> 24) &&& 0xFF = 0xFF := by
  split
  · exact RenderTextBgLine_clear_or_solid m bgIdx line _ clear_bufs_clear.1
  · exact clear_bufs_clear.1

/-- A conditionally rendered sprite line is transparent-or-opaque. -/
theorem objLayer_clear_or_solid (m : GbaMem) (line : Nat) (obj1d : Bool) (c : Prop)
    [Decidable c] (obj : LineBufs)
    (h : (if c then Mode1.RenderObjLine m line obj1d Mode1.objClear else some Mode1.objClear)
      = some obj) :
    ∀ x, obj.color x = 0 ∨ (obj.color x >>> 24) &&& 0xFF = 0xFF := by
  split at h
  · exact objLoop_clear_or_solid m line obj1d _ _ obj clear_bufs_clear.2 h
  · rw [← Option.some.inj h]
    exact clear_bufs_clear.2

/-- The row stored by the compositor is opaque when the layers are
transparent-or-opaque; the other words are kept. -/
theorem CompositeLineMode0_solid (m : GbaMem) (line : Nat) (ly : Mode1.Layers)
    (dispcnt : Nat) (fb : Nat → Nat)
    (hbg : ∀ x bg, bg < 4 → ly.bgLayers bg x = 0 ∨ (ly.bgLayers bg x >>> 24) &&& 0xFF = 0xFF)
    (hobj : ∀ x, ly.objLayer x = 0 ∨ (ly.objLayer x >>> 24) &&& 0xFF = 0xFF) :
    (∀ i, line * 240 ≤ i ∧ i < line * 240 + 240 →
        (Mode1.CompositeLineMode0 m line ly dispcnt fb i >>> 24) &&& 0xFF = 0xFF)
      ∧ (∀ i, ¬ (line * 240 ≤ i ∧ i < line * 240 + 240) →
        Mode1.CompositeLineMode0 m line ly dispcnt fb i = fb i) := by
  constructor
  · intro i hi
    rw [CompositeLineMode0_apply, if_pos hi]
    exact compositePixel_solid m ly dispcnt _ (hbg _) (hobj _)
  · intro i hi
    rw [CompositeLineMode0_apply, if_neg hi]

/-- The scanline body of `Mode1::RenderFrame` stores an opaque row. -/
theorem Mode1_renderLine_solid (m : GbaMem) (dispcnt : Nat) (obj1d : Bool) (fb fb1 : Nat → Nat)
    (line : Nat) (h : Mode1.renderLine m dispcnt obj1d fb line = some fb1) :
    (∀ i, line * 240 ≤ i ∧ i < line * 240 + 240 → (fb1 i >>> 24) &&& 0xFF = 0xFF)
      ∧ (∀ i, ¬ (line * 240 ≤ i ∧ i < line * 240 + 240) → fb1 i = fb i) := by
  unfold Mode1.renderLine at h
  simp only [Option.map_eq_some'] at h
  obtain ⟨obj, hobj, he⟩ := h
  rw [← he]
  have ho := objLayer_clear_or_solid m line obj1d _ obj hobj
  exact CompositeLineMode0_solid m line _ dispcnt fb
    (fun x => (mkLayers_clear_or_solid _ _ _ _ obj x
      (textLayer_clear_or_solid m 0 line _) (textLayer_clear_or_solid m 1 line _)
      (textLayer_clear_or_solid m 2 line _) (textLayer_clear_or_solid m 3 line _) ho).1)
    (fun x => (mkLayers_clear_or_solid _ _ _ _ obj x
      (textLayer_clear_or_solid m 0 line _) (textLayer_clear_or_solid m 1 line _)
      (textLayer_clear_or_solid m 2 line _) (textLayer_clear_or_solid m 3 line _) ho).2)

/-- The scanline body of `Mode2::RenderFrame` stores an opaque row. -/
theorem Mode2_renderLine_solid (m : GbaMem) (dispcnt : Nat) (obj1d : Bool) (fb fb1 : Nat → Nat)
    (line : Nat) (h : Mode2.renderLine m dispcnt obj1d fb line = some fb1) :
    (∀ i, line * 240 ≤ i ∧ i < line * 240 + 240 → (fb1 i >>> 24) &&& 0xFF = 0xFF)
      ∧ (∀ i, ¬ (line * 240 ≤ i ∧ i < line * 240 + 240) → fb1 i = fb i) := by
  unfold Mode2.renderLine at h
  simp only [Option.map_eq_some'] at h
  obtain ⟨obj, hobj, he⟩ := h
  rw [← he]
  have ho := objLayer_clear_or_solid m line obj1d _ obj hobj
  have h2 : ∀ x, (if (dispcnt &&& Mode1.DISP_BG2_ON) ≠ 0 then
        Mode2.RenderAffineBgLine m 2 line Mode1.bgClear else Mode1.bgClear).color x = 0
      ∨ ((if (dispcnt &&& Mode1.DISP_BG2_ON) ≠ 0 then
        Mode2.RenderAffineBgLine m 2 line Mode1.bgClear
          else Mode1.bgClear).color x >>> 24) &&& 0xFF = 0xFF := by
    split
    · exact RenderAffineBgLine_clear_or_solid m 2 line _ clear_bufs_clear.1
    · exact clear_bufs_clear.1
  exact CompositeLineMode0_solid m line _ dispcnt fb
    (fun x => (mkLayers_clear_or_solid _ _ _ _ obj x
      (textLayer_clear_or_solid m 0 line _) (textLayer_clear_or_solid m 1 line _)
      h2 clear_bufs_clear.1 ho).1)
    (fun x => (mkLayers_clear_or_solid _ _ _ _ obj x
      (textLayer_clear_or_solid m 0 line _) (textLayer_clear_or_solid m 1 line _)
      h2 clear_bufs_clear.1 ho).2)

/-- A scanline loop whose body stores a row of words with property `P` and
keeps the other words: after `n` lines the first `n` rows have `P` and the
rest of the buffer is as before. -/
theorem lineLoop_invariant (body : (Nat → Nat) → Nat → Option (Nat → Nat)) (P : Nat → Prop)
    (n : Nat)
    (hbody : ∀ fb fb1 line, line < n → body fb line = some fb1 →
      (∀ i, line * 240 ≤ i ∧ i < line * 240 + 240 → P (fb1 i))
        ∧ (∀ i, ¬ (line * 240 ≤ i ∧ i < line * 240 + 240) → fb1 i = fb i))
    (fb fb1 : Nat → Nat) (h : Mode1.lineLoop body n fb = some fb1) :
    (∀ i, i < n * 240 → P (fb1 i)) ∧ (∀ i, n * 240 ≤ i → fb1 i = fb i) := by
  unfold Mode1.lineLoop at h
  induction n generalizing fb1 with
  | zero =>
    simp only [List.range_zero, List.foldlM_nil, Option.pure_def, Option.some.injEq] at h
    rw [← h]
    exact ⟨fun i hi => absurd hi (by omega), fun _ _ => rfl⟩
  | succ n ih =>
    rw [List.range_succ, List.foldlM_append] at h
    cases hm : List.foldlM body fb (List.range n) with
    | none =>
      rw [hm] at h
      exact absurd h (by simp)
    | some fb2 =>
      rw [hm] at h
      simp only [List.foldlM_cons, List.foldlM_nil, Option.some_bind, Option.bind_eq_bind,
        Option.pure_def, Option.bind_some] at h
      obtain ⟨ih1, ih2⟩ := ih (fun fb fb1 line hl => hbody fb fb1 line (by omega)) fb2 hm
      obtain ⟨hb1, hb2⟩ := hbody fb2 fb1 n (by omega) h
      constructor
      · intro i hi
        by_cases hr : n * 240 ≤ i ∧ i < n * 240 + 240
        · exact hb1 i hr
        · rw [hb2 i hr]
          exact ih1 i (by omega)
      · intro i hi
        rw [hb2 i (by omega)]
        exact ih2 i (by omega)

/-- A scanline loop whose body always returns, returns. -/
theorem lineLoop_total (body : (Nat → Nat) → Nat → Option (Nat → Nat)) (n : Nat)
    (hbody : ∀ fb line, line < n → ∃ fb1, body fb line = some fb1) (fb : Nat → Nat) :
    ∃ fb1, Mode1.lineLoop body n fb = some fb1 := by
  unfold Mode1.lineLoop
  induction n with
  | zero => exact ⟨fb, rfl⟩
  | succ n ih =>
    obtain ⟨fb2, h2⟩ := ih (fun fb line hl => hbody fb line (by omega))
    obtain ⟨fb3, h3⟩ := hbody fb2 n (by omega)
    refine ⟨fb3, ?_⟩
    rw [List.range_succ, List.foldlM_append, h2]
    simp only [List.foldlM_cons, List.foldlM_nil, Option.some_bind, Option.bind_eq_bind,
      Option.pure_def, Option.bind_some]
    exact h3

/-- The sprite line returns when OBJ is off or every sprite has a shape of
the size tables. -/
theorem objLine_total (m : GbaMem) (line : Nat) (obj1d : Bool) (dispcnt : Nat)
    (h : (dispcnt &&& Mode1.DISP_OBJ_ON) = 0 ∨ ∀ i, i < 128 → (Mode1.readOam m i).shape ≤ 2) :
    ∃ obj, (if (dispcnt &&& Mode1.DISP_OBJ_ON) ≠ 0 then
        Mode1.RenderObjLine m line obj1d Mode1.objClear else some Mode1.objClear) = some obj := by
  by_cases hon : (dispcnt &&& Mode1.DISP_OBJ_ON) ≠ 0
  · rw [if_pos hon]
    rcases h with h | h
    · exact absurd h hon
    · obtain ⟨b, hb, _⟩ := RenderObjLine_cells m line obj1d h
      exact ⟨b, hb⟩
  · rw [if_neg hon]
    exact ⟨_, rfl⟩

/-- C17: for the GBA pipelines (modes 1 and 2) and every register and memory
content, every one of the 240x160 pixels of the frame that `RenderFrame`
returns has alpha byte `0xFF`, whether it comes from a BG, a sprite, the
backdrop, a colour effect or forced blank. `RenderFrame` returns a frame
whenever forced blank is set, OBJ is disabled, or every sprite's shape field
is one of the three shapes of the size tables. -/
theorem RenderFrame_alpha_full (ppu : PPUMemory) (m : GbaMem) (fb : Nat → Nat) :
    (∀ fb1, Mode1.RenderFrame ppu m fb = some fb1 →
        ∀ i, i < 240 * 160 → (fb1 i >>> 24) &&& 0xFF = 0xFF)
    ∧ (∀ fb1, Mode2.RenderFrame ppu m fb = some fb1 →
        ∀ i, i < 240 * 160 → (fb1 i >>> 24) &&& 0xFF = 0xFF)
    ∧ (((Mode1.IoRead16 m Mode1.IO_DISPCNT &&& Mode1.DISP_FORCED_BLANK) ≠ 0
          ∨ (Mode1.IoRead16 m Mode1.IO_DISPCNT &&& Mode1.DISP_OBJ_ON) = 0
          ∨ ∀ i, i < 128 → (Mode1.readOam m i).shape ≤ 2) →
        (∃ fb1, Mode1.RenderFrame ppu m fb = some fb1)
          ∧ (∃ fb1, Mode2.RenderFrame ppu m fb = some fb1)) := by
  have hblank : ∀ i, i < 240 * 160 → (Mode1.forcedBlank fb i >>> 24) &&& 0xFF = 0xFF := by
    intro i hi
    unfold Mode1.forcedBlank Mode1.GBA_WIDTH Mode1.GBA_HEIGHT
    rw [if_pos hi]
    decide
  refine ⟨?_, ?_, ?_⟩
  · intro fb1 h i hi
    unfold Mode1.RenderFrame at h
    simp only at h
    split at h
    · rw [← Option.some.inj h]
      exact hblank i hi
    · exact (lineLoop_invariant _ (fun v => (v >>> 24) &&& 0xFF = 0xFF) Mode1.GBA_HEIGHT
        (fun fb fb1 line _ hb => Mode1_renderLine_solid m _ _ fb fb1 line hb) fb fb1 h).1 i hi
  · intro fb1 h i hi
    unfold Mode2.RenderFrame at h
    simp only at h
    split at h
    · rw [← Option.some.inj h]
      exact hblank i hi
    · exact (lineLoop_invariant _ (fun v => (v >>> 24) &&& 0xFF = 0xFF) Mode1.GBA_HEIGHT
        (fun fb fb1 line _ hb => Mode2_renderLine_solid m _ _ fb fb1 line hb) fb fb1 h).1 i hi
  · intro h
    by_cases hfb : (Mode1.IoRead16 m Mode1.IO_DISPCNT &&& Mode1.DISP_FORCED_BLANK) ≠ 0
    · constructor
      · unfold Mode1.RenderFrame
        simp only [hfb, ne_eq, not_false_eq_true, if_true]
        exact ⟨_, rfl⟩
      · unfold Mode2.RenderFrame
        simp only [hfb, ne_eq, not_false_eq_true, if_true]
        exact ⟨_, rfl⟩
    · have hobj : (Mode1.IoRead16 m Mode1.IO_DISPCNT &&& Mode1.DISP_OBJ_ON) = 0
          ∨ ∀ i, i < 128 → (Mode1.readOam m i).shape ≤ 2 := by
        rcases h with h | h | h
        · exact absurd h hfb
        · exact Or.inl h
        · exact Or.inr h
      constructor
      · unfold Mode1.RenderFrame
        simp only [hfb, if_false]
        refine lineLoop_total _ _ (fun fb line _ => ?_) fb
        obtain ⟨obj, ho⟩ := objLine_total m line
          ((Mode1.IoRead16 m Mode1.IO_DISPCNT &&& Mode1.DISP_OBJ_1D) != 0) _ hobj
        unfold Mode1.renderLine
        simp only [ho, Option.map_some']
        exact ⟨_, rfl⟩
      · unfold Mode2.RenderFrame
        simp only [hfb, if_false]
        refine lineLoop_total _ _ (fun fb line _ => ?_) fb
        obtain ⟨obj, ho⟩ := objLine_total m line
          ((Mode1.IoRead16 m Mode1.IO_DISPCNT &&& Mode1.DISP_OBJ_1D) != 0) _ hobj
        unfold Mode2.renderLine
        simp only [ho, Option.map_some']
        exact ⟨_, rfl⟩

/-- C17 on the single-tile image: both GBA frame renders return a frame whose
240x160 pixels are all opaque. -/
theorem RenderFrame_alpha_full_witness :
    (∃ fb1, Mode1.RenderFrame ⟨240, 1⟩ tileImage (fun _ => 0) = some fb1
        ∧ ∀ i, i < 240 * 160 → (fb1 i >>> 24) &&& 0xFF = 0xFF)
    ∧ (∃ fb1, Mode2.RenderFrame ⟨240, 1⟩ tileImage (fun _ => 0) = some fb1
        ∧ ∀ i, i < 240 * 160 → (fb1 i >>> 24) &&& 0xFF = 0xFF) := by
  have h := RenderFrame_alpha_full ⟨240, 1⟩ tileImage (fun _ => 0)
  obtain ⟨⟨f1, h1⟩, ⟨f2, h2⟩⟩ := h.2.2 (Or.inr (Or.inl (by decide)))
  exact ⟨⟨f1, h1, h.1 f1 h1⟩, ⟨f2, h2, h.2.1 f2 h2⟩⟩

/-! ## The identity affine BG against the equivalent text BG -/

/-- Bounds of the base addresses of an affine BG. -/
theorem affineBgRegs_bounds (m : GbaMem) (bgIdx : Nat) :
    (Mode2.affineBgRegs m bgIdx).charBase ≤ 0xC000
      ∧ (Mode2.affineBgRegs m bgIdx).screenBase ≤ 0xF800 := by
  unfold Mode2.affineBgRegs
  simp only [and_3, and_31]
  constructor <;> omega

/-- On-screen source coordinates of a 256x256 affine BG are neither wrapped
nor clipped. -/
theorem affineSrc_inside (r : Mode2.AffineBgRegs) (n line : Nat) (hn : n < 240)
    (hl : line < 160) (hsize : r.mapSize = 256) :
    Mode2.affineSrc r (n : Int) (line : Int) = some ((n : Int), (line : Int)) := by
  unfold Mode2.affineSrc
  rw [hsize]
  by_cases hw : r.wrap = true
  · rw [if_pos hw]
    have i1 : (n : Int).tmod 256 = n := by
      rw [Int.tmod_eq_emod (by omega) (by omega)]; omega
    have i2 : (line : Int).tmod 256 = line := by
      rw [Int.tmod_eq_emod (by omega) (by omega)]; omega
    have e1 : ((n : Int) + 256).tmod 256 = n := by
      rw [Int.tmod_eq_emod (by omega) (by omega)]; omega
    have e2 : ((line : Int) + 256).tmod 256 = line := by
      rw [Int.tmod_eq_emod (by omega) (by omega)]; omega
    rw [i1, i2, e1, e2]
  · rw [if_neg hw, if_neg (by omega)]

/-- The colour index fetched by an affine BG with 32 tiles per map row. -/
theorem affineColorIdx_eq (m : GbaMem) (r : Mode2.AffineBgRegs) (n line : Nat)
    (hn : n < 240) (hl : line < 160) (htiles : r.mapTiles = 32)
    (hsb : r.screenBase ≤ 0xF800) (hcb : r.charBase ≤ 0xC000) :
    Mode2.affineColorIdx m r (n : Int) (line : Int)
      = m.vramByte (r.charBase + m.vramByte (r.screenBase + line / 8 * 32 + n / 8) * 64
          + line % 8 * 8 + n % 8) := by
  have e1 : (n : Int).tdiv 8 = ((n / 8 : Nat) : Int) := by
    rw [Int.tdiv_eq_ediv (by omega) (by omega)]; omega
  have e2 : (line : Int).tdiv 8 = ((line / 8 : Nat) : Int) := by
    rw [Int.tdiv_eq_ediv (by omega) (by omega)]; omega
  have e3 : (n : Int).tmod 8 = ((n % 8 : Nat) : Int) := by
    rw [Int.tmod_eq_emod (by omega) (by omega)]; omega
  have e4 : (line : Int).tmod 8 = ((line % 8 : Nat) : Int) := by
    rw [Int.tmod_eq_emod (by omega) (by omega)]; omega
  have ha : toU32 ((r.screenBase : Int) + ((line / 8 : Nat) : Int) * 32 + ((n / 8 : Nat) : Int))
      = r.screenBase + line / 8 * 32 + n / 8 := by
    unfold toU32; omega
  have hlt : r.screenBase + line / 8 * 32 + n / 8 < 0x18000 := by omega
  have hbyte : m.vramByte (r.screenBase + line / 8 * 32 + n / 8) < 256 := by
    unfold GbaMem.vramByte; omega
  unfold Mode2.affineColorIdx
  simp only [e1, e2, e3, e4, htiles, ha, if_pos hlt]
  generalize m.vramByte (r.screenBase + line / 8 * 32 + n / 8) = t at hbyte
  have hb : toU32 ((r.charBase : Int) + (t : Int) * 64 + ((line % 8 : Nat) : Int) * 8
      + ((n % 8 : Nat) : Int)) = r.charBase + t * 64 + line % 8 * 8 + n % 8 := by
    unfold toU32; omega
  have hlt2 : r.charBase + t * 64 + line % 8 * 8 + n % 8 < 0x18000 := by omega
  rw [hb, if_pos hlt2]

/-- The colour index fetched by an 8-bpp, 32x32, unscrolled text BG whose map
entry has no flip. -/
theorem textBgColorIdx_8bpp (m : GbaMem) (r : Mode1.TextBgRegs) (line x : Nat)
    (hl : line < 160) (hx : x < 240) (hc : r.charBase ≤ 0xC000) (hb : r.screenBase ≤ 0xF800)
    (h8 : r.bpp8 = true) (hw : r.mapW = 32) (hh : r.mapH = 32) (hsx : r.scrollX = 0)
    (hsy : r.scrollY = 0)
    (hhf : (⟨mapEntry16 m r.screenBase (line / 8) (x / 8)⟩ : Mode1.TilemapEntry).hflip = false)
    (hvf : (⟨mapEntry16 m r.screenBase (line / 8) (x / 8)⟩ : Mode1.TilemapEntry).vflip = false)
    (hti : (⟨mapEntry16 m r.screenBase (line / 8) (x / 8)⟩ : Mode1.TilemapEntry).tileIndex
      ≤ 255) :
    Mode1.textBgColorIdx m r line x
      = m.vramByte (r.charBase
          + (⟨mapEntry16 m r.screenBase (line / 8) (x / 8)⟩ : Mode1.TilemapEntry).tileIndex * 64
          + line % 8 * 8 + x % 8) := by
  have he := textBgEntry_single_block m r line x hl hx hb hw hh hsx hsy
  unfold Mode1.textBgColorIdx
  simp only [he, h8, hw, hh, hsx, hsy, hhf, hvf, if_true, Bool.false_eq_true, if_false]
  have e1 : (line + 0) % (32 * 8) % 8 = line % 8 := by omega
  have e2 : (x + 0) % (32 * 8) % 8 = x % 8 := by omega
  rw [e1, e2]
  generalize (⟨mapEntry16 m r.screenBase (line / 8) (x / 8)⟩ : Mode1.TilemapEntry).tileIndex
    = ti at hti
  have hm : (r.charBase + ti * 64 + line % 8 * 8 + x % 8) % 4294967296
      = r.charBase + ti * 64 + line % 8 * 8 + x % 8 := by omega
  have hlt : r.charBase + ti * 64 + line % 8 * 8 + x % 8 < 0x18000 := by omega
  rw [hm, if_pos hlt]

/-- One column of the identity affine BG is the column of the equivalent text
BG, and the texture cursor advances by one source pixel. -/
theorem affineColumn_identity (mA mT : GbaMem) (rA : Mode2.AffineBgRegs)
    (rT : Mode1.TextBgRegs) (line n : Nat) (b : LineBufs) (hl : line < 160) (hn : n < 240)
    (hsize : rA.mapSize = 256) (htiles : rA.mapTiles = 32) (hpa : rA.pa = 0x100)
    (hpc : rA.pc = 0) (hsbA : rA.screenBase ≤ 0xF800) (hcbA : rA.charBase ≤ 0xC000)
    (hsbT : rT.screenBase ≤ 0xF800)
    (h8 : rT.bpp8 = true) (hw : rT.mapW = 32) (hh : rT.mapH = 32) (hsx : rT.scrollX = 0)
    (hsy : rT.scrollY = 0) (hcb : rT.charBase = rA.charBase)
    (hpri : rT.priority = rA.priority)
    (hmap : ∀ row col, row < 32 → col < 32 →
      (⟨mapEntry16 mT rT.screenBase row col⟩ : Mode1.TilemapEntry).tileIndex
          = mA.vramByte (rA.screenBase + row * 32 + col)
        ∧ (⟨mapEntry16 mT rT.screenBase row col⟩ : Mode1.TilemapEntry).hflip = false
        ∧ (⟨mapEntry16 mT rT.screenBase row col⟩ : Mode1.TilemapEntry).vflip = false)
    (htile : ∀ t k, t < 256 → k < 64 →
      mT.vramByte (rA.charBase + t * 64 + k) = mA.vramByte (rA.charBase + t * 64 + k))
    (hpal : ∀ i, i < 256 → mT.bgColor i = mA.bgColor i) :
    Mode2.affineColumn mA rA ⟨b, ((256 * n : Nat) : Int), ((256 * line : Nat) : Int)⟩ n
      = ⟨Mode1.textBgColumn mT rT line b n, ((256 * (n + 1) : Nat) : Int),
          ((256 * line : Nat) : Int)⟩ := by
  have hm := hmap (line / 8) (n / 8) (by omega) (by omega)
  have hbyte : mA.vramByte (rA.screenBase + line / 8 * 32 + n / 8) < 256 := by
    unfold GbaMem.vramByte; omega
  have hcT := textBgColorIdx_8bpp mT rT line n hl hn (by omega) hsbT h8 hw hh hsx hsy
    hm.2.1 hm.2.2 (by rw [hm.1]; omega)
  have hcA := affineColorIdx_eq mA rA n line hn hl htiles hsbA hcbA
  have hidx : Mode1.textBgColorIdx mT rT line n = Mode2.affineColorIdx mA rA (n : Int) (line : Int) := by
    rw [hcT, hcA, hm.1, hcb]
    have := htile (mA.vramByte (rA.screenBase + line / 8 * 32 + n / 8)) (line % 8 * 8 + n % 8)
      hbyte (by omega)
    rw [← Nat.add_assoc] at this
    exact this
  have hlt : Mode2.affineColorIdx mA rA (n : Int) (line : Int) < 256 := by
    rw [hcA]; unfold GbaMem.vramByte; omega
  have hrgb : Mode1.textBgRgb555 mT rT line n
      = mA.bgColor (Mode2.affineColorIdx mA rA (n : Int) (line : Int)) := by
    unfold Mode1.textBgRgb555
    simp only [h8, if_true, hidx]
    exact hpal _ hlt
  have s1 : ((256 * n : Nat) : Int) >>> (8 : Int) = (n : Int) := by
    have := Int.shiftRight_coe_nat (256 * n) 8
    have h2 : (256 * n) >>> 8 = n := by
      rw [Nat.shiftRight_eq_div_pow]; omega
    rw [h2] at this
    exact this
  have s2 : ((256 * line : Nat) : Int) >>> (8 : Int) = (line : Int) := by
    have := Int.shiftRight_coe_nat (256 * line) 8
    have h2 : (256 * line) >>> 8 = line := by
      rw [Nat.shiftRight_eq_div_pow]; omega
    rw [h2] at this
    exact this
  have t1 : toI32 (((256 * n : Nat) : Int) + rA.pa) = ((256 * (n + 1) : Nat) : Int) := by
    rw [hpa]; unfold toI32; omega
  have t2 : toI32 (((256 * line : Nat) : Int) + rA.pc) = ((256 * line : Nat) : Int) := by
    rw [hpc]; unfold toI32; omega
  unfold Mode2.affineColumn Mode1.textBgColumn
  simp only [s1, s2, t1, t2, affineSrc_inside rA n line hn hl hsize, hidx, hrgb, hpri]
  split <;> rfl

/-- The column loop of the identity affine BG, column by column. -/
theorem affineColumns_identity (mA mT : GbaMem) (rA : Mode2.AffineBgRegs)
    (rT : Mode1.TextBgRegs) (line : Nat) (bufs : LineBufs)
    (hstep : ∀ n b, n < 240 →
      Mode2.affineColumn mA rA ⟨b, ((256 * n : Nat) : Int), ((256 * line : Nat) : Int)⟩ n
        = ⟨Mode1.textBgColumn mT rT line b n, ((256 * (n + 1) : Nat) : Int),
            ((256 * line : Nat) : Int)⟩)
    (n : Nat) (hn : n ≤ 240) :
    (List.range n).foldl (Mode2.affineColumn mA rA)
        ⟨bufs, ((256 * 0 : Nat) : Int), ((256 * line : Nat) : Int)⟩
      = ⟨(List.range n).foldl (Mode1.textBgColumn mT rT line) bufs, ((256 * n : Nat) : Int),
          ((256 * line : Nat) : Int)⟩ := by
  induction n with
  | zero => rfl
  | succ n ih =>
    rw [List.range_succ, List.foldl_append, List.foldl_append, ih (by omega)]
    simp only [List.foldl_cons, List.foldl_nil]
    exact hstep n _ (by omega)

/-- C15: with pa = pd = 0x100, pb = pc = 0 and reference point (0,0), for
every scanline 0..159 `RenderAffineBgLine` on a 256x256 (32x32-tile) affine
BG returns the same colour and priority line buffers as `RenderTextBgLine` on
the equivalent text BG: 8 bpp, 32x32 single-screen-block map, zero scroll,
same character base and priority, whose map entry at each (row, col) carries
the affine map's tile index with no flip, over the same tile data and
palette. -/
theorem affine_identity_matches_text (mA mT : GbaMem) (bA bT line : Nat) (bufs : LineBufs)
    (hl : line < 160)
    (hsize : (Mode2.affineBgRegs mA bA).mapSize = 256)
    (hpa : (Mode2.affineBgRegs mA bA).pa = 0x100) (hpb : (Mode2.affineBgRegs mA bA).pb = 0)
    (hpc : (Mode2.affineBgRegs mA bA).pc = 0) (hpd : (Mode2.affineBgRegs mA bA).pd = 0x100)
    (hrx : (Mode2.affineBgRegs mA bA).refX = 0) (hry : (Mode2.affineBgRegs mA bA).refY = 0)
    (h8 : (Mode1.textBgRegs mT bT).bpp8 = true)
    (hw : (Mode1.textBgRegs mT bT).mapW = 32) (hh : (Mode1.textBgRegs mT bT).mapH = 32)
    (hsx : (Mode1.textBgRegs mT bT).scrollX = 0) (hsy : (Mode1.textBgRegs mT bT).scrollY = 0)
    (hcb : (Mode1.textBgRegs mT bT).charBase = (Mode2.affineBgRegs mA bA).charBase)
    (hpri : (Mode1.textBgRegs mT bT).priority = (Mode2.affineBgRegs mA bA).priority)
    (hmap : ∀ row, row < 32 → ∀ col, col < 32 →
      (⟨mapEntry16 mT (Mode1.textBgRegs mT bT).screenBase row col⟩ : Mode1.TilemapEntry).tileIndex
          = mA.vramByte ((Mode2.affineBgRegs mA bA).screenBase + row * 32 + col)
        ∧ (⟨mapEntry16 mT (Mode1.textBgRegs mT bT).screenBase row col⟩
            : Mode1.TilemapEntry).hflip = false
        ∧ (⟨mapEntry16 mT (Mode1.textBgRegs mT bT).screenBase row col⟩
            : Mode1.TilemapEntry).vflip = false)
    (htile : ∀ t k, t < 256 → k < 64 →
      mT.vramByte ((Mode2.affineBgRegs mA bA).charBase + t * 64 + k)
        = mA.vramByte ((Mode2.affineBgRegs mA bA).charBase + t * 64 + k))
    (hpal : ∀ i, i < 256 → mT.bgColor i = mA.bgColor i) :
    Mode2.RenderAffineBgLine mA bA line bufs = Mode1.RenderTextBgLine mT bT line bufs := by
  have hbA := affineBgRegs_bounds mA bA
  have hbT := textBgRegs_bounds mT bT
  have htiles : (Mode2.affineBgRegs mA bA).mapTiles = 32 := by
    have h1 : (Mode2.affineBgRegs mA bA).mapTiles = (Mode2.affineBgRegs mA bA).mapSize.tdiv 8 :=
      rfl
    rw [h1, hsize]
    decide
  have hx0 : toI32 ((Mode2.affineBgRegs mA bA).refX + (Mode2.affineBgRegs mA bA).pb * line)
      = ((256 * 0 : Nat) : Int) := by
    rw [hrx, hpb]; unfold toI32; omega
  have hy0 : toI32 ((Mode2.affineBgRegs mA bA).refY + (Mode2.affineBgRegs mA bA).pd * line)
      = ((256 * line : Nat) : Int) := by
    rw [hry, hpd]; unfold toI32; omega
  have hstep := fun n b (hn : n < 240) =>
    affineColumn_identity mA mT (Mode2.affineBgRegs mA bA) (Mode1.textBgRegs mT bT) line n b hl hn
      hsize htiles hpa hpc hbA.2 hbA.1 hbT.2 h8 hw hh hsx hsy hcb hpri
      (fun row col hr hc => hmap row hr col hc) htile hpal
  have hfold := affineColumns_identity mA mT (Mode2.affineBgRegs mA bA)
    (Mode1.textBgRegs mT bT) line bufs hstep 240 (le_refl _)
  unfold Mode2.RenderAffineBgLine Mode1.RenderTextBgLine Mode1.GBA_WIDTH
  simp only [hx0, hy0]
  rw [hfold]

/-- C15 on one memory holding the identity affine BG2 and the equivalent
text BG0: scanline 0 is the same from both renderers, and column 0 samples
colour index 5 in both. -/
theorem affine_identity_matches_text_witness :
    Mode2.RenderAffineBgLine affineIdImage 2 0 Mode1.bgClear
        = Mode1.RenderTextBgLine affineIdImage 0 0 Mode1.bgClear
    ∧ Mode2.affineColorIdx affineIdImage (Mode2.affineBgRegs affineIdImage 2) 0 0 = 5
    ∧ Mode1.textBgColorIdx affineIdImage (Mode1.textBgRegs affineIdImage 0) 0 0 = 5 :=
  ⟨affine_identity_matches_text affineIdImage affineIdImage 2 0 0 Mode1.bgClear (by decide)
    (by decide) (by decide) (by decide) (by decide) (by decide) (by decide) (by decide)
    (by decide) (by decide) (by decide) (by decide) (by decide) (by decide) (by decide)
    (by decide) (fun _ _ _ _ => rfl) (fun _ _ => rfl), by decide, by decide⟩

/-! ## Scenario D: one tile on the DMG background -/

/-- A DMG tile row with both bit planes `0xFF` has colour id 3 in every column. -/
theorem dmg_row_full (bit : Nat) (hb : bit ≤ 7) :
    ((((0xFF >>> bit) &&& 0x01) <<< 1) ||| ((0xFF >>> bit) &&& 0x01)) % 256 = 3 := by
  interval_cases bit <;> decide

/-- In the scenario, the tile fetch at a pixel of the first 8x8 cell reads
map cell (0,0), then the row of tile 1, and returns colour id 3. -/
theorem FetchTileColor_tile1 (layout : Mode7.Mode7Layout)
    (hmap : layout.vram 0x1800 % 256 = 1)
    (htile : ∀ k, 16 ≤ k → k < 32 → layout.vram k % 256 = 0xFF)
    (x y : Nat) (hx : x < 8) (hy : y < 8) :
    Mode7.FetchTileColor layout 0x9800 0x8000 false x y = 3 := by
  have hm : Mode7.VramRead layout 0x9800 = 1 := by
    unfold Mode7.VramRead
    rw [if_neg (by omega)]
    exact hmap
  have hlo : Mode7.VramRead layout (0x8010 + y * 2) = 0xFF := by
    unfold Mode7.VramRead
    rw [if_neg (by omega)]
    have e : 0x8010 + y * 2 - 0x8000 = 16 + y * 2 := by omega
    rw [e]
    exact htile _ (by omega) (by omega)
  have hhi : Mode7.VramRead layout (0x8010 + y * 2 + 1) = 0xFF := by
    unfold Mode7.VramRead
    rw [if_neg (by omega)]
    have e : 0x8010 + y * 2 + 1 - 0x8000 = 17 + y * 2 := by omega
    rw [e]
    exact htile _ (by omega) (by omega)
  unfold Mode7.FetchTileColor
  have a1 : (0x9800 + (y / 8 % 256 * 32 + x / 8 % 256) % 65536) % 65536 = 0x9800 := by omega
  simp only [a1, hm, Bool.false_eq_true, if_false]
  have a2 : ((((0x8000 : Nat) : Int) + ((1 : Nat) : Int) * 16) % 65536).toNat = 0x8010 := by
    decide
  have a3 : (0x8010 + y % 8 % 256 * 2) % 65536 = 0x8010 + y * 2 := by omega
  have a4 : (0x8010 + y * 2 + 1) % 65536 = 0x8010 + y * 2 + 1 := by omega
  rw [a2, a3, a4, hlo, hhi]
  exact dmg_row_full _ (by omega)

/-- C21: in the DMG frame render with LCDC = 0x91, SCX = SCY = 0, BGP = 0xE4,
tile 1 with all 64 pixels of colour 3 (its 16 bytes are `0xFF`) and tilemap
cell (0,0) pointing to tile 1, every output pixel (x, y) with `x` in 0..7 and
`y` in 0..7 is `0xFF0F380F`, whatever the rest of VRAM, OAM and the
framebuffer hold. -/
theorem Mode7_RenderFrame_tile1 (layout : Mode7.Mode7Layout) (ppu : PPUMemory)
    (fb : Nat → Nat) (hlcdc : layout.regs.lcdc = 0x91) (hscx : layout.regs.scx = 0)
    (hscy : layout.regs.scy = 0) (hbgp : layout.regs.bgp = 0xE4)
    (hmap : layout.vram 0x1800 % 256 = 1)
    (htile : ∀ k, 16 ≤ k → k < 32 → layout.vram k % 256 = 0xFF)
    (x y : Nat) (hx : x < 8) (hy : y < 8) :
    Mode7.RenderFrame layout ppu fb (y * 160 + x) = 0xFF0F380F := by
  have hon : ((layout.regs.lcdc % 256) &&& Mode7.LCDC_ENABLE) ≠ 0 := by rw [hlcdc]; decide
  have hobj : ¬ ((layout.regs.lcdc % 256) &&& Mode7.LCDC_OBJ_ENABLE) ≠ 0 := by
    rw [hlcdc]; decide
  have hbg : ((layout.regs.lcdc % 256) &&& Mode7.LCDC_BG_ENABLE) ≠ 0 := by rw [hlcdc]; decide
  have hmapb : ¬ ((layout.regs.lcdc % 256) &&& Mode7.LCDC_BG_TILE_MAP) ≠ 0 := by
    rw [hlcdc]; decide
  have hdat : ((layout.regs.lcdc % 256) &&& Mode7.LCDC_BG_WINDOW_TILE_DATA) ≠ 0 := by
    rw [hlcdc]; decide
  have hsig : (((layout.regs.lcdc % 256) &&& Mode7.LCDC_BG_WINDOW_TILE_DATA) == 0) = false := by
    rw [hlcdc]; decide
  have hwin : ¬ (((layout.regs.lcdc % 256) &&& Mode7.LCDC_WINDOW_ENABLE) ≠ 0
      ∧ layout.regs.wy % 256 ≤ y) := by
    rw [hlcdc]
    intro h
    exact h.1 (by decide)
  have e1 : (y * 160 + x) % 160 = x := by omega
  have e2 : (y * 160 + x) / 160 = y := by omega
  rw [Mode7_RenderFrame_on layout ppu fb hon, if_pos (by omega), e1, e2, if_neg hobj]
  have hscan : ∀ h a b, Mode7.spriteScan layout h x a b [] = b := fun _ _ _ => rfl
  rw [hscan]
  unfold Mode7.bgPixel
  simp only [if_pos hbg, if_neg hmapb, if_pos hdat, hsig, if_neg hwin, hscx, hscy, hbgp]
  have e3 : (x + 0 % 256) % 256 = x := by omega
  have e4 : (y + 0 % 256) % 256 = y := by omega
  rw [e3, e4, FetchTileColor_tile1 layout hmap htile x y hx hy]
  decide

/-- C21 on the DMG image `dmgImage`: pixel (7, 7) of the frame. -/
theorem Mode7_RenderFrame_tile1_witness :
    Mode7.RenderFrame dmgImage ⟨160, 7⟩ (fun _ => 0) (7 * 160 + 7) = 0xFF0F380F :=
  Mode7_RenderFrame_tile1 dmgImage ⟨160, 7⟩ (fun _ => 0) rfl rfl rfl rfl (by decide)
    (fun k h1 h2 => by
      show (if 16 ≤ k ∧ k < 32 then 0xFF else if k = 0x1800 then 1 else 0) % 256 = 0xFF
      rw [if_pos ⟨h1, h2⟩]) 7 7 (by decide) (by decide)

/-! ## Mode 0: per-line scroll -/

/-- The scanline body of `Mode1::RenderFrame` composites the line's layers. -/
theorem Mode1_renderLine_layers (m : GbaMem) (dispcnt : Nat) (obj1d : Bool) (fb : Nat → Nat)
    (line : Nat) :
    Mode1.renderLine m dispcnt obj1d fb line
      = (Mode1.lineLayers m dispcnt obj1d line).map
          (fun ly => Mode1.CompositeLineMode0 m line ly dispcnt fb) := by
  unfold Mode1.renderLine Mode1.lineLayers
  simp only [Option.map_map, Function.comp_def]

/-- The scanline body of `Mode2::RenderFrame` composites the line's layers. -/
theorem Mode2_renderLine_layers (m : GbaMem) (dispcnt : Nat) (obj1d : Bool) (fb : Nat → Nat)
    (line : Nat) :
    Mode2.renderLine m dispcnt obj1d fb line
      = (Mode2.lineLayers m dispcnt obj1d line).map
          (fun ly => Mode1.CompositeLineMode0 m line ly dispcnt fb) := by
  unfold Mode2.renderLine Mode2.lineLayers
  simp only [Option.map_map, Function.comp_def]

/-- A scanline loop whose body stores in row `line` words related to their
index by `Q` and keeps the other words: after `n` lines every word of the
first `n` rows is related to its index and the rest is as before. -/
theorem lineLoop_indexed (body : (Nat → Nat) → Nat → Option (Nat → Nat))
    (Q : Nat → Nat → Prop) (n : Nat)
    (hbody : ∀ fb fb1 line, line < n → body fb line = some fb1 →
      (∀ i, line * 240 ≤ i ∧ i < line * 240 + 240 → Q i (fb1 i))
        ∧ (∀ i, ¬ (line * 240 ≤ i ∧ i < line * 240 + 240) → fb1 i = fb i))
    (fb fb1 : Nat → Nat) (h : Mode1.lineLoop body n fb = some fb1) :
    (∀ i, i < n * 240 → Q i (fb1 i)) ∧ (∀ i, n * 240 ≤ i → fb1 i = fb i) := by
  unfold Mode1.lineLoop at h
  induction n generalizing fb1 with
  | zero =>
    simp only [List.range_zero, List.foldlM_nil, Option.pure_def, Option.some.injEq] at h
    rw [← h]
    exact ⟨fun i hi => absurd hi (by omega), fun _ _ => rfl⟩
  | succ n ih =>
    rw [List.range_succ, List.foldlM_append] at h
    cases hm : List.foldlM body fb (List.range n) with
    | none =>
      rw [hm] at h
      exact absurd h (by simp)
    | some fb2 =>
      rw [hm] at h
      simp only [List.foldlM_cons, List.foldlM_nil, Option.some_bind, Option.bind_eq_bind,
        Option.pure_def, Option.bind_some] at h
      obtain ⟨ih1, ih2⟩ := ih (fun fb fb1 line hl => hbody fb fb1 line (by omega)) fb2 hm
      obtain ⟨hb1, hb2⟩ := hbody fb2 fb1 n (by omega) h
      constructor
      · intro i hi
        by_cases hr : n * 240 ≤ i ∧ i < n * 240 + 240
        · exact hb1 i hr
        · rw [hb2 i hr]
          exact ih1 i (by omega)
      · intro i hi
        rw [hb2 i (by omega)]
        exact ih2 i (by omega)

/-- A frame loop over bodies that composite per-line layers: the stored
words are the composited pixels of their line, the words from index
`n * 240` on are kept, and the loop returns for any other start buffer too. -/
theorem lineLoop_layers (m : GbaMem) (dispcnt : Nat) (L : Nat → Option Mode1.Layers)
    (body : (Nat → Nat) → Nat → Option (Nat → Nat))
    (hbody : ∀ fb line, body fb line
      = (L line).map (fun ly => Mode1.CompositeLineMode0 m line ly dispcnt fb))
    (n : Nat) (fb fb2 fb1 : Nat → Nat) (h : Mode1.lineLoop body n fb = some fb1) :
    (∀ i, i < n * 240 →
        (L (i / 240)).map (fun ly => Mode1.compositePixel m ly dispcnt (i % 240)) = some (fb1 i))
      ∧ (∀ i, n * 240 ≤ i → fb1 i = fb i)
      ∧ ∃ fb3, Mode1.lineLoop body n fb2 = some fb3 := by
  have hpix := lineLoop_indexed body
    (fun i v => (L (i / 240)).map (fun ly => Mode1.compositePixel m ly dispcnt (i % 240))
      = some v) n
    (fun fb fb1 line _ hb => by
      rw [hbody] at hb
      cases hL : L line with
      | none => rw [hL] at hb; exact absurd hb (by simp)
      | some ly =>
        rw [hL] at hb
        simp only [Option.map_some', Option.some.injEq] at hb
        rw [← hb]
        constructor
        · intro i hi
          have e1 : i / 240 = line := by omega
          have e2 : i % 240 = i - line * 240 := by omega
          simp only [e1, hL, Option.map_some', e2, CompositeLineMode0_apply, if_pos hi]
        · intro i hi
          rw [CompositeLineMode0_apply, if_neg hi]) fb fb1 h
  refine ⟨hpix.1, hpix.2, ?_⟩
  apply lineLoop_total
  intro fb4 line hl
  have hq : (L (line * 240 / 240)).map
      (fun ly => Mode1.compositePixel m ly dispcnt (line * 240 % 240))
      = some (fb1 (line * 240)) := hpix.1 (line * 240) (by omega)
  have e1 : line * 240 / 240 = line := by omega
  rw [e1] at hq
  rw [hbody]
  cases hL : L line with
  | none => rw [hL] at hq; exact absurd hq (by simp)
  | some ly => exact ⟨_, rfl⟩

/-- The frame of `Mode1::RenderFrame` without forced blank. -/
theorem Mode1_RenderFrame_pixels (ppu ppu2 : PPUMemory) (m : GbaMem) (fb fb2 fb1 : Nat → Nat)
    (hnb : (Mode1.IoRead16 m Mode1.IO_DISPCNT &&& Mode1.DISP_FORCED_BLANK) = 0)
    (h : Mode1.RenderFrame ppu m fb = some fb1) :
    (∀ i, i < 240 * 160 → Mode1.framePixel m (i / 240) (i % 240) = some (fb1 i))
      ∧ (∀ i, 240 * 160 ≤ i → fb1 i = fb i)
      ∧ ∃ fb3, Mode1.RenderFrame ppu2 m fb2 = some fb3 := by
  unfold Mode1.RenderFrame at h ⊢
  simp only [hnb, ne_eq, not_true_eq_false, if_false] at h ⊢
  obtain ⟨h1, h2, h3⟩ := lineLoop_layers m _ _ _
    (fun fb line => Mode1_renderLine_layers m _ _ fb line) Mode1.GBA_HEIGHT fb fb2 fb1 h
  exact ⟨fun i hi => h1 i (by unfold Mode1.GBA_HEIGHT; omega),
    fun i hi => h2 i (by unfold Mode1.GBA_HEIGHT; omega), h3⟩

/-- The frame of `Mode2::RenderFrame` without forced blank. -/
theorem Mode2_RenderFrame_pixels (ppu ppu2 : PPUMemory) (m : GbaMem) (fb fb2 fb1 : Nat → Nat)
    (hnb : (Mode1.IoRead16 m Mode1.IO_DISPCNT &&& Mode1.DISP_FORCED_BLANK) = 0)
    (h : Mode2.RenderFrame ppu m fb = some fb1) :
    (∀ i, i < 240 * 160 → Mode2.framePixel m (i / 240) (i % 240) = some (fb1 i))
      ∧ (∀ i, 240 * 160 ≤ i → fb1 i = fb i)
      ∧ ∃ fb3, Mode2.RenderFrame ppu2 m fb2 = some fb3 := by
  unfold Mode2.RenderFrame at h ⊢
  simp only [hnb, ne_eq, not_true_eq_false, if_false] at h ⊢
  obtain ⟨h1, h2, h3⟩ := lineLoop_layers m _ _ _
    (fun fb line => Mode2_renderLine_layers m _ _ fb line) Mode1.GBA_HEIGHT fb fb2 fb1 h
  exact ⟨fun i hi => h1 i (by unfold Mode1.GBA_HEIGHT; omega),
    fun i hi => h2 i (by unfold Mode1.GBA_HEIGHT; omega), h3⟩

/-- C23: for modes 1 and 2 without forced blank, when `RenderFrame` returns it
has written every framebuffer index in 0..240*160-1: the word at index
`line * 240 + x` is the composited pixel of that scanline and column, a
function of the I/O registers, VRAM, palettes and OAM alone. A run from any
other framebuffer (and any `PPUMemory` value) returns too and agrees on all
these words, and every index from 38400 on keeps its previous word. -/
theorem RenderFrame_frame_effect (ppu ppu2 : PPUMemory) (m : GbaMem) (fb fb2 fb1 : Nat → Nat)
    (hnb : (Mode1.IoRead16 m Mode1.IO_DISPCNT &&& Mode1.DISP_FORCED_BLANK) = 0) :
    (Mode1.RenderFrame ppu m fb = some fb1 →
      (∀ line x, line < 160 → x < 240 →
          Mode1.framePixel m line x = some (fb1 (line * 240 + x)))
        ∧ (∀ i, 240 * 160 ≤ i → fb1 i = fb i)
        ∧ ∃ fb3, Mode1.RenderFrame ppu2 m fb2 = some fb3
            ∧ ∀ i, i < 240 * 160 → fb3 i = fb1 i)
    ∧ (Mode2.RenderFrame ppu m fb = some fb1 →
      (∀ line x, line < 160 → x < 240 →
          Mode2.framePixel m line x = some (fb1 (line * 240 + x)))
        ∧ (∀ i, 240 * 160 ≤ i → fb1 i = fb i)
        ∧ ∃ fb3, Mode2.RenderFrame ppu2 m fb2 = some fb3
            ∧ ∀ i, i < 240 * 160 → fb3 i = fb1 i) := by
  constructor
  · intro h
    obtain ⟨h1, h2, fb3, h3⟩ := Mode1_RenderFrame_pixels ppu ppu2 m fb fb2 fb1 hnb h
    obtain ⟨h4, _, _⟩ := Mode1_RenderFrame_pixels ppu2 ppu m fb2 fb fb3 hnb h3
    refine ⟨fun line x hl hx => ?_, h2, fb3, h3, fun i hi => ?_⟩
    · have := h1 (line * 240 + x) (by omega)
      have e1 : (line * 240 + x) / 240 = line := by omega
      have e2 : (line * 240 + x) % 240 = x := by omega
      rw [e1, e2] at this
      exact this
    · have a := h1 i hi
      rw [h4 i hi] at a
      exact Option.some.inj a
  · intro h
    obtain ⟨h1, h2, fb3, h3⟩ := Mode2_RenderFrame_pixels ppu ppu2 m fb fb2 fb1 hnb h
    obtain ⟨h4, _, _⟩ := Mode2_RenderFrame_pixels ppu2 ppu m fb2 fb fb3 hnb h3
    refine ⟨fun line x hl hx => ?_, h2, fb3, h3, fun i hi => ?_⟩
    · have := h1 (line * 240 + x) (by omega)
      have e1 : (line * 240 + x) / 240 = line := by omega
      have e2 : (line * 240 + x) % 240 = x := by omega
      rw [e1, e2] at this
      exact this
    · have a := h1 i hi
      rw [h4 i hi] at a
      exact Option.some.inj a

/-- Both GBA frame renders return when forced blank is off and OBJ is off or
every sprite has a shape of the size tables. -/
theorem GBA_RenderFrame_total (ppu : PPUMemory) (m : GbaMem) (fb : Nat → Nat)
    (hobj : (Mode1.IoRead16 m Mode1.IO_DISPCNT &&& Mode1.DISP_OBJ_ON) = 0
      ∨ ∀ i, i < 128 → (Mode1.readOam m i).shape ≤ 2) :
    (∃ fb1, Mode1.RenderFrame ppu m fb = some fb1)
      ∧ (∃ fb1, Mode2.RenderFrame ppu m fb = some fb1) := by
  constructor
  · unfold Mode1.RenderFrame
    simp only
    split
    · exact ⟨_, rfl⟩
    · refine lineLoop_total _ _ (fun fb line _ => ?_) fb
      obtain ⟨obj, ho⟩ := objLine_total m line
        ((Mode1.IoRead16 m Mode1.IO_DISPCNT &&& Mode1.DISP_OBJ_1D) != 0) _ hobj
      unfold Mode1.renderLine
      simp only [ho, Option.map_some']
      exact ⟨_, rfl⟩
  · unfold Mode2.RenderFrame
    simp only
    split
    · exact ⟨_, rfl⟩
    · refine lineLoop_total _ _ (fun fb line _ => ?_) fb
      obtain ⟨obj, ho⟩ := objLine_total m line
        ((Mode1.IoRead16 m Mode1.IO_DISPCNT &&& Mode1.DISP_OBJ_1D) != 0) _ hobj
      unfold Mode2.renderLine
      simp only [ho, Option.map_some']
      exact ⟨_, rfl⟩

/-- C23 on the single-tile image: the frames rendered over a black and over a
white framebuffer agree on the 240x160 output and keep word 38400. -/
theorem RenderFrame_frame_effect_witness :
    ∃ f1 f2, Mode1.RenderFrame ⟨240, 1⟩ tileImage (fun _ => 0) = some f1
      ∧ Mode1.RenderFrame ⟨240, 1⟩ tileImage (fun _ => 0xFFFFFFFF) = some f2
      ∧ (∀ i, i < 240 * 160 → f2 i = f1 i) ∧ f1 38400 = 0 ∧ f2 38400 = 0xFFFFFFFF := by
  obtain ⟨f1, h1⟩ := (GBA_RenderFrame_total ⟨240, 1⟩ tileImage (fun _ => 0)
    (Or.inl (by decide))).1
  obtain ⟨_, hout, f2, h2, hag⟩ := (RenderFrame_frame_effect ⟨240, 1⟩ ⟨240, 1⟩ tileImage
    (fun _ => 0) (fun _ => 0xFFFFFFFF) f1 (by decide)).1 h1
  obtain ⟨_, hout2, _⟩ := (RenderFrame_frame_effect ⟨240, 1⟩ ⟨240, 1⟩ tileImage
    (fun _ => 0xFFFFFFFF) (fun _ => 0) f2 (by decide)).1 h2
  exact ⟨f1, f2, h1, h2, hag, hout 38400 (by decide), hout2 38400 (by decide)⟩

/-! ## Mode 0: stores past the framebuffer -/

/-- A checked column loop whose last index is outside `frame_buffer` fails. -/
theorem foldlM_fbStore_overflow (f : Nat → Nat) (base n : Nat) (fb : Nat → Nat)
    (h0 : 0 < n) (h : FRAME_BUFFER_WORDS < base + n) :
    (List.range n).foldlM (fun fb x => Mode0.fbStore fb (base + x) (f x)) fb = none := by
  cases n with
  | zero => exact absurd h0 (by omega)
  | succ n =>
    rw [List.range_succ, List.foldlM_append]
    cases (List.range n).foldlM (fun fb x => Mode0.fbStore fb (base + x) (f x)) fb with
    | none => rfl
    | some fb2 =>
      simp only [List.foldlM_cons, List.foldlM_nil, Option.some_bind, Option.bind_eq_bind,
        Option.pure_def, Option.bind_some]
      unfold Mode0.fbStore
      rw [if_neg (by omega)]

/-- With a frame width above 1280 the last scanline of mode 0 stores outside
`frame_buffer[360 * 1280]`: the frame render has no defined result. -/
theorem Mode0_RenderFrame_overflow (layout : Mode0.Mode0Layout) (ppu : PPUMemory)
    (fb : Nat → Nat) (hw : 1280 < ppu.frame_width % 65536) :
    Mode0.RenderFrame layout ppu fb = none := by
  unfold Mode0.RenderFrame Mode1.lineLoop
  rw [show (360 : Nat) = 359 + 1 from rfl, List.range_succ, List.foldlM_append]
  cases (List.range 359).foldlM (Mode0.renderLine layout ppu) fb with
  | none => rfl
  | some fb2 =>
    simp only [List.foldlM_cons, List.foldlM_nil, Option.some_bind, Option.bind_eq_bind,
      Option.pure_def, Option.bind_some]
    unfold Mode0.renderLine Mode0.CompositeAndOam
    simp only
    rw [foldlM_fbStore_overflow _ _ _ _ (by omega) (by unfold FRAME_BUFFER_WORDS; omega)]

/-- C24 fails on the code: with `frame_width = 1281` the store of scanline
359, column 1280 has index 461159, outside the 360 x 1280 words of
`frame_buffer`, and the frame render has no defined result. No width above
1280 is safe; every width up to 1280 is. -/
theorem Mode0_store_outside_frame_buffer :
    FRAME_BUFFER_WORDS = 360 * 1280
    ∧ FRAME_BUFFER_WORDS ≤ 359 * 1281 + 1280
    ∧ Mode0.fbStore (fun _ => 0) (359 * 1281 + 1280) 0 = none
    ∧ Mode0.RenderFrame Mode0.zeroLayout ⟨1281, 0⟩ (fun _ => 0) = none
    ∧ (∀ (layout : Mode0.Mode0Layout) (ppu : PPUMemory) (fb : Nat → Nat),
        1280 < ppu.frame_width % 65536 → Mode0.RenderFrame layout ppu fb = none)
    ∧ (∀ (layout : Mode0.Mode0Layout) (ppu : PPUMemory) (fb : Nat → Nat),
        ppu.frame_width % 65536 ≤ 1280 → ∃ fb1, Mode0.RenderFrame layout ppu fb = some fb1) :=
  ⟨rfl, by decide, rfl,
    Mode0_RenderFrame_overflow Mode0.zeroLayout ⟨1281, 0⟩ (fun _ => 0) (by decide),
    fun layout ppu fb h => Mode0_RenderFrame_overflow layout ppu fb h,
    fun layout ppu fb h => ⟨_, Mode0_RenderFrame_eq layout ppu fb h⟩⟩

/-! ## Mode 2 and the state of BG3 -/

/-- The contributor sequence of a column reads the layer buffers at that
column only. -/
theorem contribsOf_congr_at (ly1 ly2 : Mode1.Layers) (dispcnt : Nat) (prio : Nat → Nat)
    (order : List Nat) (x : Nat) (hbg : ∀ bg, ly2.bgLayers bg x = ly1.bgLayers bg x)
    (hobj : ly2.objLayer x = ly1.objLayer x) (hpri : ly2.objPri x = ly1.objPri x) :
    Mode1.contribsOf ly2 dispcnt prio order x = Mode1.contribsOf ly1 dispcnt prio order x := by
  unfold Mode1.contribsOf Mode1.classContribs Mode1.objPart Mode1.bgSlot
  simp only [hbg, hobj, hpri]

/-- The word stored for a column depends on the layer buffers at that column
only. -/
theorem compositePixel_congr_at (m : GbaMem) (ly1 ly2 : Mode1.Layers) (dispcnt x : Nat)
    (hbg : ∀ bg, ly2.bgLayers bg x = ly1.bgLayers bg x)
    (hobj : ly2.objLayer x = ly1.objLayer x) (hpri : ly2.objPri x = ly1.objPri x) :
    Mode1.compositePixel m ly2 dispcnt x = Mode1.compositePixel m ly1 dispcnt x := by
  unfold Mode1.compositePixel
  rw [findTopBot_eq_pickTwo, findTopBot_eq_pickTwo]
  unfold Mode1.contribs
  rw [contribsOf_congr_at ly1 ly2 dispcnt _ _ x hbg hobj hpri]

/-- Pixel (0,0) of the mode 2 frame when DISPCNT = 0x0300: the composite of
the text lines of BG0 and BG1 over cleared BG2, BG3 and OBJ buffers. -/
theorem Mode2_framePixel_two_text (m : GbaMem) (c0 c1 : Nat)
    (hd : Mode1.IoRead16 m Mode1.IO_DISPCNT = 0x0300)
    (h0 : (Mode1.RenderTextBgLine m 0 0 Mode1.bgClear).color 0 = c0)
    (h1 : (Mode1.RenderTextBgLine m 1 0 Mode1.bgClear).color 0 = c1) :
    Mode2.framePixel m 0 0
      = some (Mode1.compositePixel m
          (Mode1.mkLayers ⟨fun _ => c0, fun _ => 0⟩ ⟨fun _ => c1, fun _ => 0⟩ Mode1.bgClear
            Mode1.bgClear Mode1.objClear) 0x0300 0) := by
  have d0 : (0x0300 &&& Mode1.DISP_BG0_ON) ≠ 0 := by decide
  have d1 : (0x0300 &&& Mode1.DISP_BG1_ON) ≠ 0 := by decide
  have d2 : ¬ (0x0300 &&& Mode1.DISP_BG2_ON) ≠ 0 := by decide
  have d4 : ¬ (0x0300 &&& Mode1.DISP_OBJ_ON) ≠ 0 := by decide
  unfold Mode2.framePixel Mode2.lineLayers
  rw [hd]
  simp only [if_pos d0, if_pos d1, if_neg d2, if_neg d4, Option.map_some']
  congr 1
  apply compositePixel_congr_at
  · intro bg
    match bg with
    | 0 => exact h0
    | 1 => exact h1
    | 2 => rfl
    | _ + 3 => rfl
  · rfl
  · rfl

/-- C25 fails on the code: two mode 2 inputs that differ only in the priority
field of BG3CNT render different frames. BG3's priority takes part in the
exchange sort of the BG order; with BG0, BG1 and BG2 all of priority 1, BG3
priority 0 moves BG0 behind BG1 (order BG3, BG1, BG2, BG0) while BG3 priority
3 leaves the order BG0, BG1, BG2, BG3, so pixel (0,0) shows BG1 (green) in
the first frame and BG0 (red) in the second. -/
theorem Mode2_bg3_priority_leak :
    bg3HighImage.gIoMem = Function.update bg3LowImage.gIoMem 0x0E 3
    ∧ bg3HighImage.gVram = bg3LowImage.gVram ∧ bg3HighImage.gBgPltt = bg3LowImage.gBgPltt
    ∧ bg3HighImage.gObjPltt = bg3LowImage.gObjPltt ∧ bg3HighImage.gOamMem = bg3LowImage.gOamMem
    ∧ Mode1.sortBgOrder (Mode1.bgPriority bg3LowImage) = [3, 1, 2, 0]
    ∧ Mode1.sortBgOrder (Mode1.bgPriority bg3HighImage) = [0, 1, 2, 3]
    ∧ ∃ f1 f2, Mode2.RenderFrame ⟨240, 2⟩ bg3LowImage (fun _ => 0) = some f1
        ∧ Mode2.RenderFrame ⟨240, 2⟩ bg3HighImage (fun _ => 0) = some f2
        ∧ f1 0 = 0xFF00F800 ∧ f2 0 = 0xFF0000F8 := by
  refine ⟨rfl, rfl, rfl, rfl, rfl, by decide, by decide, ?_⟩
  obtain ⟨f1, h1⟩ := (GBA_RenderFrame_total ⟨240, 2⟩ bg3LowImage (fun _ => 0)
    (Or.inl (by decide))).2
  obtain ⟨f2, h2⟩ := (GBA_RenderFrame_total ⟨240, 2⟩ bg3HighImage (fun _ => 0)
    (Or.inl (by decide))).2
  have p1 := (Mode2_RenderFrame_pixels ⟨240, 2⟩ ⟨240, 2⟩ bg3LowImage (fun _ => 0) (fun _ => 0)
    f1 (by decide) h1).1 0 (by decide)
  have p2 := (Mode2_RenderFrame_pixels ⟨240, 2⟩ ⟨240, 2⟩ bg3HighImage (fun _ => 0) (fun _ => 0)
    f2 (by decide) h2).1 0 (by decide)
  have q1 := Mode2_framePixel_two_text bg3LowImage 0xFF0000F8 0xFF00F800 (by decide)
    (by rw [RenderTextBgLine_color _ _ _ _ (by decide)]; decide)
    (by rw [RenderTextBgLine_color _ _ _ _ (by decide)]; decide)
  have q2 := Mode2_framePixel_two_text bg3HighImage 0xFF0000F8 0xFF00F800 (by decide)
    (by rw [RenderTextBgLine_color _ _ _ _ (by decide)]; decide)
    (by rw [RenderTextBgLine_color _ _ _ _ (by decide)]; decide)
  have e1 : (0 : Nat) / 240 = 0 := rfl
  have e2 : (0 : Nat) % 240 = 0 := rfl
  rw [e1, e2, q1] at p1
  rw [e1, e2, q2] at p2
  refine ⟨f1, f2, h1, h2, ?_, ?_⟩
  · rw [← Option.some.inj p1]
    decide
  · rw [← Option.some.inj p2]
    decide

/-! ## Little-endian register reads -/

/-- A byte OR-ed with a value shifted left by 8 is their sum. -/
theorem or_shl8 (a b : Nat) (ha : a < 256) : a ||| (b <<< 8) = a + 256 * b := by
  have h := Nat.mul_add_lt_is_or (show a < 2 ^ 8 from ha) b
  rw [Nat.shiftLeft_eq, Nat.lor_comm, Nat.mul_comm b, ← h]
  omega

/-- A 16-bit value OR-ed with a value shifted left by 16 is their sum. -/
theorem or_shl16 (a b : Nat) (ha : a < 65536) : a ||| (b <<< 16) = a + 65536 * b := by
  have h := Nat.mul_add_lt_is_or (show a < 2 ^ 16 from ha) b
  rw [Nat.shiftLeft_eq, Nat.lor_comm, Nat.mul_comm b, ← h]
  omega

/-- The 16-bit read as a sum of its two bytes. -/
theorem IoRead16_eq (m : GbaMem) (off : Nat) :
    Mode1.IoRead16 m off = m.ioByte off + 256 * m.ioByte (off + 1) := by
  have h0 : m.ioByte off < 256 := by unfold GbaMem.ioByte; omega
  have h1 : m.ioByte (off + 1) < 256 := by unfold GbaMem.ioByte; omega
  unfold Mode1.IoRead16
  rw [or_shl8 _ _ h0]
  omega

/-- The 32-bit read as a sum of four bytes, the upper two at offset
`(off + 2) mod 65536`. -/
theorem IoRead32_eq (m : GbaMem) (off : Nat) :
    Mode1.IoRead32 m off
      = m.ioByte off + 2 ^ 8 * m.ioByte (off + 1)
        + 2 ^ 16 * m.ioByte ((off + 2) % 65536)
        + 2 ^ 24 * m.ioByte ((off + 2) % 65536 + 1) := by
  have h0 : m.ioByte off < 256 := by unfold GbaMem.ioByte; omega
  have h1 : m.ioByte (off + 1) < 256 := by unfold GbaMem.ioByte; omega
  have h2 : m.ioByte ((off + 2) % 65536) < 256 := by unfold GbaMem.ioByte; omega
  have h3 : m.ioByte ((off + 2) % 65536 + 1) < 256 := by unfold GbaMem.ioByte; omega
  unfold Mode1.IoRead32
  rw [IoRead16_eq, IoRead16_eq, or_shl16 _ _ (by omega)]
  omega

/-- C26 (as stated) fails at the top of the 16-bit offset range: at
`off = 0xFFFE` the upper half of `IoRead32` is read at offset
`(off + 2) mod 65536 = 0`, not at `off + 2`. With `io[0] = 1` and every other
byte zero the read is `0x10000`, while the bytes at `off .. off + 3` are all
zero. -/
theorem IoRead32_offset_wrap_counterexample :
    Mode1.IoRead32 ioWrapImage 0xFFFE = 0x10000
    ∧ ioWrapImage.ioByte 0xFFFE + 2 ^ 8 * ioWrapImage.ioByte (0xFFFE + 1)
        + 2 ^ 16 * ioWrapImage.ioByte (0xFFFE + 2) + 2 ^ 24 * ioWrapImage.ioByte (0xFFFE + 3)
      = 0 := by
  decide

/-- C26 (amended): for every byte array and 16-bit offset,
`IoRead16(off) = io[off] + 256 * io[off + 1]`, and for every offset with
`off + 2 ≤ 0xFFFF`, `IoRead32(off) = io[off] + 2^8 * io[off + 1]
+ 2^16 * io[off + 2] + 2^24 * io[off + 3]`: the reads are assembled
little-endian from individual bytes. -/
theorem IoRead_little_endian (m : GbaMem) (off : Nat) (hoff : off < 65536) :
    Mode1.IoRead16 m off = m.ioByte off + 256 * m.ioByte (off + 1)
    ∧ (off + 2 < 65536 →
        Mode1.IoRead32 m off
          = m.ioByte off + 2 ^ 8 * m.ioByte (off + 1) + 2 ^ 16 * m.ioByte (off + 2)
            + 2 ^ 24 * m.ioByte (off + 3))
    ∧ m.ioByte off < 256 ∧ m.ioByte (off + 1) < 256 := by
  refine ⟨IoRead16_eq m off, fun h => ?_, ?_, ?_⟩
  · have e : (off + 2) % 65536 = off + 2 := by omega
    rw [IoRead32_eq, e]
  · unfold GbaMem.ioByte; omega
  · unfold GbaMem.ioByte; omega

/-- C26 (amended) on the affine image: the 32-bit read at 0x24 assembles
PC = 0x0000 and PD = 0x0100. -/
theorem IoRead_little_endian_witness :
    Mode1.IoRead16 affineIdImage 0x26 = 0x0100 ∧ Mode1.IoRead32 affineIdImage 0x24 = 0x01000000 := by
  have h := IoRead_little_endian affineIdImage 0x24 (by decide)
  have h2 := IoRead_little_endian affineIdImage 0x26 (by decide)
  refine ⟨?_, ?_⟩
  · rw [h2.1]; decide
  · rw [h.2.1 (by decide)]; decide

/-! ## The packing of a mode 0 tilemap entry -/

/-- A value below `2^k` OR-ed with a value shifted left by `k` is their sum. -/
theorem or_shl (a b k : Nat) (ha : a < 2 ^ k) : a ||| (b <<< k) = a + 2 ^ k * b := by
  have h := Nat.mul_add_lt_is_or ha b
  rw [Nat.shiftLeft_eq, Nat.lor_comm, Nat.mul_comm b, ← h]
  omega

/-- A flag bit of the tilemap entry as a shifted 0 or 1. -/
theorem flag_bit (b : Bool) (k : Nat) :
    (if b = true then 1 <<< k else 0) = (if b = true then 1 else 0) <<< k := by
  cases b
  · simp
  · simp

/-- The tilemap entry as the sum of its six fields. -/
theorem MakeTileEntry_eq_sum (tileIndex paletteIndex priority : Nat)
    (hflip vflip mosaicEnable : Bool) :
    Mode0.MakeTileEntry tileIndex paletteIndex priority hflip vflip mosaicEnable
      = tileIndex % 65536 + 2 ^ 16 * (paletteIndex % 256) + 2 ^ 24 * (priority % 8)
        + 2 ^ 27 * (if hflip = true then 1 else 0) + 2 ^ 28 * (if vflip = true then 1 else 0)
        + 2 ^ 29 * (if mosaicEnable = true then 1 else 0) := by
  have ht : (tileIndex % 65536) &&& 0xFFFF = tileIndex % 65536 := by
    rw [show (0xFFFF : Nat) = 2 ^ 16 - 1 from rfl, Nat.and_pow_two_sub_one_eq_mod]
    omega
  have hp : ((paletteIndex % 256) <<< 16) % 4294967296 = (paletteIndex % 256) <<< 16 := by
    rw [Nat.shiftLeft_eq]; omega
  have hr : (((priority % 256) &&& 0x7) <<< 24) % 4294967296 = (priority % 8) <<< 24 := by
    rw [and_7, Nat.shiftLeft_eq, Nat.shiftLeft_eq]; omega
  have bh : (if hflip = true then 1 else 0) ≤ 1 := by split <;> omega
  have bv : (if vflip = true then 1 else 0) ≤ 1 := by split <;> omega
  have bm : (if mosaicEnable = true then 1 else 0) ≤ 1 := by split <;> omega
  unfold Mode0.MakeTileEntry Mode0.TILE_HFLIP Mode0.TILE_VFLIP Mode0.TILE_MOSAIC
  rw [ht, hp, hr, flag_bit, flag_bit, flag_bit]
  generalize (if hflip = true then 1 else 0) = fh at bh
  generalize (if vflip = true then 1 else 0) = fv at bv
  generalize (if mosaicEnable = true then 1 else 0) = fm at bm
  rw [or_shl _ _ 16 (by omega), or_shl _ _ 24 (by omega), or_shl _ _ 27 (by omega),
    or_shl _ _ 28 (by omega), or_shl _ _ 29 (by omega)]
  omega

/-- C27: for every tileIndex, paletteIndex, priority, hflip, vflip and mosaic,
`MakeTileEntry` returns a 32-bit word with the tile index in bits 0..15, the
palette index in bits 16..23, `priority & 7` in bits 24..26, hflip in bit 27,
vflip in bit 28, mosaic in bit 29 and bits 30..31 zero: each field is
recovered by shifting and masking, and two packings of inputs with
`priority < 8` are equal only when all six fields are. -/
theorem MakeTileEntry_fields (tileIndex paletteIndex priority : Nat)
    (hflip vflip mosaicEnable : Bool) :
    Mode0.MakeTileEntry tileIndex paletteIndex priority hflip vflip mosaicEnable &&& 0xFFFF
        = tileIndex % 65536
    ∧ (Mode0.MakeTileEntry tileIndex paletteIndex priority hflip vflip mosaicEnable >>> 16)
        &&& 0xFF = paletteIndex % 256
    ∧ (Mode0.MakeTileEntry tileIndex paletteIndex priority hflip vflip mosaicEnable >>> 24)
        &&& 0x7 = priority % 8
    ∧ (Mode0.MakeTileEntry tileIndex paletteIndex priority hflip vflip mosaicEnable >>> 27)
        &&& 1 = (if hflip = true then 1 else 0)
    ∧ (Mode0.MakeTileEntry tileIndex paletteIndex priority hflip vflip mosaicEnable >>> 28)
        &&& 1 = (if vflip = true then 1 else 0)
    ∧ (Mode0.MakeTileEntry tileIndex paletteIndex priority hflip vflip mosaicEnable >>> 29)
        &&& 1 = (if mosaicEnable = true then 1 else 0)
    ∧ Mode0.MakeTileEntry tileIndex paletteIndex priority hflip vflip mosaicEnable >>> 30 = 0
    ∧ (∀ (t2 p2 r2 : Nat) (h2 v2 m2 : Bool),
        tileIndex < 65536 → paletteIndex < 256 → priority < 8 →
        t2 < 65536 → p2 < 256 → r2 < 8 →
        Mode0.MakeTileEntry tileIndex paletteIndex priority hflip vflip mosaicEnable
          = Mode0.MakeTileEntry t2 p2 r2 h2 v2 m2 →
        tileIndex = t2 ∧ paletteIndex = p2 ∧ priority = r2 ∧ hflip = h2 ∧ vflip = v2
          ∧ mosaicEnable = m2) := by
  have hs := MakeTileEntry_eq_sum tileIndex paletteIndex priority hflip vflip mosaicEnable
  have bh : (if hflip = true then 1 else 0) ≤ 1 := by split <;> omega
  have bv : (if vflip = true then 1 else 0) ≤ 1 := by split <;> omega
  have bm : (if mosaicEnable = true then 1 else 0) ≤ 1 := by split <;> omega
  have m16 : ∀ w : Nat, w &&& 0xFFFF = w % 65536 := fun w => by
    rw [show (0xFFFF : Nat) = 2 ^ 16 - 1 from rfl, Nat.and_pow_two_sub_one_eq_mod]
  have m1 : ∀ w : Nat, w &&& 1 = w % 2 := fun w => Nat.and_one_is_mod w
  have hbool : ∀ a b : Bool, (if a = true then 1 else 0) = (if b = true then (1 : Nat) else 0) →
      a = b := by
    intro a b h
    cases a <;> cases b <;> simp at h ⊢
  refine ⟨?_, ?_, ?_, ?_, ?_, ?_, ?_, ?_⟩
  · rw [m16, hs]; omega
  · rw [and_255, Nat.shiftRight_eq_div_pow, hs]; omega
  · rw [and_7, Nat.shiftRight_eq_div_pow, hs]; omega
  · rw [m1, Nat.shiftRight_eq_div_pow, hs]; omega
  · rw [m1, Nat.shiftRight_eq_div_pow, hs]; omega
  · rw [m1, Nat.shiftRight_eq_div_pow, hs]; omega
  · rw [Nat.shiftRight_eq_div_pow, hs]; omega
  · intro t2 p2 r2 h2 v2 m2 ht hp hr ht2 hp2 hr2 heq
    rw [hs, MakeTileEntry_eq_sum] at heq
    have ch2 : (if h2 = true then 1 else 0) ≤ 1 := by split <;> omega
    have cv2 : (if v2 = true then 1 else 0) ≤ 1 := by split <;> omega
    have cm2 : (if m2 = true then 1 else 0) ≤ 1 := by split <;> omega
    have eh : (if hflip = true then 1 else 0) = (if h2 = true then (1 : Nat) else 0) := by omega
    have ev : (if vflip = true then 1 else 0) = (if v2 = true then (1 : Nat) else 0) := by omega
    have em : (if mosaicEnable = true then 1 else 0) = (if m2 = true then (1 : Nat) else 0) := by
      omega
    exact ⟨by omega, by omega, by omega, hbool _ _ eh, hbool _ _ ev, hbool _ _ em⟩

/-- C27 on one entry: tile 0x1234, palette 0x56, priority 5, hflip and mosaic
set, vflip clear. -/
theorem MakeTileEntry_fields_witness :
    Mode0.MakeTileEntry 0x1234 0x56 5 true false true = 0x2D561234
    ∧ (Mode0.MakeTileEntry 0x1234 0x56 5 true false true >>> 24) &&& 0x7 = 5 := by
  have h := MakeTileEntry_fields 0x1234 0x56 5 true false true
  exact ⟨by decide, h.2.2.1⟩

/-! ## Screen-block addressing of text backgrounds -/

/-- The code's tilemap address is the specification's address of the tile
under the column. -/
theorem textBgMapAddr_spec (r : Mode1.TextBgRegs) (line x : Nat) (hsb : r.screenBase ≤ 0xF800)
    (hW : r.mapW = 32 ∨ r.mapW = 64) (hH : r.mapH = 32 ∨ r.mapH = 64) :
    Mode1.textBgMapAddr r line x
        = specMapAddr r.screenBase r.mapW ((x + r.scrollX) % (r.mapW * 8) / 8)
            ((line + r.scrollY) % (r.mapH * 8) / 8)
      ∧ (x + r.scrollX) % (r.mapW * 8) / 8 < r.mapW
      ∧ (line + r.scrollY) % (r.mapH * 8) / 8 < r.mapH := by
  have hY : (line + r.scrollY) % (r.mapH * 8) / 8 < r.mapH := by
    rcases hH with h | h <;> rw [h] <;> omega
  have hX : (x + r.scrollX) % (r.mapW * 8) / 8 < r.mapW := by
    rcases hW with h | h <;> rw [h] <;> omega
  refine ⟨?_, hX, hY⟩
  unfold Mode1.textBgMapAddr specMapAddr
  simp only
  generalize (line + r.scrollY) % (r.mapH * 8) / 8 = tY at hY
  generalize (x + r.scrollX) % (r.mapW * 8) / 8 = tX at hX
  have h3 : tX / 32 + tY / 32 * (r.mapW / 32) ≤ 3 := by
    rcases hW with h | h <;> rcases hH with h2 | h2 <;> rw [h] at hX ⊢ <;> rw [h2] at hY <;>
      omega
  generalize tX / 32 + tY / 32 * (r.mapW / 32) = sb at h3
  omega

/-- The specification's address map is injective on the tiles of a map and
fills exactly the `mapW * mapH` consecutive 16-bit entries from `screenBase`. -/
theorem specMapAddr_bijective (sb mapW mapH : Nat) (hW : mapW = 32 ∨ mapW = 64)
    (hH : mapH = 32 ∨ mapH = 64) :
    (∀ col row col2 row2, col < mapW → row < mapH → col2 < mapW → row2 < mapH →
        specMapAddr sb mapW col row = specMapAddr sb mapW col2 row2 → col = col2 ∧ row = row2)
      ∧ (∀ col row, col < mapW → row < mapH →
          ∃ k, k < mapW * mapH ∧ specMapAddr sb mapW col row = sb + 2 * k)
      ∧ (∀ k, k < mapW * mapH →
          ∃ col row, col < mapW ∧ row < mapH ∧ specMapAddr sb mapW col row = sb + 2 * k) := by
  unfold specMapAddr
  rcases hW with h | h <;> rcases hH with h2 | h2 <;> subst h <;> subst h2
  all_goals
    refine ⟨?_, ?_, ?_⟩
    · intro col row col2 row2 h1 h2 h3 h4 he
      constructor <;> omega
  · intro col row h1 h2
    exact ⟨1024 * (col / 32 + row / 32 * (32 / 32)) + (row % 32 * 32 + col % 32), by omega,
      by omega⟩
  · intro k hk
    exact ⟨k % 32, k / 32, by omega, by omega, by omega⟩
  · intro col row h1 h2
    exact ⟨1024 * (col / 32 + row / 32 * (32 / 32)) + (row % 32 * 32 + col % 32), by omega,
      by omega⟩
  · intro k hk
    exact ⟨k % 32, k / 1024 * 32 + k % 1024 / 32, by omega, by omega, by omega⟩
  · intro col row h1 h2
    exact ⟨1024 * (col / 32 + row / 32 * (64 / 32)) + (row % 32 * 32 + col % 32), by omega,
      by omega⟩
  · intro k hk
    exact ⟨k / 1024 * 32 + k % 32, k % 1024 / 32, by omega, by omega, by omega⟩
  · intro col row h1 h2
    exact ⟨1024 * (col / 32 + row / 32 * (64 / 32)) + (row % 32 * 32 + col % 32), by omega,
      by omega⟩
  · intro k hk
    exact ⟨k / 1024 % 2 * 32 + k % 32, k / 2048 * 32 + k % 1024 / 32, by omega, by omega,
      by omega⟩

/-- C28: in `RenderTextBgLine`, for every BGxCNT, scroll, scanline and column,
the tilemap entry is read at byte address `screenBase + 0x800 * (col / 32 +
(row / 32) * (mapW / 32)) + 2 * ((row mod 32) * 32 + (col mod 32))` with
`(col, row) = (((x + scrollX) mod (mapW * 8)) / 8, ((line + scrollY) mod
(mapH * 8)) / 8)`; this map from the tiles of `[0, mapW) x [0, mapH)` to
entry slots is injective and its image is exactly the `mapW * mapH`
consecutive 16-bit entries starting at `screenBase`. -/
theorem textBgMapAddr_screen_blocks (m : GbaMem) (bgIdx line x : Nat) :
    (Mode1.textBgEntry m (Mode1.textBgRegs m bgIdx) line x).raw
        = (m.vramByte (Mode1.textBgMapAddr (Mode1.textBgRegs m bgIdx) line x)
            ||| (m.vramByte (Mode1.textBgMapAddr (Mode1.textBgRegs m bgIdx) line x + 1) <<< 8))
          % 65536
    ∧ Mode1.textBgMapAddr (Mode1.textBgRegs m bgIdx) line x
        = specMapAddr (Mode1.textBgRegs m bgIdx).screenBase (Mode1.textBgRegs m bgIdx).mapW
            ((x + (Mode1.textBgRegs m bgIdx).scrollX) % ((Mode1.textBgRegs m bgIdx).mapW * 8) / 8)
            ((line + (Mode1.textBgRegs m bgIdx).scrollY)
              % ((Mode1.textBgRegs m bgIdx).mapH * 8) / 8)
    ∧ (x + (Mode1.textBgRegs m bgIdx).scrollX) % ((Mode1.textBgRegs m bgIdx).mapW * 8) / 8
        < (Mode1.textBgRegs m bgIdx).mapW
    ∧ (line + (Mode1.textBgRegs m bgIdx).scrollY) % ((Mode1.textBgRegs m bgIdx).mapH * 8) / 8
        < (Mode1.textBgRegs m bgIdx).mapH
    ∧ (∀ col row col2 row2, col < (Mode1.textBgRegs m bgIdx).mapW →
        row < (Mode1.textBgRegs m bgIdx).mapH → col2 < (Mode1.textBgRegs m bgIdx).mapW →
        row2 < (Mode1.textBgRegs m bgIdx).mapH →
        specMapAddr (Mode1.textBgRegs m bgIdx).screenBase (Mode1.textBgRegs m bgIdx).mapW col row
          = specMapAddr (Mode1.textBgRegs m bgIdx).screenBase (Mode1.textBgRegs m bgIdx).mapW
              col2 row2 →
        col = col2 ∧ row = row2)
    ∧ (∀ col row, col < (Mode1.textBgRegs m bgIdx).mapW →
        row < (Mode1.textBgRegs m bgIdx).mapH →
        ∃ k, k < (Mode1.textBgRegs m bgIdx).mapW * (Mode1.textBgRegs m bgIdx).mapH
          ∧ specMapAddr (Mode1.textBgRegs m bgIdx).screenBase (Mode1.textBgRegs m bgIdx).mapW
              col row = (Mode1.textBgRegs m bgIdx).screenBase + 2 * k)
    ∧ (∀ k, k < (Mode1.textBgRegs m bgIdx).mapW * (Mode1.textBgRegs m bgIdx).mapH →
        ∃ col row, col < (Mode1.textBgRegs m bgIdx).mapW
          ∧ row < (Mode1.textBgRegs m bgIdx).mapH
          ∧ specMapAddr (Mode1.textBgRegs m bgIdx).screenBase (Mode1.textBgRegs m bgIdx).mapW
              col row = (Mode1.textBgRegs m bgIdx).screenBase + 2 * k) := by
  have hmap := textBgRegs_map m bgIdx
  have hsb := (textBgRegs_bounds m bgIdx).2
  have h1 := textBgMapAddr_spec (Mode1.textBgRegs m bgIdx) line x hsb hmap.1 hmap.2
  have h2 := specMapAddr_bijective (Mode1.textBgRegs m bgIdx).screenBase
    (Mode1.textBgRegs m bgIdx).mapW (Mode1.textBgRegs m bgIdx).mapH hmap.1 hmap.2
  exact ⟨rfl, h1.1, h1.2.1, h1.2.2, h2.1, h2.2.1, h2.2.2⟩

/-- C28 on a 64x64-tile BG (BG0CNT = 0xC000, zero scroll): the tile under
column 300 of map row 300/8 lies in screen block 3 and the tile under screen
column 0 of scanline 0 in screen block 0. -/
theorem textBgMapAddr_screen_blocks_witness :
    specMapAddr 0 64 37 37 = 0x800 * 3 + 2 * (5 * 32 + 5)
    ∧ Mode1.textBgMapAddr
        (Mode1.textBgRegs (gbaImage [(0x09, 0xC0)] [] [] [] []) 0) 0 0 = specMapAddr 0 64 0 0 := by
  have h := textBgMapAddr_screen_blocks (gbaImage [(0x09, 0xC0)] [] [] [] []) 0 0 0
  refine ⟨by decide, ?_⟩
  rw [h.2.1]
  decide

/-! ## The sprite size tables and shape 3 -/

/-- Row 3 of the two 3x4 size tables does not exist. -/
theorem objTables_shape3 (sz : Nat) :
    Mode1.objWidths 3 sz = none ∧ Mode1.objHeights 3 sz = none :=
  ⟨rfl, rfl⟩

/-- A visible sprite with shape field 3 makes the sprite iteration read
outside the size tables. -/
theorem objSprite_shape3 (m : GbaMem) (line : Nat) (obj1d : Bool) (bufs : LineBufs) (i : Nat)
    (hvis : (Mode1.readOam m i).hidden = false) (hs : (Mode1.readOam m i).shape = 3) :
    Mode1.objSprite m line obj1d bufs i = none := by
  unfold Mode1.objSprite
  simp only [hvis, hs, Bool.false_eq_true, if_false, (objTables_shape3 _).1]

/-- The sprite loop has no defined result when one of its sprites is visible
with shape field 3. -/
theorem objLoop_shape3 (m : GbaMem) (line : Nat) (obj1d : Bool) (n i : Nat) (hi : i < n)
    (hvis : (Mode1.readOam m i).hidden = false) (hs : (Mode1.readOam m i).shape = 3)
    (bufs : LineBufs) : Mode1.objLoop m line obj1d n bufs = none := by
  induction n generalizing bufs with
  | zero => exact absurd hi (by omega)
  | succ n ih =>
    unfold Mode1.objLoop
    by_cases hn : i = n
    · rw [← hn, objSprite_shape3 m line obj1d bufs i hvis hs]
      rfl
    · cases Mode1.objSprite m line obj1d bufs n with
      | none => rfl
      | some b => exact ih (by omega) b

/-- A scanline loop whose body fails on scanline 0 fails. -/
theorem lineLoop_first_none (body : (Nat → Nat) → Nat → Option (Nat → Nat)) (n : Nat)
    (fb : Nat → Nat) (h : body fb 0 = none) : Mode1.lineLoop body (n + 1) fb = none := by
  unfold Mode1.lineLoop
  rw [List.range_succ_eq_map, List.foldlM_cons, h]
  rfl

/-- C29 fails on the code: `RenderObjLine` indexes `objWidths[shape][sz]` and
`objHeights[shape][sz]` with the raw 2-bit shape field; only hidden sprites
are skipped before the lookup. For a visible sprite with shape 3 (here sprite
0 with attr0 = 0xC000) the lookup is in row 3 of the 3-row tables, outside
them, so the sprite line and the frame have no defined result. -/
theorem objTables_shape3_out_of_bounds :
    (Mode1.readOam shape3Image 0).shape = 3
    ∧ (Mode1.readOam shape3Image 0).hidden = false
    ∧ Mode1.objWidths (Mode1.readOam shape3Image 0).shape (Mode1.readOam shape3Image 0).size
        = none
    ∧ Mode1.objHeights (Mode1.readOam shape3Image 0).shape (Mode1.readOam shape3Image 0).size
        = none
    ∧ Mode1.RenderObjLine shape3Image 0 false Mode1.objClear = none
    ∧ Mode1.RenderFrame ⟨240, 1⟩ shape3Image (fun _ => 0) = none
    ∧ (∀ (m : GbaMem) (line : Nat) (obj1d : Bool) (bufs : LineBufs) (i : Nat), i < 128 →
        (Mode1.readOam m i).hidden = false → (Mode1.readOam m i).shape = 3 →
        Mode1.RenderObjLine m line obj1d bufs = none) := by
  have hgen : ∀ (m : GbaMem) (line : Nat) (obj1d : Bool) (bufs : LineBufs) (i : Nat), i < 128 →
      (Mode1.readOam m i).hidden = false → (Mode1.readOam m i).shape = 3 →
      Mode1.RenderObjLine m line obj1d bufs = none :=
    fun m line obj1d bufs i hi hv hs => objLoop_shape3 m line obj1d 128 i hi hv hs bufs
  have hline : ∀ line obj1d, Mode1.RenderObjLine shape3Image line obj1d Mode1.objClear = none :=
    fun line obj1d => hgen shape3Image line obj1d _ 0 (by decide) (by decide) (by decide)
  refine ⟨by decide, by decide, by decide, by decide, hline 0 false, ?_, hgen⟩
  unfold Mode1.RenderFrame
  have hnb : ¬ (Mode1.IoRead16 shape3Image Mode1.IO_DISPCNT &&& Mode1.DISP_FORCED_BLANK) ≠ 0 := by
    decide
  simp only [if_neg hnb]
  apply lineLoop_first_none
  unfold Mode1.renderLine
  have hon : (Mode1.IoRead16 shape3Image Mode1.IO_DISPCNT &&& Mode1.DISP_OBJ_ON) ≠ 0 := by
    decide
  simp only [if_pos hon, hline, Option.map_none']

/-! ## The affine reference point -/

/-- Setting bits 28..31 of a 32-bit word keeps its low 28 bits. -/
theorem or_top4 (raw : Nat) (h : raw < 2 ^ 32) :
    raw ||| 0xF0000000 = raw % 2 ^ 28 + 0xF0000000 := by
  have hlo : raw % 2 ^ 28 < 2 ^ 28 := Nat.mod_lt _ (by norm_num)
  have hhi : raw / 2 ^ 28 < 16 := by omega
  have hsplit : raw = 2 ^ 28 * (raw / 2 ^ 28) + raw % 2 ^ 28 := (Nat.div_add_mod raw _).symm
  have h1 := Nat.mul_add_lt_is_or hlo (raw / 2 ^ 28)
  have h2 := Nat.mul_add_lt_is_or hlo 15
  have h3 : 2 ^ 28 * (raw / 2 ^ 28) ||| 0xF0000000 = 2 ^ 28 * 15 := by
    generalize raw / 2 ^ 28 = hi at hhi
    interval_cases hi <;> decide
  generalize raw % 2 ^ 28 = lo at *
  generalize raw / 2 ^ 28 = hi at *
  rw [hsplit, h1, Nat.lor_assoc, Nat.lor_comm lo, ← Nat.lor_assoc, h3, ← h2]
  omega

/-- The test `ref & 0x08000000` reads bit 27. -/
theorem bit27_test (raw : Nat) : (raw &&& 0x08000000) ≠ 0 ↔ raw / 2 ^ 27 % 2 = 1 := by
  rw [show (0x08000000 : Nat) = 2 ^ 27 from rfl, and_two_pow_ne_zero, Nat.testBit,
    Nat.shiftRight_eq_div_pow, Nat.one_and_eq_mod_two]
  simp

/-- The sign-extension step of the code is the 28-bit sign extension when
bit 27 is set, and keeps the whole 32-bit word when bit 27 is clear. -/
theorem refPoint_cases (raw : Nat) (h : raw < 2 ^ 32) :
    ((raw &&& 0x08000000) ≠ 0 → Mode2.refPoint raw = signExtend28 raw)
      ∧ ((raw &&& 0x08000000) = 0 → Mode2.refPoint raw = toI32 (raw : Int)) := by
  have hbit := bit27_test raw
  constructor
  · intro hb
    have hb2 := hbit.mp hb
    unfold Mode2.refPoint signExtend28
    rw [if_pos hb, or_top4 raw h]
    have hge : raw % 2 ^ 28 ≥ 2 ^ 27 := by omega
    rw [if_pos hge]
    unfold toI32
    omega
  · intro hb
    unfold Mode2.refPoint
    rw [if_neg (by rw [hb]; simp)]

/-- C30 fails on the code: the sign extension ORs `0xF0000000` into the word
only when bit 27 is set and never clears bits 28..31. For the register value
`0x10000000` (low 28 bits zero) the reference point is `2^28`, outside
`-2^27 .. 2^27 - 1`, while the 28-bit sign extension is 0, the value the code
gives for the register value 0, which has the same low 28 bits. Whenever
bit 27 is set, or bits 28..31 are clear, the code does give the 28-bit
sign extension. -/
theorem refPoint_keeps_high_bits :
    Mode2.refPoint 0x10000000 = 2 ^ 28
    ∧ signExtend28 0x10000000 = 0
    ∧ Mode2.refPoint 0 = 0
    ∧ (0x10000000 : Nat) % 2 ^ 28 = 0 % 2 ^ 28
    ∧ (Mode2.affineBgRegs refHighImage 2).refX = 2 ^ 28
    ∧ (∀ raw, raw < 2 ^ 32 → ((raw &&& 0x08000000) ≠ 0 ∨ raw < 2 ^ 28) →
        Mode2.refPoint raw = signExtend28 raw
          ∧ -(2 ^ 27) ≤ Mode2.refPoint raw ∧ Mode2.refPoint raw ≤ 2 ^ 27 - 1) := by
  refine ⟨by decide, by decide, by decide, by decide, by decide, ?_⟩
  intro raw h hor
  have hc := refPoint_cases raw h
  have hr : Mode2.refPoint raw = signExtend28 raw := by
    by_cases hb : (raw &&& 0x08000000) ≠ 0
    · exact hc.1 hb
    · have hb0 : (raw &&& 0x08000000) = 0 := by
        by_contra hne
        exact hb hne
      have hlt : raw < 2 ^ 28 := by
        rcases hor with h1 | h1
        · exact absurd h1 hb
        · exact h1
      have hbit : ¬ raw / 2 ^ 27 % 2 = 1 := fun hb2 => hb ((bit27_test raw).mpr hb2)
      rw [hc.2 hb0]
      unfold signExtend28 toI32
      have hm : raw % 2 ^ 28 = raw := Nat.mod_eq_of_lt hlt
      rw [hm, if_neg (by omega)]
      omega
  refine ⟨hr, ?_, ?_⟩
  · rw [hr]; unfold signExtend28; split <;> omega
  · rw [hr]; unfold signExtend28; split <;> omega

/-! ## The affine texture cursor -/

/-- The `int32_t` shift `v >> 8` is the floor division by 256. -/
theorem int_shr8 (t : Int) : t >>> (8 : Int) = t / 256 := by
  cases t with
  | ofNat n =>
    have h := Int.shiftRight_coe_nat n 8
    have h2 : n >>> 8 = n / 256 := by rw [Nat.shiftRight_eq_div_pow]
    rw [h2] at h
    rw [Int.ofNat_eq_coe]
    have h3 : ((n : Int)) >>> (8 : Int) = ((n / 256 : Nat) : Int) := h
    rw [h3]
    omega
  | negSucc n =>
    have h := Int.shiftRight_negSucc n 8
    have h2 : n >>> 8 = n / 256 := by rw [Nat.shiftRight_eq_div_pow]
    rw [h2] at h
    have h3 : (Int.negSucc n) >>> (8 : Int) = Int.negSucc (n / 256) := h
    rw [h3, Int.negSucc_eq, Int.negSucc_eq]
    omega

/-- A value converted to `int16_t` lies in the 16-bit signed range. -/
theorem toI16_range (v : Nat) : -32768 ≤ toI16 v ∧ toI16 v ≤ 32767 := by
  unfold toI16
  split <;> constructor <;> omega

/-- The cursor update of one column of the affine loop. -/
theorem affineColumn_cursor (m : GbaMem) (r : Mode2.AffineBgRegs) (st : Mode2.AffineState)
    (x : Nat) :
    (Mode2.affineColumn m r st x).texX = toI32 (st.texX + r.pa)
      ∧ (Mode2.affineColumn m r st x).texY = toI32 (st.texY + r.pc) := by
  unfold Mode2.affineColumn
  simp only
  split
  · exact ⟨rfl, rfl⟩
  · split <;> exact ⟨rfl, rfl⟩

/-- The product of a 16-bit signed parameter and a count of at most 240
stays far inside the `int32_t` range. -/
theorem param_mul_range (p : Int) (n : Nat) (hp1 : -32768 ≤ p) (hp2 : p ≤ 32767)
    (hn : n ≤ 240) : -7864320 ≤ p * n ∧ p * n ≤ 7864320 := by
  have hn0 : (0 : Int) ≤ n := Int.ofNat_nonneg n
  have hn1 : (n : Int) ≤ 240 := by omega
  constructor <;> nlinarith

/-- The cursor after `n` columns when no addition leaves the `int32_t` range. -/
theorem affine_cursor_after (m : GbaMem) (r : Mode2.AffineBgRegs) (bufs : LineBufs)
    (X0 Y0 : Int) (hpa : -32768 ≤ r.pa ∧ r.pa ≤ 32767) (hpc : -32768 ≤ r.pc ∧ r.pc ≤ 32767)
    (hX : -2000000000 ≤ X0 ∧ X0 ≤ 2000000000) (hY : -2000000000 ≤ Y0 ∧ Y0 ≤ 2000000000)
    (n : Nat) (hn : n ≤ 240) :
    ((List.range n).foldl (Mode2.affineColumn m r) ⟨bufs, X0, Y0⟩).texX = X0 + r.pa * n
      ∧ ((List.range n).foldl (Mode2.affineColumn m r) ⟨bufs, X0, Y0⟩).texY = Y0 + r.pc * n := by
  induction n with
  | zero => simp
  | succ n ih =>
    obtain ⟨ih1, ih2⟩ := ih (by omega)
    rw [List.range_succ, List.foldl_append]
    simp only [List.foldl_cons, List.foldl_nil]
    have hc := affineColumn_cursor m r
      ((List.range n).foldl (Mode2.affineColumn m r) ⟨bufs, X0, Y0⟩) n
    rw [hc.1, hc.2, ih1, ih2]
    have ba := param_mul_range r.pa n hpa.1 hpa.2 (by omega)
    have bc := param_mul_range r.pc n hpc.1 hpc.2 (by omega)
    have ea : r.pa * ((n + 1 : Nat) : Int) = r.pa * n + r.pa := by push_cast; ring
    have ec : r.pc * ((n + 1 : Nat) : Int) = r.pc * n + r.pc := by push_cast; ring
    rw [ea, ec]
    generalize r.pa * (n : Int) = pan at *
    generalize r.pc * (n : Int) = pcn at *
    unfold toI32
    constructor <;> omega

/-- A register word with bits 28..31 clear gives its 28-bit two's-complement
value, which lies in `-2^27 .. 2^27 - 1`. -/
theorem refPoint_low (raw : Nat) (h : raw < 2 ^ 28) :
    Mode2.refPoint raw = signExtend28 raw
      ∧ -(2 ^ 27) ≤ Mode2.refPoint raw ∧ Mode2.refPoint raw ≤ 2 ^ 27 - 1 := by
  have hc := refPoint_cases raw (by omega)
  have hr : Mode2.refPoint raw = signExtend28 raw := by
    by_cases hb : (raw &&& 0x08000000) ≠ 0
    · exact hc.1 hb
    · have hb0 : (raw &&& 0x08000000) = 0 := by
        by_contra hne
        exact hb hne
      have hbit : ¬ raw / 2 ^ 27 % 2 = 1 := fun hb2 => hb ((bit27_test raw).mpr hb2)
      rw [hc.2 hb0]
      unfold signExtend28 toI32
      have hm : raw % 2 ^ 28 = raw := Nat.mod_eq_of_lt h
      rw [hm, if_neg (by omega)]
      omega
  refine ⟨hr, ?_, ?_⟩
  · rw [hr]; unfold signExtend28; split <;> omega
  · rw [hr]; unfold signExtend28; split <;> omega

/-- A value inside the `int32_t` range is unchanged by the conversion. -/
theorem toI32_id (v : Int) (h1 : -2147483648 ≤ v) (h2 : v ≤ 2147483647) : toI32 v = v := by
  unfold toI32
  omega

/-- The start of the cursor: a 28-bit reference point plus a line product. -/
theorem cursor_start_range (a p : Int) (h1 : -(2 ^ 27) ≤ a) (h2 : a ≤ 2 ^ 27 - 1)
    (h3 : -7864320 ≤ p) (h4 : p ≤ 7864320) : -142082048 ≤ a + p ∧ a + p ≤ 142082047 := by
  constructor <;> omega

/-- One more increment of a cursor that started in `cursor_start_range`. -/
theorem cursor_step_range (s q d : Int) (h1 : -142082048 ≤ s) (h2 : s ≤ 142082047)
    (h3 : -7864320 ≤ q) (h4 : q ≤ 7864320) (h5 : -32768 ≤ d) (h6 : d ≤ 32767) :
    -(2 ^ 31) ≤ s + q + d ∧ s + q + d ≤ 2 ^ 31 - 1 := by
  constructor <;> omega

/-- The buffers after one column are the plot of the source pixel sampled at
the cursor: the pair handed to the wrap-or-clip step and to the fetch is
`(texX >> 8, texY >> 8)`. -/
theorem affineColumn_bufs (m : GbaMem) (r : Mode2.AffineBgRegs) (st : Mode2.AffineState)
    (x : Nat) :
    (Mode2.affineColumn m r st x).bufs
      = Mode2.affinePlot m r st.bufs x (st.texX >>> (8 : Int)) (st.texY >>> (8 : Int)) := by
  unfold Mode2.affineColumn Mode2.affinePlot
  simp only []
  cases Mode2.affineSrc r (st.texX >>> (8 : Int)) (st.texY >>> (8 : Int)) with
  | none => rfl
  | some p =>
    obtain ⟨sX, sY⟩ := p
    simp only []
    split <;> rfl

/-- A plot leaves every column other than its own as it was. -/
theorem affinePlot_other (m : GbaMem) (r : Mode2.AffineBgRegs) (bufs : LineBufs) (x : Nat)
    (sX sY : Int) (y : Nat) (h : y ≠ x) :
    (Mode2.affinePlot m r bufs x sX sY).cell y = bufs.cell y := by
  unfold Mode2.affinePlot LineBufs.cell
  cases Mode2.affineSrc r sX sY with
  | none => rfl
  | some p =>
    obtain ⟨a, b⟩ := p
    simp only []
    split
    · rfl
    · simp only [Function.update_noteq h]

/-- The cell a plot leaves in its own column depends on the incoming buffers
only through that cell. -/
theorem affinePlot_same (m : GbaMem) (r : Mode2.AffineBgRegs) (b1 b2 : LineBufs) (x : Nat)
    (sX sY : Int) (h : b1.cell x = b2.cell x) :
    (Mode2.affinePlot m r b1 x sX sY).cell x = (Mode2.affinePlot m r b2 x sX sY).cell x := by
  unfold Mode2.affinePlot
  cases Mode2.affineSrc r sX sY with
  | none => exact h
  | some p =>
    obtain ⟨a, b⟩ := p
    simp only []
    split
    · exact h
    · unfold LineBufs.cell
      simp only [Function.update_same]

/-- A loop of plots, one per column, cell by cell. -/
theorem affinePlots_cell (m : GbaMem) (r : Mode2.AffineBgRegs) (cx cy : Nat → Int) (n : Nat)
    (bufs : LineBufs) (x : Nat) :
    ((List.range n).foldl (fun b k => Mode2.affinePlot m r b k (cx k) (cy k)) bufs).cell x
      = if x < n then (Mode2.affinePlot m r bufs x (cx x) (cy x)).cell x else bufs.cell x := by
  induction n with
  | zero => rfl
  | succ n ih =>
    rw [List.range_succ, List.foldl_append]
    simp only [List.foldl_cons, List.foldl_nil]
    by_cases hx : x = n
    · subst hx
      rw [if_pos (Nat.lt_succ_self x)]
      apply affinePlot_same
      rw [ih, if_neg (Nat.lt_irrefl x)]
    · rw [affinePlot_other m r _ n _ _ x hx, ih]
      by_cases hlt : x < n
      · rw [if_pos hlt, if_pos (by omega)]
      · rw [if_neg hlt, if_neg (by omega)]

/-- The column loop of the affine line is the loop of plots at the floor
quotients of the exact cursor, when no addition leaves the `int32_t` range. -/
theorem affine_line_plots (m : GbaMem) (r : Mode2.AffineBgRegs) (bufs : LineBufs)
    (X0 Y0 : Int) (hpa : -32768 ≤ r.pa ∧ r.pa ≤ 32767) (hpc : -32768 ≤ r.pc ∧ r.pc ≤ 32767)
    (hX : -2000000000 ≤ X0 ∧ X0 ≤ 2000000000) (hY : -2000000000 ≤ Y0 ∧ Y0 ≤ 2000000000)
    (n : Nat) (hn : n ≤ 240) :
    ((List.range n).foldl (Mode2.affineColumn m r) ⟨bufs, X0, Y0⟩).bufs
      = (List.range n).foldl
          (fun b k => Mode2.affinePlot m r b k ((X0 + r.pa * k) / 256) ((Y0 + r.pc * k) / 256))
          bufs := by
  induction n with
  | zero => rfl
  | succ n ih =>
    have hcur := affine_cursor_after m r bufs X0 Y0 hpa hpc hX hY n (Nat.le_of_succ_le hn)
    rw [List.range_succ, List.foldl_append, List.foldl_append]
    simp only [List.foldl_cons, List.foldl_nil]
    rw [affineColumn_bufs, hcur.1, hcur.2, int_shr8, int_shr8, ih (Nat.le_of_succ_le hn)]

/-- C31: in `RenderAffineBgLine`, for reference-point registers whose bits
28..31 are zero, every scanline 0..159 and column `x` in 0..239, the loop
state before column `x` holds the exact cursor `refX + pb * line + pa * x`,
`refY + pd * line + pc * x`, with `refX`, `refY` the sign-extended reference
point, and the source pixel sampled in that iteration is the pair of floor
quotients by 256: the buffers after the iteration are the plot of that pair
(wrap or clip, tile and pixel fetch, palette lookup, store), column `x` of
the rendered line holds what the plot of that pair leaves there, and the
whole line is the loop of these plots. No `int32_t` operation overflows: the
products `pb * line`, `pd * line`, the initial sums and every cursor
increment stay within `-2^31 .. 2^31 - 1`. -/
theorem affine_cursor_exact (m : GbaMem) (bgIdx line : Nat) (bufs : LineBufs)
    (hl : line < 160)
    (hrx : Mode1.IoRead32 m ((if bgIdx = 2 then 0x20 else 0x30) + 8) < 2 ^ 28)
    (hry : Mode1.IoRead32 m ((if bgIdx = 2 then 0x20 else 0x30) + 12) < 2 ^ 28) :
    (Mode2.affineBgRegs m bgIdx).refX
        = signExtend28 (Mode1.IoRead32 m ((if bgIdx = 2 then 0x20 else 0x30) + 8))
    ∧ (Mode2.affineBgRegs m bgIdx).refY
        = signExtend28 (Mode1.IoRead32 m ((if bgIdx = 2 then 0x20 else 0x30) + 12))
    ∧ (-(2 ^ 31) ≤ (Mode2.affineBgRegs m bgIdx).pb * line
        ∧ (Mode2.affineBgRegs m bgIdx).pb * line ≤ 2 ^ 31 - 1)
    ∧ (-(2 ^ 31) ≤ (Mode2.affineBgRegs m bgIdx).pd * line
        ∧ (Mode2.affineBgRegs m bgIdx).pd * line ≤ 2 ^ 31 - 1)
    ∧ (-(2 ^ 31) ≤ (Mode2.affineBgRegs m bgIdx).refX + (Mode2.affineBgRegs m bgIdx).pb * line
        ∧ (Mode2.affineBgRegs m bgIdx).refX + (Mode2.affineBgRegs m bgIdx).pb * line
            ≤ 2 ^ 31 - 1)
    ∧ (-(2 ^ 31) ≤ (Mode2.affineBgRegs m bgIdx).refY + (Mode2.affineBgRegs m bgIdx).pd * line
        ∧ (Mode2.affineBgRegs m bgIdx).refY + (Mode2.affineBgRegs m bgIdx).pd * line
            ≤ 2 ^ 31 - 1)
    ∧ ∀ x, x < 240 →
        ((List.range x).foldl (Mode2.affineColumn m (Mode2.affineBgRegs m bgIdx))
            ⟨bufs,
              toI32 ((Mode2.affineBgRegs m bgIdx).refX + (Mode2.affineBgRegs m bgIdx).pb * line),
              toI32 ((Mode2.affineBgRegs m bgIdx).refY
                + (Mode2.affineBgRegs m bgIdx).pd * line)⟩).texX
          = (Mode2.affineBgRegs m bgIdx).refX + (Mode2.affineBgRegs m bgIdx).pb * line
              + (Mode2.affineBgRegs m bgIdx).pa * x
        ∧ ((List.range x).foldl (Mode2.affineColumn m (Mode2.affineBgRegs m bgIdx))
            ⟨bufs,
              toI32 ((Mode2.affineBgRegs m bgIdx).refX + (Mode2.affineBgRegs m bgIdx).pb * line),
              toI32 ((Mode2.affineBgRegs m bgIdx).refY
                + (Mode2.affineBgRegs m bgIdx).pd * line)⟩).texY
          = (Mode2.affineBgRegs m bgIdx).refY + (Mode2.affineBgRegs m bgIdx).pd * line
              + (Mode2.affineBgRegs m bgIdx).pc * x
        ∧ ((Mode2.affineBgRegs m bgIdx).refX + (Mode2.affineBgRegs m bgIdx).pb * line
              + (Mode2.affineBgRegs m bgIdx).pa * x) >>> (8 : Int)
          = ((Mode2.affineBgRegs m bgIdx).refX + (Mode2.affineBgRegs m bgIdx).pb * line
              + (Mode2.affineBgRegs m bgIdx).pa * x) / 256
        ∧ ((Mode2.affineBgRegs m bgIdx).refY + (Mode2.affineBgRegs m bgIdx).pd * line
              + (Mode2.affineBgRegs m bgIdx).pc * x) >>> (8 : Int)
          = ((Mode2.affineBgRegs m bgIdx).refY + (Mode2.affineBgRegs m bgIdx).pd * line
              + (Mode2.affineBgRegs m bgIdx).pc * x) / 256
        ∧ (-(2 ^ 31) ≤ (Mode2.affineBgRegs m bgIdx).refX
              + (Mode2.affineBgRegs m bgIdx).pb * line
              + (Mode2.affineBgRegs m bgIdx).pa * x + (Mode2.affineBgRegs m bgIdx).pa
            ∧ (Mode2.affineBgRegs m bgIdx).refX + (Mode2.affineBgRegs m bgIdx).pb * line
              + (Mode2.affineBgRegs m bgIdx).pa * x + (Mode2.affineBgRegs m bgIdx).pa
                ≤ 2 ^ 31 - 1)
        ∧ (-(2 ^ 31) ≤ (Mode2.affineBgRegs m bgIdx).refY
              + (Mode2.affineBgRegs m bgIdx).pd * line
              + (Mode2.affineBgRegs m bgIdx).pc * x + (Mode2.affineBgRegs m bgIdx).pc
            ∧ (Mode2.affineBgRegs m bgIdx).refY + (Mode2.affineBgRegs m bgIdx).pd * line
              + (Mode2.affineBgRegs m bgIdx).pc * x + (Mode2.affineBgRegs m bgIdx).pc
                ≤ 2 ^ 31 - 1)
        ∧ (Mode2.affineColumn m (Mode2.affineBgRegs m bgIdx)
            ((List.range x).foldl (Mode2.affineColumn m (Mode2.affineBgRegs m bgIdx))
              ⟨bufs,
                toI32 ((Mode2.affineBgRegs m bgIdx).refX
                  + (Mode2.affineBgRegs m bgIdx).pb * line),
                toI32 ((Mode2.affineBgRegs m bgIdx).refY
                  + (Mode2.affineBgRegs m bgIdx).pd * line)⟩) x).bufs
          = Mode2.affinePlot m (Mode2.affineBgRegs m bgIdx)
              ((List.range x).foldl (Mode2.affineColumn m (Mode2.affineBgRegs m bgIdx))
                ⟨bufs,
                  toI32 ((Mode2.affineBgRegs m bgIdx).refX
                    + (Mode2.affineBgRegs m bgIdx).pb * line),
                  toI32 ((Mode2.affineBgRegs m bgIdx).refY
                    + (Mode2.affineBgRegs m bgIdx).pd * line)⟩).bufs x
              (((Mode2.affineBgRegs m bgIdx).refX + (Mode2.affineBgRegs m bgIdx).pb * line
                + (Mode2.affineBgRegs m bgIdx).pa * x) / 256)
              (((Mode2.affineBgRegs m bgIdx).refY + (Mode2.affineBgRegs m bgIdx).pd * line
                + (Mode2.affineBgRegs m bgIdx).pc * x) / 256)
        ∧ (Mode2.RenderAffineBgLine m bgIdx line bufs).cell x
          = (Mode2.affinePlot m (Mode2.affineBgRegs m bgIdx) bufs x
              (((Mode2.affineBgRegs m bgIdx).refX + (Mode2.affineBgRegs m bgIdx).pb * line
                + (Mode2.affineBgRegs m bgIdx).pa * x) / 256)
              (((Mode2.affineBgRegs m bgIdx).refY + (Mode2.affineBgRegs m bgIdx).pd * line
                + (Mode2.affineBgRegs m bgIdx).pc * x) / 256)).cell x
        ∧ Mode2.RenderAffineBgLine m bgIdx line bufs
          = (List.range 240).foldl
              (fun b k => Mode2.affinePlot m (Mode2.affineBgRegs m bgIdx) b k
                (((Mode2.affineBgRegs m bgIdx).refX + (Mode2.affineBgRegs m bgIdx).pb * line
                  + (Mode2.affineBgRegs m bgIdx).pa * k) / 256)
                (((Mode2.affineBgRegs m bgIdx).refY + (Mode2.affineBgRegs m bgIdx).pd * line
                  + (Mode2.affineBgRegs m bgIdx).pc * k) / 256))
              bufs := by
  have hline : Mode2.RenderAffineBgLine m bgIdx line bufs
      = ((List.range 240).foldl (Mode2.affineColumn m (Mode2.affineBgRegs m bgIdx))
          ⟨bufs,
            toI32 ((Mode2.affineBgRegs m bgIdx).refX + (Mode2.affineBgRegs m bgIdx).pb * line),
            toI32 ((Mode2.affineBgRegs m bgIdx).refY
              + (Mode2.affineBgRegs m bgIdx).pd * line)⟩).bufs := rfl
  rw [hline]
  have hX := refPoint_low _ hrx
  have hY := refPoint_low _ hry
  have eX : (Mode2.affineBgRegs m bgIdx).refX
      = Mode2.refPoint (Mode1.IoRead32 m ((if bgIdx = 2 then 0x20 else 0x30) + 8)) := rfl
  have eY : (Mode2.affineBgRegs m bgIdx).refY
      = Mode2.refPoint (Mode1.IoRead32 m ((if bgIdx = 2 then 0x20 else 0x30) + 12)) := rfl
  have hpa : -32768 ≤ (Mode2.affineBgRegs m bgIdx).pa ∧ (Mode2.affineBgRegs m bgIdx).pa ≤ 32767 :=
    toI16_range _
  have hpb : -32768 ≤ (Mode2.affineBgRegs m bgIdx).pb ∧ (Mode2.affineBgRegs m bgIdx).pb ≤ 32767 :=
    toI16_range _
  have hpc : -32768 ≤ (Mode2.affineBgRegs m bgIdx).pc ∧ (Mode2.affineBgRegs m bgIdx).pc ≤ 32767 :=
    toI16_range _
  have hpd : -32768 ≤ (Mode2.affineBgRegs m bgIdx).pd ∧ (Mode2.affineBgRegs m bgIdx).pd ≤ 32767 :=
    toI16_range _
  have bb := param_mul_range _ line hpb.1 hpb.2 (by omega)
  have bd := param_mul_range _ line hpd.1 hpd.2 (by omega)
  rw [← eX] at hX
  rw [← eY] at hY
  generalize (Mode2.affineBgRegs m bgIdx) = r at *
  obtain ⟨hX1, hXlo, hXhi⟩ := hX
  obtain ⟨hY1, hYlo, hYhi⟩ := hY
  refine ⟨hX1, hY1, ?_⟩
  clear hX1 hY1 eX eY hrx hry
  have cX := cursor_start_range r.refX (r.pb * line) hXlo hXhi bb.1 bb.2
  have cY := cursor_start_range r.refY (r.pd * line) hYlo hYhi bd.1 bd.2
  refine ⟨⟨by omega, by omega⟩, ⟨by omega, by omega⟩, ⟨by omega, by omega⟩,
    ⟨by omega, by omega⟩, ?_⟩
  intro x hx
  have ba := param_mul_range r.pa x hpa.1 hpa.2 (by omega)
  have bc := param_mul_range r.pc x hpc.1 hpc.2 (by omega)
  have hcur := affine_cursor_after m r bufs (r.refX + r.pb * line) (r.refY + r.pd * line)
    hpa hpc ⟨by omega, by omega⟩ ⟨by omega, by omega⟩ x (by omega)
  have iX := cursor_step_range (r.refX + r.pb * line) (r.pa * x) r.pa cX.1 cX.2 ba.1 ba.2
    hpa.1 hpa.2
  have iY := cursor_step_range (r.refY + r.pd * line) (r.pc * x) r.pc cY.1 cY.2 bc.1 bc.2
    hpc.1 hpc.2
  rw [toI32_id _ (by omega) (by omega), toI32_id _ (by omega) (by omega)]
  have hfull := affine_line_plots m r bufs (r.refX + r.pb * line) (r.refY + r.pd * line)
    hpa hpc ⟨by omega, by omega⟩ ⟨by omega, by omega⟩ 240 (le_refl 240)
  refine ⟨hcur.1, hcur.2, int_shr8 _, int_shr8 _, iX, iY, ?_, ?_, hfull⟩
  · rw [affineColumn_bufs, hcur.1, hcur.2, int_shr8, int_shr8]
  · rw [hfull, affinePlots_cell m r
      (fun k => (r.refX + r.pb * line + r.pa * k) / 256)
      (fun k => (r.refY + r.pd * line + r.pc * k) / 256) 240 bufs x, if_pos hx]

/-- C31 on the identity affine image: before column 3 of scanline 5 the cursor
is (3 * 256, 5 * 256), and column 3 of the rendered line holds what the plot
of source pixel (3, 5) leaves there. -/
theorem affine_cursor_exact_witness :
    ((List.range 3).foldl (Mode2.affineColumn affineIdImage (Mode2.affineBgRegs affineIdImage 2))
        ⟨Mode1.bgClear,
          toI32 ((Mode2.affineBgRegs affineIdImage 2).refX
            + (Mode2.affineBgRegs affineIdImage 2).pb * (5 : Nat)),
          toI32 ((Mode2.affineBgRegs affineIdImage 2).refY
            + (Mode2.affineBgRegs affineIdImage 2).pd * (5 : Nat))⟩).texX = 768
    ∧ ((List.range 3).foldl
        (Mode2.affineColumn affineIdImage (Mode2.affineBgRegs affineIdImage 2))
        ⟨Mode1.bgClear,
          toI32 ((Mode2.affineBgRegs affineIdImage 2).refX
            + (Mode2.affineBgRegs affineIdImage 2).pb * (5 : Nat)),
          toI32 ((Mode2.affineBgRegs affineIdImage 2).refY
            + (Mode2.affineBgRegs affineIdImage 2).pd * (5 : Nat))⟩).texY = 1280
    ∧ (Mode2.RenderAffineBgLine affineIdImage 2 5 Mode1.bgClear).cell 3
        = (Mode2.affinePlot affineIdImage (Mode2.affineBgRegs affineIdImage 2) Mode1.bgClear 3
            3 5).cell 3 := by
  have h := (affine_cursor_exact affineIdImage 2 5 Mode1.bgClear (by decide) (by decide)
    (by decide)).2.2.2.2.2.2 3 (by decide)
  have e1 : ((Mode2.affineBgRegs affineIdImage 2).refX
      + (Mode2.affineBgRegs affineIdImage 2).pb * ((5 : Nat) : Int)
      + (Mode2.affineBgRegs affineIdImage 2).pa * ((3 : Nat) : Int)) / 256 = 3 := by decide
  have e2 : ((Mode2.affineBgRegs affineIdImage 2).refY
      + (Mode2.affineBgRegs affineIdImage 2).pd * ((5 : Nat) : Int)
      + (Mode2.affineBgRegs affineIdImage 2).pc * ((3 : Nat) : Int)) / 256 = 5 := by decide
  refine ⟨?_, ?_, ?_⟩
  · rw [h.1]; decide
  · rw [h.2.1]; decide
  · rw [h.2.2.2.2.2.2.2.1, e1, e2]

/-! ## Wrapping of source coordinates -/

/-- The truncating remainder by a positive divisor is above minus the
divisor. -/
theorem tmod_gt_neg (v size : Int) (hs : 0 < size) : -size < v.tmod size := by
  cases v with
  | ofNat n =>
    have := Int.tmod_nonneg size (Int.ofNat_nonneg n)
    rw [Int.ofNat_eq_coe]
    omega
  | negSucc n =>
    obtain ⟨s, rfl⟩ := Int.eq_ofNat_of_zero_le (le_of_lt hs)
    have h : (Int.negSucc n).tmod (s : Int) = -(((n + 1) % s : Nat) : Int) := rfl
    have hlt : (n + 1) % s < s := Nat.mod_lt _ (by omega)
    rw [h]
    omega

/-- The truncating remainder is congruent to the dividend. -/
theorem tmod_emod (v size : Int) : (v.tmod size) % size = v % size := by
  have h := Int.tmod_add_tdiv v size
  have h2 : v % size = (v.tmod size + size * v.tdiv size) % size := by rw [h]
  rw [h2, Int.add_mul_emod_self_left]

/-- `Wrap` returns the non-negative remainder. -/
theorem Wrap_eq_emod (v size : Int) (hs : 0 < size) : Mode0.Wrap v size = v % size := by
  have hlo := tmod_gt_neg v size hs
  have hhi := Int.tmod_lt_of_pos v hs
  have hc := tmod_emod v size
  unfold Mode0.Wrap
  simp only
  split
  · rw [← hc, ← Int.add_emod_self, Int.emod_eq_of_lt (by omega) (by omega)]
  · rw [← hc, Int.emod_eq_of_lt (by omega) hhi]

/-- The reduction `((v % size) + size) % size` of the affine renderer returns
the non-negative remainder. -/
theorem wrap2_eq_emod (v size : Int) (hs : 0 < size) :
    ((v.tmod size) + size).tmod size = v % size := by
  have hlo := tmod_gt_neg v size hs
  have hc := tmod_emod v size
  rw [Int.tmod_eq_emod (by omega) (by omega), Int.add_emod_self, hc]

/-- The non-negative remainder is the only value in `[0, size)` congruent to
`v` modulo `size`. -/
theorem emod_unique (v size r : Int) (h0 : 0 ≤ r) (h1 : r < size)
    (hd : size ∣ v - r) : r = v % size := by
  have h : (v - r) % size = 0 := Int.emod_eq_zero_of_dvd hd
  have h2 := Int.emod_eq_emod_iff_emod_sub_eq_zero.mpr h
  rw [h2, Int.emod_eq_of_lt h0 h1]

/-- The affine map sizes are positive. -/
theorem affSizes_pos (f : Nat) : 0 < Mode2.affSizes f := by
  unfold Mode2.affSizes
  split <;> decide

/-- C32: for every 32-bit signed `v` and every positive `size`, the two wrap
reductions used for source coordinates, `Mode0::Wrap(v, size)` and Mode2's
`((v % size) + size) % size`, return the unique `r` with `0 ≤ r < size` and
`r` congruent to `v` modulo `size`, for negative `v` too, and the intermediate
sum stays between 1 and `2 * size - 1`. In the affine column loop, with the
wrap flag both coordinates are reduced this way; without it a column whose
source coordinate is outside `[0, mapSize)` is skipped and the line buffers
stay as they were. -/
theorem wrap_reduction (v size : Int) (m : GbaMem) (r : Mode2.AffineBgRegs)
    (st : Mode2.AffineState) (x : Nat)
    (hv : -(2 ^ 31) ≤ v ∧ v ≤ 2 ^ 31 - 1) (hs : 0 < size) :
    Mode0.Wrap v size = v % size
    ∧ ((v.tmod size) + size).tmod size = v % size
    ∧ (0 < (v.tmod size) + size ∧ (v.tmod size) + size < 2 * size)
    ∧ (0 ≤ v % size ∧ v % size < size ∧ size ∣ v - v % size)
    ∧ (∀ q, 0 ≤ q → q < size → size ∣ v - q → q = v % size)
    ∧ (r.wrap = true → 0 < r.mapSize →
        Mode2.affineSrc r (st.texX >>> (8 : Int)) (st.texY >>> (8 : Int))
          = some ((st.texX >>> (8 : Int)) % r.mapSize, (st.texY >>> (8 : Int)) % r.mapSize))
    ∧ (r.wrap = false →
        (st.texX >>> (8 : Int) < 0 ∨ st.texX >>> (8 : Int) ≥ r.mapSize
          ∨ st.texY >>> (8 : Int) < 0 ∨ st.texY >>> (8 : Int) ≥ r.mapSize) →
        Mode2.affineSrc r (st.texX >>> (8 : Int)) (st.texY >>> (8 : Int)) = none
          ∧ (Mode2.affineColumn m r st x).bufs = st.bufs)
    ∧ (r.wrap = false →
        ¬ (st.texX >>> (8 : Int) < 0 ∨ st.texX >>> (8 : Int) ≥ r.mapSize
          ∨ st.texY >>> (8 : Int) < 0 ∨ st.texY >>> (8 : Int) ≥ r.mapSize) →
        Mode2.affineSrc r (st.texX >>> (8 : Int)) (st.texY >>> (8 : Int))
          = some (st.texX >>> (8 : Int), st.texY >>> (8 : Int))) := by
  have hlo := tmod_gt_neg v size hs
  have hhi := Int.tmod_lt_of_pos v hs
  have _hv := hv
  refine ⟨Wrap_eq_emod v size hs, wrap2_eq_emod v size hs, ⟨by omega, by omega⟩,
    ⟨Int.emod_nonneg v (by omega), Int.emod_lt_of_pos v hs, ?_⟩,
    fun q h0 h1 hd => emod_unique v size q h0 h1 hd, ?_, ?_, ?_⟩
  · exact ⟨v / size, by have := Int.emod_add_ediv v size; omega⟩
  · intro hw hm
    unfold Mode2.affineSrc
    rw [if_pos hw, wrap2_eq_emod _ _ hm, wrap2_eq_emod _ _ hm]
  · intro hw hout
    have hn : Mode2.affineSrc r (st.texX >>> (8 : Int)) (st.texY >>> (8 : Int)) = none := by
      unfold Mode2.affineSrc
      rw [if_neg (by rw [hw]; simp), if_pos hout]
    refine ⟨hn, ?_⟩
    unfold Mode2.affineColumn
    simp only [hn]
  · intro hw hin
    unfold Mode2.affineSrc
    rw [if_neg (by rw [hw]; simp), if_neg hin]

/-- C32 at `v = -1`, `size = 256`: both reductions give 255. -/
theorem wrap_reduction_witness :
    Mode0.Wrap (-1) 256 = 255 ∧ (((-1 : Int).tmod 256) + 256).tmod 256 = 255 := by
  have h := wrap_reduction (-1) 256 affineIdImage (Mode2.affineBgRegs affineIdImage 2)
    ⟨Mode1.bgClear, 0, 0⟩ 0 (by decide) (by decide)
  exact ⟨by rw [h.1]; decide, by rw [h.2.1]; decide⟩

/-! ## The sprite line outside the bounding rectangles -/

/-- One column iteration leaves every cell other than its own screen column
as it was. -/
theorem objColumn_frame (m : GbaMem) (c : Mode1.ObjCtx) (line : Int) (obj1d : Bool)
    (bufs : LineBufs) (sx x : Nat) (h : ¬ (c.objX + (sx : Int) = (x : Int) ∧ x < 240)) :
    (Mode1.objColumn m c line obj1d bufs sx).cell x = bufs.cell x := by
  unfold Mode1.objColumn LineBufs.cell Mode1.GBA_WIDTH
  by_cases hr : c.objX + (sx : Int) < 0 ∨ c.objX + (sx : Int) ≥ ((240 : Nat) : Int)
  · simp only [hr, if_true]
  · simp only [hr, if_false]
    have hX : (c.objX + (sx : Int)).toNat ≠ x := by omega
    cases Mode1.objTexCoord c line sx with
    | none => rfl
    | some t =>
      obtain ⟨tx, ty⟩ := t
      simp only []
      split_ifs
      · rfl
      · rfl
      · simp only [Function.update_noteq (Ne.symm hX)]

/-- The column loop over `n` bounding-box columns leaves the cells outside
`[objX, objX + n)` and the cells off the screen as they were. -/
theorem objColumns_frame (m : GbaMem) (c : Mode1.ObjCtx) (line : Int) (obj1d : Bool)
    (n : Nat) (bufs : LineBufs) (x : Nat)
    (h : ¬ (c.objX ≤ (x : Int) ∧ (x : Int) < c.objX + (n : Int) ∧ x < 240)) :
    ((List.range n).foldl (Mode1.objColumn m c line obj1d) bufs).cell x = bufs.cell x := by
  induction n with
  | zero => rfl
  | succ n ih =>
    rw [List.range_succ, List.foldl_append]
    simp only [List.foldl_cons, List.foldl_nil]
    rw [objColumn_frame m c line obj1d _ n x (by push_cast at h; omega)]
    exact ih (by push_cast at h; omega)

/-- The set-up of a sprite folds the position and doubles the bounds as the
specification describes. -/
theorem objCtx_geometry (m : GbaMem) (line : Int) (oa : Mode1.OAMAttr) (w h : Int) :
    (Mode1.objCtx m line oa w h).objY = Mode1.specObjY oa
    ∧ (Mode1.objCtx m line oa w h).objX = Mode1.specObjX oa
    ∧ (Mode1.objCtx m line oa w h).boundsW
        = (if oa.affine && oa.doubleSize then 2 else 1) * w
    ∧ (Mode1.objCtx m line oa w h).boundsH
        = (if oa.affine && oa.doubleSize then 2 else 1) * h := by
  unfold Mode1.objCtx Mode1.specObjY Mode1.specObjX
  refine ⟨rfl, rfl, ?_, ?_⟩
  · simp only []
    split <;> omega
  · simp only []
    split <;> omega

/-- One sprite iteration leaves the cells it does not cover as they were. -/
theorem objSprite_frame (m : GbaMem) (line : Nat) (obj1d : Bool) (bufs b : LineBufs) (i : Nat)
    (h : Mode1.objSprite m line obj1d bufs i = some b) (x : Nat)
    (hc : Mode1.objCovers m line i x = false) : b.cell x = bufs.cell x := by
  unfold Mode1.objSprite at h
  unfold Mode1.objCovers at hc
  simp only [] at h hc
  by_cases hhid : (Mode1.readOam m i).hidden = true
  · rw [if_pos hhid] at h
    injection h with h
    rw [h]
  · rw [if_neg hhid] at h
    cases hw : Mode1.objWidths (Mode1.readOam m i).shape (Mode1.readOam m i).size with
    | none => rw [hw] at h; exact Option.noConfusion h
    | some w =>
      cases hh : Mode1.objHeights (Mode1.readOam m i).shape (Mode1.readOam m i).size with
      | none => rw [hw, hh] at h; exact Option.noConfusion h
      | some ht =>
        rw [hw, hh] at h hc
        simp only [] at h hc
        obtain ⟨gy, gx, gw, gh⟩ := objCtx_geometry m line (Mode1.readOam m i) w ht
        split at h
        · injection h with h
          rw [h]
        · rename_i hl
          injection h with h
          rw [← h]
          apply objColumns_frame
          have hb := objCtx_boundsW_nonneg m line (Mode1.readOam m i) w ht
          rw [Int.toNat_of_nonneg hb]
          rw [gy, gh] at hl
          rw [gx, gw]
          intro hcov
          have hhid2 : (Mode1.readOam m i).hidden = false := by
            cases hv : (Mode1.readOam m i).hidden
            · rfl
            · exact absurd hv hhid
          rw [hhid2] at hc
          simp only [Bool.not_false, Bool.true_and, Bool.and_eq_false_iff, decide_eq_false_iff_not]
            at hc
          push_neg at hl
          rcases hc with (hc | hc) | hc
          · exact hc ⟨hl.1, hl.2⟩
          · exact hc ⟨hcov.1, hcov.2.1⟩
          · exact hc hcov.2.2

/-- The sprite loop leaves the cells that none of its sprites covers as they
were. -/
theorem objLoop_frame (m : GbaMem) (line : Nat) (obj1d : Bool) (n : Nat) (x : Nat)
    (hc : ∀ i, i < n → Mode1.objCovers m line i x = false) (bufs b : LineBufs)
    (h : Mode1.objLoop m line obj1d n bufs = some b) : b.cell x = bufs.cell x := by
  induction n generalizing bufs with
  | zero =>
    unfold Mode1.objLoop at h
    injection h with h
    rw [h]
  | succ n ih =>
    unfold Mode1.objLoop at h
    cases h1 : Mode1.objSprite m line obj1d bufs n with
    | none => rw [h1] at h; exact Option.noConfusion h
    | some b1 =>
      rw [h1] at h
      rw [ih (fun i hi => hc i (by omega)) b1 h]
      exact objSprite_frame m line obj1d bufs b1 n h1 x (hc n (by omega))

/-- A hidden sprite covers nothing. -/
theorem objCovers_hidden (m : GbaMem) (line i x : Nat)
    (h : (Mode1.readOam m i).hidden = true) : Mode1.objCovers m line i x = false := by
  unfold Mode1.objCovers
  simp only [h]
  split
  · simp
  · rfl

/-- C33: `RenderObjLine` changes the sprite line buffers only inside sprite
bounding rectangles. When it returns buffers `b`, a column `x` whose colour or
priority differs from the incoming buffers is covered by some sprite `i < 128`:
the sprite is not hidden, `objY ≤ line < objY + boundsH`,
`objX ≤ x < objX + boundsW` and `x < 240`; every column covered by no sprite
keeps its colour and priority. Here `objY` is the raw `y` (0..255) minus 256
from 160 on, `objX` the raw `x` (0..511) minus 512 from 240 on, and the bounds
are the sprite size, doubled when affine and double-size, which is what the
set-up of the sprite computes. The call returns buffers whenever every sprite
has a shape in 0..2. -/
theorem RenderObjLine_bounding_rectangles (m : GbaMem) (line : Nat) (obj1d : Bool)
    (bufs : LineBufs) :
    (∀ b, Mode1.RenderObjLine m line obj1d bufs = some b → ∀ x,
        ((b.color x ≠ bufs.color x ∨ b.pri x ≠ bufs.pri x) →
          ∃ i, i < 128 ∧ Mode1.objCovers m line i x = true)
        ∧ ((∀ i, i < 128 → Mode1.objCovers m line i x = false) →
            b.color x = bufs.color x ∧ b.pri x = bufs.pri x))
    ∧ ((∀ i, i < 128 → (Mode1.readOam m i).shape ≤ 2) →
        ∃ b, Mode1.RenderObjLine m line obj1d bufs = some b)
    ∧ (∀ i, (0 ≤ (Mode1.readOam m i).yPos ∧ (Mode1.readOam m i).yPos ≤ 255)
        ∧ (0 ≤ (Mode1.readOam m i).xPos ∧ (Mode1.readOam m i).xPos ≤ 511)
        ∧ (-96 ≤ Mode1.specObjY (Mode1.readOam m i) ∧ Mode1.specObjY (Mode1.readOam m i) < 160)
        ∧ (-272 ≤ Mode1.specObjX (Mode1.readOam m i)
            ∧ Mode1.specObjX (Mode1.readOam m i) < 240))
    ∧ (∀ (oa : Mode1.OAMAttr) (w h : Int),
        (Mode1.objCtx m line oa w h).objY = Mode1.specObjY oa
        ∧ (Mode1.objCtx m line oa w h).objX = Mode1.specObjX oa
        ∧ (Mode1.objCtx m line oa w h).boundsW = (if oa.affine && oa.doubleSize then 2 else 1) * w
        ∧ (Mode1.objCtx m line oa w h).boundsH
            = (if oa.affine && oa.doubleSize then 2 else 1) * h) := by
  have keep : ∀ b, Mode1.RenderObjLine m line obj1d bufs = some b → ∀ x,
      (∀ i, i < 128 → Mode1.objCovers m line i x = false) →
        b.color x = bufs.color x ∧ b.pri x = bufs.pri x := by
    intro b hb x hc
    have h := objLoop_frame m line obj1d 128 x hc bufs b hb
    unfold LineBufs.cell at h
    injection h with h1 h2
    exact ⟨h1, h2⟩
  refine ⟨fun b hb x => ⟨fun hne => ?_, keep b hb x⟩, fun hs => ?_, fun i => ?_,
    fun oa w h => objCtx_geometry m line oa w h⟩
  · by_contra hno
    push_neg at hno
    have hc : ∀ i, i < 128 → Mode1.objCovers m line i x = false := by
      intro i hi
      cases hv : Mode1.objCovers m line i x
      · rfl
      · exact absurd hv (hno i hi)
    have := keep b hb x hc
    rcases hne with hne | hne
    · exact hne this.1
    · exact hne this.2
  · obtain ⟨b, hb, _⟩ := objLoop_cell m line obj1d 128 hs bufs
    exact ⟨b, hb⟩
  · have hy : (Mode1.readOam m i).yPos = (((Mode1.readOam m i).attr0 % 256 : Nat) : Int) := by
      unfold Mode1.OAMAttr.yPos
      rw [and_255]
    have hx : (Mode1.readOam m i).xPos = (((Mode1.readOam m i).attr1 % 512 : Nat) : Int) := by
      unfold Mode1.OAMAttr.xPos
      rw [and_511]
    unfold Mode1.specObjY Mode1.specObjX
    rw [hy, hx]
    refine ⟨by omega, by omega, ?_, ?_⟩
    · split <;> omega
    · split <;> omega

/-- C33 on `tieImage`, scanline 0: both visible sprites are 8x8 at (0, 0), so
column 8 of the cleared sprite buffers stays empty. -/
theorem RenderObjLine_bounding_rectangles_witness :
    ∃ b, Mode1.RenderObjLine tieImage 0 false Mode1.objClear = some b
      ∧ b.color 8 = 0 ∧ b.pri 8 = 0xFF := by
  have h := RenderObjLine_bounding_rectangles tieImage 0 false Mode1.objClear
  obtain ⟨b, hb⟩ := h.2.1 (fun i _ => tieImage_shape i)
  refine ⟨b, hb, ?_⟩
  have hc : ∀ i, i < 128 → Mode1.objCovers tieImage 0 i 8 = false := by
    intro i _
    by_cases hi : 2 ≤ i
    · apply objCovers_hidden
      unfold Mode1.OAMAttr.hidden Mode1.OAMAttr.affine
      rw [tieImage_attr0 i hi]
      decide
    · have hi2 : i = 0 ∨ i = 1 := by omega
      rcases hi2 with rfl | rfl <;> decide
  exact ((h.1 b hb 8).2 hc)

/-! ## Flip bits of a text tilemap entry -/

/-- The flip accessors are the bit tests of bits 10 and 11. -/
theorem TilemapEntry_flip_bits (te : Mode1.TilemapEntry) :
    te.hflip = te.raw.testBit 10 ∧ te.vflip = te.raw.testBit 11 := by
  unfold Mode1.TilemapEntry.hflip Mode1.TilemapEntry.vflip Nat.testBit
  rw [Nat.and_comm (te.raw >>> 10) 1, Nat.and_comm (te.raw >>> 11) 1]
  exact ⟨rfl, rfl⟩

/-- Toggling bit `k` (10 or 11) keeps the tile index and the palette field. -/
theorem toggle_keeps_fields (raw k : Nat) (hk : k = 10 ∨ k = 11) :
    (raw ^^^ 2 ^ k) &&& 0x03FF = raw &&& 0x03FF
      ∧ ((raw ^^^ 2 ^ k) >>> 12) &&& 0xF = (raw >>> 12) &&& 0xF := by
  constructor
  · apply Nat.eq_of_testBit_eq
    intro i
    rw [Nat.testBit_and, Nat.testBit_and, Nat.testBit_xor,
      show (0x03FF : Nat) = 2 ^ 10 - 1 from rfl, Nat.testBit_two_pow_sub_one]
    by_cases hi : i < 10
    · rw [Nat.testBit_two_pow_of_ne (by omega)]
      simp
    · simp [hi]
  · apply Nat.eq_of_testBit_eq
    intro i
    rw [Nat.testBit_and, Nat.testBit_and, Nat.testBit_shiftRight, Nat.testBit_shiftRight,
      Nat.testBit_xor, Nat.testBit_two_pow_of_ne (by omega)]
    simp

/-- Toggling bit 10 negates `hflip` and keeps the other fields. -/
theorem toggle_hflip (te : Mode1.TilemapEntry) :
    (Mode1.TilemapEntry.mk (te.raw ^^^ 0x400)).hflip = !te.hflip
      ∧ (Mode1.TilemapEntry.mk (te.raw ^^^ 0x400)).vflip = te.vflip
      ∧ (Mode1.TilemapEntry.mk (te.raw ^^^ 0x400)).tileIndex = te.tileIndex
      ∧ (Mode1.TilemapEntry.mk (te.raw ^^^ 0x400)).palette = te.palette := by
  have hf := toggle_keeps_fields te.raw 10 (Or.inl rfl)
  have h1 := TilemapEntry_flip_bits te
  have h2 := TilemapEntry_flip_bits (Mode1.TilemapEntry.mk (te.raw ^^^ 0x400))
  refine ⟨?_, ?_, hf.1, ?_⟩
  · rw [h2.1, h1.1, Nat.testBit_xor]
    simp [show (0x400 : Nat).testBit 10 = true from by decide]
  · rw [h2.2, h1.2, Nat.testBit_xor]
    simp [show (0x400 : Nat).testBit 11 = false from by decide]
  · unfold Mode1.TilemapEntry.palette
    exact congrArg (· % 256) hf.2

/-- Toggling bit 11 negates `vflip` and keeps the other fields. -/
theorem toggle_vflip (te : Mode1.TilemapEntry) :
    (Mode1.TilemapEntry.mk (te.raw ^^^ 0x800)).vflip = !te.vflip
      ∧ (Mode1.TilemapEntry.mk (te.raw ^^^ 0x800)).hflip = te.hflip
      ∧ (Mode1.TilemapEntry.mk (te.raw ^^^ 0x800)).tileIndex = te.tileIndex
      ∧ (Mode1.TilemapEntry.mk (te.raw ^^^ 0x800)).palette = te.palette := by
  have hf := toggle_keeps_fields te.raw 11 (Or.inr rfl)
  have h1 := TilemapEntry_flip_bits te
  have h2 := TilemapEntry_flip_bits (Mode1.TilemapEntry.mk (te.raw ^^^ 0x800))
  refine ⟨?_, ?_, hf.1, ?_⟩
  · rw [h2.2, h1.2, Nat.testBit_xor]
    simp [show (0x800 : Nat).testBit 11 = true from by decide]
  · rw [h2.1, h1.1, Nat.testBit_xor]
    simp [show (0x800 : Nat).testBit 10 = false from by decide]
  · unfold Mode1.TilemapEntry.palette
    exact congrArg (· % 256) hf.2

/-- What a cell shows depends on the entry only through its four fields and
on the coordinate only through the flipped coordinate. -/
theorem textBgShown_congr (m : GbaMem) (r : Mode1.TextBgRegs) (t1 t2 : Mode1.TilemapEntry)
    (p1 q1 p2 q2 : Nat) (ht : t1.tileIndex = t2.tileIndex) (hp : t1.palette = t2.palette)
    (hx : (if t1.hflip then 7 - p1 else p1) = (if t2.hflip then 7 - p2 else p2))
    (hy : (if t1.vflip then 7 - q1 else q1) = (if t2.vflip then 7 - q2 else q2)) :
    Mode1.textBgShown m r t1 p1 q1 = Mode1.textBgShown m r t2 p2 q2 := by
  unfold Mode1.textBgShown Mode1.textBgTexel
  simp only [ht, hp, hx, hy]

/-- Setting a clear bit is the same as toggling it. -/
theorem set_clear_bit (raw k : Nat) (h : raw.testBit k = false) :
    raw ||| 2 ^ k = raw ^^^ 2 ^ k := by
  apply Nat.eq_of_testBit_eq
  intro i
  rw [Nat.testBit_or, Nat.testBit_xor, Nat.testBit_two_pow]
  by_cases hi : k = i
  · subst hi
    simp [h]
  · simp [hi]

/-- C34: in `RenderTextBgLine` the flips act on the sub-tile coordinate, after
scroll and before the tile-pixel fetch: the colour index of a column is the
texel of the entry read from the map at the coordinate `(srcX % 8, srcY % 8)`
of the scrolled source pixel, and the column stores what `textBgShown` gives
for that entry and coordinate. Toggling bit 10 (hflip) of an entry makes
sub-tile column `p` show what column `7 - p` shows for the untoggled entry,
toggling bit 11 (vflip) does the same for rows; setting a clear flip bit is
such a toggle; toggling twice gives back the entry, hence the same rendering;
a toggled entry is still a 16-bit word. -/
theorem textBg_flip_involution (m : GbaMem) (r : Mode1.TextBgRegs) :
    (∀ line x, Mode1.textBgColorIdx m r line x
        = Mode1.textBgTexel m r (Mode1.textBgEntry m r line x)
            (((x + r.scrollX) % (r.mapW * 8)) % 8) (((line + r.scrollY) % (r.mapH * 8)) % 8))
    ∧ (∀ line x bufs, Mode1.textBgColumn m r line bufs x
        = match Mode1.textBgShown m r (Mode1.textBgEntry m r line x)
            (((x + r.scrollX) % (r.mapW * 8)) % 8) (((line + r.scrollY) % (r.mapH * 8)) % 8) with
          | none => bufs
          | some c =>
            { color := Function.update bufs.color x c
              pri := Function.update bufs.pri x r.priority })
    ∧ (∀ (te : Mode1.TilemapEntry) p q, p ≤ 7 →
        Mode1.textBgShown m r (Mode1.TilemapEntry.mk (te.raw ^^^ 0x400)) p q
          = Mode1.textBgShown m r te (7 - p) q)
    ∧ (∀ (te : Mode1.TilemapEntry) p q, q ≤ 7 →
        Mode1.textBgShown m r (Mode1.TilemapEntry.mk (te.raw ^^^ 0x800)) p q
          = Mode1.textBgShown m r te p (7 - q))
    ∧ (∀ (te : Mode1.TilemapEntry), te.hflip = false →
        te.raw ||| 0x400 = te.raw ^^^ 0x400
          ∧ (Mode1.TilemapEntry.mk (te.raw ||| 0x400)).hflip = true)
    ∧ (∀ (te : Mode1.TilemapEntry), te.vflip = false →
        te.raw ||| 0x800 = te.raw ^^^ 0x800
          ∧ (Mode1.TilemapEntry.mk (te.raw ||| 0x800)).vflip = true)
    ∧ (∀ (te : Mode1.TilemapEntry),
        Mode1.TilemapEntry.mk ((te.raw ^^^ 0x400) ^^^ 0x400) = te
          ∧ Mode1.TilemapEntry.mk ((te.raw ^^^ 0x800) ^^^ 0x800) = te)
    ∧ (∀ (te : Mode1.TilemapEntry), te.raw < 65536 →
        te.raw ^^^ 0x400 < 65536 ∧ te.raw ^^^ 0x800 < 65536) := by
  refine ⟨fun _ _ => rfl, fun line x bufs => ?_, fun te p q hp => ?_, fun te p q hq => ?_,
    fun te h => ?_, fun te h => ?_, fun te => ?_, fun te h => ?_⟩
  · have hc : Mode1.textBgColorIdx m r line x
        = Mode1.textBgTexel m r (Mode1.textBgEntry m r line x)
            (((x + r.scrollX) % (r.mapW * 8)) % 8) (((line + r.scrollY) % (r.mapH * 8)) % 8) :=
      rfl
    unfold Mode1.textBgColumn Mode1.textBgShown Mode1.textBgRgb555
    rw [hc]
    simp only []
    by_cases h0 : Mode1.textBgTexel m r (Mode1.textBgEntry m r line x)
        (((x + r.scrollX) % (r.mapW * 8)) % 8) (((line + r.scrollY) % (r.mapH * 8)) % 8) = 0
    · simp only [h0, if_true]
    · simp only [h0, if_false]
      cases r.bpp8 <;> rfl
  · obtain ⟨h1, h2, h3, h4⟩ := toggle_hflip te
    apply textBgShown_congr m r _ _ _ _ _ _ h3 h4
    · rw [h1]
      cases te.hflip
      · rfl
      · show p = 7 - (7 - p)
        omega
    · rw [h2]
  · obtain ⟨h1, h2, h3, h4⟩ := toggle_vflip te
    apply textBgShown_congr m r _ _ _ _ _ _ h3 h4
    · rw [h2]
    · rw [h1]
      cases te.vflip
      · rfl
      · show q = 7 - (7 - q)
        omega
  · have hb : te.raw.testBit 10 = false := by rw [← (TilemapEntry_flip_bits te).1]; exact h
    have hs := set_clear_bit te.raw 10 hb
    refine ⟨hs, ?_⟩
    have hs2 : te.raw ||| 0x400 = te.raw ^^^ 0x400 := hs
    rw [hs2, (toggle_hflip te).1, h]
    rfl
  · have hb : te.raw.testBit 11 = false := by rw [← (TilemapEntry_flip_bits te).2]; exact h
    have hs := set_clear_bit te.raw 11 hb
    refine ⟨hs, ?_⟩
    have hs2 : te.raw ||| 0x800 = te.raw ^^^ 0x800 := hs
    rw [hs2, (toggle_vflip te).1, h]
    rfl
  · constructor
    · rw [Nat.xor_assoc, Nat.xor_self, Nat.xor_zero]
    · rw [Nat.xor_assoc, Nat.xor_self, Nat.xor_zero]
  · exact ⟨Nat.xor_lt_two_pow (show te.raw < 2 ^ 16 from h) (by decide),
      Nat.xor_lt_two_pow (show te.raw < 2 ^ 16 from h) (by decide)⟩

/-- C34 on `tileImage`: tile 1 holds colour index 2 at texel (3, 5) only, so
with the hflip bit set (entry 0x0401) sub-tile column 4 shows the red that
column 3 shows for entry 0x0001. -/
theorem textBg_flip_involution_witness :
    Mode1.textBgShown tileImage (Mode1.textBgRegs tileImage 0) (Mode1.TilemapEntry.mk 0x0401) 4 5
        = Mode1.textBgShown tileImage (Mode1.textBgRegs tileImage 0) (Mode1.TilemapEntry.mk 0x0001)
            3 5
      ∧ Mode1.textBgShown tileImage (Mode1.textBgRegs tileImage 0) (Mode1.TilemapEntry.mk 0x0001)
            3 5 = some 0xFF0000F8 := by
  have h := (textBg_flip_involution tileImage (Mode1.textBgRegs tileImage 0)).2.2.1
    (Mode1.TilemapEntry.mk 0x0001) 4 5 (by decide)
  exact ⟨h, by decide⟩

/-! ## The DMG tile decoder -/

/-- A wrapped 16-bit address reads what the specification reads at the
unwrapped address, as long as the latter is within one wrap of the window. -/
theorem VramRead_eq_spec (layout : Mode7.Mode7Layout) (addr : Nat) (a : Int)
    (h : (addr : Int) = a % 65536) (hlo : -24576 ≤ a) (hhi : a < 98304) :
    Mode7.VramRead layout addr = Mode7.specRead layout a := by
  unfold Mode7.VramRead Mode7.specRead
  by_cases hin : 0x8000 ≤ a ∧ a ≤ 0x9FFF
  · have h1 : ¬ (addr < 0x8000 ∨ addr ≥ 0xA000) := by omega
    have h2 : addr - 0x8000 = (a - 0x8000).toNat := by omega
    rw [if_neg h1, if_pos hin, h2]
  · have h1 : addr < 0x8000 ∨ addr ≥ 0xA000 := by omega
    rw [if_pos h1, if_neg hin]

/-- Every specification read is a byte. -/
theorem specRead_lt (layout : Mode7.Mode7Layout) (a : Int) : Mode7.specRead layout a < 256 := by
  unfold Mode7.specRead
  split
  · exact Nat.mod_lt _ (by decide)
  · decide

/-- The two selected bits packed by shifts and an or are `2 * h + l`. -/
theorem bit_pair (h l b : Nat) :
    ((((h >>> b) &&& 0x01) <<< 1) ||| ((l >>> b) &&& 0x01)) % 256
      = 2 * (h / 2 ^ b % 2) + l / 2 ^ b % 2 := by
  rw [Nat.shiftRight_eq_div_pow, Nat.shiftRight_eq_div_pow, Nat.and_one_is_mod,
    Nat.and_one_is_mod, Nat.shiftLeft_eq]
  have hu : h / 2 ^ b % 2 < 2 := Nat.mod_lt _ (by decide)
  have hv : l / 2 ^ b % 2 < 2 := Nat.mod_lt _ (by decide)
  generalize h / 2 ^ b % 2 = u at *
  generalize l / 2 ^ b % 2 = v at *
  interval_cases u <;> interval_cases v <;> rfl

/-- The wrapped map address is the unwrapped one modulo 2^16. -/
theorem dmg_map_addr (mb x y : Nat) (hx : x < 256) (hy : y < 256) :
    (((mb + ((y / 8) % 256 * 32 + (x / 8) % 256) % 65536) % 65536 : Nat) : Int)
      = ((mb : Int) + (y / 8 : Nat) * 32 + (x / 8 : Nat)) % 65536 := by
  omega

/-- The wrapped row address is the unwrapped one modulo 2^16. -/
theorem dmg_row_addr (db : Nat) (id : Int) (y : Nat) :
    ((((((db : Int) + id * 16) % 65536).toNat + (y % 8) % 256 * 2) % 65536 : Nat) : Int)
      = ((db : Int) + 16 * id + 2 * (y % 8 : Nat)) % 65536
    ∧ (((((((db : Int) + id * 16) % 65536).toNat + (y % 8) % 256 * 2) % 65536 + 1) % 65536
          : Nat) : Int)
      = ((db : Int) + 16 * id + 2 * (y % 8 : Nat) + 1) % 65536 := by
  constructor <;> omega

/-- The tile id of the code is the signed or unsigned reading of the index. -/
theorem dmg_tile_id (signed_indexing : Bool) (index : Nat) (h : index < 256) :
    (if signed_indexing then Mode7.toI8 index else (index : Int))
      = (if signed_indexing ∧ index ≥ 128 then (index : Int) - 256 else (index : Int))
    ∧ -128 ≤ (if signed_indexing ∧ index ≥ 128 then (index : Int) - 256 else (index : Int))
    ∧ (if signed_indexing ∧ index ≥ 128 then (index : Int) - 256 else (index : Int)) ≤ 255 := by
  unfold Mode7.toI8
  cases signed_indexing
  · simp only [Bool.false_eq_true, false_and, if_false]
    refine ⟨trivial, ?_, ?_⟩ <;> omega
  · simp only [true_and, if_true]
    have hm : index % 256 = index := Nat.mod_eq_of_lt h
    rw [hm]
    split <;> omega

/-- C35: for every VRAM content, 16-bit map base and data base, addressing
mode and 8-bit `(x, y)`, `FetchTileColor` returns the value of the
specification decoder `specTileColor`, which works on unwrapped addresses: the
index is read at `map base + (y div 8) * 32 + (x div 8)`, taken as a signed
byte under signed indexing, the row bytes are at
`data base + 16 * index + 2 * (y mod 8)` and the next address, and the result
is `2 * h + l` for bit `7 - (x mod 8)` of the high and low byte; it is at most
3. Reads outside `0x8000..0x9FFF` return 0, so the 16-bit wrap of the
addresses in the code never changes a read. -/
theorem FetchTileColor_spec (layout : Mode7.Mode7Layout) (mb db : Nat)
    (signed_indexing : Bool) (x y : Nat)
    (hmb : mb < 65536) (hdb : db < 65536) (hx : x < 256) (hy : y < 256) :
    Mode7.FetchTileColor layout mb db signed_indexing x y
        = Mode7.specTileColor layout mb db signed_indexing x y
      ∧ Mode7.specTileColor layout mb db signed_indexing x y ≤ 3
      ∧ (∀ a, (a < 0x8000 ∨ a ≥ 0xA000) → Mode7.VramRead layout a = 0)
      ∧ (∀ a : Int, ¬ (0x8000 ≤ a ∧ a ≤ 0x9FFF) → Mode7.specRead layout a = 0) := by
  refine ⟨?_, ?_, fun a ha => ?_, fun a ha => ?_⟩
  · unfold Mode7.FetchTileColor Mode7.specTileColor
    simp only []
    have e1 := VramRead_eq_spec layout _ _ (dmg_map_addr mb x y hx hy) (by omega) (by omega)
    rw [e1]
    have hidx := specRead_lt layout ((mb : Int) + (y / 8 : Nat) * 32 + (x / 8 : Nat))
    generalize Mode7.specRead layout ((mb : Int) + (y / 8 : Nat) * 32 + (x / 8 : Nat)) = index
      at hidx ⊢
    obtain ⟨t1, t2, t3⟩ := dmg_tile_id signed_indexing index hidx
    rw [t1]
    generalize (if signed_indexing = true ∧ index ≥ 128 then (index : Int) - 256
      else (index : Int)) = id at t2 t3 ⊢
    have r := dmg_row_addr db id y
    have e2 := VramRead_eq_spec layout _ _ r.1 (by omega) (by omega)
    have e3 := VramRead_eq_spec layout _ _ r.2 (by omega) (by omega)
    rw [e2, e3, bit_pair]
    have hb : (7 - x % 8 % 256) % 256 = 7 - x % 8 := by omega
    rw [hb]
  · unfold Mode7.specTileColor
    simp only []
    omega
  · unfold Mode7.VramRead
    rw [if_pos ha]
  · unfold Mode7.specRead
    rw [if_neg ha]

/-- C35 on `dmgImage`: the tile index read at `0x9800` is 1 and every row of
tile 1 at data base `0x8000` has low byte `0xFF` and high byte `0xFF`, so the
decoder returns colour 3 at (0, 0). -/
theorem FetchTileColor_spec_witness :
    Mode7.FetchTileColor dmgImage 0x9800 0x8000 false 0 0 = 3
      ∧ Mode7.specTileColor dmgImage 0x9800 0x8000 false 0 0 = 3 := by
  have h := (FetchTileColor_spec dmgImage 0x9800 0x8000 false 0 0 (by decide) (by decide)
    (by decide) (by decide)).1
  exact ⟨by rw [h]; decide, by decide⟩

/-! ## The opaque mask of mode 0 -/

/-- An or of two words is zero exactly when both are. -/
theorem or_eq_zero (a b : Nat) : a ||| b = 0 ↔ a = 0 ∧ b = 0 := by
  constructor
  · intro h
    have hb : ∀ i, (a.testBit i || b.testBit i) = false := by
      intro i
      rw [← Nat.testBit_or, h, Nat.zero_testBit]
    constructor
    · apply Nat.eq_of_testBit_eq
      intro i
      have := hb i
      rw [Nat.zero_testBit]
      cases hA : a.testBit i
      · rfl
      · rw [hA] at this; simp at this
    · apply Nat.eq_of_testBit_eq
      intro i
      have := hb i
      rw [Nat.zero_testBit]
      cases hB : b.testBit i
      · rfl
      · rw [hB] at this; simp at this
  · rintro ⟨rfl, rfl⟩
    rfl

/-- The bits of the alpha mask `0xFF000000` are bits 24..31. -/
theorem alpha_mask_bits (i : Nat) :
    (0xFF000000 : Nat).testBit i = (decide (24 ≤ i) && decide (i < 32)) := by
  rw [show (0xFF000000 : Nat) = (2 ^ 8 - 1) <<< 24 from rfl, Nat.testBit_shiftLeft,
    Nat.testBit_two_pow_sub_one]
  by_cases h1 : 24 ≤ i
  · by_cases h2 : i < 32
    · have h3 : i - 24 < 8 := by omega
      simp [h1, h2, h3]
    · have h3 : ¬ (i - 24 < 8) := by omega
      simp [h1, h2, h3]
  · simp [h1]

/-- The opacity test of one pixel: the masked word equals the mask exactly
when the alpha byte is `0xFF`. -/
theorem pixel_solid_iff (p : Nat) :
    (p &&& 0xFF000000) ^^^ 0xFF000000 = 0 ↔ p / 2 ^ 24 % 256 = 0xFF := by
  rw [Nat.xor_eq_zero]
  have hbyte : p / 2 ^ 24 % 256 = (p >>> 24) &&& (2 ^ 8 - 1) := by
    rw [Nat.and_pow_two_sub_one_eq_mod, Nat.shiftRight_eq_div_pow]
  rw [hbyte]
  constructor
  · intro h
    apply Nat.eq_of_testBit_eq
    intro i
    rw [Nat.testBit_and, Nat.testBit_shiftRight, Nat.testBit_two_pow_sub_one]
    by_cases hi : i < 8
    · have hb := congrArg (fun v => Nat.testBit v (24 + i)) h
      simp only [Nat.testBit_and, alpha_mask_bits] at hb
      have h1 : 24 ≤ 24 + i := by omega
      have h2 : 24 + i < 32 := by omega
      simp only [h1, h2, decide_True, Bool.and_true] at hb
      simp [hi, hb]
    · simp [hi]
  · intro h
    apply Nat.eq_of_testBit_eq
    intro i
    rw [Nat.testBit_and, alpha_mask_bits]
    by_cases h1 : 24 ≤ i
    · by_cases h2 : i < 32
      · have hb := congrArg (fun v => Nat.testBit v (i - 24)) h
        simp only [Nat.testBit_and, Nat.testBit_shiftRight, Nat.testBit_two_pow_sub_one,
          show (0xFF : Nat) = 2 ^ 8 - 1 from rfl] at hb
        have h3 : i - 24 < 8 := by omega
        have h4 : 24 + (i - 24) = i := by omega
        simp only [h3, decide_True, Bool.and_true, h4] at hb
        simp [h1, h2, hb]
      · simp [h1, h2]
    · simp [h1]

/-- The accumulator of the opacity loop is zero exactly when every pixel of
the span has alpha byte `0xFF`. -/
theorem anyNotOpaque_eq_zero (layers : Nat → Nat) (base count : Nat) :
    Mode0.anyNotOpaque layers base count = 0
      ↔ ∀ i, i < count → layers (base + i) / 2 ^ 24 % 256 = 0xFF := by
  unfold Mode0.anyNotOpaque
  induction count with
  | zero =>
    simp only [List.range_zero, List.foldl_nil, true_iff]
    intro i hi
    omega
  | succ n ih =>
    rw [List.range_succ, List.foldl_append]
    simp only [List.foldl_cons, List.foldl_nil]
    rw [or_eq_zero, ih, pixel_solid_iff]
    constructor
    · rintro ⟨h1, h2⟩ i hi
      by_cases hin : i = n
      · rw [hin]; exact h2
      · exact h1 i (by omega)
    · intro h
      exact ⟨fun i hi => h i (by omega), h n (by omega)⟩

/-- One block iteration of `RenderBg` on a 64-bit mask: the mask stays a
64-bit word and gains exactly the bit of a fully opaque block below 64. -/
theorem renderBgBlock_mask (layout : Mode0.Mode0Layout) (index width line : Nat)
    (st : Mode0.BgState) (block : Nat) (hm : st.opaque_mask < 2 ^ 64) :
    (Mode0.renderBgBlock layout index width line st block).opaque_mask < 2 ^ 64
      ∧ ∀ b, ((Mode0.renderBgBlock layout index width line st block).opaque_mask.testBit b = true
          ↔ (st.opaque_mask.testBit b = true
              ∨ (b = block ∧ block < 64 ∧ Mode0.blockOpaque st.layers index width block))) := by
  have hop : Mode0.anyNotOpaque st.layers (index * width + block * 32)
      (if block * 32 + 32 ≤ width then 32 else width - block * 32) = 0
        ↔ Mode0.blockOpaque st.layers index width block := anyNotOpaque_eq_zero _ _ _
  unfold Mode0.renderBgBlock
  simp only [GetBg32px_id]
  by_cases h64 : block < 64
  · have hp : 2 ^ block < 2 ^ 64 := Nat.pow_lt_pow_right (by decide) h64
    have hbit : (1 <<< block) % 18446744073709551616 = 2 ^ block := by
      rw [Nat.one_shiftLeft]
      exact Nat.mod_eq_of_lt hp
    simp only [h64, if_true, true_and, hbit, and_two_pow_ne_zero]
    by_cases hset : st.opaque_mask.testBit block = true
    · rw [if_pos hset]
      refine ⟨hm, fun b => ⟨fun h => Or.inl h, fun h => ?_⟩⟩
      rcases h with h | ⟨rfl, _⟩
      · exact h
      · exact hset
    · rw [if_neg hset]
      simp only []
      by_cases ho : Mode0.blockOpaque st.layers index width block
      · rw [if_pos (hop.mpr ho), Nat.one_shiftLeft]
        have hlt : st.opaque_mask ||| 2 ^ block < 2 ^ 64 := Nat.or_lt_two_pow hm hp
        have hmod : (st.opaque_mask ||| 2 ^ block) % 18446744073709551616
            = st.opaque_mask ||| 2 ^ block := Nat.mod_eq_of_lt hlt
        rw [hmod]
        refine ⟨hlt, fun b => ?_⟩
        rw [Nat.testBit_or, Nat.testBit_two_pow]
        constructor
        · intro h
          cases hb : st.opaque_mask.testBit b
          · rw [hb] at h
            simp at h
            exact Or.inr ⟨h.symm, ho⟩
          · exact Or.inl rfl
        · rintro (h | ⟨rfl, _⟩)
          · rw [h]; rfl
          · simp
      · rw [if_neg (fun h => ho (hop.mp h)), Nat.zero_shiftLeft, Nat.or_zero]
        have hmod : st.opaque_mask % 18446744073709551616 = st.opaque_mask :=
          Nat.mod_eq_of_lt hm
        rw [hmod]
        refine ⟨hm, fun b => ⟨fun h => Or.inl h, fun h => ?_⟩⟩
        rcases h with h | ⟨_, hh⟩
        · exact h
        · exact absurd hh ho
  · simp only [h64, if_false, false_and]
    refine ⟨hm, fun b => ⟨fun h => Or.inl h, fun h => ?_⟩⟩
    rcases h with h | ⟨_, hh, _⟩
    exact h

/-- The block loop of `RenderBg` over blocks `0..n-1` on a 64-bit mask. -/
theorem renderBgBlocks_mask (layout : Mode0.Mode0Layout) (index width line : Nat)
    (st : Mode0.BgState) (hm : st.opaque_mask < 2 ^ 64) (n : Nat) :
    ((List.range n).foldl (Mode0.renderBgBlock layout index width line) st).opaque_mask < 2 ^ 64
      ∧ ((List.range n).foldl (Mode0.renderBgBlock layout index width line) st).layers
          = st.layers
      ∧ ∀ b, (((List.range n).foldl (Mode0.renderBgBlock layout index width line)
            st).opaque_mask.testBit b = true
          ↔ (st.opaque_mask.testBit b = true
              ∨ (b < n ∧ b < 64 ∧ Mode0.blockOpaque st.layers index width b))) := by
  induction n with
  | zero =>
    refine ⟨hm, rfl, fun b => ⟨fun h => Or.inl h, fun h => ?_⟩⟩
    rcases h with h | ⟨hh, _⟩
    · exact h
    · exact absurd hh (Nat.not_lt_zero b)
  | succ n ih =>
    obtain ⟨ih1, ih2, ih3⟩ := ih
    rw [List.range_succ, List.foldl_append]
    simp only [List.foldl_cons, List.foldl_nil]
    obtain ⟨s1, s2⟩ := renderBgBlock_mask layout index width line
      ((List.range n).foldl (Mode0.renderBgBlock layout index width line) st) n ih1
    refine ⟨s1, ?_, fun b => ?_⟩
    · rw [renderBgBlock_layers, ih2]
    · rw [s2 b, ih3 b, ih2]
      constructor
      · rintro ((h | ⟨h1, h2, h3⟩) | ⟨rfl, h2, h3⟩)
        · exact Or.inl h
        · exact Or.inr ⟨by omega, h2, h3⟩
        · exact Or.inr ⟨by omega, h2, h3⟩
      · rintro (h | ⟨h1, h2, h3⟩)
        · exact Or.inl (Or.inl h)
        · by_cases hb : b = n
          · exact Or.inr ⟨hb, hb ▸ h2, hb ▸ h3⟩
          · exact Or.inl (Or.inr ⟨by omega, h2, h3⟩)

/-- The opaque mask after `RenderBg`, bit by bit. -/
theorem RenderBg_mask (layout : Mode0.Mode0Layout) (index : Nat) (st : Mode0.BgState)
    (ppu : PPUMemory) (line : Nat) (hm : st.opaque_mask < 2 ^ 64) :
    (Mode0.RenderBg layout index st ppu line).opaque_mask < 2 ^ 64
      ∧ ∀ b, ((Mode0.RenderBg layout index st ppu line).opaque_mask.testBit b = true
          ↔ (st.opaque_mask.testBit b = true
              ∨ (b < (ppu.frame_width % 65536 + 31) / 32 ∧ b < 64
                  ∧ Mode0.blockOpaque st.layers index (ppu.frame_width % 65536) b))) := by
  unfold Mode0.RenderBg
  simp only []
  obtain ⟨h1, _, h3⟩ := renderBgBlocks_mask layout index (ppu.frame_width % 65536) line st hm
    ((ppu.frame_width % 65536 + 31) / 32)
  exact ⟨h1, h3⟩

/-- C36 (amended to the blocks below 64): for `Mode0::RenderBg` on any layer
buffer contents and any incoming 64-bit opaque mask, for each 32-pixel block
`b < 64` of the line, bit `b` of the mask after the call is set if and only if
it was set before or every pixel of the layer in that block (up to the frame
width) has alpha byte `0xFF`. Bits from 64 on do not exist in the mask and
bits of blocks beyond the line keep their value; no mask bit is ever cleared;
the layer buffer is left as it was; and a block below 64 whose bit is already
set is skipped. -/
theorem RenderBg_opaque_mask (layout : Mode0.Mode0Layout) (index : Nat) (st : Mode0.BgState)
    (ppu : PPUMemory) (line : Nat) (hm : st.opaque_mask < 2 ^ 64) :
    (Mode0.RenderBg layout index st ppu line).opaque_mask < 2 ^ 64
      ∧ (Mode0.RenderBg layout index st ppu line).layers = st.layers
      ∧ (∀ b, b < 64 → b < (ppu.frame_width % 65536 + 31) / 32 →
          ((Mode0.RenderBg layout index st ppu line).opaque_mask.testBit b = true
            ↔ (st.opaque_mask.testBit b = true
                ∨ Mode0.blockOpaque st.layers index (ppu.frame_width % 65536) b)))
      ∧ (∀ b, 64 ≤ b → (Mode0.RenderBg layout index st ppu line).opaque_mask.testBit b = false)
      ∧ (∀ b, (ppu.frame_width % 65536 + 31) / 32 ≤ b →
          (Mode0.RenderBg layout index st ppu line).opaque_mask.testBit b
            = st.opaque_mask.testBit b)
      ∧ (∀ b, st.opaque_mask.testBit b = true →
          (Mode0.RenderBg layout index st ppu line).opaque_mask.testBit b = true)
      ∧ (∀ (s : Mode0.BgState) block, block < 64 → s.opaque_mask.testBit block = true →
          Mode0.renderBgBlock layout index (ppu.frame_width % 65536) line s block = s) := by
  obtain ⟨h1, h2⟩ := RenderBg_mask layout index st ppu line hm
  refine ⟨h1, RenderBg_layers layout index st ppu line, fun b hb hn => ?_, fun b hb => ?_,
    fun b hb => ?_, fun b hb => (h2 b).mpr (Or.inl hb), fun s block hb hs => ?_⟩
  · rw [h2 b]
    constructor
    · rintro (h | ⟨_, _, h⟩)
      · exact Or.inl h
      · exact Or.inr h
    · rintro (h | h)
      · exact Or.inl h
      · exact Or.inr ⟨hn, hb, h⟩
  · apply Nat.testBit_lt_two_pow
    exact Nat.lt_of_lt_of_le h1 (Nat.pow_le_pow_right (by decide) hb)
  · cases hr : (Mode0.RenderBg layout index st ppu line).opaque_mask.testBit b
    · cases hs : st.opaque_mask.testBit b
      · rfl
      · have := (h2 b).mpr (Or.inl hs)
        rw [hr] at this
        exact absurd this (by decide)
    · rcases (h2 b).mp hr with h | ⟨h, _, _⟩
      · exact h.symm
      · omega
  · have hp : 2 ^ block < 2 ^ 64 := Nat.pow_lt_pow_right (by decide) hb
    have hbit : (1 <<< block) % 18446744073709551616 = 2 ^ block := by
      rw [Nat.one_shiftLeft]
      exact Nat.mod_eq_of_lt hp
    unfold Mode0.renderBgBlock
    simp only [hb, if_true, true_and, hbit, and_two_pow_ne_zero, hs]

/-- Every pixel of `solidState` has alpha byte `0xFF`. -/
theorem solidState_alpha (x : Nat) : solidState.layers x / 2 ^ 24 % 256 = 0xFF := by
  show (0xFF000000 : Nat) / 2 ^ 24 % 256 = 0xFF
  decide

/-- The claim as stated fails for a block from 64 on: at frame width 2080 the
line has 65 blocks, every pixel of block 64 of the layer has alpha `0xFF`,
and bit 64 of the mask is not set after `RenderBg`. -/
theorem RenderBg_block64_counterexample :
    64 < (wideFrame.frame_width % 65536 + 31) / 32
      ∧ Mode0.blockOpaque solidState.layers 0 (wideFrame.frame_width % 65536) 64
      ∧ (Mode0.RenderBg Mode0.zeroLayout 0 solidState wideFrame 0).opaque_mask.testBit 64
          = false := by
  refine ⟨by decide, fun _ _ => solidState_alpha _, ?_⟩
  apply Nat.testBit_lt_two_pow
  exact (RenderBg_mask Mode0.zeroLayout 0 solidState wideFrame 0 (by decide)).1

/-- C36 on the solid layer at width 2080: block 0 is fully opaque, so bit 0
of the mask is set after `RenderBg`. -/
theorem RenderBg_opaque_mask_witness :
    (Mode0.RenderBg Mode0.zeroLayout 0 solidState wideFrame 0).opaque_mask.testBit 0 = true :=
  ((RenderBg_opaque_mask Mode0.zeroLayout 0 solidState wideFrame 0 (by decide)).2.2.1 0
    (by decide) (by decide)).mpr (Or.inr (fun _ _ => solidState_alpha _))

/-! ## The asset encoder against the 4-bpp decoder -/

/-- A loop whose steps either set the observed value or leave it alone ends
with the value set by the last step that owns it. -/
theorem foldl_last_owner {S β : Type} (step : S → Nat → S) (obs : S → β) (own : Nat → Prop)
    (V : Nat → β) (hown : ∀ g k, own k → obs (step g k) = V k)
    (hnot : ∀ g k, ¬ own k → obs (step g k) = obs g) (n : Nat) (g0 : S) :
    ((∀ k, k < n → ¬ own k) → obs ((List.range n).foldl step g0) = obs g0)
      ∧ ∀ k0, k0 < n → own k0 → (∀ k, k0 < k → k < n → ¬ own k) →
          obs ((List.range n).foldl step g0) = V k0 := by
  induction n with
  | zero => exact ⟨fun _ => rfl, fun k0 h => absurd h (Nat.not_lt_zero k0)⟩
  | succ n ih =>
    rw [List.range_succ, List.foldl_append]
    simp only [List.foldl_cons, List.foldl_nil]
    constructor
    · intro h
      rw [hnot _ n (h n (by omega))]
      exact ih.1 (fun k hk => h k (by omega))
    · intro k0 hk0 ho hlast
      by_cases hk : k0 = n
      · rw [← hk]
        exact hown _ k0 ho
      · rw [hnot _ n (hlast n (by omega) (by omega))]
        exact ih.2 k0 (by omega) ho (fun k h1 h2 => hlast k h1 (by omega))

/-- A block index determines its block row and column. -/
theorem block_index_inj (w a b c d : Nat) (hb : b < w) (hd : d < w)
    (h : a * w + b = c * w + d) : a = c ∧ b = d := by
  have h1 : (a * w + b) / w = a := by
    rw [Nat.add_comm, Nat.add_mul_div_right _ _ (by omega), Nat.div_eq_of_lt hb, Nat.zero_add]
  have h2 : (c * w + d) / w = c := by
    rw [Nat.add_comm, Nat.add_mul_div_right _ _ (by omega), Nat.div_eq_of_lt hd, Nat.zero_add]
  have hac : a = c := by rw [← h1, ← h2, h]
  subst hac
  exact ⟨rfl, by omega⟩

/-- The byte stored for pixel pair `k` of row `py` of block `(bx, by_)`. -/
theorem packRow_byte (pixel_indices : Nat → Nat) (width bx by_ py : Nat) (td : Nat → Nat)
    (j : Nat) :
    (∀ k0, k0 < 4 → j = py * 4 + k0 →
      AssetProcessor.packRow pixel_indices width bx by_ td py j
        = (((pixel_indices ((by_ * 8 + py) * width + (bx * 8 + 2 * k0) + 1) % 256) <<< 4)
            ||| (pixel_indices ((by_ * 8 + py) * width + (bx * 8 + 2 * k0)) % 256 &&& 0x0F))
          % 256)
      ∧ ((j < py * 4 ∨ py * 4 + 4 ≤ j) →
          AssetProcessor.packRow pixel_indices width bx by_ td py j = td j) := by
  have key := foldl_last_owner (AssetProcessor.packPair pixel_indices width bx by_ py)
    (fun g => g j) (fun k => py * 4 + 2 * k / 2 = j)
    (fun k => (((pixel_indices ((by_ * 8 + py) * width + (bx * 8 + 2 * k) + 1) % 256) <<< 4)
        ||| (pixel_indices ((by_ * 8 + py) * width + (bx * 8 + 2 * k)) % 256 &&& 0x0F)) % 256)
    (fun g k hk => by
      unfold AssetProcessor.packPair
      simp only []
      rw [hk, Function.update_same])
    (fun g k hk => by
      unfold AssetProcessor.packPair
      simp only []
      rw [Function.update_noteq (Ne.symm hk)])
    4 td
  constructor
  · intro k0 hk0 hj
    exact key.2 k0 hk0 (by omega) (fun k h1 h2 => by omega)
  · intro hj
    exact key.1 (fun k hk => by omega)

/-- The byte of a whole block at index `py0 * 4 + k0`. -/
theorem packBlock_byte (pixel_indices : Nat → Nat) (width bx by_ : Nat) (td : Nat → Nat)
    (py0 k0 : Nat) (hp : py0 < 8) (hk : k0 < 4) :
    AssetProcessor.packBlock pixel_indices width bx by_ td (py0 * 4 + k0)
      = (((pixel_indices ((by_ * 8 + py0) * width + (bx * 8 + 2 * k0) + 1) % 256) <<< 4)
          ||| (pixel_indices ((by_ * 8 + py0) * width + (bx * 8 + 2 * k0)) % 256 &&& 0x0F))
        % 256 := by
  have key := foldl_last_owner (AssetProcessor.packRow pixel_indices width bx by_)
    (fun g => g (py0 * 4 + k0)) (fun py => py = py0)
    (fun _ => (((pixel_indices ((by_ * 8 + py0) * width + (bx * 8 + 2 * k0) + 1) % 256) <<< 4)
        ||| (pixel_indices ((by_ * 8 + py0) * width + (bx * 8 + 2 * k0)) % 256 &&& 0x0F)) % 256)
    (fun g py hpy => by
      subst hpy
      exact (packRow_byte pixel_indices width bx by_ py g (py * 4 + k0)).1 k0 hk rfl)
    (fun g py hpy => by
      exact (packRow_byte pixel_indices width bx by_ py g (py0 * 4 + k0)).2 (by omega))
    8 td
  exact key.2 py0 hp rfl (fun k h1 _ => by omega)

/-- One block row of the encoder at block `t`, byte `py0 * 4 + k0`. -/
theorem packBlockRow_byte (pixel_indices : Nat → Nat) (width blocks_w : Nat)
    (blocks : Nat → Nat → Nat) (by_ t py0 k0 : Nat) (hp : py0 < 8) (hk : k0 < 4) :
    (∀ bx0, bx0 < blocks_w → t = by_ * blocks_w + bx0 →
      AssetProcessor.packBlockRow pixel_indices width blocks_w blocks by_ t (py0 * 4 + k0)
        = (((pixel_indices ((by_ * 8 + py0) * width + (bx0 * 8 + 2 * k0) + 1) % 256) <<< 4)
            ||| (pixel_indices ((by_ * 8 + py0) * width + (bx0 * 8 + 2 * k0)) % 256 &&& 0x0F))
          % 256)
      ∧ ((∀ bx, bx < blocks_w → t ≠ by_ * blocks_w + bx) →
          AssetProcessor.packBlockRow pixel_indices width blocks_w blocks by_ t (py0 * 4 + k0)
            = blocks t (py0 * 4 + k0)) := by
  have key := foldl_last_owner
    (fun (blocks : Nat → Nat → Nat) bx =>
      Function.update blocks (by_ * blocks_w + bx)
        (AssetProcessor.packBlock pixel_indices width bx by_ (blocks (by_ * blocks_w + bx))))
    (fun g => g t (py0 * 4 + k0)) (fun bx => by_ * blocks_w + bx = t)
    (fun bx => (((pixel_indices ((by_ * 8 + py0) * width + (bx * 8 + 2 * k0) + 1) % 256) <<< 4)
        ||| (pixel_indices ((by_ * 8 + py0) * width + (bx * 8 + 2 * k0)) % 256 &&& 0x0F)) % 256)
    (fun g bx hbx => by
      simp only []
      rw [← hbx, Function.update_same]
      exact packBlock_byte pixel_indices width bx by_ _ py0 k0 hp hk)
    (fun g bx hbx => by
      simp only []
      rw [Function.update_noteq (Ne.symm hbx)])
    blocks_w blocks
  constructor
  · intro bx0 hb ht
    exact key.2 bx0 hb ht.symm (fun k h1 _ => by omega)
  · intro hne
    exact key.1 (fun k hk2 h => hne k hk2 h.symm)

/-- The byte the encoder stores for pixel pair `k0` of row `py0` of block
`(bx0, by0)`. -/
theorem extract_8x8_blocks_byte (pixel_indices : Nat → Nat) (width height : Nat)
    (bx0 by0 py0 k0 : Nat) (hbx : bx0 < width / 8) (hby : by0 < height / 8)
    (hp : py0 < 8) (hk : k0 < 4) :
    AssetProcessor.extract_8x8_blocks pixel_indices width height (by0 * (width / 8) + bx0)
        (py0 * 4 + k0)
      = (((pixel_indices ((by0 * 8 + py0) * width + (bx0 * 8 + 2 * k0) + 1) % 256) <<< 4)
          ||| (pixel_indices ((by0 * 8 + py0) * width + (bx0 * 8 + 2 * k0)) % 256 &&& 0x0F))
        % 256 := by
  unfold AssetProcessor.extract_8x8_blocks
  have key := foldl_last_owner (AssetProcessor.packBlockRow pixel_indices width (width / 8))
    (fun g => g (by0 * (width / 8) + bx0) (py0 * 4 + k0)) (fun b => b = by0)
    (fun _ => (((pixel_indices ((by0 * 8 + py0) * width + (bx0 * 8 + 2 * k0) + 1) % 256) <<< 4)
        ||| (pixel_indices ((by0 * 8 + py0) * width + (bx0 * 8 + 2 * k0)) % 256 &&& 0x0F)) % 256)
    (fun g b hb => by
      subst hb
      exact (packBlockRow_byte pixel_indices width (width / 8) g b _ py0 k0 hp hk).1 bx0 hbx rfl)
    (fun g b hb => by
      apply (packBlockRow_byte pixel_indices width (width / 8) g b _ py0 k0 hp hk).2
      intro bx hbx2 heq
      exact hb (block_index_inj (width / 8) by0 bx0 b bx hbx hbx2 heq).1.symm)
    (height / 8) (fun _ _ => 0)
  exact key.2 by0 hby rfl (fun k h1 _ => by omega)

/-- The two nibbles of a packed byte. -/
theorem packed_nibbles (b1 b2 : Nat) :
    (((b2 <<< 4) ||| (b1 &&& 0x0F)) % 256) % 16 = b1 % 16
      ∧ (((b2 <<< 4) ||| (b1 &&& 0x0F)) % 256) / 16 = b2 % 16 := by
  have h15 : b1 &&& 0x0F = b1 % 16 := and_15 b1
  have hlt : b1 % 16 < 2 ^ 4 := Nat.mod_lt _ (by decide)
  rw [h15, Nat.lor_comm, or_shl _ _ 4 hlt]
  constructor <;> omega

/-- A pixel of a block lies inside the image. -/
theorem block_pixel_in_image (width height bx by_ px py : Nat)
    (hbx : bx < width / 8) (hby : by_ < height / 8) (hpx : px < 8) (hpy : py < 8) :
    (by_ * 8 + py) * width + (bx * 8 + px) < width * height := by
  have hrow : by_ * 8 + py + 1 ≤ height := by omega
  have hcol : bx * 8 + px < width := by omega
  have h1 : (by_ * 8 + py + 1) * width ≤ height * width := Nat.mul_le_mul_right _ hrow
  have h2 : (by_ * 8 + py + 1) * width = (by_ * 8 + py) * width + width := by ring
  rw [h2, Nat.mul_comm height width] at h1
  omega

/-- Decoding the encoder output with the 4-bpp rule gives the low four bits of
the source pixel. -/
theorem decode4_extract (pixel_indices : Nat → Nat) (width height bx by_ px py : Nat)
    (hbx : bx < width / 8) (hby : by_ < height / 8) (hpx : px < 8) (hpy : py < 8) :
    decode4 (AssetProcessor.extract_8x8_blocks pixel_indices width height
        (by_ * (width / 8) + bx)) px py
      = pixel_indices ((by_ * 8 + py) * width + (bx * 8 + px)) % 256 % 16 := by
  unfold decode4
  have hb := extract_8x8_blocks_byte pixel_indices width height bx by_ py (px / 2) hbx hby hpy
    (by omega)
  rw [hb]
  have hn := packed_nibbles
    (pixel_indices ((by_ * 8 + py) * width + (bx * 8 + 2 * (px / 2))) % 256)
    (pixel_indices ((by_ * 8 + py) * width + (bx * 8 + 2 * (px / 2)) + 1) % 256)
  by_cases ho : px % 2 = 1
  · rw [if_pos ho, hn.2]
    have hpos : (by_ * 8 + py) * width + (bx * 8 + 2 * (px / 2)) + 1
        = (by_ * 8 + py) * width + (bx * 8 + px) := by omega
    rw [hpos]
  · rw [if_neg ho, hn.1]
    have hpos : (by_ * 8 + py) * width + (bx * 8 + 2 * (px / 2))
        = (by_ * 8 + py) * width + (bx * 8 + px) := by omega
    rw [hpos]

/-- The texel fetch of `RenderTextBgLine` for an unflipped 4-bpp entry is the
4-bpp rule on the 32 bytes of the tile. -/
theorem textBgTexel_decode4 (m : GbaMem) (r : Mode1.TextBgRegs) (te : Mode1.TilemapEntry)
    (px py : Nat) (hb : r.bpp8 = false) (hh : te.hflip = false) (hv : te.vflip = false)
    (ha : r.charBase + te.tileIndex * 32 + py * 4 + px / 2 < 0x18000) :
    Mode1.textBgTexel m r te px py
      = decode4 (fun j => m.vramByte (r.charBase + te.tileIndex * 32 + j)) px py := by
  unfold Mode1.textBgTexel decode4
  have hmod : (r.charBase + te.tileIndex * 32 + py * 4 + px / 2) % 4294967296
      = r.charBase + te.tileIndex * 32 + py * 4 + px / 2 := Nat.mod_eq_of_lt (by omega)
  have hassoc : r.charBase + te.tileIndex * 32 + (py * 4 + px / 2)
      = r.charBase + te.tileIndex * 32 + py * 4 + px / 2 := by omega
  simp only [hb, hh, hv, Bool.false_eq_true, if_false, hmod, ha, if_true, hassoc]
  have hbyte : m.vramByte (r.charBase + te.tileIndex * 32 + py * 4 + px / 2) < 256 :=
    Nat.mod_lt _ (by decide)
  generalize m.vramByte (r.charBase + te.tileIndex * 32 + py * 4 + px / 2) = byte at hbyte ⊢
  rw [Nat.and_one_is_mod, Nat.shiftRight_eq_div_pow, and_15]
  by_cases ho : px % 2 = 1
  · have h1 : px % 2 ≠ 0 := by omega
    rw [if_pos h1, if_pos ho]
    omega
  · have h1 : ¬ px % 2 ≠ 0 := by omega
    rw [if_neg h1, if_neg ho]
    omega

/-- C37: the asset encoder and the 4-bpp tile decoder are symmetric. For every
image whose width and height are multiples of 8 and whose pixel indices are
all below 16, every block `(bx, by_)` and local `(px, py)`: the source pixel
`(bx * 8 + px, by_ * 8 + py)` lies inside the image, and decoding tile
`by_ * (width / 8) + bx` of the output of `extract_8x8_blocks` at `(px, py)`
with the GBA 4-bpp rule returns the index of that pixel; so does the texel
fetch of `RenderTextBgLine` for an unflipped 4-bpp entry whose tile bytes in
VRAM are that output. -/
theorem encoder_decoder_symmetric (pixel_indices : Nat → Nat)
    (width height bx by_ px py : Nat) (hw : width % 8 = 0) (hh : height % 8 = 0)
    (hidx : ∀ i, i < width * height → pixel_indices i < 16)
    (hbx : bx < width / 8) (hby : by_ < height / 8) (hpx : px < 8) (hpy : py < 8) :
    (by_ * 8 + py) * width + (bx * 8 + px) < width * height
      ∧ by_ * (width / 8) + bx < (width / 8) * (height / 8)
      ∧ decode4 (AssetProcessor.extract_8x8_blocks pixel_indices width height
            (by_ * (width / 8) + bx)) px py
          = pixel_indices ((by_ * 8 + py) * width + (bx * 8 + px))
      ∧ ∀ (m : GbaMem) (r : Mode1.TextBgRegs) (te : Mode1.TilemapEntry),
          r.bpp8 = false → te.hflip = false → te.vflip = false →
          te.tileIndex = by_ * (width / 8) + bx →
          r.charBase + te.tileIndex * 32 + 32 ≤ 0x18000 →
          (∀ j, j < 32 → m.vramByte (r.charBase + te.tileIndex * 32 + j)
              = AssetProcessor.extract_8x8_blocks pixel_indices width height te.tileIndex j) →
          Mode1.textBgTexel m r te px py
            = pixel_indices ((by_ * 8 + py) * width + (bx * 8 + px)) := by
  have _hw := hw
  have _hh := hh
  have hin := block_pixel_in_image width height bx by_ px py hbx hby hpx hpy
  have hlt := hidx _ hin
  have hdec := decode4_extract pixel_indices width height bx by_ px py hbx hby hpx hpy
  have hval : pixel_indices ((by_ * 8 + py) * width + (bx * 8 + px)) % 256 % 16
      = pixel_indices ((by_ * 8 + py) * width + (bx * 8 + px)) := by omega
  rw [hval] at hdec
  refine ⟨hin, ?_, hdec, fun m r te hb hf hv ht ha hmem => ?_⟩
  · have h1 : (by_ + 1) * (width / 8) ≤ (height / 8) * (width / 8) :=
      Nat.mul_le_mul_right _ hby
    have h2 : (by_ + 1) * (width / 8) = by_ * (width / 8) + width / 8 := by ring
    rw [h2, Nat.mul_comm (height / 8) (width / 8)] at h1
    omega
  · rw [textBgTexel_decode4 m r te px py hb hf hv (by omega), ← hdec, ← ht]
    unfold decode4
    simp only []
    rw [hmem (py * 4 + px / 2) (by omega)]

/-- C37 on the 8x8 ramp image (pixel `i` has index `i mod 16`): decoding the
single encoded tile at (3, 5) gives the index of pixel 5 * 8 + 3 = 43, which
is 11. -/
theorem encoder_decoder_symmetric_witness :
    decode4 (AssetProcessor.extract_8x8_blocks rampPixels 8 8 (0 * (8 / 8) + 0)) 3 5
        = rampPixels ((0 * 8 + 5) * 8 + (0 * 8 + 3))
      ∧ rampPixels ((0 * 8 + 5) * 8 + (0 * 8 + 3)) = 11 :=
  ⟨(encoder_decoder_symmetric rampPixels 8 8 0 0 3 5 (by decide) (by decide)
      (fun i _ => Nat.mod_lt i (by decide)) (by decide) (by decide) (by decide)
      (by decide)).2.2.1, by decide⟩

/-! ## Mode 0: the bounds check of setGfxData -/

/-- A checked copy of `n` bytes that fits in `GfxData`. -/
theorem foldlM_gfxStore_range (data : Nat → Nat) (offset n : Nat) (gfx : Nat → Nat)
    (h : offset + n ≤ Mode0.GFX_DATA_BYTES) :
    (List.range n).foldlM (fun g i => Mode0.gfxStore g (offset + i) (data i)) gfx
      = some (fun a => if offset ≤ a ∧ a < offset + n then data (a - offset) % 256
          else gfx a) := by
  induction n with
  | zero =>
    simp only [List.range_zero, List.foldlM_nil]
    congr 1
    funext a
    rw [if_neg (by omega)]
  | succ n ih =>
    rw [List.range_succ, List.foldlM_append, ih (by omega)]
    simp only [List.foldlM_cons, List.foldlM_nil, Option.some_bind, Option.bind_eq_bind]
    unfold Mode0.gfxStore
    rw [if_pos (by omega)]
    simp only [Option.some_bind, Option.pure_def]
    congr 1
    funext a
    by_cases h1 : a = offset + n
    · subst h1
      rw [Function.update_same, if_pos (by omega)]
      congr 2
      omega
    · rw [Function.update_noteq h1]
      by_cases h2 : offset ≤ a ∧ a < offset + n
      · rw [if_pos h2, if_pos (by omega)]
      · rw [if_neg h2, if_neg (by omega)]

/-- A checked copy that reaches a byte outside `GfxData` has no defined
result. -/
theorem foldlM_gfxStore_overflow (data : Nat → Nat) (offset n : Nat) (gfx : Nat → Nat)
    (h0 : 0 < n) (h : Mode0.GFX_DATA_BYTES ≤ offset + (n - 1)) :
    (List.range n).foldlM (fun g i => Mode0.gfxStore g (offset + i) (data i)) gfx = none := by
  obtain ⟨k, rfl⟩ : ∃ k, n = k + 1 := ⟨n - 1, by omega⟩
  rw [List.range_succ, List.foldlM_append]
  cases (List.range k).foldlM (fun g i => Mode0.gfxStore g (offset + i) (data i)) gfx with
  | none => rfl
  | some g =>
    simp only [List.foldlM_cons, List.foldlM_nil, Option.some_bind, Option.bind_eq_bind]
    unfold Mode0.gfxStore
    have hk : ¬ offset + k < Mode0.GFX_DATA_BYTES := by
      have : k + 1 - 1 = k := by omega
      rw [this] at h
      omega
    rw [if_neg hk]
    rfl

/-- C39 fails on the code: the guard of `setGfxData` adds `offset` and `size`
modulo `2^64`. With `offset = 2^64 - 1` and `size = 2` the true sum exceeds
2 MiB but the wrapped sum is 1, the guard lets the copy through, and its
first byte goes to `GfxData[2^64 - 1]`, outside the array. The same happens
for every pair whose sum wraps to at most 2 MiB. When the sum does not wrap
the function behaves as claimed: it copies `data[0..size)` to
`GfxData[offset..offset + size)` and leaves every other byte alone when
`offset + size` is at most 2 MiB, and writes nothing otherwise. -/
theorem setGfxData_guard_wraps :
    Mode0.GFX_DATA_BYTES < (2 ^ 64 - 1) + 2
    ∧ ((2 ^ 64 - 1) + 2) % 18446744073709551616 = 1
    ∧ (∀ (gfx data : Nat → Nat), Mode0.setGfxData gfx data 2 (2 ^ 64 - 1) = none)
    ∧ (∀ (gfx data : Nat → Nat), Mode0.gfxStore gfx (2 ^ 64 - 1 + 0) (data 0) = none)
    ∧ (∀ (gfx data : Nat → Nat) (size offset : Nat), offset < 2 ^ 64 → size < 2 ^ 64 →
        2 ^ 64 ≤ offset + size → (offset + size) % 18446744073709551616 ≤ Mode0.GFX_DATA_BYTES →
        Mode0.setGfxData gfx data size offset = none)
    ∧ (∀ (gfx data : Nat → Nat) (size offset : Nat), offset + size < 2 ^ 64 →
        offset + size ≤ Mode0.GFX_DATA_BYTES →
        Mode0.setGfxData gfx data size offset
          = some (fun a => if offset ≤ a ∧ a < offset + size then data (a - offset) % 256
              else gfx a))
    ∧ (∀ (gfx data : Nat → Nat) (size offset : Nat), offset + size < 2 ^ 64 →
        Mode0.GFX_DATA_BYTES < offset + size →
        Mode0.setGfxData gfx data size offset = some gfx) := by
  have wrap : ∀ (gfx data : Nat → Nat) (size offset : Nat), offset < 2 ^ 64 → size < 2 ^ 64 →
      2 ^ 64 ≤ offset + size → (offset + size) % 18446744073709551616 ≤ Mode0.GFX_DATA_BYTES →
      Mode0.setGfxData gfx data size offset = none := by
    intro gfx data size offset ho hs hsum hw
    unfold Mode0.setGfxData
    rw [if_neg (by omega)]
    apply foldlM_gfxStore_overflow
    · omega
    · unfold Mode0.GFX_DATA_BYTES
      omega
  refine ⟨by decide, by decide, fun gfx data => ?_, fun gfx data => ?_, wrap, ?_, ?_⟩
  · exact wrap gfx data 2 (2 ^ 64 - 1) (by decide) (by decide) (by decide) (by decide)
  · unfold Mode0.gfxStore
    rw [if_neg (by decide)]
  · intro gfx data size offset hlt hle
    unfold Mode0.setGfxData
    have hm : (offset + size) % 18446744073709551616 = offset + size := Nat.mod_eq_of_lt hlt
    rw [hm, if_neg (by omega)]
    exact foldlM_gfxStore_range data offset size gfx hle
  · intro gfx data size offset hlt hgt
    unfold Mode0.setGfxData
    have hm : (offset + size) % 18446744073709551616 = offset + size := Nat.mod_eq_of_lt hlt
    rw [hm, if_pos hgt]

/-! ## The identity affine sprite against the plain sprite -/

/-- The texture coordinate of an affine sprite that is not double-size and
has the identity matrix. -/
theorem objTexCoord_identity (c : Mode1.ObjCtx) (line sx : Int)
    (ha : c.isAffine = true) (hpa : c.pa = 0x100) (hpb : c.pb = 0) (hpc : c.pc = 0)
    (hpd : c.pd = 0x100) (hw : c.halfW = c.sprHalfW) (hh : c.iry = line - c.objY - c.sprHalfH)
    (hsx : 0 ≤ sx ∧ sx < c.objW) (hl : c.objY ≤ line ∧ line < c.objY + c.objH) :
    Mode1.objTexCoord c line sx = some (sx, line - c.objY) := by
  unfold Mode1.objTexCoord
  simp only [ha, if_true, hpa, hpb, hpc, hpd, hw, hh, int_shr8]
  have e1 : (256 * (sx - c.sprHalfW) + 0 * (line - c.objY - c.sprHalfH)) / 256 + c.sprHalfW
      = sx := by omega
  have e2 : (0 * (sx - c.sprHalfW) + 256 * (line - c.objY - c.sprHalfH)) / 256 + c.sprHalfH
      = line - c.objY := by omega
  rw [e1, e2, if_neg (by omega)]

/-- The texture coordinate of a plain, unflipped sprite. -/
theorem objTexCoord_plain (c : Mode1.ObjCtx) (line sx : Int)
    (ha : c.isAffine = false) (hf : c.oa.hflip = false) (hv : c.oa.vflip = false) :
    Mode1.objTexCoord c line sx = some (sx, line - c.objY) := by
  unfold Mode1.objTexCoord
  simp only [ha, hf, hv, Bool.false_eq_true, if_false]

/-- One column of the sprite loop depends on the sprite only through the
position, the texture coordinate, the tile addressing fields, the priority and
the palette, and on the memory only through VRAM and the OBJ palette. -/
theorem objColumn_congr (m1 m2 : GbaMem) (c1 c2 : Mode1.ObjCtx) (line : Int) (obj1d : Bool)
    (bufs : LineBufs) (sx : Nat)
    (hvram : ∀ a, m1.vramByte a = m2.vramByte a) (hpl : ∀ a, m1.objColor a = m2.objColor a)
    (hX : c1.objX = c2.objX)
    (htc : Mode1.objTexCoord c1 line sx = Mode1.objTexCoord c2 line sx)
    (hbpp : c1.bpp8 = c2.bpp8) (hbase : c1.baseTile = c2.baseTile)
    (htw : c1.tilesW = c2.tilesW) (hprio : c1.priority = c2.priority)
    (hpal : c1.oa.palette = c2.oa.palette) :
    Mode1.objColumn m1 c1 line obj1d bufs sx = Mode1.objColumn m2 c2 line obj1d bufs sx := by
  have hci : ∀ tx ty, Mode1.objColorIdx m1 c1 obj1d tx ty
      = Mode1.objColorIdx m2 c2 obj1d tx ty := by
    intro tx ty
    unfold Mode1.objColorIdx Mode1.objTileIdx
    simp only [hbpp, hbase, htw, hvram]
  have hrgb : ∀ idx, Mode1.objRgb555 m1 c1 idx = Mode1.objRgb555 m2 c2 idx := by
    intro idx
    unfold Mode1.objRgb555
    simp only [hbpp, hpal, hpl]
  unfold Mode1.objColumn
  simp only [hX, htc, hci, hrgb, hprio]

/-- The set-up of an affine sprite that is not double-size and whose matrix
words are the identity. -/
theorem objCtx_affine_identity (m : GbaMem) (line : Int) (oa : Mode1.OAMAttr) (w h : Int)
    (ha : oa.affine = true) (hd : oa.doubleSize = false)
    (hpa : toI16 (m.oamWord (oa.affineIdx * 16 + 3)) = 0x100)
    (hpb : toI16 (m.oamWord (oa.affineIdx * 16 + 7)) = 0)
    (hpc : toI16 (m.oamWord (oa.affineIdx * 16 + 11)) = 0)
    (hpd : toI16 (m.oamWord (oa.affineIdx * 16 + 15)) = 0x100) :
    (Mode1.objCtx m line oa w h).isAffine = true
      ∧ (Mode1.objCtx m line oa w h).pa = 0x100 ∧ (Mode1.objCtx m line oa w h).pb = 0
      ∧ (Mode1.objCtx m line oa w h).pc = 0 ∧ (Mode1.objCtx m line oa w h).pd = 0x100
      ∧ (Mode1.objCtx m line oa w h).boundsW = w ∧ (Mode1.objCtx m line oa w h).boundsH = h
      ∧ (Mode1.objCtx m line oa w h).halfW = (Mode1.objCtx m line oa w h).sprHalfW
      ∧ (Mode1.objCtx m line oa w h).iry
          = line - (Mode1.objCtx m line oa w h).objY - (Mode1.objCtx m line oa w h).sprHalfH := by
  unfold Mode1.objCtx
  simp only [ha, hd, hpa, hpb, hpc, hpd, Bool.and_false, Bool.false_eq_true, if_false, if_true,
    and_self]

/-- The set-up of a plain sprite. -/
theorem objCtx_plain (m : GbaMem) (line : Int) (oa : Mode1.OAMAttr) (w h : Int)
    (hn : oa.affine = false) :
    (Mode1.objCtx m line oa w h).isAffine = false
      ∧ (Mode1.objCtx m line oa w h).boundsW = w ∧ (Mode1.objCtx m line oa w h).boundsH = h := by
  unfold Mode1.objCtx
  simp only [hn, Bool.false_and, Bool.false_eq_true, if_false, and_self]

/-- C40: in `RenderObjLine`, an affine sprite that is not double-size and
whose affine matrix is the identity (pa = pd = 0x100, pb = pc = 0) renders
every scanline exactly like the non-affine, visible, unflipped sprite with the
same position, shape, size, tile, bpp, priority and palette over the same
VRAM and OBJ palette: the sprite iteration returns the same buffers, and for
each column `sx` of the bounding box on a scanline inside it the texture
coordinate of both sprites is `(sx, line - objY)`. -/
theorem identity_affine_sprite (m1 m2 : GbaMem) (i : Nat)
    (ha : (Mode1.readOam m1 i).affine = true) (hd : (Mode1.readOam m1 i).doubleSize = false)
    (hpa : toI16 (m1.oamWord ((Mode1.readOam m1 i).affineIdx * 16 + 3)) = 0x100)
    (hpb : toI16 (m1.oamWord ((Mode1.readOam m1 i).affineIdx * 16 + 7)) = 0)
    (hpc : toI16 (m1.oamWord ((Mode1.readOam m1 i).affineIdx * 16 + 11)) = 0)
    (hpd : toI16 (m1.oamWord ((Mode1.readOam m1 i).affineIdx * 16 + 15)) = 0x100)
    (hn : (Mode1.readOam m2 i).affine = false) (hhid : (Mode1.readOam m2 i).hidden = false)
    (hhf : (Mode1.readOam m2 i).hflip = false) (hvf : (Mode1.readOam m2 i).vflip = false)
    (hy : (Mode1.readOam m1 i).yPos = (Mode1.readOam m2 i).yPos)
    (hx : (Mode1.readOam m1 i).xPos = (Mode1.readOam m2 i).xPos)
    (hshape : (Mode1.readOam m1 i).shape = (Mode1.readOam m2 i).shape)
    (hsize : (Mode1.readOam m1 i).size = (Mode1.readOam m2 i).size)
    (htile : (Mode1.readOam m1 i).tileIndex = (Mode1.readOam m2 i).tileIndex)
    (hbpp : (Mode1.readOam m1 i).bpp8 = (Mode1.readOam m2 i).bpp8)
    (hprio : (Mode1.readOam m1 i).priority = (Mode1.readOam m2 i).priority)
    (hpal : (Mode1.readOam m1 i).palette = (Mode1.readOam m2 i).palette)
    (hvram : ∀ a, m1.vramByte a = m2.vramByte a) (hpl : ∀ a, m1.objColor a = m2.objColor a) :
    (∀ (line : Nat) (obj1d : Bool) (bufs : LineBufs),
        Mode1.objSprite m1 line obj1d bufs i = Mode1.objSprite m2 line obj1d bufs i)
      ∧ ∀ (w h : Nat) (line : Nat) (sx : Nat),
          sx < w →
          (Mode1.objCtx m1 line (Mode1.readOam m1 i) w h).objY ≤ (line : Int) →
          (line : Int) < (Mode1.objCtx m1 line (Mode1.readOam m1 i) w h).objY + h →
          (Mode1.objCtx m1 line (Mode1.readOam m1 i) w h).boundsW = w
            ∧ (Mode1.objCtx m1 line (Mode1.readOam m1 i) w h).boundsH = h
            ∧ Mode1.objTexCoord (Mode1.objCtx m1 line (Mode1.readOam m1 i) w h) line sx
              = some ((sx : Int),
                  (line : Int) - (Mode1.objCtx m1 line (Mode1.readOam m1 i) w h).objY)
            ∧ Mode1.objTexCoord (Mode1.objCtx m2 line (Mode1.readOam m2 i) w h) line sx
              = some ((sx : Int),
                  (line : Int) - (Mode1.objCtx m1 line (Mode1.readOam m1 i) w h).objY) := by
  have hY : ∀ (line : Int) (w h : Int), (Mode1.objCtx m1 line (Mode1.readOam m1 i) w h).objY
      = (Mode1.objCtx m2 line (Mode1.readOam m2 i) w h).objY := by
    intro line w h
    unfold Mode1.objCtx
    simp only [hy]
  have hX : ∀ (line : Int) (w h : Int), (Mode1.objCtx m1 line (Mode1.readOam m1 i) w h).objX
      = (Mode1.objCtx m2 line (Mode1.readOam m2 i) w h).objX := by
    intro line w h
    unfold Mode1.objCtx
    simp only [hx]
  have tc : ∀ (w h : Nat) (line : Nat) (sx : Nat), sx < w →
      (Mode1.objCtx m1 line (Mode1.readOam m1 i) w h).objY ≤ (line : Int) →
      (line : Int) < (Mode1.objCtx m1 line (Mode1.readOam m1 i) w h).objY + h →
      Mode1.objTexCoord (Mode1.objCtx m1 line (Mode1.readOam m1 i) w h) line sx
          = some ((sx : Int), (line : Int) - (Mode1.objCtx m1 line (Mode1.readOam m1 i) w h).objY)
        ∧ Mode1.objTexCoord (Mode1.objCtx m2 line (Mode1.readOam m2 i) w h) line sx
          = some ((sx : Int),
              (line : Int) - (Mode1.objCtx m1 line (Mode1.readOam m1 i) w h).objY) := by
    intro w h line sx hsx hl1 hl2
    obtain ⟨a1, a2, a3, a4, a5, _, _, a8, a9⟩ :=
      objCtx_affine_identity m1 line (Mode1.readOam m1 i) w h ha hd hpa hpb hpc hpd
    obtain ⟨b1, _, _⟩ := objCtx_plain m2 line (Mode1.readOam m2 i) w h hn
    constructor
    · exact objTexCoord_identity _ line sx a1 a2 a3 a4 a5 a8 a9
        ⟨Int.ofNat_nonneg sx, show (sx : Int) < ((w : Nat) : Int) from by exact_mod_cast hsx⟩
        ⟨hl1, hl2⟩
    · rw [hY line w h]
      exact objTexCoord_plain _ line sx b1 hhf hvf
  refine ⟨fun line obj1d bufs => ?_, fun w h line sx hsx hl1 hl2 => ?_⟩
  · have h1hid : (Mode1.readOam m1 i).hidden = false := by
      unfold Mode1.OAMAttr.hidden
      rw [ha]
      rfl
    unfold Mode1.objSprite
    simp only [h1hid, hhid, Bool.false_eq_true, if_false, hshape, hsize]
    cases hw : Mode1.objWidths (Mode1.readOam m2 i).shape (Mode1.readOam m2 i).size with
    | none => rfl
    | some w =>
      cases hh : Mode1.objHeights (Mode1.readOam m2 i).shape (Mode1.readOam m2 i).size with
      | none => rfl
      | some h =>
        simp only []
        obtain ⟨_, _, _, _, _, a6, a7, _, _⟩ :=
          objCtx_affine_identity m1 line (Mode1.readOam m1 i) w h ha hd hpa hpb hpc hpd
        obtain ⟨_, b2, b3⟩ := objCtx_plain m2 line (Mode1.readOam m2 i) w h hn
        rw [a6, a7, b2, b3, hY line w h]
        by_cases hl : (line : Int) < (Mode1.objCtx m2 line (Mode1.readOam m2 i) w h).objY
            ∨ (line : Int) ≥ (Mode1.objCtx m2 line (Mode1.readOam m2 i) w h).objY + (h : Int)
        · rw [if_pos hl, if_pos hl]
        · rw [if_neg hl, if_neg hl]
          congr 1
          apply List.foldl_ext
          intro b sx hsx
          have hsx2 : sx < w := by
            have := List.mem_range.mp hsx
            omega
          have hl1 : (Mode1.objCtx m1 line (Mode1.readOam m1 i) w h).objY ≤ (line : Int) := by
            rw [hY line w h]; omega
          have hl2 : (line : Int) < (Mode1.objCtx m1 line (Mode1.readOam m1 i) w h).objY + h := by
            rw [hY line w h]; omega
          obtain ⟨t1, t2⟩ := tc w h line sx hsx2 hl1 hl2
          apply objColumn_congr m1 m2 _ _ line obj1d b sx hvram hpl (hX line w h)
            (by rw [t1, t2])
          · unfold Mode1.objCtx; simp only [hbpp]
          · unfold Mode1.objCtx; simp only [htile]
          · rfl
          · unfold Mode1.objCtx; simp only [hprio]
          · exact hpal
  · obtain ⟨_, _, _, _, _, a6, a7, _, _⟩ :=
      objCtx_affine_identity m1 line (Mode1.readOam m1 i) w h ha hd hpa hpb hpc hpd
    exact ⟨a6, a7, tc w h line sx hsx hl1 hl2⟩

/-- C40 on `affineSpriteImage` and `plainSpriteImage`: sprite 0 gives the same
buffers on scanline 0 in both, and the texture coordinate of column 1 of the
affine sprite is (1, 0). -/
theorem identity_affine_sprite_witness :
    Mode1.objSprite affineSpriteImage 0 false Mode1.objClear 0
        = Mode1.objSprite plainSpriteImage 0 false Mode1.objClear 0
      ∧ Mode1.objTexCoord
          (Mode1.objCtx affineSpriteImage 0 (Mode1.readOam affineSpriteImage 0) 8 8) 0 1
        = some (1, 0) := by
  have h := identity_affine_sprite affineSpriteImage plainSpriteImage 0 (by decide) (by decide)
    (by decide) (by decide) (by decide) (by decide) (by decide) (by decide) (by decide)
    (by decide) (by decide) (by decide) (by decide) (by decide) (by decide) (by decide)
    (by decide) (by decide) (fun _ => rfl) (fun _ => rfl)
  exact ⟨h.1 0 false Mode1.objClear, by decide⟩

/-! ## The DMG sprite evaluation -/

/-- One step of the OAM scan appends the entry of a qualifying sprite. -/
theorem evalSpriteStep_eq (layout : Mode7.Mode7Layout) (ly sprite_height : Nat)
    (hh : sprite_height < 256) (cands : List Mode7.SpriteCandidate) (i : Nat) :
    Mode7.evalSpriteStep layout ly sprite_height cands i
      = if Mode7.qualifies layout ly sprite_height i
          then cands ++ [Mode7.candidateOf layout ly sprite_height i] else cands := by
  unfold Mode7.evalSpriteStep Mode7.qualifies Mode7.candidateOf
  simp only []
  generalize layout.oam (i * 4) % 256 = y
  generalize layout.oam (i * 4 + 1) % 256 = x
  generalize layout.oam (i * 4 + 2) % 256 = tile
  generalize layout.oam (i * 4 + 3) % 256 = attr
  by_cases h1 : (ly : Int) < (y : Int) - 16 ∨ (ly : Int) ≥ (y : Int) - 16 + (sprite_height : Int)
  · have h2 : ¬ ((y : Int) - 16 ≤ (ly : Int)
        ∧ (ly : Int) < (y : Int) - 16 + (sprite_height : Int)) := by omega
    simp only [h1, if_true, h2, decide_False, Bool.false_and, Bool.false_eq_true, if_false]
  · have h2 : (y : Int) - 16 ≤ (ly : Int)
        ∧ (ly : Int) < (y : Int) - 16 + (sprite_height : Int) := by omega
    simp only [h1, if_false, h2, and_self, decide_True, Bool.true_and]
    by_cases h3 : x = 0 ∨ x ≥ 168
    · have h4 : ¬ (0 < x ∧ x < 168) := by omega
      simp only [h3, if_true, h4, decide_False, Bool.false_eq_true, if_false]
    · have h4 : 0 < x ∧ x < 168 := by omega
      simp only [h3, if_false, h4, and_self, decide_True, if_true]
      have e1 : (((ly : Int) - ((y : Int) - 16)) % 256).toNat = ly + 16 - y := by omega
      have e2 : ((((sprite_height : Int) - 1) - ((ly + 16 - y : Nat) : Int)) % 256).toNat
          = sprite_height - 1 - (ly + 16 - y) := by omega
      rw [e1, e2]

/-- The OAM scan over sprites `0..n-1` collects the entries of the qualifying
sprites in OAM order. -/
theorem evalSprites_scan (layout : Mode7.Mode7Layout) (ly sprite_height : Nat)
    (hh : sprite_height < 256) (n : Nat) :
    (List.range n).foldl (Mode7.evalSpriteStep layout ly sprite_height) []
      = ((List.range n).filter (Mode7.qualifies layout ly sprite_height)).map
          (Mode7.candidateOf layout ly sprite_height) := by
  induction n with
  | zero => rfl
  | succ n ih =>
    rw [List.range_succ, List.foldl_append, ih, List.filter_append, List.map_append]
    simp only [List.foldl_cons, List.foldl_nil]
    rw [evalSpriteStep_eq layout ly sprite_height hh]
    by_cases hq : Mode7.qualifies layout ly sprite_height n = true
    · rw [if_pos hq]
      simp [List.filter_cons, hq]
    · rw [if_neg hq]
      simp [List.filter_cons, hq]

/-- The loop condition of the insertion sort is the order of the
specification: `c` sorts after `key` when `key` comes before `c`. -/
theorem sortsAfter_iff (c key : Mode7.SpriteCandidate) :
    Mode7.sortsAfter c key = true ↔ Mode7.before key c := by
  unfold Mode7.sortsAfter Mode7.before
  simp only [Bool.or_eq_true, Bool.and_eq_true, decide_eq_true_eq]
  omega

/-- Moving the elements that sort after the key up by one slot, from the right
end of the sorted part, is an ordered insertion into the reversed list. -/
theorem insert_from_right (key : Mode7.SpriteCandidate) (R : List Mode7.SpriteCandidate) :
    R.reverse.take (R.length - (R.takeWhile (fun c => Mode7.sortsAfter c key)).length) ++ [key]
        ++ R.reverse.drop (R.length - (R.takeWhile (fun c => Mode7.sortsAfter c key)).length)
      = (List.orderedInsert Mode7.notAfter key R).reverse := by
  induction R with
  | nil => rfl
  | cons c cs ih =>
    by_cases hp : Mode7.sortsAfter c key = true
    · have hn : ¬ Mode7.notAfter key c := by
        unfold Mode7.notAfter
        rw [hp]
        exact Bool.noConfusion
      have hlen := (List.takeWhile_sublist (l := cs) (fun c => Mode7.sortsAfter c key)).length_le
      rw [List.takeWhile_cons, if_pos hp, List.orderedInsert, if_neg hn, List.reverse_cons,
        List.reverse_cons, ← ih]
      have hk : (c :: cs).length - (c :: List.takeWhile (fun c => Mode7.sortsAfter c key) cs).length
          = cs.length - (List.takeWhile (fun c => Mode7.sortsAfter c key) cs).length := by
        simp only [List.length_cons]
        omega
      rw [hk]
      have hle : cs.length - (List.takeWhile (fun c => Mode7.sortsAfter c key) cs).length
          ≤ cs.reverse.length := by
        rw [List.length_reverse]
        omega
      rw [List.take_append_of_le_length hle, List.drop_append_of_le_length hle]
      simp only [List.append_assoc]
    · have hn : Mode7.notAfter key c := by
        unfold Mode7.notAfter
        cases hv : Mode7.sortsAfter c key
        · rfl
        · exact absurd hv hp
      rw [List.takeWhile_cons, if_neg hp, List.orderedInsert, if_pos hn]
      simp only [List.length_nil, Nat.sub_zero]
      rw [← List.length_reverse (c :: cs), List.take_length, List.drop_length]
      simp only [List.reverse_cons, List.append_nil, List.append_assoc]

/-- One outer iteration of the insertion sort on a list whose first
`S.length` entries are the sorted part. -/
theorem insertStep_sorted_part (S rest : List Mode7.SpriteCandidate)
    (key : Mode7.SpriteCandidate) :
    Mode7.insertStep (S ++ key :: rest) S.length
      = (List.orderedInsert Mode7.notAfter key S.reverse).reverse ++ rest := by
  unfold Mode7.insertStep
  have hg : (S ++ key :: rest).get? S.length = some key := by
    rw [List.get?_eq_getElem?, List.getElem?_append_right (le_refl _)]
    simp
  rw [hg]
  simp only []
  have ht : (S ++ key :: rest).take S.length = S := List.take_left S _
  have hd : (S ++ key :: rest).drop (S.length + 1) = rest := by
    rw [← List.drop_drop, List.drop_left]
    rfl
  rw [ht, hd, ← insert_from_right key S.reverse, List.reverse_reverse, List.length_reverse]

/-- The insertion sort after its first `j` outer iterations: the first
`j + 1` entries are the sorted part. -/
theorem insertSteps_eq (L : List Mode7.SpriteCandidate) (j : Nat) (hj : j + 1 ≤ L.length) :
    (List.range' 1 j).foldl Mode7.insertStep L
      = (List.insertionSort Mode7.notAfter (L.take (j + 1)).reverse).reverse
          ++ L.drop (j + 1) := by
  induction j with
  | zero =>
    cases L with
    | nil => simp at hj
    | cons a t => simp [List.insertionSort]
  | succ j ih =>
    have hlt : j + 1 < L.length := by omega
    rw [List.range'_concat, List.foldl_append, ih (by omega)]
    simp only [List.foldl_cons, List.foldl_nil, Nat.one_mul]
    rw [List.drop_eq_getElem_cons hlt]
    have hlen : ((List.insertionSort Mode7.notAfter (L.take (j + 1)).reverse).reverse).length
        = 1 + j := by
      rw [List.length_reverse, List.length_insertionSort, List.length_reverse, List.length_take]
      omega
    rw [← hlen, insertStep_sorted_part, List.reverse_reverse]
    have ht : (L.take (j + 1 + 1)).reverse = L[j + 1] :: (L.take (j + 1)).reverse := by
      rw [List.take_succ, List.getElem?_eq_getElem hlt]
      simp
    rw [ht]
    rfl

/-- The whole insertion sort is the insertion sort of the reversed list,
reversed. -/
theorem insertSort_eq (L : List Mode7.SpriteCandidate) :
    (List.range' 1 (L.length - 1)).foldl Mode7.insertStep L
      = (List.insertionSort Mode7.notAfter L.reverse).reverse := by
  cases hL : L with
  | nil => rfl
  | cons a t =>
    rw [← hL]
    have hlen : L.length - 1 + 1 = L.length := by
      rw [hL]
      simp
    rw [insertSteps_eq L (L.length - 1) (by omega), hlen, List.take_length, List.drop_length,
      List.append_nil]

/-- The result of the insertion sort on entries with distinct OAM indices: a
permutation of the input, strictly ascending by (x, index). -/
theorem insertSort_sorted (L : List Mode7.SpriteCandidate)
    (hnd : (L.map (fun c => c.index)).Nodup) :
    ((List.insertionSort Mode7.notAfter L.reverse).reverse).Perm L
      ∧ ((List.insertionSort Mode7.notAfter L.reverse).reverse).Pairwise Mode7.before := by
  have hperm : ((List.insertionSort Mode7.notAfter L.reverse).reverse).Perm L :=
    (List.reverse_perm _).trans ((List.perm_insertionSort _ _).trans (List.reverse_perm L))
  refine ⟨hperm, ?_⟩
  haveI : IsTotal Mode7.SpriteCandidate Mode7.notAfter := ⟨fun a b => by
    unfold Mode7.notAfter
    cases h1 : Mode7.sortsAfter b a
    · exact Or.inl rfl
    · right
      cases h2 : Mode7.sortsAfter a b
      · rfl
      · have k1 := (sortsAfter_iff b a).mp h1
        have k2 := (sortsAfter_iff a b).mp h2
        unfold Mode7.before at k1 k2
        omega⟩
  haveI : IsTrans Mode7.SpriteCandidate Mode7.notAfter := ⟨fun a b c hab hbc => by
    unfold Mode7.notAfter at hab hbc ⊢
    cases h : Mode7.sortsAfter c a
    · rfl
    · have k := (sortsAfter_iff c a).mp h
      have k1 : ¬ Mode7.before a b := fun hk => by
        rw [(sortsAfter_iff b a).mpr hk] at hab
        exact Bool.noConfusion hab
      have k2 : ¬ Mode7.before b c := fun hk => by
        rw [(sortsAfter_iff c b).mpr hk] at hbc
        exact Bool.noConfusion hbc
      unfold Mode7.before at k k1 k2
      omega⟩
  have hs : (List.insertionSort Mode7.notAfter L.reverse).Pairwise Mode7.notAfter :=
    List.sorted_insertionSort Mode7.notAfter L.reverse
  have hs2 : ((List.insertionSort Mode7.notAfter L.reverse).reverse).Pairwise
      (fun a b => Mode7.notAfter b a) := List.pairwise_reverse.mpr hs
  have hnd2 : (((List.insertionSort Mode7.notAfter L.reverse).reverse).map
      (fun c => c.index)).Nodup := (hperm.map _).nodup_iff.mpr hnd
  have hnd3 : ((List.insertionSort Mode7.notAfter L.reverse).reverse).Pairwise
      (fun a b => a.index ≠ b.index) := by
    have := List.pairwise_map.mp hnd2
    exact this
  refine (hs2.and hnd3).imp ?_
  intro a b hab
  obtain ⟨h1, h2⟩ := hab
  have k1 : ¬ Mode7.before b a := fun hk => by
    have h1b : Mode7.sortsAfter a b = false := h1
    rw [(sortsAfter_iff a b).mpr hk] at h1b
    exact Bool.noConfusion h1b
  unfold Mode7.before at k1 ⊢
  omega

/-- The row recorded for a qualifying sprite is below the sprite height. -/
theorem candidateOf_line_lt (layout : Mode7.Mode7Layout) (ly sprite_height i : Nat)
    (hq : Mode7.qualifies layout ly sprite_height i = true) :
    (Mode7.candidateOf layout ly sprite_height i).line < sprite_height
      ∧ layout.oam (i * 4) % 256 ≤ ly + 16
      ∧ ly + 16 - layout.oam (i * 4) % 256 < sprite_height := by
  unfold Mode7.qualifies at hq
  simp only [Bool.and_eq_true, decide_eq_true_eq] at hq
  unfold Mode7.candidateOf
  simp only []
  obtain ⟨⟨h1, h2⟩, _⟩ := hq
  generalize layout.oam (i * 4) % 256 = y at h1 h2 ⊢
  refine ⟨?_, by omega, by omega⟩
  split <;> omega

/-- C38: for every OAM content, scanline `ly` and sprite height 8 or 16, DMG
`EvalSprites` returns `min(10, number of qualifying sprites)` entries, a sprite
of index below 40 qualifying when `y - 16 ≤ ly < y - 16 + h` and `0 < x < 168`.
The entries are strictly ascending by (x, OAM index); each is the entry of a
qualifying sprite; a qualifying sprite that is left out comes after every
entry of the output, which then has 10 entries, so the output holds the
smallest qualifying sprites in order; and each entry's line field is below
`h`, being `ly - (y - 16)` or its mirror `h - 1 - (ly - (y - 16))` when
attribute bit `0x40` is set. -/
theorem EvalSprites_spec (layout : Mode7.Mode7Layout) (ly sprite_height : Nat)
    (hh : sprite_height = 8 ∨ sprite_height = 16) :
    (Mode7.EvalSprites layout ly sprite_height).length
        = min 10 ((List.range 40).filter (Mode7.qualifies layout ly sprite_height)).length
      ∧ (Mode7.EvalSprites layout ly sprite_height).Pairwise Mode7.before
      ∧ (∀ c, c ∈ Mode7.EvalSprites layout ly sprite_height →
          c.index < 40 ∧ Mode7.qualifies layout ly sprite_height c.index = true
            ∧ c = Mode7.candidateOf layout ly sprite_height c.index
            ∧ c.line < sprite_height)
      ∧ (∀ i, i < 40 → Mode7.qualifies layout ly sprite_height i = true →
          Mode7.candidateOf layout ly sprite_height i ∉ Mode7.EvalSprites layout ly sprite_height →
          (Mode7.EvalSprites layout ly sprite_height).length = 10
            ∧ ∀ c, c ∈ Mode7.EvalSprites layout ly sprite_height →
                Mode7.before c (Mode7.candidateOf layout ly sprite_height i))
      ∧ (∀ i, Mode7.qualifies layout ly sprite_height i = true →
          (Mode7.candidateOf layout ly sprite_height i).line
            = (if (layout.oam (i * 4 + 3) % 256 &&& 0x40) ≠ 0
                then sprite_height - 1 - (ly + 16 - layout.oam (i * 4) % 256)
                else ly + 16 - layout.oam (i * 4) % 256)
          ∧ layout.oam (i * 4) % 256 ≤ ly + 16
          ∧ ly + 16 - layout.oam (i * 4) % 256 < sprite_height) := by
  have hlt : sprite_height < 256 := by omega
  have hout : Mode7.EvalSprites layout ly sprite_height
      = ((List.insertionSort Mode7.notAfter
            (((List.range 40).filter (Mode7.qualifies layout ly sprite_height)).map
              (Mode7.candidateOf layout ly sprite_height)).reverse).reverse).take
          (min 10 ((List.range 40).filter (Mode7.qualifies layout ly sprite_height)).length) := by
    unfold Mode7.EvalSprites
    simp only []
    rw [evalSprites_scan layout ly sprite_height hlt 40, insertSort_eq, List.length_map]
    congr 1
    split <;> omega
  generalize hQ : (List.range 40).filter (Mode7.qualifies layout ly sprite_height) = Q at hout
  have hQmem : ∀ i, i ∈ Q ↔ i < 40 ∧ Mode7.qualifies layout ly sprite_height i = true := by
    intro i
    rw [← hQ, List.mem_filter, List.mem_range]
  have hQnd : Q.Nodup := by
    rw [← hQ]
    exact (List.nodup_range 40).filter _
  have hnd : ((Q.map (Mode7.candidateOf layout ly sprite_height)).map (fun c => c.index)).Nodup := by
    rw [List.map_map]
    have : ((fun c : Mode7.SpriteCandidate => c.index)
        ∘ Mode7.candidateOf layout ly sprite_height) = id := rfl
    rw [this, List.map_id]
    exact hQnd
  obtain ⟨hperm, hsorted⟩ :=
    insertSort_sorted (Q.map (Mode7.candidateOf layout ly sprite_height)) hnd
  generalize hS : (List.insertionSort Mode7.notAfter
      (Q.map (Mode7.candidateOf layout ly sprite_height)).reverse).reverse = S
    at hout hperm hsorted
  have hSlen : S.length = Q.length := by
    rw [hperm.length_eq, List.length_map]
  have hmemS : ∀ c, c ∈ S → ∃ i, i ∈ Q ∧ Mode7.candidateOf layout ly sprite_height i = c := by
    intro c hc
    exact List.mem_map.mp ((hperm.mem_iff).mp hc)
  rw [hout]
  refine ⟨?_, hsorted.sublist (List.take_sublist _ _), fun c hc => ?_, fun i hi hq hnot => ?_,
    fun i hq => ?_⟩
  · rw [List.length_take, hSlen]
    omega
  · obtain ⟨i, hiQ, hic⟩ := hmemS c (List.mem_of_mem_take hc)
    have hq := (hQmem i).mp hiQ
    have hidx : c.index = i := by rw [← hic]; rfl
    rw [hidx]
    refine ⟨hq.1, hq.2, hic.symm, ?_⟩
    rw [← hic]
    exact (candidateOf_line_lt layout ly sprite_height i hq.2).1
  · have hiS : Mode7.candidateOf layout ly sprite_height i ∈ S :=
      (hperm.mem_iff).mpr (List.mem_map.mpr ⟨i, (hQmem i).mpr ⟨hi, hq⟩, rfl⟩)
    have hsplit := List.take_append_drop (min 10 Q.length) S
    rw [← hsplit, List.mem_append] at hiS
    have hdrop : Mode7.candidateOf layout ly sprite_height i ∈ S.drop (min 10 Q.length) := by
      rcases hiS with h | h
      · exact absurd h hnot
      · exact h
    have hpw := hsorted
    rw [← hsplit, List.pairwise_append] at hpw
    refine ⟨?_, fun c hc => hpw.2.2 c hc _ hdrop⟩
    have hpos : 0 < (S.drop (min 10 Q.length)).length := List.length_pos_of_mem hdrop
    rw [List.length_drop] at hpos
    rw [List.length_take]
    omega
  · have h := candidateOf_line_lt layout ly sprite_height i hq
    exact ⟨rfl, h.2.1, h.2.2⟩

/-- C38 on `dmgSprites`, scanline 0, height 8: sprites 0, 1, 2 qualify with
x = 20, 10, 10, and the output lists them as 1, 2, 0. -/
theorem EvalSprites_spec_witness :
    (Mode7.EvalSprites dmgSprites 0 8).Pairwise Mode7.before
      ∧ (Mode7.EvalSprites dmgSprites 0 8).map (fun c => (c.x, c.index))
          = [(10, 1), (10, 2), (20, 0)] :=
  ⟨(EvalSprites_spec dmgSprites 0 8 (Or.inl rfl)).2.1, by decide⟩

end VirtuaPPU
